import Mathlib

/-! # ISO 14443 Type A protocol core (`armsrc/iso14443a.c`)

A shallow embedding of the bit encoders and the two software decoders of
`armsrc/iso14443a.c`, followed by theorems about them.

Conventions of the embedding:

* machine integers are `Nat` (or `Int` for signed ones) and every store to a
  fixed-width variable is reduced explicitly (`% 256`, `% 65536`,
  `% 4294967296`, `int16`);
* a `uint8_t *` that the code writes through is a `Mem`, a total map from
  index to byte; a `const uint8_t *cmd` input frame is a `List Nat` read with
  `getD`;
* a C function that updates a global structure takes the old value of the
  structure and returns the new one, together with the C return value.
-/

namespace Iso14443a

/-! ## Memory and machine integers -/

/-- Memory behind a `uint8_t *`: the byte stored at each index. -/
abbrev Mem := Nat → Nat

/-- The store `m[i] = v`. -/
def memSet (m : Mem) (i v : Nat) : Mem := fun j => if j = i then v else m j

/-- Conversion of an `int` value to `int16_t` (two's complement wrap). -/
def int16 (x : Int) : Int := (x + 32768) % 65536 - 32768

/-- Conversion of an `int` value to `uint32_t`. -/
def uint32 (x : Int) : Nat := (x % 4294967296).toNat

/-! ## Symbol codes -/

abbrev SEC_D : Nat := 0xf0
abbrev SEC_E : Nat := 0x0f
abbrev SEC_F : Nat := 0x00
abbrev SEC_X : Nat := 0x0c
abbrev SEC_Y : Nat := 0x00
abbrev SEC_Z : Nat := 0xc0

/-! ## Parity generator -/

/-- Number of 1 bits of a byte. -/
def popcount8 (x : Nat) : Nat :=
  x % 2 + x / 2 % 2 + x / 4 % 2 + x / 8 % 2 + x / 16 % 2 + x / 32 % 2 + x / 64 % 2 + x / 128 % 2

/-- Modelled from the spec: `oddparity8` of `parity.h`, which is not part of
the sources at hand.  The spec calls the parity bit of a data byte "odd
parity": the bit that makes the number of ones among the nine bits odd, so it
is 1 exactly when the byte has an even number of 1 bits. -/
def oddparity8 (x : Nat) : Nat := if popcount8 x % 2 = 0 then 1 else 0

/-- State of the `for` loop of `GetParity`. -/
structure ParSt where
  paritybit_cnt : Nat
  paritybyte_cnt : Nat
  parityBits : Nat
  par : Mem

/-- One iteration of the loop of `GetParity` on the byte `b = pbtCmd[i]`. -/
def GetParityStep (s : ParSt) (b : Nat) : ParSt :=
  let parityBits := (s.parityBits ||| (oddparity8 b <<< (7 - s.paritybit_cnt))) % 256
  if s.paritybit_cnt = 7 then
    { paritybit_cnt := 0
      paritybyte_cnt := (s.paritybyte_cnt + 1) % 65536
      parityBits := 0
      par := memSet s.par s.paritybyte_cnt parityBits }
  else
    { s with parityBits := parityBits, paritybit_cnt := (s.paritybit_cnt + 1) % 65536 }

/-- The loop `for (i = 0; i < iLen; i++)` of `GetParity`, with `n` iterations
left and `i` the current index. -/
def GetParityLoop (pbtCmd : List Nat) : Nat → Nat → ParSt → ParSt
  | 0, _, s => s
  | n + 1, i, s => GetParityLoop pbtCmd n (i + 1) (GetParityStep s (pbtCmd.getD i 0))

/-- `GetParity(pbtCmd, iLen, par)`: the contents of `par` afterwards. -/
def GetParity (pbtCmd : List Nat) (iLen : Nat) (par : Mem) : Mem :=
  let s := GetParityLoop pbtCmd iLen 0
    { paritybit_cnt := 0, paritybyte_cnt := 0, parityBits := 0, par := par }
  memSet s.par s.paritybyte_cnt s.parityBits

/-! ## Miller decoder (reader to tag) -/

inductive UartState where
  | STATE_UNSYNCD
  | STATE_START_OF_COMMUNICATION
  | STATE_MILLER_X
  | STATE_MILLER_Y
  | STATE_MILLER_Z
  deriving DecidableEq, Repr

/-- The structure `tUart`. -/
structure tUart where
  state : UartState
  shiftReg : Nat
  bitCount : Int
  len : Nat
  byteCntMax : Nat
  posCnt : Nat
  syncBit : Nat
  parityBits : Nat
  parityLen : Nat
  fourBits : Nat
  startTime : Nat
  endTime : Nat
  output : Mem
  parity : Mem

def Mod_Miller_LUT : List Bool :=
  [false, true, false, true, false, false, false, true,
   false, true, false, false, false, false, false, false]

def IsMillerModulationNibble1 (b : Nat) : Bool :=
  Mod_Miller_LUT.getD ((b &&& 0x000000F0) >>> 4) false

def IsMillerModulationNibble2 (b : Nat) : Bool :=
  Mod_Miller_LUT.getD (b &&& 0x0000000F) false

def UartReset (u : tUart) : tUart :=
  { u with
    state := .STATE_UNSYNCD
    bitCount := 0
    len := 0
    parityLen := 0
    shiftReg := 0
    parityBits := 0
    startTime := 0
    endTime := 0 }

def UartInit (u : tUart) (data parity : Mem) : tUart :=
  UartReset { u with output := data, parity := parity, fourBits := 0x00000000 }

abbrev ISO14443A_STARTBIT_MASK : Nat := 0x07FFEF80
abbrev ISO14443A_STARTBIT_PATTERN : Nat := 0x07FF8F80

/-- The search for the start bit in `MillerDecoding`: `Uart.syncBit = 9999`
followed by the chain of eight comparisons. -/
def MillerSyncBit (fourBits : Nat) : Nat :=
  if fourBits &&& (ISO14443A_STARTBIT_MASK >>> 0) = ISO14443A_STARTBIT_PATTERN >>> 0 then 7
  else if fourBits &&& (ISO14443A_STARTBIT_MASK >>> 1) = ISO14443A_STARTBIT_PATTERN >>> 1 then 6
  else if fourBits &&& (ISO14443A_STARTBIT_MASK >>> 2) = ISO14443A_STARTBIT_PATTERN >>> 2 then 5
  else if fourBits &&& (ISO14443A_STARTBIT_MASK >>> 3) = ISO14443A_STARTBIT_PATTERN >>> 3 then 4
  else if fourBits &&& (ISO14443A_STARTBIT_MASK >>> 4) = ISO14443A_STARTBIT_PATTERN >>> 4 then 3
  else if fourBits &&& (ISO14443A_STARTBIT_MASK >>> 5) = ISO14443A_STARTBIT_PATTERN >>> 5 then 2
  else if fourBits &&& (ISO14443A_STARTBIT_MASK >>> 6) = ISO14443A_STARTBIT_PATTERN >>> 6 then 1
  else if fourBits &&& (ISO14443A_STARTBIT_MASK >>> 7) = ISO14443A_STARTBIT_PATTERN >>> 7 then 0
  else 9999

/-- The block `if(Uart.bitCount >= 9) { ... }` that follows every decoded bit
in `MillerDecoding` (the source repeats it after Sequence Z, X and Y). -/
def UartStoreByte (u : tUart) : tUart :=
  if u.bitCount ≥ 9 then
    let u1 : tUart :=
      { u with
        output := memSet u.output u.len (u.shiftReg &&& 0xff)
        len := (u.len + 1) % 65536
        parityBits := ((u.parityBits <<< 1) % 256) ||| ((u.shiftReg >>> 8) &&& 0x01)
        bitCount := 0
        shiftReg := 0 }
    if u1.len &&& 0x0007 = 0 then
      { u1 with
        parity := memSet u1.parity u1.parityLen u1.parityBits
        parityLen := (u1.parityLen + 1) % 256
        parityBits := 0 }
    else u1
  else u

/-- The tail of the Sequence Y branch of `MillerDecoding`, reached when the
end-of-communication test did not return: `if (Uart.state ==
STATE_START_OF_COMMUNICATION) UartReset(); else { a logic "0" }`. -/
def MillerSeqYTail (u : tUart) : tUart :=
  if u.state = .STATE_START_OF_COMMUNICATION then UartReset u
  else
    UartStoreByte
      { u with
        bitCount := int16 (u.bitCount + 1)
        shiftReg := u.shiftReg >>> 1
        state := .STATE_MILLER_Y }

/-- `MillerDecoding(bit, non_real_time)`: the return value and the new value
of `Uart`.  `clk` is the value that `GetCountSspClk()` would return. -/
def MillerDecoding (u0 : tUart) (bit non_real_time clk : Nat) : Bool × tUart :=
  let u : tUart := { u0 with fourBits := ((u0.fourBits <<< 8) ||| bit) % 4294967296 }
  if u.state = .STATE_UNSYNCD then
    let u : tUart := { u with syncBit := MillerSyncBit u.fourBits }
    if u.syncBit ≠ 9999 then
      let t := if non_real_time ≠ 0 then non_real_time else clk &&& 0xfffffff8
      let startTime := uint32 ((t : Int) - (u.syncBit : Int))
      (false, { u with
                startTime := startTime
                endTime := startTime
                state := .STATE_START_OF_COMMUNICATION })
    else (false, u)
  else if IsMillerModulationNibble1 (u.fourBits >>> u.syncBit) then
    if IsMillerModulationNibble2 (u.fourBits >>> u.syncBit) then
      (false, UartReset u)
    else if u.state = .STATE_MILLER_X then
      (false, UartReset u)
    else
      let u : tUart :=
        { u with
          bitCount := int16 (u.bitCount + 1)
          shiftReg := u.shiftReg >>> 1
          state := .STATE_MILLER_Z }
      let u : tUart :=
        { u with
          endTime := uint32 ((u.startTime : Int) + 8 * (9 * (u.len : Int) + u.bitCount + 1) - 6) }
      (false, UartStoreByte u)
  else if IsMillerModulationNibble2 (u.fourBits >>> u.syncBit) then
    let u : tUart :=
      { u with
        bitCount := int16 (u.bitCount + 1)
        shiftReg := (u.shiftReg >>> 1) ||| 0x100
        state := .STATE_MILLER_X }
    let u : tUart :=
      { u with
        endTime := uint32 ((u.startTime : Int) + 8 * (9 * (u.len : Int) + u.bitCount + 1) - 2) }
    (false, UartStoreByte u)
  else if u.state = .STATE_MILLER_Z ∨ u.state = .STATE_MILLER_Y then
    let u : tUart :=
      { u with
        state := .STATE_UNSYNCD
        bitCount := int16 (u.bitCount - 1)
        shiftReg := (u.shiftReg <<< 1) % 65536 }
    if u.bitCount > 0 then
      let u : tUart := { u with shiftReg := u.shiftReg >>> (9 - u.bitCount).toNat }
      let u : tUart :=
        { u with
          output := memSet u.output u.len (u.shiftReg &&& 0xff)
          len := (u.len + 1) % 65536 }
      let u : tUart := { u with parityBits := (u.parityBits <<< 1) % 256 }
      let u : tUart :=
        { u with parityBits := (u.parityBits <<< (8 - (u.len &&& 0x0007))) % 256 }
      (true, { u with
               parity := memSet u.parity u.parityLen u.parityBits
               parityLen := (u.parityLen + 1) % 256 })
    else
      let u : tUart :=
        if u.len &&& 0x0007 ≠ 0 then
          let u : tUart :=
            { u with parityBits := (u.parityBits <<< (8 - (u.len &&& 0x0007))) % 256 }
          { u with
            parity := memSet u.parity u.parityLen u.parityBits
            parityLen := (u.parityLen + 1) % 256 }
        else u
      if u.len ≠ 0 then (true, u)
      else (false, MillerSeqYTail (UartReset u))
  else (false, MillerSeqYTail u)

/-- Feeding a list of sample bytes to `MillerDecoding`, one call per sample:
the list of return values and the final `Uart`. -/
def MillerRun (non_real_time clk : Nat) : tUart → List Nat → List Bool × tUart
  | u, [] => ([], u)
  | u, s :: ss =>
    let r := MillerDecoding u s non_real_time clk
    let rest := MillerRun non_real_time clk r.2 ss
    (r.1 :: rest.1, rest.2)

/-! ## Reader encoder (Miller) -/

/-- Modelled from the spec: the transmit buffer `ToSend`/`ToSendMax` and
`ToSendReset` live in `appmain.c`, which is not part of the sources at hand.
The encoder output is "an ordered sequence of symbol codes"; here `ToSend`
holds `ToSend[0 .. ToSendMax]`, so that `ToSendReset` gives the empty list
(`ToSendMax = -1`) and `ToSend[++ToSendMax] = v` appends `v`. -/
structure EncSt where
  ToSend : List Nat
  ToSendBit : Nat
  LastProxToAirDuration : Nat
  last : Int

/-- Modelled from the spec: `ToSendReset` (see `EncSt`); `LastProxToAirDuration`
and the encoder's local variable `last` are left as they are. -/
def ToSendReset (s : EncSt) : EncSt := { s with ToSend := [], ToSendBit := 8 }

/-- The index `ToSendMax` of the last byte in use. -/
def EncSt.ToSendMax (s : EncSt) : Int := (s.ToSend.length : Int) - 1

/-- `ToSend[++ToSendMax] = v`. -/
def EncSt.push (s : EncSt) (v : Nat) : EncSt := { s with ToSend := s.ToSend ++ [v] }

/-- Modelled from the spec: `nbytes` of `util.h` (not part of the sources at
hand), the number of bytes that hold a frame of the given bit length. -/
def nbytes (bits : Nat) : Nat := (bits + 7) / 8

/-- The symbol emitted by `CodeIso14443aBitsAsReaderPar` for one bit (the
source has this `if (...) { Sequence X } else { Sequence Z or Y }` once for
the data bits and once for the parity bit). -/
def ReaderCodeBit (s : EncSt) (bit : Bool) : EncSt :=
  if bit then
    let s := s.push SEC_X
    { s with LastProxToAirDuration := uint32 (8 * (s.ToSendMax + 1) - 2), last := 1 }
  else if s.last = 0 then
    let s := s.push SEC_Z
    { s with LastProxToAirDuration := uint32 (8 * (s.ToSendMax + 1) - 6) }
  else
    let s := s.push SEC_Y
    { s with last := 0 }

/-- The loop `for (j = 0; j < bitsleft; j++)` with `n` iterations left. -/
def ReaderDataBits : Nat → Nat → EncSt → EncSt
  | 0, _, s => s
  | n + 1, b, s => ReaderDataBits n (b >>> 1) (ReaderCodeBit s (b &&& 1 != 0))

/-- The loop `for (i = 0; i < bytecount; i++)` with `n` iterations left; a
`NULL` parity pointer is `none`. -/
def ReaderBytes (cmd : List Nat) (bits : Nat) (parity : Option Mem) : Nat → Nat → EncSt → EncSt
  | 0, _, s => s
  | n + 1, i, s =>
    let b := cmd.getD i 0
    let bitsleft := min (bits - i * 8) 8
    let s := ReaderDataBits bitsleft b s
    let s :=
      match parity with
      | some par =>
        if bitsleft = 8 then ReaderCodeBit s (par (i >>> 3) &&& (0x80 >>> (i &&& 0x0007)) != 0)
        else s
      | none => s
    ReaderBytes cmd bits parity n (i + 1) s

/-- `CodeIso14443aBitsAsReaderPar(cmd, bits, parity)`: the state of the
transmit buffer before the final `ToSendMax++`. -/
def CodeIso14443aBitsAsReaderPar (s0 : EncSt) (cmd : List Nat) (bits : Nat)
    (parity : Option Mem) : EncSt :=
  let s := ToSendReset s0
  let s := s.push SEC_Z
  let s := { s with LastProxToAirDuration := uint32 (8 * (s.ToSendMax + 1) - 6), last := 0 }
  let s := ReaderBytes cmd bits parity (nbytes bits) 0 s
  let s :=
    if s.last = 0 then
      let s := s.push SEC_Z
      { s with LastProxToAirDuration := uint32 (8 * (s.ToSendMax + 1) - 6) }
    else
      let s := s.push SEC_Y
      { s with last := 0 }
  s.push SEC_Y

/-- `CodeIso14443aAsReaderPar(cmd, len, parity)`; the argument `len*8` is
converted to the `uint16_t` parameter `bits`. -/
def CodeIso14443aAsReaderPar (s0 : EncSt) (cmd : List Nat) (len : Nat)
    (parity : Option Mem) : EncSt :=
  CodeIso14443aBitsAsReaderPar s0 cmd ((len * 8) % 65536) parity

/-- What the antenna delivers for a transmitted symbol byte: the sample byte
is the bitwise complement (a pause is a 0 sample). -/
def complement (b : Nat) : Nat := 255 - b

/-- The sample stream of a reader frame: `n` idle bytes `0xFF` and then the
complement of each symbol byte of `ToSend`. -/
def readerSamples (n : Nat) (s : EncSt) : List Nat :=
  List.replicate n 0xFF ++ s.ToSend.map complement

/-! ## Manchester decoder (tag to reader) -/

inductive DemodState where
  | DEMOD_UNSYNCD
  | DEMOD_MANCHESTER_DATA
  deriving DecidableEq, Repr

/-- The structure `tDemod`. -/
structure tDemod where
  state : DemodState
  twoBits : Nat
  highCnt : Nat
  bitCount : Nat
  collisionPos : Nat
  syncBit : Nat
  parityBits : Nat
  parityLen : Nat
  shiftReg : Nat
  samples : Nat
  len : Nat
  startTime : Nat
  endTime : Nat
  output : Mem
  parity : Mem

def Mod_Manchester_LUT : List Bool :=
  [false, false, false, false, false, false, false, true,
   false, false, false, true, false, true, true, true]

def IsManchesterModulationNibble1 (b : Nat) : Bool :=
  Mod_Manchester_LUT.getD ((b &&& 0x00F0) >>> 4) false

def IsManchesterModulationNibble2 (b : Nat) : Bool :=
  Mod_Manchester_LUT.getD (b &&& 0x000F) false

def DemodReset (d : tDemod) : tDemod :=
  { d with
    state := .DEMOD_UNSYNCD
    len := 0
    parityLen := 0
    shiftReg := 0
    parityBits := 0
    collisionPos := 0
    twoBits := 0xffff
    highCnt := 0
    startTime := 0
    endTime := 0 }

def DemodInit (d : tDemod) (data parity : Mem) : tDemod :=
  DemodReset { d with output := data, parity := parity }

/-- The search for the start bit in `ManchesterDecoding`: `Demod.syncBit =
0xFFFF` followed by the chain of eight comparisons. -/
def ManchesterSyncBit (twoBits : Nat) : Nat :=
  if twoBits &&& 0x7700 = 0x7000 then 7
  else if twoBits &&& 0x3B80 = 0x3800 then 6
  else if twoBits &&& 0x1DC0 = 0x1C00 then 5
  else if twoBits &&& 0x0EE0 = 0x0E00 then 4
  else if twoBits &&& 0x0770 = 0x0700 then 3
  else if twoBits &&& 0x03B8 = 0x0380 then 2
  else if twoBits &&& 0x01DC = 0x01C0 then 1
  else if twoBits &&& 0x00EE = 0x00E0 then 0
  else 0xFFFF

/-- The body of the block `if(Demod.bitCount == 9) { ... }` (after Sequence
D) and `if(Demod.bitCount >= 9) { ... }` (after Sequence E) of
`ManchesterDecoding`. -/
def DemodStoreByte (d : tDemod) : tDemod :=
  let d1 : tDemod :=
    { d with
      output := memSet d.output d.len (d.shiftReg &&& 0xff)
      len := (d.len + 1) % 65536
      parityBits := ((d.parityBits <<< 1) % 256) ||| ((d.shiftReg >>> 8) &&& 0x01)
      bitCount := 0
      shiftReg := 0 }
  if d1.len &&& 0x0007 = 0 then
    { d1 with
      parity := memSet d1.parity d1.parityLen d1.parityBits
      parityLen := (d1.parityLen + 1) % 256
      parityBits := 0 }
  else d1

/-- `ManchesterDecoding(bit, offset, non_real_time)`: the return value and the
new value of `Demod`.  `clk` is the value that `GetCountSspClk()` would
return.  In `9 - Demod.bitCount` the subtraction is truncated at 0; the C
shift is undefined when `bitCount` exceeds 9. -/
def ManchesterDecoding (d0 : tDemod) (bit offset non_real_time clk : Nat) : Bool × tDemod :=
  let d : tDemod := { d0 with twoBits := ((d0.twoBits <<< 8) ||| bit) % 65536 }
  if d.state = .DEMOD_UNSYNCD then
    if d.highCnt < 2 then
      if d.twoBits = 0x0000 then (false, { d with highCnt := (d.highCnt + 1) % 65536 })
      else (false, { d with highCnt := 0 })
    else
      let d : tDemod := { d with syncBit := ManchesterSyncBit d.twoBits }
      if d.syncBit ≠ 0xFFFF then
        let t := if non_real_time ≠ 0 then non_real_time else clk &&& 0xfffffff8
        (false, { d with
                  startTime := uint32 ((t : Int) - (d.syncBit : Int))
                  bitCount := offset
                  state := .DEMOD_MANCHESTER_DATA })
      else (false, d)
  else if IsManchesterModulationNibble1 (d.twoBits >>> d.syncBit) then
    let d : tDemod :=
      if IsManchesterModulationNibble2 (d.twoBits >>> d.syncBit) then
        if d.collisionPos = 0 then
          { d with collisionPos := ((d.len <<< 3) + d.bitCount) % 65536 }
        else d
      else d
    let d : tDemod :=
      { d with
        bitCount := (d.bitCount + 1) % 65536
        shiftReg := (d.shiftReg >>> 1) ||| 0x100 }
    let d : tDemod := if d.bitCount = 9 then DemodStoreByte d else d
    (false, { d with
              endTime := uint32 ((d.startTime : Int)
                + 8 * (9 * (d.len : Int) + (d.bitCount : Int) + 1) - 4) })
  else if IsManchesterModulationNibble2 (d.twoBits >>> d.syncBit) then
    let d : tDemod :=
      { d with
        bitCount := (d.bitCount + 1) % 65536
        shiftReg := d.shiftReg >>> 1 }
    let d : tDemod := if d.bitCount ≥ 9 then DemodStoreByte d else d
    (false, { d with
              endTime := uint32 ((d.startTime : Int)
                + 8 * (9 * (d.len : Int) + (d.bitCount : Int) + 1)) })
  else if d.bitCount > 0 then
    let d : tDemod := { d with shiftReg := d.shiftReg >>> (9 - d.bitCount) }
    let d : tDemod :=
      { d with
        output := memSet d.output d.len (d.shiftReg &&& 0xff)
        len := (d.len + 1) % 65536 }
    let d : tDemod := { d with parityBits := (d.parityBits <<< 1) % 256 }
    let d : tDemod :=
      { d with parityBits := (d.parityBits <<< (8 - (d.len &&& 0x0007))) % 256 }
    (true, { d with
             parity := memSet d.parity d.parityLen d.parityBits
             parityLen := (d.parityLen + 1) % 256 })
  else
    let d : tDemod :=
      if d.len &&& 0x0007 ≠ 0 then
        let d : tDemod :=
          { d with parityBits := (d.parityBits <<< (8 - (d.len &&& 0x0007))) % 256 }
        { d with
          parity := memSet d.parity d.parityLen d.parityBits
          parityLen := (d.parityLen + 1) % 256 }
      else d
    if d.len ≠ 0 then (true, d)
    else (false, DemodReset d)

/-- Feeding a list of sample bytes to `ManchesterDecoding`, one call per
sample: the list of return values and the final `Demod`. -/
def ManchesterRun (offset non_real_time clk : Nat) : tDemod → List Nat → List Bool × tDemod
  | d, [] => ([], d)
  | d, s :: ss =>
    let r := ManchesterDecoding d s offset non_real_time clk
    let rest := ManchesterRun offset non_real_time clk r.2 ss
    (r.1 :: rest.1, rest.2)

/-! ## Tag encoder (Manchester) -/

/-- Modelled from the spec: `ToSendStuffBit` of `appmain.c` (not part of the
sources at hand) appends one stuff-bit to the transmit buffer; eight
stuff-bits after a reset fill the one byte `ToSend[0]`, first bit in the most
significant position. -/
def ToSendStuffBit (s : EncSt) (b : Nat) : EncSt :=
  let s : EncSt := if s.ToSendBit ≥ 8 then { s with ToSend := s.ToSend ++ [0], ToSendBit := 0 } else s
  let s : EncSt :=
    if b ≠ 0 then
      { s with ToSend := s.ToSend.set (s.ToSend.length - 1)
                 (s.ToSend.getD (s.ToSend.length - 1) 0 ||| (1 <<< (7 - s.ToSendBit))) }
    else s
  { s with ToSendBit := s.ToSendBit + 1 }

/-- The loop `for(j = 0; j < 8; j++)` of `CodeIso14443aAsTagPar` with `n`
iterations left. -/
def TagDataBits : Nat → Nat → EncSt → EncSt
  | 0, _, s => s
  | n + 1, b, s => TagDataBits n (b >>> 1) (if b &&& 1 != 0 then s.push SEC_D else s.push SEC_E)

/-- The loop `for(i = 0; i < len; i++)` of `CodeIso14443aAsTagPar` with `n`
iterations left. -/
def TagBytes (cmd : List Nat) (parity : Mem) : Nat → Nat → EncSt → EncSt
  | 0, _, s => s
  | n + 1, i, s =>
    let b := cmd.getD i 0
    let s := TagDataBits 8 b s
    let s :=
      if parity (i >>> 3) &&& (0x80 >>> (i &&& 0x0007)) != 0 then
        let s := s.push SEC_D
        { s with LastProxToAirDuration := uint32 (8 * s.ToSendMax - 4) }
      else
        let s := s.push SEC_E
        { s with LastProxToAirDuration := uint32 (8 * s.ToSendMax) }
    TagBytes cmd parity n (i + 1) s

/-- `CodeIso14443aAsTagPar(cmd, len, parity)`: the state of the transmit
buffer before the final `ToSendMax++`. -/
def CodeIso14443aAsTagPar (s0 : EncSt) (cmd : List Nat) (len : Nat) (parity : Mem) : EncSt :=
  let s := ToSendReset s0
  let s := ToSendStuffBit s 0
  let s := ToSendStuffBit s 0
  let s := ToSendStuffBit s 0
  let s := ToSendStuffBit s 0
  let s := ToSendStuffBit s 1
  let s := ToSendStuffBit s 0
  let s := ToSendStuffBit s 0
  let s := ToSendStuffBit s 0
  let s := s.push SEC_D
  let s := { s with LastProxToAirDuration := uint32 (8 * s.ToSendMax - 4) }
  let s := TagBytes cmd parity len 0 s
  s.push SEC_F

/-- The sample stream of a tag frame: `n` idle bytes `0x00` and then the
symbol bytes `ToSend[1 ..]`, from the start bit onwards. -/
def tagSamples (n : Nat) (s : EncSt) : List Nat :=
  List.replicate n 0x00 ++ s.ToSend.drop 1

/-! ## Specification-side definitions for `GetParity` -/

/-- The parity bit of a byte as a Boolean. -/
def parBit (cmd : List Nat) (i : Nat) : Bool := decide (popcount8 (cmd.getD i 0) % 2 = 0)

/-- Loop invariant of `GetParity` after `i` iterations. -/
structure ParInv (cmd : List Nat) (i : Nat) (s : ParSt) : Prop where
  bitcnt : s.paritybit_cnt = i % 8
  bytecnt : s.paritybyte_cnt = i / 8
  acc : ∀ k, s.parityBits.testBit k
    = (decide (k < 8) && decide (7 - k < i % 8) && parBit cmd (8 * (i / 8) + (7 - k)))
  stored : ∀ m, m < i / 8 → ∀ k, (s.par m).testBit k
    = (decide (k < 8) && parBit cmd (8 * m + (7 - k)))

/-! ## Specification-side definitions for the reader encoder -/

/-- The `n` low bits of a byte, least significant first. -/
def bitsLSB (b n : Nat) : List Bool := (List.range n).map fun j => b.testBit j

/-- The bits transmitted for byte `i` of a frame of `bits` bits: its data
bits LSB-first (only `bits - 8 * i` of them in a final partial byte) and, for
a complete byte when parity is supplied, its parity bit, which is bit
`7 - i % 8` of parity byte `i / 8`. -/
def byteBits (cmd : List Nat) (bits : Nat) (parity : Option Mem) (i : Nat) : List Bool :=
  bitsLSB (cmd.getD i 0) (min (bits - i * 8) 8) ++
    match parity with
    | some par => if min (bits - i * 8) 8 = 8 then [(par (i / 8)).testBit (7 - i % 8)] else []
    | none => []

/-- The bits transmitted for a frame, in order. -/
def frameBits (cmd : List Nat) (bits : Nat) (parity : Option Mem) : List Bool :=
  (List.range (nbytes bits)).flatMap (byteBits cmd bits parity)

/-- Modified Miller coding of one bit after the symbol `prev`: a 1 is
Sequence X; a 0 is Sequence Z if the previous symbol was not X and Sequence Y
if it was. -/
def millerSymbol (prev : Nat) (bit : Bool) : Nat :=
  if bit then SEC_X else if prev ≠ SEC_X then SEC_Z else SEC_Y

/-- Modified Miller coding of a bit sequence after the symbol `prev`. -/
def millerSymbols : Nat → List Bool → List Nat
  | _, [] => []
  | prev, b :: bs => millerSymbol prev b :: millerSymbols (millerSymbol prev b) bs

/-- The last symbol on the air after `millerSymbols prev bs`. -/
def millerLast : Nat → List Bool → Nat
  | prev, [] => prev
  | prev, b :: bs => millerLast (millerSymbol prev b) bs

/-- The encoder's variable `last` agrees with the last symbol `prev` put in
`ToSend`: `last` is 1 after Sequence X and 0 otherwise. -/
def EncOK (s : EncSt) (prev : Nat) : Prop :=
  (s.last = 0 ∨ s.last = 1) ∧ (s.last = 1 ↔ prev = SEC_X)

/-! ## Invariants of the decoders on idle input -/

/-- What holds of `Uart` while only idle samples `0xFF` have been seen since
`UartInit`. -/
def MillerIdle (u : tUart) : Prop :=
  u.state = .STATE_UNSYNCD ∧ u.len = 0
    ∧ (u.fourBits = 0 ∨ u.fourBits = 0xFF ∨ u.fourBits = 0xFFFF ∨ u.fourBits = 0xFFFFFF
        ∨ u.fourBits = 0xFFFFFFFF)

/-- What holds of `Demod` while only idle samples `0x00` have been seen since
`DemodInit`. -/
def ManchesterIdle (d : tDemod) : Prop :=
  d.state = .DEMOD_UNSYNCD ∧ d.len = 0
    ∧ ((d.highCnt = 0 ∧ d.twoBits = 0xffff) ∨ (d.highCnt = 0 ∧ d.twoBits = 0xff00)
        ∨ (d.highCnt = 1 ∧ d.twoBits = 0) ∨ (d.highCnt = 2 ∧ d.twoBits = 0))

/-! ## Concrete decoders and sample streams used in the evaluations -/

/-- A `Uart` with all fields zero, as the static variable is at start-up. -/
def Uart0 : tUart :=
  ⟨.STATE_UNSYNCD, 0, 0, 0, 0, 0, 0, 0, 0, 0, 0, 0, fun _ => 0, fun _ => 0⟩

/-- A `Demod` with all fields zero, as the static variable is at start-up. -/
def Demod0 : tDemod :=
  ⟨.DEMOD_UNSYNCD, 0, 0, 0, 0, 0, 0, 0, 0, 0, 0, 0, 0, fun _ => 0, fun _ => 0⟩

/-- An encoder state with an empty transmit buffer. -/
def Enc0 : EncSt := ⟨[], 0, 0, 0⟩

/-- Samples of a reader frame of 59 bits: seven bytes `0x00`, each followed by
its parity bit 1, and the three data bits 1, 0, 1. -/
def sevenBytesAndThreeBitsReader : List Nat :=
  readerSamples 2 (CodeIso14443aBitsAsReaderPar Enc0 [0, 0, 0, 0, 0, 0, 0, 5] 59
    (some (GetParity [0, 0, 0, 0, 0, 0, 0] 7 (fun _ => 0))))

/-- Samples of a tag frame: three idle bytes, the start bit (Sequence D), seven
times the byte `0x00` with parity bit 1 (eight Sequence E and one Sequence D),
the three data bits 1, 0, 1 and the end of communication (Sequence F). -/
def sevenBytesAndThreeBitsTag : List Nat :=
  [0x00, 0x00, 0x00, SEC_D]
    ++ (List.replicate 7 [SEC_E, SEC_E, SEC_E, SEC_E, SEC_E, SEC_E, SEC_E, SEC_E, SEC_D]).flatten
    ++ [SEC_D, SEC_E, SEC_D, SEC_F]

/-- Samples of a tag answer whose first data bit slot is modulated in both
halves (`0xFF`, a collision): three idle bytes, the start bit, the collision
slot, seven Sequence E, the parity bit (Sequence E) and the end of
communication. -/
def collisionInFirstBit : List Nat :=
  [0x00, 0x00, 0x00, SEC_D, 0xFF, SEC_E, SEC_E, SEC_E, SEC_E, SEC_E, SEC_E, SEC_E, SEC_E, SEC_F]

/-! ## Specification-side definitions for the reader round trip -/

/-- The time of the last modulation, `LastProxToAirDuration`, after one more
symbol `sym` has been put on the air behind `n` earlier ones: 8 times the
number of symbols so far, minus 6 for a Sequence Z and minus 2 for a Sequence
X; a Sequence Y leaves it as it is. -/
def symDur (sym : Nat) (n : Nat) (d : Int) : Int :=
  if sym = SEC_Z then 8 * ((n : Int) + 1) - 6
  else if sym = SEC_X then 8 * ((n : Int) + 1) - 2
  else d

/-- The time of the last modulation after the symbols `syms` have been put on
the air behind `n` earlier ones. -/
def symsDur : List Nat → Nat → Int → Int
  | [], _, d => d
  | s :: ss, n, d => symsDur ss (n + 1) (symDur s n d)

/-- The decoder state that a Miller symbol stands for. -/
def symState (sym : Nat) : UartState :=
  if sym = SEC_X then .STATE_MILLER_X
  else if sym = SEC_Z then .STATE_MILLER_Z
  else .STATE_MILLER_Y

/-- The fields of `Uart` that do not change while the bits of one byte are
shifted in. -/
structure SameFrame (u v : tUart) : Prop where
  len : v.len = u.len
  output : v.output = u.output
  parity : v.parity = u.parity
  parityBits : v.parityBits = u.parityBits
  parityLen : v.parityLen = u.parityLen
  syncBit : v.syncBit = u.syncBit
  startTime : v.startTime = u.startTime

/-- The decoder is in a frame, synchronised on byte boundaries, the last
symbol was `prev`, `c` bits of the current byte have been shifted in, the
shift register holds `sr`, and the last modulation was `d` ticks after the
start. -/
structure InByte (u : tUart) (prev c sr : Nat) (d : Int) : Prop where
  state_ne : u.state ≠ .STATE_UNSYNCD
  sync : u.syncBit = 0
  link : prev = SEC_X ↔ u.state = .STATE_MILLER_X
  bc : u.bitCount = (c : Int)
  shift : u.shiftReg = sr
  shift_lt : sr < 512
  et : u.endTime = uint32 ((u.startTime : Int) + d)

/-- The shift register after the `n` low bits of `b` have been shifted in. -/
def shiftIn : Nat → Nat → Nat → Nat
  | sr, _, 0 => sr
  | sr, b, n + 1 => shiftIn (sr / 2 + 256 * (b % 2)) (b / 2) n

/-- The first `k` bytes of the frame `F` have been decoded and stored:
`len = k`, the bytes are in `output`, the parity bits of every complete group
of eight bytes are in `parity`, and those of the current group are in the low
bits of `parityBits`, the most recent one in bit 0. -/
structure FrameData (F : List Nat) (u : tUart) (k : Nat) : Prop where
  len : u.len = k
  out : ∀ i, i < k → u.output i = F.getD i 0
  plen : u.parityLen = (k / 8) % 256
  pbits : ∀ j, u.parityBits.testBit j
    = (decide (j < k % 8) && parBit F (8 * (k / 8) + (k % 8 - 1 - j)))
  pmem : ∀ m, m < k / 8 → ∀ j, (u.parity m).testBit j
    = (decide (j < 8) && parBit F (8 * m + (7 - j)))

/-- The nine bits transmitted for byte `j` of a frame of complete bytes with
odd parity: the data bits LSB-first and the parity bit. -/
def dataBits (F : List Nat) (j : Nat) : List Bool := bitsLSB (F.getD j 0) 8 ++ [parBit F j]

/-- What holds of `Uart` while only idle samples `0xFF`, and at least two of
them, have been seen since `UartInit(data, par)`. -/
structure MillerIdle2 (data par : Mem) (u : tUart) : Prop where
  state : u.state = .STATE_UNSYNCD
  bitCount : u.bitCount = 0
  len : u.len = 0
  parityLen : u.parityLen = 0
  shiftReg : u.shiftReg = 0
  parityBits : u.parityBits = 0
  output : u.output = data
  parity : u.parity = par
  fourBits : u.fourBits = 0xFFFF ∨ u.fourBits = 0xFFFFFF ∨ u.fourBits = 0xFFFFFFFF

/-! ## Specification-side definitions for the tag round trip -/

/-- Manchester coding of one bit: Sequence D for 1, Sequence E for 0. -/
def manSymbol (b : Bool) : Nat := if b then SEC_D else SEC_E

/-- The fields of `Demod` that do not change while the bits of one byte are
shifted in. -/
structure SameFrameD (d e : tDemod) : Prop where
  len : e.len = d.len
  output : e.output = d.output
  parity : e.parity = d.parity
  parityBits : e.parityBits = d.parityBits
  parityLen : e.parityLen = d.parityLen
  startTime : e.startTime = d.startTime

/-- The Manchester decoder is in a frame, synchronised on byte boundaries,
`c` bits of the current byte have been shifted in, the shift register holds
`sr`, and no collision has been seen. -/
structure InByteD (d : tDemod) (c sr : Nat) : Prop where
  state : d.state = .DEMOD_MANCHESTER_DATA
  sync : d.syncBit = 0
  bc : d.bitCount = c
  shift : d.shiftReg = sr
  shift_lt : sr < 512
  coll : d.collisionPos = 0

/-- The first `k` bytes of the frame `F` have been decoded and stored by the
Manchester decoder (as `FrameData` for the Miller decoder). -/
structure DemodData (F : List Nat) (d : tDemod) (k : Nat) : Prop where
  len : d.len = k
  out : ∀ i, i < k → d.output i = F.getD i 0
  plen : d.parityLen = (k / 8) % 256
  pbits : ∀ j, d.parityBits.testBit j
    = (decide (j < k % 8) && parBit F (8 * (k / 8) + (k % 8 - 1 - j)))
  pmem : ∀ m, m < k / 8 → ∀ j, (d.parity m).testBit j
    = (decide (j < 8) && parBit F (8 * m + (7 - j)))

/-- What holds of `Demod` while only idle samples `0x00` have been seen since
`DemodInit(data, par)`; `hc` and `tb` are the values of `highCnt` and
`twoBits`. -/
structure ManIdle (data par : Mem) (d : tDemod) (hc tb : Nat) : Prop where
  state : d.state = .DEMOD_UNSYNCD
  len : d.len = 0
  parityLen : d.parityLen = 0
  shiftReg : d.shiftReg = 0
  parityBits : d.parityBits = 0
  collisionPos : d.collisionPos = 0
  output : d.output = data
  parity : d.parity = par
  highCnt : d.highCnt = hc
  twoBits : d.twoBits = tb

/-! ## Specification-side definitions for the tag encoder layout -/

/-- The bits coded by `CodeIso14443aAsTagPar` for byte `j` of the frame: its
eight data bits LSB-first and then its parity bit, which is bit `7 - j % 8`
of parity byte `j / 8`. -/
def tagByteBits (cmd : List Nat) (parity : Mem) (j : Nat) : List Bool :=
  bitsLSB (cmd.getD j 0) 8 ++ [(parity (j / 8)).testBit (7 - j % 8)]


/-! ## `PrepareDelayedTransfer` -/

/-- The loop `for (i = 0; i < delay; i++) bitmask |= (0x01 << i)` with the
`uint8_t` variable `bitmask`. -/
def delayBitmask (delay : Nat) : Nat :=
  (List.range delay).foldl (fun bitmask i => (bitmask ||| (0x01 <<< i)) % 256) 0

/-- The loop `for (i = 0; i < ToSendMax; i++)` of `PrepareDelayedTransfer` over
the bytes still to be visited; the second argument is `bits_shifted`.  The
index `i` is a `uint16_t`, which is enough for the transmit buffer. -/
def delayShift (delay bitmask : Nat) : List Nat → Nat → List Nat
  | [], _ => []
  | b :: rest, bits_shifted =>
    let bits_to_shift := b &&& bitmask
    let b := b >>> delay
    let b := (b ||| (bits_shifted <<< (8 - delay))) % 256
    b :: delayShift delay bitmask rest bits_to_shift

/-- `PrepareDelayedTransfer(delay)` on the transmit buffer
`ToSend[0 .. ToSendMax - 1]` (here `ToSendMax` is the number of bytes, as it is
after an encoder has run); the new `ToSendMax` is the length of the result. -/
def PrepareDelayedTransfer (ToSend : List Nat) (delay : Nat) : List Nat :=
  let delay := delay &&& 0x07
  if delay ≠ 0 then delayShift delay (delayBitmask delay) (ToSend ++ [0x00]) 0
  else ToSend

/-- The `d` low bits of `c`, most significant first. -/
def lowBitsMSB (d c : Nat) : List Bool := (List.range d).map fun j => c.testBit (d - 1 - j)

/-- The bit string of a byte array: bytes in order, most significant bit
first. -/
def bitString (bytes : List Nat) : List Bool := bytes.flatMap (lowBitsMSB 8)

/-- The value of `bits_shifted` after the loop of `PrepareDelayedTransfer`. -/
def delayCarry (bitmask : Nat) : List Nat → Nat → Nat
  | [], c => c
  | b :: rest, _ => delayCarry bitmask rest (b &&& bitmask)


/-! ## `AppendCrc14443a` and `iso14_apdu` -/

/-- `AppendCrc14443a(data, len)`: the two bytes computed by
`ComputeCrc14443(CRC_14443_A, data, len, ..)` are stored in `data[len]` and
`data[len + 1]`.  `ComputeCrc14443` is the function of `iso14443crc.c`, which
is not among the sources; it is the parameter `crcA`, from the first `len`
bytes to the two CRC bytes. -/
def AppendCrc14443a (crcA : List Nat → Nat × Nat) (data : List Nat) (len : Nat) : List Nat :=
  data.take len ++ [(crcA (data.take len)).1, (crcA (data.take len)).2] ++ data.drop (len + 2)

/-- A stand-in for `ComputeCrc14443` in evaluations whose outcome does not
depend on the CRC bytes. -/
def crcZero : List Nat → Nat × Nat := fun _ => (0, 0)

/-- What a call of `iso14_apdu` leaves behind: the value returned, the frame
handed to `ReaderTransmit` and the new value of the static variable
`iso14_pcb_blocknum`. -/
structure ApduResult where
  ret : Nat
  real_cmd : List Nat
  iso14_pcb_blocknum : Nat

/-- `iso14_apdu(cmd, cmd_len, data)` with the current value of
`iso14_pcb_blocknum`.  The argument `data` is the frame that `ReaderReceive`
stores, its length the value `len` that `ReaderReceive` returns (0: no
response). -/
def iso14_apdu (crcA : List Nat → Nat × Nat) (iso14_pcb_blocknum : Nat) (cmd : List Nat)
    (cmd_len : Nat) (data : List Nat) : ApduResult :=
  let real_cmd0 := 0x0a ||| iso14_pcb_blocknum
  let real_cmd := [real_cmd0, 0x00] ++ (List.range cmd_len).map (fun i => cmd.getD i 0)
  let real_cmd := AppendCrc14443a crcA (real_cmd ++ [0, 0]) (cmd_len + 2)
  let len := data.length
  if len = 0 then ⟨0, real_cmd, iso14_pcb_blocknum⟩
  else if len ≥ 4
      ∧ ((data.getD 0 0 &&& 0xC0) = 0 ∨ (data.getD 0 0 &&& 0xD0) = 0x80)
      ∧ (data.getD 0 0 &&& 0x01) = iso14_pcb_blocknum then
    ⟨len, real_cmd, (iso14_pcb_blocknum ^^^ 1) % 256⟩
  else ⟨len, real_cmd, iso14_pcb_blocknum⟩

/-- The value of `iso14_pcb_blocknum` after a sequence of calls of `iso14_apdu`,
each given as the command, its length and the response received. -/
def apduRun (crcA : List Nat → Nat × Nat) : Nat → List (List Nat × Nat × List Nat) → Nat
  | bn, [] => bn
  | bn, (cmd, cmd_len, data) :: rest =>
    apduRun crcA (iso14_apdu crcA bn cmd cmd_len data).iso14_pcb_blocknum rest

/-- Every exchange of the sequence is answered by an I-block of at least four
bytes whose block-number bit equals the block-number bit of the PCB sent in
the request. -/
def answeredByIBlocks (crcA : List Nat → Nat × Nat) :
    Nat → List (List Nat × Nat × List Nat) → Bool
  | _, [] => true
  | bn, (cmd, cmd_len, data) :: rest =>
    decide (data.length ≥ 4) && decide (data.getD 0 0 &&& 0xC0 = 0)
      && decide (data.getD 0 0 &&& 0x01
          = (iso14_apdu crcA bn cmd cmd_len data).real_cmd.getD 0 0 &&& 0x01)
      && answeredByIBlocks crcA (iso14_apdu crcA bn cmd cmd_len data).iso14_pcb_blocknum rest


/-! ## MIFARE Classic 1K emulator (`Mifare1ksim`)

The emulator is modelled as its local variables (`MfSim`), the code before the
main loop (`Mifare1ksim_init`) and one iteration of the main loop
(`Mifare1ksim_step`).  The LEDs, `Dbprintf`, `LogTrace` and the two timers
`selTimer` and `authTimer` (which are only printed) are left out; the frames
handed to the `EmSend..` functions are returned as a list of `MfSent`. -/

/-- The states of the emulator (`MFEMUL_..` of `mifareutil.h`, which is not
among the sources; the names are those used in `Mifare1ksim`). -/
inductive MfEmul where
  | MFEMUL_NOFIELD
  | MFEMUL_IDLE
  | MFEMUL_SELECT1
  | MFEMUL_SELECT2
  | MFEMUL_SELECT3
  | MFEMUL_AUTH1
  | MFEMUL_WORK
  | MFEMUL_WRITEBL2
  | MFEMUL_INTREG_INC
  | MFEMUL_INTREG_DEC
  | MFEMUL_INTREG_REST
  | MFEMUL_HALTED
  deriving DecidableEq

/-- `struct Crypto1State` (two words, initialised as `{0, 0}`). -/
structure Crypto1State where
  odd : Nat
  even : Nat
  deriving DecidableEq

/-- `nonces_t` with the fields that `Mifare1ksim` uses. -/
structure nonces_t where
  cuid : Nat
  sector : Nat
  keytype : Nat
  nonce : Nat
  ar : Nat
  nr : Nat
  nonce2 : Nat
  ar2 : Nat
  nr2 : Nat
  deriving DecidableEq

/-- The bits of the argument `flags` of `Mifare1ksim`: each field is the truth
value of `flags & FLAG_..` (the masks are in a header that is not among the
sources). -/
structure MfFlags where
  FLAG_INTERACTIVE : Bool
  FLAG_4B_UID_IN_DATA : Bool
  FLAG_7B_UID_IN_DATA : Bool
  FLAG_10B_UID_IN_DATA : Bool
  FLAG_NR_AR_ATTACK : Bool
  FLAG_RANDOM_NONCE : Bool

/-- The constants and functions used by `Mifare1ksim` that are defined outside
the sources at hand (`crypto1.c`, `mifareutil.c`, `iso14443crc.c`, `util.c`,
`apps.h`), taken as parameters.  Functions that change the cipher state or the
emulator memory return the new value. -/
structure MfEnv where
  CARD_ACK : Nat
  CARD_NACK_NA : Nat
  MF_MINFIELDV : Nat
  MAX_ADC_HF_VOLTAGE : Nat
  /-- `crypto1_create(pcs, key)` -/
  crypto1_create : Crypto1State → Nat → Crypto1State
  /-- `crypto1_destroy(pcs)` -/
  crypto1_destroy : Crypto1State → Crypto1State
  /-- `crypto1_word(pcs, in, is_encrypted)`: the word returned and the new state -/
  crypto1_word : Crypto1State → Nat → Nat → Nat × Crypto1State
  /-- `mf_crypto1_decrypt(pcs, data, len)` on `data[0 .. len-1]` -/
  mf_crypto1_decrypt : Crypto1State → List Nat → List Nat × Crypto1State
  /-- `mf_crypto1_encrypt(pcs, data, len, par)`: the new data, the parity bytes
  and the new state -/
  mf_crypto1_encrypt : Crypto1State → List Nat → List Nat × List Nat × Crypto1State
  /-- `mf_crypto1_encrypt4bit(pcs, data)` -/
  mf_crypto1_encrypt4bit : Crypto1State → Nat → Nat × Crypto1State
  /-- `prng_successor(x, n)` -/
  prng_successor : Nat → Nat → Nat
  /-- `prand()`: from the state of the generator to the value and the new state -/
  prand : Nat → Nat × Nat
  /-- `ComputeCrc14443(CRC_14443_A, ..)` -/
  crcA : List Nat → Nat × Nat
  /-- `emlGetKey(sectorNum, keyType)` -/
  emlGetKey : Mem → Nat → Nat → Nat
  /-- `emlGetMem(data, blockNum, blocksCount)`: the bytes stored in `data` -/
  emlGetMem : Mem → Nat → Nat → List Nat
  /-- `emlGetMemBt(data, bytePtr, byteCount)`: the bytes stored in `data` -/
  emlGetMemBt : Mem → Nat → Nat → List Nat
  /-- `emlSetMem(data, blockNum, blocksCount)` -/
  emlSetMem : Mem → List Nat → Nat → Nat → Mem
  /-- `emlCheckValBl(blockNum)` -/
  emlCheckValBl : Mem → Nat → Nat
  /-- `emlGetValBl(&blReg, &blBlock, blockNum)`: the value returned and the new
  values of the two variables, given their old values -/
  emlGetValBl : Mem → Nat → Nat → Nat → Nat × Nat × Nat
  /-- `emlSetValBl(blReg, blBlock, blockNum)`: the value returned and the new
  emulator memory -/
  emlSetValBl : Mem → Nat → Nat → Nat → Nat × Mem

/-- Modelled from the spec: `bytes_to_num` of `util.c` (not among the sources),
most significant byte first (UID `DE AD BE AF` gives `cuid = 0xDEADBEAF`), in
a `uint64_t`. -/
def bytes_to_num (src : List Nat) (len : Nat) : Nat :=
  (List.range len).foldl (fun num i => ((num <<< 8) ||| src.getD i 0) % 2 ^ 64) 0

/-- Modelled from the spec: `num_to_bytes` of `util.c` (not among the sources),
the inverse of `bytes_to_num`: the `len` low bytes of `n`, most significant
first. -/
def num_to_bytes (n len : Nat) : List Nat :=
  (List.range len).map fun i => (n >>> (8 * (len - 1 - i))) % 256

/-- A frame handed to one of the `EmSend..` functions. -/
inductive MfSent where
  | EmSendCmdEx (resp : List Nat) (correctionNeeded : Bool)
  | EmSendCmd (resp : List Nat)
  | EmSendCmdPar (resp : List Nat) (par : List Nat)
  | EmSend4bit (resp : Nat)
  deriving DecidableEq

/-- The variables of `Mifare1ksim` that live across iterations of its main loop.
`emul` is the emulator memory, `rng` the state of `prand`, and `stopped` says
that the loop has been left by `break`. -/
structure MfSim where
  cardSTATE : MfEmul
  UID_LEN : Nat
  len : Nat
  cardWRBL : Nat
  cardAUTHSC : Nat
  cardAUTHKEY : Nat
  cardRr : Nat
  cuid : Nat
  ans : Nat
  cardINTREG : Nat
  cardINTBLOCK : Nat
  pcs : Crypto1State
  numReads : Nat
  receivedCmd : Mem
  rATQA : List Nat
  rUIDBCC1 : List Nat
  rUIDBCC2 : List Nat
  rUIDBCC3 : List Nat
  rSAKfinal : List Nat
  rSAK1 : List Nat
  rAUTH_NT : List Nat
  rAUTH_AT : List Nat
  ar_nr_resp : List nonces_t
  ar_nr_collected : List Nat
  nonce1_count : Nat
  nonce2_count : Nat
  moebius_n_count : Nat
  gettingMoebius : Bool
  mM : Nat
  nonce : Nat
  finished : Bool
  emul : Mem
  rng : Nat
  stopped : Bool

/-- A record of `ar_nr_resp` after `memset(ar_nr_resp, 0x00, sizeof(ar_nr_resp))`. -/
def nonces_zero : nonces_t := ⟨0, 0, 0, 0, 0, 0, 0, 0, 0⟩

/-- `ATTACK_KEY_COUNT` -/
abbrev ATTACK_KEY_COUNT : Nat := 7

/-- Modelled from the spec: the command codes `ISO14443A_CMD_..` of
`protocols.h` (not among the sources): REQA `0x26`, WUPA `0x52` and the select
codes `0x93`, `0x95`, `0x97` of the three cascade levels. -/
abbrev ISO14443A_CMD_REQA : Nat := 0x26

/-- See `ISO14443A_CMD_REQA`. -/
abbrev ISO14443A_CMD_WUPA : Nat := 0x52

/-- See `ISO14443A_CMD_REQA`. -/
abbrev ISO14443A_CMD_ANTICOLL_OR_SELECT : Nat := 0x93

/-- See `ISO14443A_CMD_REQA`. -/
abbrev ISO14443A_CMD_ANTICOLL_OR_SELECT_2 : Nat := 0x95

/-- See `ISO14443A_CMD_REQA`. -/
abbrev ISO14443A_CMD_ANTICOLL_OR_SELECT_3 : Nat := 0x97

/-- `memcpy(dst + off, src, n)` on a byte array held as a list. -/
def memcpyList (dst : List Nat) (off : Nat) (src : List Nat) (n : Nat) : List Nat :=
  (List.range n).foldl (fun d i => d.set (off + i) (src.getD i 0)) dst

/-- `rUIDBCCn[4] = rUIDBCCn[0] ^ rUIDBCCn[1] ^ rUIDBCCn[2] ^ rUIDBCCn[3]`. -/
def setBCC (r : List Nat) : List Nat :=
  r.set 4 (r.getD 0 0 ^^^ r.getD 1 0 ^^^ r.getD 2 0 ^^^ r.getD 3 0)

/-- The code of `Mifare1ksim` before the main loop: the initial values of the
local variables, the nonce and the UID.  `datain` is the argument of that name,
`emul` the emulator memory and `rng` the state of `prand`. -/
def Mifare1ksim_init (env : MfEnv) (flags : MfFlags) (datain : List Nat) (emul : Mem)
    (rng : Nat) : MfSim :=
  let rAUTH_NT := [0x01, 0x02, 0x03, 0x04]
  let s : MfSim :=
    { cardSTATE := .MFEMUL_NOFIELD, UID_LEN := 0, len := 0, cardWRBL := 0, cardAUTHSC := 0,
      cardAUTHKEY := 0xff, cardRr := 0, cuid := 0, ans := 0, cardINTREG := 0, cardINTBLOCK := 0,
      pcs := ⟨0, 0⟩, numReads := 0, receivedCmd := fun _ => 0,
      rATQA := [0x04, 0x00],
      rUIDBCC1 := [0xde, 0xad, 0xbe, 0xaf, 0x62],
      rUIDBCC2 := [0xde, 0xad, 0xbe, 0xaf, 0x62],
      rUIDBCC3 := [0xde, 0xad, 0xbe, 0xaf, 0x62],
      rSAKfinal := [0x08, 0xb6, 0xdd], rSAK1 := [0x04, 0xda, 0x17],
      rAUTH_NT := rAUTH_NT, rAUTH_AT := [0x00, 0x00, 0x00, 0x00],
      ar_nr_resp := List.replicate (ATTACK_KEY_COUNT * 2) nonces_zero,
      ar_nr_collected := List.replicate (ATTACK_KEY_COUNT * 2) 0,
      nonce1_count := 0, nonce2_count := 0, moebius_n_count := 0, gettingMoebius := false,
      mM := 0, nonce := 0, finished := false, emul := emul, rng := rng, stopped := false }
  let s : MfSim :=
    if flags.FLAG_RANDOM_NONCE then
      { s with nonce := (env.prand s.rng).1 % 2 ^ 32, rng := (env.prand s.rng).2 }
    else { s with nonce := bytes_to_num rAUTH_NT 4 % 2 ^ 32 }
  let s : MfSim :=
    if flags.FLAG_4B_UID_IN_DATA then
      let s := { s with rUIDBCC1 := memcpyList s.rUIDBCC1 0 datain 4 }
      { s with rUIDBCC1 := setBCC s.rUIDBCC1, UID_LEN := 4 }
    else if flags.FLAG_7B_UID_IN_DATA then
      { s with
        rUIDBCC1 := memcpyList s.rUIDBCC1 1 datain 3
        rUIDBCC2 := memcpyList s.rUIDBCC2 0 (datain.drop 3) 4
        UID_LEN := 7 }
    else if flags.FLAG_10B_UID_IN_DATA then
      { s with
        rUIDBCC1 := memcpyList s.rUIDBCC1 1 datain 3
        rUIDBCC2 := memcpyList s.rUIDBCC2 1 (datain.drop 3) 3
        rUIDBCC3 := memcpyList s.rUIDBCC3 0 (datain.drop 6) 4
        UID_LEN := 10 }
    else
      let s := { s with receivedCmd := memSet s.receivedCmd 0 ((env.emlGetMemBt s.emul 7 1).getD 0 0) }
      if s.receivedCmd 0 = 0x00 then
        { s with rUIDBCC1 := memcpyList s.rUIDBCC1 0 (env.emlGetMemBt s.emul 0 4) 4, UID_LEN := 4 }
      else
        { s with
          rUIDBCC1 := memcpyList s.rUIDBCC1 1 (env.emlGetMemBt s.emul 0 3) 3
          rUIDBCC2 := memcpyList s.rUIDBCC2 0 (env.emlGetMemBt s.emul 3 4) 4
          UID_LEN := 7 }
  if s.UID_LEN = 4 then
    { s with cuid := bytes_to_num s.rUIDBCC1 4 % 2 ^ 32, rUIDBCC1 := setBCC s.rUIDBCC1 }
  else if s.UID_LEN = 7 then
    let s := { s with rATQA := s.rATQA.set 0 (s.rATQA.getD 0 0 ||| 0x40) }
    let s := { s with cuid := bytes_to_num s.rUIDBCC2 4 % 2 ^ 32 }
    let s := { s with rUIDBCC1 := s.rUIDBCC1.set 0 0x88 }
    { s with rUIDBCC1 := setBCC s.rUIDBCC1, rUIDBCC2 := setBCC s.rUIDBCC2 }
  else if s.UID_LEN = 10 then
    let s := { s with rATQA := s.rATQA.set 0 (s.rATQA.getD 0 0 ||| 0x80) }
    let s := { s with cuid := bytes_to_num s.rUIDBCC3 4 % 2 ^ 32 }
    let s := { s with rUIDBCC1 := s.rUIDBCC1.set 0 0x88, rUIDBCC2 := s.rUIDBCC2.set 0 0x88 }
    { s with rUIDBCC1 := setBCC s.rUIDBCC1, rUIDBCC2 := setBCC s.rUIDBCC2,
             rUIDBCC3 := setBCC s.rUIDBCC3 }
  else s

/-- Modelled from the spec: the macro `cardSTATE_TO_IDLE()` of `mifareutil.h`
(not among the sources) sets `cardSTATE = MFEMUL_IDLE` (and switches two LEDs
off). -/
def cardSTATE_TO_IDLE (s : MfSim) : MfSim := { s with cardSTATE := .MFEMUL_IDLE }

/-- The bytes `m[0 .. n-1]` of a buffer. -/
def memRead (m : Mem) (n : Nat) : List Nat := (List.range n).map m

/-- The buffer `m` after the bytes `xs` have been stored from index 0. -/
def memWrite (m : Mem) (xs : List Nat) : Mem := fun i => if i < xs.length then xs.getD i 0 else m i

/-- `EmSend4bit(mf_crypto1_encrypt4bit(pcs, v))`. -/
def mfSend4bit (env : MfEnv) (s : MfSim) (v : Nat) : MfSim × List MfSent :=
  ({ s with pcs := (env.mf_crypto1_encrypt4bit s.pcs v).2 },
   [.EmSend4bit (env.mf_crypto1_encrypt4bit s.pcs v).1])

/-- `mf_crypto1_decrypt(pcs, receivedCmd, len)`. -/
def mfDecrypt (env : MfEnv) (s : MfSim) : MfSim :=
  { s with
    receivedCmd := memWrite s.receivedCmd (env.mf_crypto1_decrypt s.pcs (memRead s.receivedCmd s.len)).1
    pcs := (env.mf_crypto1_decrypt s.pcs (memRead s.receivedCmd s.len)).2 }

/-- `memcpy(&ans, receivedCmd, 4)` on the little-endian target. -/
def mfCopyAns (s : MfSim) : MfSim :=
  { s with ans := s.receivedCmd 0 + 2 ^ 8 * s.receivedCmd 1 + 2 ^ 16 * s.receivedCmd 2
                    + 2 ^ 24 * s.receivedCmd 3 }

/-- The six assignments `ar_nr_resp[k].cuid = cuid; .. ; ar_nr_resp[k].ar = ar`
of the first nonce collect. -/
def nonces_first (r : nonces_t) (cuid sector keytype nonce nr ar : Nat) : nonces_t :=
  { r with cuid := cuid, sector := sector, keytype := keytype, nonce := nonce, nr := nr, ar := ar }

/-- The three assignments `ar_nr_resp[k].nonce2 = nonce; .nr2 = nr; .ar2 = ar`
of the second nonce collect. -/
def nonces_second (r : nonces_t) (nonce nr ar : Nat) : nonces_t :=
  { r with nonce2 := nonce, nr2 := nr, ar2 := ar }

/-- `a[k]++` on an array of `uint8_t`. -/
def incr8 (a : List Nat) (k : Nat) : List Nat := a.set k ((a.getD k 0 + 1) % 256)

/-- The body of the loop `for (uint8_t i = 0; i < ATTACK_KEY_COUNT; i++)` that
collects `nr` and `ar` in state `MFEMUL_AUTH1`, with `n` iterations left. -/
def mfCollect (env : MfEnv) (flags : MfFlags) (nr ar : Nat) : Nat → Nat → MfSim → MfSim
  | 0, _, s => s
  | n + 1, i, s =>
    if s.ar_nr_collected.getD (i + s.mM) 0 = 0
        ∨ (s.cardAUTHSC = (s.ar_nr_resp.getD (i + s.mM) nonces_zero).sector
            ∧ s.cardAUTHKEY = (s.ar_nr_resp.getD (i + s.mM) nonces_zero).keytype
            ∧ s.ar_nr_collected.getD (i + s.mM) 0 > 0) then
      if s.ar_nr_collected.getD (i + s.mM) 0 < 2 then
        if (s.ar_nr_resp.getD (s.ar_nr_collected.getD (i + s.mM) 0) nonces_zero).ar ≠ ar then
          if s.ar_nr_collected.getD (i + s.mM) 0 = 0 then
            -- first nonce collect
            let r1 := nonces_first (s.ar_nr_resp.getD (i + s.mM) nonces_zero)
              s.cuid s.cardAUTHSC s.cardAUTHKEY s.nonce nr ar
            let s := { s with ar_nr_resp := s.ar_nr_resp.set (i + s.mM) r1 }
            let s := { s with nonce1_count := (s.nonce1_count + 1) % 256 }
            -- add this nonce to first moebius nonce
            let r2 := nonces_first (s.ar_nr_resp.getD (i + ATTACK_KEY_COUNT) nonces_zero)
              s.cuid s.cardAUTHSC s.cardAUTHKEY s.nonce nr ar
            let s := { s with ar_nr_resp := s.ar_nr_resp.set (i + ATTACK_KEY_COUNT) r2 }
            let s := { s with ar_nr_collected := incr8 s.ar_nr_collected (i + ATTACK_KEY_COUNT) }
            { s with ar_nr_collected := incr8 s.ar_nr_collected (i + s.mM) }
          else
            -- second nonce collect (std and moebius)
            let r1 := nonces_second (s.ar_nr_resp.getD (i + s.mM) nonces_zero) s.nonce nr ar
            let s := { s with ar_nr_resp := s.ar_nr_resp.set (i + s.mM) r1 }
            if ¬ s.gettingMoebius then
              let s := { s with nonce2_count := (s.nonce2_count + 1) % 256 }
              -- check if this was the last second nonce we need for std attack
              if s.nonce2_count = s.nonce1_count then
                -- done collecting std test switch to moebius
                let s := { s with ar_nr_collected := incr8 s.ar_nr_collected (i + s.mM) }
                let s := { s with gettingMoebius := true, mM := ATTACK_KEY_COUNT }
                if flags.FLAG_RANDOM_NONCE then
                  { s with nonce := (env.prand s.rng).1 % 2 ^ 32, rng := (env.prand s.rng).2 }
                else { s with nonce := (s.nonce * 7) % 2 ^ 32 }
              else { s with ar_nr_collected := incr8 s.ar_nr_collected (i + s.mM) }
            else
              let s := { s with moebius_n_count := (s.moebius_n_count + 1) % 256 }
              let s := if s.nonce1_count = s.moebius_n_count then { s with finished := true } else s
              { s with ar_nr_collected := incr8 s.ar_nr_collected (i + s.mM) }
        else s
      else s
    else mfCollect env flags nr ar n (i + 1) s

/-- The case `MFEMUL_AUTH1` of the `switch`. -/
def mfAuth1 (env : MfEnv) (flags : MfFlags) (s : MfSim) : MfSim × List MfSent :=
  if s.len ≠ 8 then (cardSTATE_TO_IDLE s, [])
  else
    let nr := bytes_to_num (memRead s.receivedCmd 4) 4 % 2 ^ 32
    let ar := bytes_to_num ((memRead s.receivedCmd 8).drop 4) 4 % 2 ^ 32
    -- Collect AR/NR per keytype & sector
    let s := if flags.FLAG_NR_AR_ATTACK then mfCollect env flags nr ar ATTACK_KEY_COUNT 0 s else s
    -- crypto
    let s := { s with pcs := (env.crypto1_word s.pcs nr 1).2 }
    let s := { s with cardRr := ar ^^^ (env.crypto1_word s.pcs 0 0).1
                      pcs := (env.crypto1_word s.pcs 0 0).2 }
    -- test if auth OK
    if s.cardRr ≠ env.prng_successor s.nonce 64 then (cardSTATE_TO_IDLE s, [])
    else
      -- auth successful
      let s := { s with ans := env.prng_successor s.nonce 96 ^^^ (env.crypto1_word s.pcs 0 0).1
                        pcs := (env.crypto1_word s.pcs 0 0).2 }
      let s := { s with rAUTH_AT := num_to_bytes s.ans 4 }
      ({ s with cardSTATE := .MFEMUL_WORK }, [.EmSendCmd s.rAUTH_AT])

/-- The block of case `MFEMUL_WORK` for an authentication command
(`len == 4 && (receivedCmd[0] == 0x60 || receivedCmd[0] == 0x61)`). -/
def mfWorkAuth (env : MfEnv) (flags : MfFlags) (encrypted_data : Bool) (s : MfSim) :
    MfSim × List MfSent :=
  -- if authenticating to a block that shouldn't exist
  if s.receivedCmd 1 ≥ 16 * 4 ∧ ¬ flags.FLAG_NR_AR_ATTACK then
    mfSend4bit env s env.CARD_NACK_NA
  else
    let s := { s with cardAUTHSC := s.receivedCmd 1 / 4 }
    let s := { s with cardAUTHKEY := (s.receivedCmd 0 - 0x60) % 256 }
    let s := { s with pcs := env.crypto1_destroy s.pcs }
    let s := { s with pcs := env.crypto1_create s.pcs
                               (env.emlGetKey s.emul s.cardAUTHSC s.cardAUTHKEY) }
    let s :=
      if ¬ encrypted_data then
        -- first authentication
        let s := { s with pcs := (env.crypto1_word s.pcs (s.cuid ^^^ s.nonce) 0).2 }
        { s with rAUTH_AT := num_to_bytes s.nonce 4 }
      else
        -- nested authentication
        let s := { s with ans := s.nonce ^^^ (env.crypto1_word s.pcs (s.cuid ^^^ s.nonce) 0).1
                          pcs := (env.crypto1_word s.pcs (s.cuid ^^^ s.nonce) 0).2 }
        { s with rAUTH_AT := num_to_bytes s.ans 4 }
    ({ s with cardSTATE := .MFEMUL_AUTH1 }, [.EmSendCmd s.rAUTH_AT])

/-- The rest of case `MFEMUL_WORK` after `if(len != 4) { .. break; }`: the check
of the block number and the commands of four bytes. -/
def mfWorkCmd (env : MfEnv) (exitAfterNReads : Nat) (s : MfSim) : MfSim × List MfSent :=
  if (s.receivedCmd 0 = 0x30 ∨ s.receivedCmd 0 = 0xA0 ∨ s.receivedCmd 0 = 0xC0
        ∨ s.receivedCmd 0 = 0xC1 ∨ s.receivedCmd 0 = 0xC2 ∨ s.receivedCmd 0 = 0xB0)
      ∧ s.receivedCmd 1 ≥ 16 * 4 then
    mfSend4bit env s env.CARD_NACK_NA
  else if (s.receivedCmd 0 = 0x30 ∨ s.receivedCmd 0 = 0xA0 ∨ s.receivedCmd 0 = 0xC0
        ∨ s.receivedCmd 0 = 0xC1 ∨ s.receivedCmd 0 = 0xC2 ∨ s.receivedCmd 0 = 0xB0)
      ∧ s.receivedCmd 1 / 4 ≠ s.cardAUTHSC then
    mfSend4bit env s env.CARD_NACK_NA
  else if s.receivedCmd 0 = 0x30 then
    -- read block
    let response := env.emlGetMem s.emul (s.receivedCmd 1) 1
    let response := AppendCrc14443a env.crcA (response ++ [0, 0]) 16
    let enc := env.mf_crypto1_encrypt s.pcs (response.take 18)
    let s := { s with pcs := enc.2.2 }
    let s := { s with numReads := (s.numReads + 1) % 2 ^ 32 }
    let s :=
      if exitAfterNReads > 0 ∧ s.numReads = exitAfterNReads then { s with finished := true }
      else s
    (s, [.EmSendCmdPar enc.1 enc.2.1])
  else if s.receivedCmd 0 = 0xA0 then
    -- write block
    let r := mfSend4bit env s env.CARD_ACK
    ({ r.1 with cardSTATE := .MFEMUL_WRITEBL2, cardWRBL := s.receivedCmd 1 }, r.2)
  else if s.receivedCmd 0 = 0xC0 ∨ s.receivedCmd 0 = 0xC1 ∨ s.receivedCmd 0 = 0xC2 then
    -- increment, decrement, restore
    if env.emlCheckValBl s.emul (s.receivedCmd 1) ≠ 0 then
      mfSend4bit env s env.CARD_NACK_NA
    else
      let r := mfSend4bit env s env.CARD_ACK
      let s1 := r.1
      let s1 := if s.receivedCmd 0 = 0xC1 then { s1 with cardSTATE := .MFEMUL_INTREG_INC } else s1
      let s1 := if s.receivedCmd 0 = 0xC0 then { s1 with cardSTATE := .MFEMUL_INTREG_DEC } else s1
      let s1 := if s.receivedCmd 0 = 0xC2 then { s1 with cardSTATE := .MFEMUL_INTREG_REST } else s1
      ({ s1 with cardWRBL := s.receivedCmd 1 }, r.2)
  else if s.receivedCmd 0 = 0xB0 then
    -- transfer
    let r := env.emlSetValBl s.emul s.cardINTREG s.cardINTBLOCK (s.receivedCmd 1)
    let s := { s with emul := r.2 }
    if r.1 ≠ 0 then mfSend4bit env s env.CARD_NACK_NA
    else mfSend4bit env s env.CARD_ACK
  else if s.receivedCmd 0 = 0x50 ∧ s.receivedCmd 1 = 0x00 then
    -- halt
    ({ s with cardSTATE := .MFEMUL_HALTED }, [])
  else if s.receivedCmd 0 = 0xe0 then
    -- RATS
    mfSend4bit env s env.CARD_NACK_NA
  else
    -- command not allowed
    mfSend4bit env s env.CARD_NACK_NA

/-- The case `MFEMUL_WORK` of the `switch` (also entered by the fall-through
from `MFEMUL_SELECT2`). -/
def mfWork (env : MfEnv) (flags : MfFlags) (exitAfterNReads : Nat) (s : MfSim) :
    MfSim × List MfSent :=
  if s.len = 0 then (s, [])
  else
    let encrypted_data : Bool := s.cardAUTHKEY ≠ 0xFF
    let s := if encrypted_data then mfDecrypt env s else s
    if s.len = 4 ∧ (s.receivedCmd 0 = 0x60 ∨ s.receivedCmd 0 = 0x61) then
      mfWorkAuth env flags encrypted_data s
    -- rule 13 of 7.5.3. in ISO 14443-4. chaining shall be continued
    else if s.len = 1 ∧ s.receivedCmd 0 = env.CARD_ACK then
      mfSend4bit env s env.CARD_NACK_NA
    -- rule 12 of 7.5.3. in ISO 14443-4. R(NAK) --> R(ACK)
    else if s.len = 1 ∧ s.receivedCmd 0 = env.CARD_NACK_NA then
      mfSend4bit env s env.CARD_ACK
    else if s.len ≠ 4 then (s, [])
    else mfWorkCmd env exitAfterNReads s

/-- The cases `MFEMUL_INTREG_INC`, `MFEMUL_INTREG_DEC` and `MFEMUL_INTREG_REST`
of the `switch`; `f` is what the case does to `cardINTREG`. -/
def mfIntReg (env : MfEnv) (s : MfSim) (f : Nat → Nat → Nat) : MfSim × List MfSent :=
  let s := mfDecrypt env s
  let s := mfCopyAns s
  let r := env.emlGetValBl s.emul s.cardINTREG s.cardINTBLOCK s.cardWRBL
  let s := { s with cardINTREG := r.2.1, cardINTBLOCK := r.2.2 }
  if r.1 ≠ 0 then
    let r := mfSend4bit env s env.CARD_NACK_NA
    (cardSTATE_TO_IDLE r.1, r.2)
  else
    ({ s with cardINTREG := f s.cardINTREG s.ans, cardSTATE := .MFEMUL_WORK }, [])

/-- The statement `switch (cardSTATE)` of the main loop of `Mifare1ksim`. -/
def mfSwitch (env : MfEnv) (flags : MfFlags) (exitAfterNReads : Nat) (s : MfSim) :
    MfSim × List MfSent :=
  match s.cardSTATE with
  | .MFEMUL_NOFIELD => (s, [])
  | .MFEMUL_HALTED => (s, [])
  | .MFEMUL_IDLE => (s, [])
  | .MFEMUL_SELECT1 =>
    -- select all - 0x93 0x20
    if s.len = 2 ∧ (s.receivedCmd 0 = ISO14443A_CMD_ANTICOLL_OR_SELECT
        ∧ s.receivedCmd 1 = 0x20) then
      (s, [.EmSendCmd s.rUIDBCC1])
    -- select card - 0x93 0x70 ...
    else if s.len = 9 ∧ (s.receivedCmd 0 = ISO14443A_CMD_ANTICOLL_OR_SELECT
        ∧ s.receivedCmd 1 = 0x70
        ∧ (memRead s.receivedCmd 6).drop 2 = s.rUIDBCC1.take 4) then
      if s.UID_LEN = 4 then ({ s with cardSTATE := .MFEMUL_WORK }, [.EmSendCmd s.rSAKfinal])
      else if s.UID_LEN = 7 then ({ s with cardSTATE := .MFEMUL_SELECT2 }, [.EmSendCmd s.rSAK1])
      else if s.UID_LEN = 10 then ({ s with cardSTATE := .MFEMUL_SELECT2 }, [.EmSendCmd s.rSAK1])
      else (s, [])
    else (cardSTATE_TO_IDLE s, [])
  | .MFEMUL_SELECT3 =>
    if s.len = 0 then (s, [])
    -- select all cl3 - 0x97 0x20
    else if s.len = 2 ∧ (s.receivedCmd 0 = ISO14443A_CMD_ANTICOLL_OR_SELECT_3
        ∧ s.receivedCmd 1 = 0x20) then
      (s, [.EmSendCmd s.rUIDBCC3])
    -- select card cl3 - 0x97 0x70
    else if s.len = 9 ∧ (s.receivedCmd 0 = ISO14443A_CMD_ANTICOLL_OR_SELECT_3
        ∧ s.receivedCmd 1 = 0x70
        ∧ (memRead s.receivedCmd 6).drop 2 = s.rUIDBCC3.take 4) then
      ({ s with cardSTATE := .MFEMUL_WORK }, [.EmSendCmd s.rSAKfinal])
    else (cardSTATE_TO_IDLE s, [])
  | .MFEMUL_AUTH1 => mfAuth1 env flags s
  | .MFEMUL_SELECT2 =>
    if s.len = 0 then (s, [])
    -- select all cl2 - 0x95 0x20
    else if s.len = 2 ∧ (s.receivedCmd 0 = ISO14443A_CMD_ANTICOLL_OR_SELECT_2
        ∧ s.receivedCmd 1 = 0x20) then
      (s, [.EmSendCmd s.rUIDBCC2])
    -- select cl2 card - 0x95 0x70 xxxxxxxxxxxx
    else if s.len = 9 ∧ (s.receivedCmd 0 = ISO14443A_CMD_ANTICOLL_OR_SELECT_2
        ∧ s.receivedCmd 1 = 0x70
        ∧ (memRead s.receivedCmd 6).drop 2 = s.rUIDBCC2.take 4) then
      if s.UID_LEN = 7 then ({ s with cardSTATE := .MFEMUL_WORK }, [.EmSendCmd s.rSAKfinal])
      else if s.UID_LEN = 10 then ({ s with cardSTATE := .MFEMUL_SELECT3 }, [.EmSendCmd s.rSAK1])
      else (s, [])
    -- i guess there is a command). go into the work state.
    else if s.len ≠ 4 then (s, [])
    else mfWork env flags exitAfterNReads { s with cardSTATE := .MFEMUL_WORK }
  | .MFEMUL_WORK => mfWork env flags exitAfterNReads s
  | .MFEMUL_WRITEBL2 =>
    if s.len = 18 then
      let s := mfDecrypt env s
      let s := { s with emul := env.emlSetMem s.emul (memRead s.receivedCmd 16) s.cardWRBL 1 }
      let r := mfSend4bit env s env.CARD_ACK
      ({ r.1 with cardSTATE := .MFEMUL_WORK }, r.2)
    else (cardSTATE_TO_IDLE s, [])
  | .MFEMUL_INTREG_INC => mfIntReg env s (fun reg ans => (reg + ans) % 2 ^ 32)
  | .MFEMUL_INTREG_DEC => mfIntReg env s (fun reg ans => (reg + 2 ^ 32 - ans % 2 ^ 32) % 2 ^ 32)
  | .MFEMUL_INTREG_REST => mfIntReg env s (fun reg _ => reg)

/-- The block `if (len == 1 && (.. REQA .. || .. WUPA)) { .. continue; }` of the
main loop of `Mifare1ksim`, taken when its condition holds. -/
def mfReqaWupa (env : MfEnv) (flags : MfFlags) (s : MfSim) : MfSim × List MfSent :=
  let sent := [MfSent.EmSendCmdEx s.rATQA (s.receivedCmd 0 = ISO14443A_CMD_WUPA)]
  let s := { s with cardSTATE := .MFEMUL_SELECT1 }
  -- init crypto block
  let s := { s with pcs := env.crypto1_destroy s.pcs, cardAUTHKEY := 0xff }
  let s :=
    if flags.FLAG_RANDOM_NONCE then
      { s with nonce := (env.prand s.rng).1 % 2 ^ 32, rng := (env.prand s.rng).2 }
    else s
  (s, sent)

/-- What one iteration of the main loop of `Mifare1ksim` is given: the value of
`AvgAdc(ADC_CHAN_HF)` (read in state `MFEMUL_NOFIELD` only), the value returned
by `EmGetCmd` and the frame it has stored in `receivedCmd` (when it returns
0; its length is `len`). -/
structure MfInput where
  avgAdc : Nat
  res : Nat
  frame : List Nat

/-- The variables after `EmGetCmd` has returned 0: the frame is in
`receivedCmd` (whose later bytes are left as they were) and `len` is its
length. -/
def mfReceive (s : MfSim) (frame : List Nat) : MfSim :=
  { s with receivedCmd := memWrite s.receivedCmd frame, len := frame.length }

/-- One iteration of the main loop of `Mifare1ksim`: the new values of the
variables and the frames sent. -/
def Mifare1ksim_step (env : MfEnv) (flags : MfFlags) (exitAfterNReads : Nat) (s : MfSim)
    (inp : MfInput) : MfSim × List MfSent :=
  -- find reader field
  let s :=
    if s.cardSTATE = .MFEMUL_NOFIELD then
      if (env.MAX_ADC_HF_VOLTAGE * inp.avgAdc) >>> 10 > env.MF_MINFIELDV then cardSTATE_TO_IDLE s
      else s
    else s
  if s.cardSTATE = .MFEMUL_NOFIELD then (s, [])
  -- Now, get data
  else if inp.res = 2 then ({ s with len := 0, cardSTATE := .MFEMUL_NOFIELD }, [])
  else if inp.res = 1 then ({ s with len := 0, stopped := true }, [])
  else
    let s := mfReceive s inp.frame
    -- REQ or WUP request in ANY state and WUP in HALTED state
    if s.len = 1 ∧ ((s.receivedCmd 0 = ISO14443A_CMD_REQA ∧ s.cardSTATE ≠ .MFEMUL_HALTED)
        ∨ s.receivedCmd 0 = ISO14443A_CMD_WUPA) then
      mfReqaWupa env flags s
    else mfSwitch env flags exitAfterNReads s

/-- The main loop of `Mifare1ksim` on a list of inputs, one per iteration, for
as long as the loop is not left: the final variables and all frames sent. -/
def Mifare1ksim_run (env : MfEnv) (flags : MfFlags) (exitAfterNReads : Nat) :
    MfSim → List MfInput → MfSim × List MfSent
  | s, [] => (s, [])
  | s, inp :: rest =>
    if s.finished ∨ s.stopped then (s, [])
    else
      let r := Mifare1ksim_step env flags exitAfterNReads s inp
      let r2 := Mifare1ksim_run env flags exitAfterNReads r.1 rest
      (r2.1, r.2 ++ r2.2)

/-! ## A concrete environment and concrete runs of the emulator -/

/-- An environment for evaluations whose outcome does not depend on the cipher:
the keystream is all zero (so that encryption and decryption leave the data as
they are), `prng_successor` is the identity, `crypto1_destroy` clears the
state, the emulator memory is read and written as plain bytes and every block
passes as a value block. -/
def envPlain : MfEnv where
  CARD_ACK := 0x0A
  CARD_NACK_NA := 0x04
  MF_MINFIELDV := 4000
  MAX_ADC_HF_VOLTAGE := 36300
  crypto1_create := fun _ key => ⟨key % 2 ^ 24, key / 2 ^ 24⟩
  crypto1_destroy := fun _ => ⟨0, 0⟩
  crypto1_word := fun s _ _ => (0, s)
  mf_crypto1_decrypt := fun s data => (data, s)
  mf_crypto1_encrypt := fun s data => (data, [], s)
  mf_crypto1_encrypt4bit := fun s v => (v, s)
  prng_successor := fun x _ => x
  prand := fun r => (r, r + 1)
  crcA := crcZero
  emlGetKey := fun _ _ _ => 0xFFFFFFFFFFFF
  emlGetMem := fun m blockNum blocksCount =>
    (List.range (16 * blocksCount)).map fun i => m (16 * blockNum + i)
  emlGetMemBt := fun m bytePtr byteCount => (List.range byteCount).map fun i => m (bytePtr + i)
  emlSetMem := fun m data blockNum blocksCount => fun i =>
    if 16 * blockNum ≤ i ∧ i < 16 * (blockNum + blocksCount) then data.getD (i - 16 * blockNum) 0
    else m i
  emlCheckValBl := fun _ _ => 0
  emlGetValBl := fun _ blReg blBlock _ => (0, blReg, blBlock)
  emlSetValBl := fun m _ _ _ => (0, m)

/-- The flags of a run with a 4-byte UID in `datain`. -/
def flags4B : MfFlags := ⟨false, true, false, false, false, false⟩

/-- The flags of a run with a 7-byte UID in `datain`. -/
def flags7B : MfFlags := ⟨false, false, true, false, false, false⟩

/-- An iteration in which `EmGetCmd` returns 0 with the given frame; the field
strength 512 is above the threshold. -/
def rx (frame : List Nat) : MfInput := ⟨512, 0, frame⟩

/-- An iteration in which `EmGetCmd` returns 2: the field is gone. -/
def fieldLost : MfInput := ⟨0, 2, []⟩

/-- The emulator with the 4-byte UID `DE AD BE AF` before its main loop. -/
def sim4B : MfSim := Mifare1ksim_init envPlain flags4B [0xDE, 0xAD, 0xBE, 0xAF] (fun _ => 0) 0

/-- The emulator with the 7-byte UID `04 51 F1 A2 B3 C4 D5` before its main
loop. -/
def sim7B : MfSim :=
  Mifare1ksim_init envPlain flags7B [0x04, 0x51, 0xF1, 0xA2, 0xB3, 0xC4, 0xD5] (fun _ => 0) 0


/-! ## Specification-side definitions for the emulator -/

/-- The reader nonce `nr` of a frame received in `MFEMUL_AUTH1`: its first four
bytes. -/
def auth1_nr (frame : List Nat) : Nat := bytes_to_num (frame.take 4) 4 % 2 ^ 32

/-- The reader answer `ar` of a frame received in `MFEMUL_AUTH1`: its bytes 4
to 7. -/
def auth1_ar (frame : List Nat) : Nat := bytes_to_num (frame.drop 4) 4 % 2 ^ 32

/-- The tag nonce `nt` in force when the reader answer is checked in
`MFEMUL_AUTH1`: the variable `nonce` after the collector of
`FLAG_NR_AR_ATTACK` has run (it changes `nonce` when it switches to its second
half); without that flag it is `nonce` as it was. -/
def auth1_nt (env : MfEnv) (flags : MfFlags) (s : MfSim) (frame : List Nat) : Nat :=
  (if flags.FLAG_NR_AR_ATTACK then
    mfCollect env flags (auth1_nr frame) (auth1_ar frame) ATTACK_KEY_COUNT 0 (mfReceive s frame)
   else mfReceive s frame).nonce

/-- The emulator with UID `DE AD BE AF` after WUPA: in `MFEMUL_SELECT1`. -/
def simSelect1 : MfSim := (Mifare1ksim_run envPlain flags4B 0 sim4B [rx [0x52]]).1

/-- The emulator with UID `DE AD BE AF` after WUPA, SELECT and the
authentication command `60 00`: in `MFEMUL_AUTH1`. -/
def simAuth1 : MfSim :=
  (Mifare1ksim_run envPlain flags4B 0 sim4B
    [rx [0x52], rx [0x93, 0x70, 0xDE, 0xAD, 0xBE, 0xAF, 0x62, 0, 0], rx [0x60, 0x00, 0, 0]]).1

/-- The emulator with UID `04 51 F1 A2 B3 C4 D5` after WUPA and the SELECT of
cascade level 1: in `MFEMUL_SELECT2`. -/
def simSelect2 : MfSim :=
  (Mifare1ksim_run envPlain flags7B 0 sim7B
    [rx [0x52], rx [0x93, 0x70, 0x88, 0x04, 0x51, 0xF1, 0x2C, 0, 0]]).1


/-- The frame is the SELECT_ALL (anticollision) command of the cascade level
with select code `code`: two bytes, `code 20`. -/
abbrev isSelectAll (code : Nat) (frame : List Nat) : Prop :=
  frame.length = 2 ∧ frame.getD 0 0 = code ∧ frame.getD 1 0 = 0x20

/-- The frame is the SELECT command of the cascade level with select code
`code` carrying the four UID bytes of `uid`: nine bytes, `code 70`, the four
bytes, and three more (BCC and CRC, which the emulator does not check). -/
abbrev isSelect (code : Nat) (uid : List Nat) (frame : List Nat) : Prop :=
  frame.length = 9 ∧ frame.getD 0 0 = code ∧ frame.getD 1 0 = 0x70
    ∧ (frame.take 6).drop 2 = uid.take 4


/-- An iteration in which the one-byte frame REQA is received. -/
def rxReqa : MfInput := rx [0x26]

/-- An iteration in which a reader answer `{nr, ar}` of eight bytes is
received. -/
def rxNrAr : MfInput := rx [0, 0, 0, 0, 0x01, 0x02, 0x03, 0x04]

/-- An iteration in which the SELECT_ALL of cascade level 2 is received. -/
def rxSelectAll2 : MfInput := rx [0x95, 0x20]


/-! ## Reader timing: `iso14a_set_ATS_timeout` and `TransmitFor14443a` -/

/-- `iso14a_set_ATS_timeout(ats)`: the new value of `iso14a_timeout` (set through
`iso14a_set_timeout`), given its old value.  `tb1` and `fwi` are `uint8_t`,
`fwt` is computed in `int` and stored in a `uint32_t`. -/
def iso14a_set_ATS_timeout (ats : Mem) (iso14a_timeout : Nat) : Nat :=
  if ats 0 > 1 then
    if (ats 1 &&& 0x20) = 0x20 then
      let tb1 := (if (ats 1 &&& 0x10) = 0x10 then ats 3 else ats 2) % 256
      let fwi := ((tb1 &&& 0xf0) >>> 4) % 256
      let fwt := (256 * 16 * (1 <<< fwi)) % 2 ^ 32
      fwt / (8 * 16)
    else iso14a_timeout
  else iso14a_timeout

/-- `REQUEST_GUARD_TIME` -/
abbrev REQUEST_GUARD_TIME : Nat := 7000 / 16 + 1

/-- The global variables that `TransmitFor14443a` reads and writes. -/
structure TxState where
  ToSend : List Nat
  NextTransferTime : Nat
  LastTimeProxToAirStart : Nat

/-- Modelled from the spec: the macro `MAX` of `common.h` (not among the
sources), the larger of its two arguments. -/
def MAX (a b : Nat) : Nat := if a > b then a else b

/-- `TransmitFor14443a(cmd, len, timing)` with `cmd = ToSend`: the new global
variables, the new value of `*timing` (`none` for a `NULL` pointer) and the
bytes written to the serial port.  `now` is the value of `GetCountSspClk()`
when the start of the transfer is computed; the waiting loops are not
modelled.  The transmit loop sends `cmd[0]` before it tests `len`. -/
def TransmitFor14443a (st : TxState) (len : Nat) (timing : Option Nat) (now : Nat) :
    TxState × Option Nat × List Nat :=
  let r : TxState × Option Nat :=
    match timing with
    | some t =>
      let sr : TxState × Nat :=
        if t = 0 then (st, ((now + 8) % 2 ^ 32) &&& 0xfffffff8)
        else ({ st with ToSend := PrepareDelayedTransfer st.ToSend (t &&& 0x00000007) }, t)
      ({ sr.1 with LastTimeProxToAirStart := sr.2 }, some sr.2)
    | none =>
      let ThisTransferTime :=
        ((MAX st.NextTransferTime now &&& 0xfffffff8) + 8) % 2 ^ 32
      ({ st with LastTimeProxToAirStart := ThisTransferTime }, none)
  let sent := (List.range (if len = 0 then 1 else len)).map fun c => r.1.ToSend.getD c 0
  ({ r.1 with
     NextTransferTime :=
       MAX r.1.NextTransferTime ((r.1.LastTimeProxToAirStart + REQUEST_GUARD_TIME) % 2 ^ 32) },
   r.2, sent)

/-- Rounding up to a multiple of 8. -/
def roundUp8 (x : Nat) : Nat := (x + 7) / 8 * 8

/-- The timing variables before a first transfer, with an empty frame in
`ToSend`. -/
def txFirst : TxState := ⟨[SEC_Z, SEC_Z, SEC_Y], 16, 0⟩

/-- The timing variables after a first transfer started with the clock at 5. -/
def txSecond : TxState := (TransmitFor14443a txFirst 3 none 5).1


/-- The identity of the emulated card: ATQA, the UID fragments with their BCC
of the three cascade levels, the two SAK frames, the length of the UID and
`cuid`. -/
def mfIdent (s : MfSim) : List Nat × List Nat × List Nat × List Nat × List Nat × List Nat
    × Nat × Nat :=
  (s.rATQA, s.rUIDBCC1, s.rUIDBCC2, s.rUIDBCC3, s.rSAKfinal, s.rSAK1, s.UID_LEN, s.cuid)


/-- The variables of `Mifare1ksim` with the argument `datain` after its main
loop has run on the given inputs. -/
def Mifare1ksim_after (env : MfEnv) (flags : MfFlags) (exitAfterNReads : Nat)
    (datain : List Nat) (emul : Mem) (rng : Nat) (inputs : List MfInput) : MfSim :=
  (Mifare1ksim_run env flags exitAfterNReads (Mifare1ksim_init env flags datain emul rng)
    inputs).1

/-- The inputs of two iterations: WUPA, then the SELECT of cascade level 1 for
the UID `04 51 F1 A2 B3 C4 D5`. -/
def simInputs2 : List MfInput :=
  [rx [0x52], rx [0x93, 0x70, 0x88, 0x04, 0x51, 0xF1, 0x2C, 0, 0]]

/-! ## Reader: `iso14443a_select_card` -/

/-- Modelled from the spec: the type `iso14a_card_select_t` of `mifare.h` (not
among the sources), the card record filled by `iso14443a_select_card`:
`uid[10]`, `uidlen`, `atqa[2]`, `sak`, `ats_len` and `ats[256]`, all of type
`byte_t`.  `uid` is kept as a memory so that a store behind its tenth byte
shows as a store at an index of 10 or more. -/
structure iso14a_card_select_t where
  uid : Mem
  uidlen : Nat
  atqa : List Nat
  sak : Nat
  ats_len : Nat
  ats : List Nat

/-- Modelled from the spec: `sizeof(p_hi14a_card->ats)`, the size of the array
`ats` of `iso14a_card_select_t` in `mifare.h` (not among the sources). -/
abbrev ATS_SIZE : Nat := 256

/-- What the tag and the demodulator deliver to one call of `ReaderReceive` or
`ReaderReceiveOffset`: the bytes stored in the receive buffer (`Demod.len` is
their number) and `Demod.collisionPos`. -/
structure TagAnswer where
  data : List Nat
  collisionPos : Nat

/-- The variables of `iso14443a_select_card` and of its surroundings: the
receive buffer `resp`, the answers the tag is still going to give, the frames
handed to the transmit functions with their numbers of bits, `Demod.collisionPos`
and `Demod.len`, what the three pointer arguments point to (`none` for a null
pointer), the locals `sel_all`, `sel_uid`, `uid_resp`, `uid_resp_len`, `sak`
and `cascade_level`, and the globals `iso14_pcb_blocknum` and
`iso14a_timeout`. -/
structure SelState where
  resp : Mem
  answers : List TagAnswer
  sent : List (List Nat × Nat)
  collisionPos : Nat
  demodLen : Nat
  uid_ptr : Option Mem
  card : Option iso14a_card_select_t
  cuid : Option Nat
  sel_all : List Nat
  sel_uid : Mem
  uid_resp : Mem
  uid_resp_len : Nat
  sak : Nat
  cascade_level : Nat
  iso14_pcb_blocknum : Nat
  iso14a_timeout : Nat

/-- How a part of `iso14443a_select_card` ends: execution goes on with the
variables `a`, or the function returns 0 with the variables `st`. -/
inductive SelOutcome (α : Type) where
  | next (a : α)
  | return0 (st : SelState)

/-- `memset(m, 0, n)`. -/
def memZero (m : Mem) (n : Nat) : Mem := fun i => if i < n then 0 else m i

/-- `memcpy(m + off, xs, ..)`: the buffer `m` after the bytes `xs` have been
stored from index `off`. -/
def memcpyAt (m : Mem) (off : Nat) (xs : List Nat) : Mem :=
  fun i => if off ≤ i ∧ i < off + xs.length then xs.getD (i - off) 0 else m i

/-- `ReaderTransmitBits(frame, bits, NULL)` and `ReaderTransmitBitsPar(frame,
bits, NULL, NULL)` as seen by the selection: the frame goes out with `bits`
bits. -/
def ReaderTransmitBits (st : SelState) (frame : List Nat) (bits : Nat) : SelState :=
  { st with sent := st.sent ++ [(frame, bits)] }

/-- `ReaderTransmit(frame, len, NULL)`: `len * 8` bits (`uint16_t`). -/
def ReaderTransmit (st : SelState) (frame : List Nat) (len : Nat) : SelState :=
  ReaderTransmitBits st frame (len * 8 % 2 ^ 16)

/-- `ReaderReceive(resp, resp_par)` and `ReaderReceiveOffset(resp, offset,
resp_par)`: the value returned (`Demod.len`, or 0 when no answer comes) and the
variables afterwards. -/
def ReaderReceive (st : SelState) : Nat × SelState :=
  match st.answers with
  | [] => (0, { st with collisionPos := 0, demodLen := 0 })
  | a :: rest =>
    (a.data.length,
     { st with resp := memWrite st.resp a.data, answers := rest,
               collisionPos := a.collisionPos, demodLen := a.data.length })

/-- The loop `for (uint16_t i = start; i < stop; i++, uid_resp_bits++)` that
adds the bits `start .. stop - 1` of `resp` to `uid_resp` (with `stop` at most
`2 ^ 16 - 1`, so that `i` does not wrap): the new `uid_resp` and
`uid_resp_bits`. -/
def addUidBits (resp : Mem) (start stop : Nat) (uid_resp : Mem) (uid_resp_bits : Nat) :
    Mem × Nat :=
  (List.range' start (stop - start)).foldl
    (fun (p : Mem × Nat) i =>
      let UIDbit := (resp (i / 8) >>> (i % 8)) &&& 0x01
      (memSet p.1 (p.2 / 8) ((p.1 (p.2 / 8) ||| (UIDbit <<< (p.2 % 8))) % 256),
       (p.2 + 1) % 2 ^ 16))
    (uid_resp, uid_resp_bits)

/-- The anti-collision loop `while (Demod.collisionPos) { .. }` with the
locals `uid_resp_bits` and `collision_answer_offset`.  The first argument
bounds the number of iterations; `none` says that the bound was reached. -/
def selCollision : Nat → SelState → Nat → Nat → Option (SelOutcome (SelState × Nat × Nat))
  | 0, _, _, _ => none
  | fuel + 1, st, uid_resp_bits, collision_answer_offset =>
    if st.collisionPos = 0 then some (.next (st, uid_resp_bits, collision_answer_offset))
    else
      -- add valid UID bits before collision point
      let r := addUidBits st.resp collision_answer_offset st.collisionPos st.uid_resp
        uid_resp_bits
      -- next time select the card(s) with a 1 in the collision position
      let uid_resp := memSet r.1 (r.2 / 8) ((r.1 (r.2 / 8) ||| (1 <<< (r.2 % 8))) % 256)
      let uid_resp_bits := (r.2 + 1) % 2 ^ 16
      -- construct anticollosion command
      let sel_uid :=
        memSet st.sel_uid 1 ((((2 + uid_resp_bits / 8) <<< 4) ||| (uid_resp_bits &&& 0x07)) % 256)
      let sel_uid :=
        (List.range (uid_resp_bits / 8 + 1)).foldl (fun m i => memSet m (2 + i) (uid_resp i))
          sel_uid
      let collision_answer_offset := uid_resp_bits % 8
      let st := { st with uid_resp := uid_resp, sel_uid := sel_uid }
      let st := ReaderTransmitBits st (memRead sel_uid 9) ((16 + uid_resp_bits) % 2 ^ 16)
      let r := ReaderReceive st
      if r.1 = 0 then some (.return0 r.2)
      else selCollision fuel r.2 uid_resp_bits collision_answer_offset

/-- The first part of the body of the loop over the cascade levels: `uid_resp`
is filled, by SELECT_ALL and the anti-collision when `anticollision` is set and
from `uid_ptr` otherwise, and `uid_resp_len = 4`.  `none` says that the bound
on the iterations of the anti-collision loop was reached. -/
def selUidResp (anticollision : Bool) (num_cascades : Nat) (fuel : Nat) (st : SelState) :
    Option (SelOutcome SelState) :=
  if anticollision then
    -- SELECT_ALL
    let st := ReaderTransmit st st.sel_all 2
    let r := ReaderReceive st
    if r.1 = 0 then some (.return0 r.2)
    else
      let st := r.2
      if st.collisionPos ≠ 0 then
        -- we had a collision and need to construct the UID bit by bit
        let st := { st with uid_resp := memZero st.uid_resp 4 }
        match selCollision fuel st 0 0 with
        | none => none
        | some (.return0 st) => some (.return0 st)
        | some (.next (st, uid_resp_bits, collision_answer_offset)) =>
          -- finally, add the last bits and BCC of the UID
          let r := addUidBits st.resp collision_answer_offset ((st.demodLen - 1) * 8) st.uid_resp
            uid_resp_bits
          some (.next { st with uid_resp := r.1, uid_resp_len := 4 })
      else
        -- no collision, use the response to SELECT_ALL as current uid
        some (.next { st with
          uid_resp := memWrite st.uid_resp (memRead st.resp 4)
          uid_resp_len := 4 })
  else
    let uid := st.uid_ptr.getD (fun _ => 0)
    if (st.cascade_level : Int) < (num_cascades : Int) - 1 then
      some (.next { st with
        uid_resp := memWrite st.uid_resp
          [0x88, uid (st.cascade_level * 3), uid (st.cascade_level * 3 + 1),
            uid (st.cascade_level * 3 + 2)]
        uid_resp_len := 4 })
    else
      some (.next { st with
        uid_resp := memWrite st.uid_resp
          [uid (st.cascade_level * 3), uid (st.cascade_level * 3 + 1),
            uid (st.cascade_level * 3 + 2), uid (st.cascade_level * 3 + 3)]
        uid_resp_len := 4 })

/-- The second part of the body of the loop over the cascade levels, up to the
transmission of the SELECT command: the crypto UID and the command with BCC
and CRC. -/
def selCommand (crcA : List Nat → Nat × Nat) (st : SelState) : SelState :=
  -- calculate crypto UID. Always use last 4 Bytes.
  let st := { st with cuid := st.cuid.map fun _ => bytes_to_num (memRead st.uid_resp 4) 4 % 2 ^ 32 }
  -- Construct SELECT UID command
  let sel_uid := memSet st.sel_uid 1 0x70
  let sel_uid := memcpyAt sel_uid 2 (memRead st.uid_resp 4)
  let sel_uid := memSet sel_uid 6 (sel_uid 2 ^^^ sel_uid 3 ^^^ sel_uid 4 ^^^ sel_uid 5)
  let sel_uid := memWrite sel_uid (AppendCrc14443a crcA (memRead sel_uid 9) 7)
  ReaderTransmit { st with sel_uid := sel_uid } (memRead sel_uid 9) 9

/-- The end of the body of the loop over the cascade levels, after the SAK has
been received in `resp`: `sak = resp[0]`, the removal of the cascade tag from
`uid_resp` and the stores of the UID bytes of this level. -/
def selExpose (anticollision : Bool) (st : SelState) : SelState :=
  let st := { st with sak := st.resp 0 }
  -- Test if more parts of the uid are coming
  let st :=
    if st.sak &&& 0x04 ≠ 0 then
      -- Remove first byte, 0x88 is not an UID byte
      { st with
        uid_resp := memWrite st.uid_resp [st.uid_resp 1, st.uid_resp 2, st.uid_resp 3]
        uid_resp_len := 3 }
    else st
  let st :=
    if anticollision then
      { st with uid_ptr := st.uid_ptr.map fun m =>
          memcpyAt m (st.cascade_level * 3) (memRead st.uid_resp st.uid_resp_len) }
    else st
  { st with card := st.card.map fun (c : iso14a_card_select_t) =>
    { c with uid := memcpyAt c.uid (st.cascade_level * 3) (memRead st.uid_resp st.uid_resp_len)
             uidlen := (c.uidlen + st.uid_resp_len) % 256 } }

/-- The second part of the body of the loop over the cascade levels: the SELECT
command, the SAK and the stores of the UID bytes of this level. -/
def selSelect (crcA : List Nat → Nat × Nat) (anticollision : Bool) (st : SelState) :
    SelOutcome SelState :=
  let st := selCommand crcA st
  -- Receive the SAK
  let r := ReaderReceive st
  if r.1 = 0 then .return0 r.2
  else .next (selExpose anticollision r.2)

/-- The loop `for(; sak & 0x04; cascade_level++)` over the cascade levels.  The
first argument bounds the number of iterations (of this loop and of the
anti-collision loop); `none` says that the bound was reached. -/
def selCascade (crcA : List Nat → Nat × Nat) (anticollision : Bool) (num_cascades : Nat) :
    Nat → SelState → Option (SelOutcome SelState)
  | 0, _ => none
  | fuel + 1, st =>
    if st.sak &&& 0x04 = 0 then some (.next st)
    else
      -- SELECT_* (L1: 0x93, L2: 0x95, L3: 0x97)
      let code := (0x93 + st.cascade_level * 2) % 256
      let st := { st with sel_uid := memSet st.sel_uid 0 code, sel_all := st.sel_all.set 0 code }
      match selUidResp anticollision num_cascades fuel st with
      | none => none
      | some (.return0 st) => some (.return0 st)
      | some (.next st) =>
        match selSelect crcA anticollision st with
        | .return0 st => some (.return0 st)
        | .next st =>
          selCascade crcA anticollision num_cascades fuel
            { st with cascade_level := st.cascade_level + 1 }

/-- The code of `iso14443a_select_card` after the loop over the cascade levels:
the value returned and the variables. -/
def selFinish (crcA : List Nat → Nat × Nat) (st : SelState) : Nat × SelState :=
  let st := { st with card := st.card.map fun (c : iso14a_card_select_t) => { c with sak := st.sak, ats_len := 0 } }
  -- non iso14443a compliant tag
  if st.sak &&& 0x20 = 0 then (2, st)
  else
    -- Request for answer to select
    let rats := AppendCrc14443a crcA [0xE0, 0x80, 0x00, 0x00] 2
    let st := ReaderTransmit st rats 4
    let r := ReaderReceive st
    if r.1 = 0 then (0, r.2)
    else
      let st := r.2
      let st := { st with card := st.card.map fun (c : iso14a_card_select_t) =>
        { c with ats := memRead st.resp ATS_SIZE, ats_len := r.1 % 256 } }
      -- reset the PCB block number
      let st := { st with iso14_pcb_blocknum := 0 }
      -- set default timeout based on ATS
      let st := { st with iso14a_timeout := iso14a_set_ATS_timeout st.resp st.iso14a_timeout }
      (1, st)

/-- The variables of `iso14443a_select_card` at its entry: the arguments, the
initialised locals, the uninitialised buffer `resp`, the answers the tag is
going to give and the two globals. -/
def selInit (uid_ptr : Option Mem) (p_hi14a_card : Option iso14a_card_select_t)
    (cuid_ptr : Option Nat) (resp : Mem) (answers : List TagAnswer)
    (iso14_pcb_blocknum iso14a_timeout : Nat) : SelState :=
  { resp := resp, answers := answers, sent := [], collisionPos := 0, demodLen := 0,
    uid_ptr := uid_ptr, card := p_hi14a_card, cuid := cuid_ptr,
    sel_all := [0x93, 0x20],
    sel_uid := memWrite (fun _ => 0) [0x93, 0x70, 0x00, 0x00, 0x00, 0x00, 0x00, 0x00, 0x00],
    uid_resp := fun _ => 0, uid_resp_len := 0,
    sak := 0x04, cascade_level := 0,
    iso14_pcb_blocknum := iso14_pcb_blocknum, iso14a_timeout := iso14a_timeout }

/-- `iso14443a_select_card(uid_ptr, p_hi14a_card, cuid_ptr, anticollision,
num_cascades)` started on the variables `st0` (see `selInit`): the value
returned and the variables at the return.  The first argument bounds the number
of loop iterations; the result is `none` when the bound is reached. -/
def selRun (crcA : List Nat → Nat × Nat) (anticollision : Bool) (num_cascades : Nat)
    (fuel : Nat) (st0 : SelState) : Option (Nat × SelState) :=
  -- Broadcast for a card, WUPA (0x52) will force response from all cards in the field
  let st := ReaderTransmitBits st0 [0x52] 7
  -- Receive the ATQA
  let r := ReaderReceive st
  if r.1 = 0 then some (0, r.2)
  else
    let st := r.2
    let st := { st with card := st.card.map fun (c : iso14a_card_select_t) =>
      { c with atqa := memRead st.resp 2, uidlen := 0, uid := memZero c.uid 10 } }
    let st :=
      if anticollision then { st with uid_ptr := st.uid_ptr.map fun m => memZero m 10 }
      else st
    -- check for proprietary anticollision
    if st.resp 0 &&& 0x1F = 0 then some (3, st)
    else
      match selCascade crcA anticollision num_cascades fuel st with
      | none => none
      | some (.return0 st) => some (0, st)
      | some (.next st) => some (selFinish crcA st)

/-- `iso14443a_select_card(uid_ptr, p_hi14a_card, cuid_ptr, anticollision,
num_cascades)` with a tag that gives the answers `answers` and then none: each
loop iteration takes one answer or ends the function, so that the bound of one
more than their number is not reached (`iso14443a_select_card_total`). -/
def iso14443a_select_card (crcA : List Nat → Nat × Nat) (uid_ptr : Option Mem)
    (p_hi14a_card : Option iso14a_card_select_t) (cuid_ptr : Option Nat) (anticollision : Bool)
    (num_cascades : Nat) (resp : Mem) (answers : List TagAnswer)
    (iso14_pcb_blocknum iso14a_timeout : Nat) : Option (Nat × SelState) :=
  selRun crcA anticollision num_cascades (answers.length + 1)
    (selInit uid_ptr p_hi14a_card cuid_ptr resp answers iso14_pcb_blocknum iso14a_timeout)

/-- A card record before the selection, all zero. -/
def cardBlank : iso14a_card_select_t := ⟨fun _ => 0, 0, [0, 0], 0, 0, []⟩

/-- The variables of `iso14443a_select_card` at its entry with a blank card
record, no other pointer and a tag that gives no answer. -/
def selBlank : SelState := selInit none (some cardBlank) none (fun _ => 0) [] 0 0

/-- An ATQA `04 00`. -/
def atqaAnswer : TagAnswer := ⟨[0x04, 0x00], 0⟩

/-- An ATS of five bytes. -/
def atsAnswer : TagAnswer := ⟨[0x05, 0x78, 0x80, 0x70, 0x02], 0⟩

/-- A SAK `08` with its CRC: bit 2 is clear, the UID is complete. -/
def sakAnswer : TagAnswer := ⟨[0x08, 0xb6, 0xdd], 0⟩

/-- The variables of `iso14443a_select_card` on cascade level 1 when the
SELECT command is about to be built: `uid_resp` holds `DE AD BE AF` and the tag
is going to answer with the SAK `08`. -/
def selAtSelect : SelState :=
  { selBlank with
    answers := [sakAnswer]
    uid_resp := memWrite (fun _ => 0) [0xDE, 0xAD, 0xBE, 0xAF]
    uid_resp_len := 4 }

/-- A tag that answers every SELECT_ALL with `88 01 02 03 88` and every SELECT
with the SAK `04` (bit 2 set: UID not complete), on four cascade levels, and
then falls silent. -/
def tagStuck : List TagAnswer :=
  [⟨[0x44, 0x00], 0⟩,
   ⟨[0x88, 0x01, 0x02, 0x03, 0x88], 0⟩, ⟨[0x04, 0xda, 0x17], 0⟩,
   ⟨[0x88, 0x01, 0x02, 0x03, 0x88], 0⟩, ⟨[0x04, 0xda, 0x17], 0⟩,
   ⟨[0x88, 0x01, 0x02, 0x03, 0x88], 0⟩, ⟨[0x04, 0xda, 0x17], 0⟩,
   ⟨[0x88, 0x01, 0x02, 0x03, 0x88], 0⟩, ⟨[0x04, 0xda, 0x17], 0⟩]

/-! ## The nonce collector of `Mifare1ksim` over a series of AUTH1 visits -/

/-- The variables of `Mifare1ksim` when the answer of the reader to the card
nonce arrives after an authentication command for the sector `sector` with the
key type `keytype`: that command has set `cardAUTHSC`, `cardAUTHKEY` and
`cardSTATE = MFEMUL_AUTH1` (what else it changes, the cipher state, `ans` and
`rAUTH_AT`, is not read by the collector). -/
def atAuth1 (s : MfSim) (sector keytype : Nat) : MfSim :=
  { s with cardSTATE := .MFEMUL_AUTH1, cardAUTHSC := sector, cardAUTHKEY := keytype }

/-- An AUTH1 visit: the iteration of the main loop in state `MFEMUL_AUTH1` in
which the frame `frame` (the reader's `nr` and `ar`) is received, for an
authentication to `sector` with `keytype`. -/
def auth1Visit (env : MfEnv) (flags : MfFlags) (exitAfterNReads : Nat) (s : MfSim)
    (sector keytype : Nat) (frame : List Nat) : MfSim :=
  (Mifare1ksim_step env flags exitAfterNReads (atAuth1 s sector keytype) ⟨0, 0, frame⟩).1

/-- A series of AUTH1 visits, each given by sector, key type and frame. -/
def auth1Run (env : MfEnv) (flags : MfFlags) (exitAfterNReads : Nat) :
    MfSim → List (Nat × Nat × List Nat) → MfSim
  | s, [] => s
  | s, v :: rest =>
    auth1Run env flags exitAfterNReads
      (auth1Visit env flags exitAfterNReads s v.1 v.2.1 v.2.2) rest

/-- The visits number `t`, .., `t + m - 1` of a series in which visit `u` is
made for the pair `(sec (u % 7), key (u % 7))` with the frame `frames u`: the
seven pairs are visited in turn. -/
def roundVisits (sec key : Nat → Nat) (frames : Nat → List Nat) (t m : Nat) :
    List (Nat × Nat × List Nat) :=
  (List.range' t m).map fun u => (sec (u % 7), key (u % 7), frames u)

/-- The body of the loop of the collector for the slot `i` that takes the
nonce: what `mfCollect` does when its first condition holds. -/
def mfCollectSlot (env : MfEnv) (flags : MfFlags) (nr ar i : Nat) (s : MfSim) : MfSim :=
  if s.ar_nr_collected.getD (i + s.mM) 0 < 2 then
    if (s.ar_nr_resp.getD (s.ar_nr_collected.getD (i + s.mM) 0) nonces_zero).ar ≠ ar then
      if s.ar_nr_collected.getD (i + s.mM) 0 = 0 then
        -- first nonce collect
        let r1 := nonces_first (s.ar_nr_resp.getD (i + s.mM) nonces_zero)
          s.cuid s.cardAUTHSC s.cardAUTHKEY s.nonce nr ar
        let s := { s with ar_nr_resp := s.ar_nr_resp.set (i + s.mM) r1 }
        let s := { s with nonce1_count := (s.nonce1_count + 1) % 256 }
        -- add this nonce to first moebius nonce
        let r2 := nonces_first (s.ar_nr_resp.getD (i + ATTACK_KEY_COUNT) nonces_zero)
          s.cuid s.cardAUTHSC s.cardAUTHKEY s.nonce nr ar
        let s := { s with ar_nr_resp := s.ar_nr_resp.set (i + ATTACK_KEY_COUNT) r2 }
        let s := { s with ar_nr_collected := incr8 s.ar_nr_collected (i + ATTACK_KEY_COUNT) }
        { s with ar_nr_collected := incr8 s.ar_nr_collected (i + s.mM) }
      else
        -- second nonce collect (std and moebius)
        let r1 := nonces_second (s.ar_nr_resp.getD (i + s.mM) nonces_zero) s.nonce nr ar
        let s := { s with ar_nr_resp := s.ar_nr_resp.set (i + s.mM) r1 }
        if ¬ s.gettingMoebius then
          let s := { s with nonce2_count := (s.nonce2_count + 1) % 256 }
          -- check if this was the last second nonce we need for std attack
          if s.nonce2_count = s.nonce1_count then
            -- done collecting std test switch to moebius
            let s := { s with ar_nr_collected := incr8 s.ar_nr_collected (i + s.mM) }
            let s := { s with gettingMoebius := true, mM := ATTACK_KEY_COUNT }
            if flags.FLAG_RANDOM_NONCE then
              { s with nonce := (env.prand s.rng).1 % 2 ^ 32, rng := (env.prand s.rng).2 }
            else { s with nonce := (s.nonce * 7) % 2 ^ 32 }
          else { s with ar_nr_collected := incr8 s.ar_nr_collected (i + s.mM) }
        else
          let s := { s with moebius_n_count := (s.moebius_n_count + 1) % 256 }
          let s := if s.nonce1_count = s.moebius_n_count then { s with finished := true } else s
          { s with ar_nr_collected := incr8 s.ar_nr_collected (i + s.mM) }
    else s
  else s

/-- The variables of the collector: `ar_nr_resp`, `ar_nr_collected`, the three
counters, `gettingMoebius`, `mM` and `finished`. -/
structure Collector where
  resp : List nonces_t
  collected : List Nat
  n1 : Nat
  n2 : Nat
  nm : Nat
  gm : Bool
  mM : Nat
  fin : Bool

/-- The variables of the collector in the variables of `Mifare1ksim`. -/
def mfColl (s : MfSim) : Collector :=
  ⟨s.ar_nr_resp, s.ar_nr_collected, s.nonce1_count, s.nonce2_count, s.moebius_n_count,
    s.gettingMoebius, s.mM, s.finished⟩

/-- A description of the collector: both arrays have their 14 entries, slot `i`
has collected `cnt i` nonces, the slots `i` and `i + 7` with `i < filled` carry
the sector and key type of pair `i`, the `ar` fields of the slots 0 and 1 are
`a0` and `a1`, and the counters, `gettingMoebius`, `mM` and `finished` have the
given values. -/
def CollInv (sec key : Nat → Nat) (c : Collector) (cnt : Nat → Nat) (filled a0 a1 n1 n2 nm : Nat)
    (gm fin : Bool) : Prop :=
  c.collected.length = 14 ∧ c.resp.length = 14
    ∧ (∀ i, i < 14 → c.collected.getD i 0 = cnt i)
    ∧ (∀ i, i < filled →
        (c.resp.getD i nonces_zero).sector = sec i ∧ (c.resp.getD i nonces_zero).keytype = key i
          ∧ (c.resp.getD (i + 7) nonces_zero).sector = sec i
          ∧ (c.resp.getD (i + 7) nonces_zero).keytype = key i)
    ∧ (c.resp.getD 0 nonces_zero).ar = a0 ∧ (c.resp.getD 1 nonces_zero).ar = a1
    ∧ c.n1 = n1 ∧ c.n2 = n2 ∧ c.nm = nm
    ∧ c.gm = gm ∧ c.mM = (if gm then 7 else 0) ∧ c.fin = fin

/-- Flags of a run with a 4-byte UID in `datain` and the collection of `nr` and
`ar` (`FLAG_NR_AR_ATTACK`). -/
def flagsAttack : MfFlags := ⟨false, true, false, false, true, false⟩

/-- The frame of visit `t` in the evaluations: `nr = 0` and `ar = t + 1`. -/
def visitFrame (t : Nat) : List Nat := [0, 0, 0, 0, 0, 0, 0, t + 1]

/-- The emulator with UID `DE AD BE AF` and `FLAG_NR_AR_ATTACK` before its main
loop. -/
def attackSim : MfSim :=
  Mifare1ksim_init envPlain flagsAttack [0xDE, 0xAD, 0xBE, 0xAF] (fun _ => 0) 0

/-- Fourteen AUTH1 visits for the seven pairs (sector `0 .. 6`, key A), with
`ar = 1, .., 14`: first nonces for the sectors 0, 1, 2, second nonces for 0 and
1, a third visit for sector 0, the second nonce for sector 2 (seven visits, the
last of which switches to the Moebius half), then the sectors 3, 4, 5, 6, 0, 1
and 2. -/
def visitsMixed : List (Nat × Nat × List Nat) :=
  [(0, 0, visitFrame 0), (1, 0, visitFrame 1), (2, 0, visitFrame 2), (0, 0, visitFrame 3),
   (1, 0, visitFrame 4), (0, 0, visitFrame 5), (2, 0, visitFrame 6),
   (3, 0, visitFrame 7), (4, 0, visitFrame 8), (5, 0, visitFrame 9), (6, 0, visitFrame 10),
   (0, 0, visitFrame 11), (1, 0, visitFrame 12), (2, 0, visitFrame 13)]

/-- The inputs of the main loop for two AUTH1 visits of a reader that does not
know the key: WUPA, SELECT, the authentication command for sector 0 (block 0)
with key A and the answer `visitFrame 0`, then the same for sector 1 (block 4)
with `visitFrame 1`. -/
def attackInputs : List MfInput :=
  [rx [0x52], rx [0x93, 0x70, 0xDE, 0xAD, 0xBE, 0xAF, 0x62, 0, 0], rx [0x60, 0x00, 0, 0],
   rx (visitFrame 0),
   rx [0x52], rx [0x93, 0x70, 0xDE, 0xAD, 0xBE, 0xAF, 0x62, 0, 0], rx [0x60, 0x04, 0, 0],
   rx (visitFrame 1)]

/-! ## `dist_nt` -/

/-- The loop `for (i = 1; i < 32768; i++)` of `dist_nt` with `n` iterations
left, at the loop index `i` and the values `nttmp1`, `nttmp2`; when the loop
ends the function returns `-99999`.  `prng_successor` (of `crapto1.c`, not
among the sources) is a parameter; its result is stored in a `uint32_t`. -/
def dist_nt_loop (prng_successor : Nat → Nat → Nat) (nt1 nt2 : Nat) :
    Nat → Nat → Nat → Nat → Int
  | 0, _, _, _ => -99999
  | n + 1, i, nttmp1, nttmp2 =>
    let nttmp1 := prng_successor nttmp1 1 % 2 ^ 32
    if nttmp1 = nt2 then (i : Int)
    else
      let nttmp2 := prng_successor nttmp2 1 % 2 ^ 32
      if nttmp2 = nt1 then -(i : Int)
      else dist_nt_loop prng_successor nt1 nt2 n (i + 1) nttmp1 nttmp2

/-- `dist_nt(nt1, nt2)` -/
def dist_nt (prng_successor : Nat → Nat → Nat) (nt1 nt2 : Nat) : Int :=
  if nt1 = nt2 then 0 else dist_nt_loop prng_successor nt1 nt2 32767 1 nt1 nt2

/-- One step of the generator as `dist_nt` takes it: `prng_successor(x, 1)` in
a `uint32_t`. -/
def prngStep (prng_successor : Nat → Nat → Nat) (x : Nat) : Nat :=
  prng_successor x 1 % 2 ^ 32

/-- A generator for evaluations: the successor of `x` is `x + 1`, whatever the
number of steps asked for. -/
def prngCount : Nat → Nat → Nat := fun x _ => x + 1

/-! ## `EmLogTrace` -/

/-- A value stored in a `uint16_t`. -/
def uint16 (x : Int) : Nat := (x % 65536).toNat

/-- Modelled from the spec: the arguments of one call of `LogTrace` (of
`BigBuf.c`, not among the sources): the `iLen` bytes at `btBytes`, the two time
stamps, the parity bytes and the direction. -/
structure TraceCall where
  btBytes : List Nat
  iLen : Nat
  timestamp_start : Nat
  timestamp_end : Nat
  parity : List Nat
  readerToTag : Bool
  deriving DecidableEq

/-- Modelled from the spec: `LogTrace` (of `BigBuf.c`, not among the sources)
appends the record to the trace and returns `true`, unless the trace has no
room for it, in which case it returns `false`; `room` says whether the trace
written so far has room for a frame of the given length. -/
def LogTrace (room : List TraceCall → Nat → Bool) (trace : List TraceCall) (c : TraceCall) :
    Bool × List TraceCall :=
  if room trace c.iLen then (true, trace ++ [c]) else (false, trace)

/-- `EmLogTrace(reader_data, reader_len, reader_StartTime, reader_EndTime,
reader_Parity, tag_data, tag_len, tag_StartTime, tag_EndTime, tag_Parity)`:
the value returned and the trace.  `tracing` is the global flag; the data and
the parity bytes are the lists that the pointers refer to. -/
def EmLogTrace (tracing : Bool) (room : List TraceCall → Nat → Bool) (trace : List TraceCall)
    (reader_data : List Nat) (reader_len reader_StartTime reader_EndTime : Nat)
    (reader_Parity : List Nat) (tag_data : List Nat) (tag_len tag_StartTime tag_EndTime : Nat)
    (tag_Parity : List Nat) : Bool × List TraceCall :=
  if tracing then
    let reader_modlen := uint16 ((reader_EndTime : Int) - reader_StartTime)
    let approx_fdt := uint16 ((tag_StartTime : Int) - reader_EndTime)
    let exact_fdt := uint16 (((approx_fdt : Int) - 20 + 32) / 64 * 64 + 20)
    let reader_EndTime := uint32 ((tag_StartTime : Int) - exact_fdt)
    let reader_StartTime := uint32 ((reader_EndTime : Int) - reader_modlen)
    let r := LogTrace room trace
      ⟨reader_data, reader_len, reader_StartTime, reader_EndTime, reader_Parity, true⟩
    if ¬ r.1 then (false, r.2)
    else
      let t := LogTrace room r.2 ⟨tag_data, tag_len, tag_StartTime, tag_EndTime, tag_Parity, false⟩
      (!t.1, t.2)
  else (true, trace)

/-- A trace that always has room. -/
def roomAlways : List TraceCall → Nat → Bool := fun _ _ => true

/-! ## `ReaderMifare`: the search for the parity bits -/

/-- Modelled from the spec: `SwapBits` of `util.c` (not among the sources),
which reverses the order of the low `nrbits` bits of `value`. -/
def SwapBits (value nrbits : Nat) : Nat :=
  (List.range nrbits).foldl
    (fun newvalue i => newvalue ^^^ (((value >>> i) &&& 1) <<< (nrbits - 1 - i))) 0

/-- The variables of `ReaderMifare` that the last block of its main loop (from
the comment "Receive answer" on) reads or writes: `par` is `par[0]`,
`mf_nr_ar3` is `mf_nr_ar[3]`, and `stopped` says that the loop has been left by
`break`. -/
structure DarksideState where
  nt_diff : Nat
  par : Nat
  par_low : Nat
  mf_nr_ar3 : Nat
  par_list : List Nat
  ks_list : List Nat
  catch_up_cycles : Int
  led_on : Bool
  isOK : Int
  stopped : Bool
  deriving DecidableEq

/-- The last block of the main loop of `ReaderMifare`:
`if (ReaderReceive(receivedAnswer, receivedAnswerPar)) { .. } else { .. }`.
`received` is `none` when `ReaderReceive` returns 0 (no NACK) and
`some receivedAnswer[0]` otherwise. -/
def ReaderMifare_answer (first_try : Bool) (st : DarksideState) (received : Option Nat) :
    DarksideState :=
  match received with
  | some answer0 =>
    let st := { st with catch_up_cycles := 8 }
    let st := if st.nt_diff = 0 then { st with par_low := st.par &&& 0xE0 } else st
    let st := { st with led_on := !st.led_on }
    let st := { st with par_list := st.par_list.set st.nt_diff (SwapBits st.par 8 % 256) }
    let st := { st with ks_list := st.ks_list.set st.nt_diff ((answer0 ^^^ 0x05) % 256) }
    -- Test if the information is complete
    if st.nt_diff = 0x07 then { st with isOK := 1, stopped := true }
    else
      let st := { st with nt_diff := (st.nt_diff + 1) &&& 0x07 }
      let st := { st with mf_nr_ar3 := ((st.mf_nr_ar3 &&& 0x1F) ||| (st.nt_diff <<< 5)) % 256 }
      { st with par := st.par_low }
  | none =>
    if st.nt_diff = 0 ∧ first_try then
      let st := { st with par := (st.par + 1) % 256 }
      if st.par = 0x00 then { st with isOK := -2, stopped := true } else st
    else
      { st with par := (((st.par &&& 0x1F) + 1) ||| st.par_low) % 256 }

/-- The variables of `ReaderMifare` in the search for `nt_diff = 1`, after a
NACK for `nt_diff = 0` with a parity byte below 32 (`par_low = 0`) and 31
candidates without NACK: `par[0] = 0x1F`. -/
def darksideCarry : DarksideState := ⟨1, 0x1F, 0, 0x20, [0, 0, 0, 0, 0, 0, 0, 0],
  [0, 0, 0, 0, 0, 0, 0, 0], 0, true, 0, false⟩

/-- The variables of `ReaderMifare` in a call with `first_try = false`, for
`nt_diff = 0` with `par_low = 0xE0` from the call before, after 31 candidates
without NACK: `par[0] = 0xFF`. -/
def darksideRetry : DarksideState := ⟨0, 0xFF, 0xE0, 0x01, [0, 0, 0, 0, 0, 0, 0, 0],
  [0, 0, 0, 0, 0, 0, 0, 0], 0, true, 0, false⟩

/-- The variables of the collector that bound its indices: `ar_nr_collected`,
the number of entries of `ar_nr_resp`, `gettingMoebius` and `mM`. -/
def mfCounters (s : MfSim) : List Nat × Nat × Bool × Nat :=
  (s.ar_nr_collected, s.ar_nr_resp.length, s.gettingMoebius, s.mM)

/-- The range of the variables of the collector: both arrays have their 14
entries, no entry of `ar_nr_collected` exceeds 2, `mM` is 7 when
`gettingMoebius` is set and 0 otherwise, and, while the standard half is being
collected, a slot of the Moebius half holds at most one nonce, and none when
the slot of its pair in the standard half is empty. -/
def CollRange (c : List Nat × Nat × Bool × Nat) : Prop :=
  c.1.length = 14 ∧ c.2.1 = 14
    ∧ (∀ k, k < 14 → c.1.getD k 0 ≤ 2)
    ∧ c.2.2.2 = (if c.2.2.1 then 7 else 0)
    ∧ (c.2.2.1 = false → ∀ i, i < 7 →
        c.1.getD (i + 7) 0 ≤ 1 ∧ (c.1.getD i 0 = 0 → c.1.getD (i + 7) 0 = 0))

/-! ## `SimulateIso14443aTag`: the precomputed responses -/

/-- `CodeIso14443aAsTag(cmd, len)`: the state of the transmit buffer before the
final `ToSendMax++`; `par` is the local array before `GetParity` fills it. -/
def CodeIso14443aAsTag (s0 : EncSt) (par : Mem) (cmd : List Nat) (len : Nat) : EncSt :=
  CodeIso14443aAsTagPar s0 cmd len (GetParity cmd len par)

/-- The structure `tag_response_info_t`; the pointer `modulation` is the
offset from the start of the modulation buffer. -/
structure tag_response_info_t where
  response : List Nat
  response_n : Nat
  modulation : Nat
  modulation_n : Nat
  ProxToAirDuration : Nat
  deriving DecidableEq

/-- `ALLOCATED_TAG_MODULATION_BUFFER_SIZE` -/
abbrev ALLOCATED_TAG_MODULATION_BUFFER_SIZE : Nat := 273

/-- `TAG_RESPONSE_COUNT` -/
abbrev TAG_RESPONSE_COUNT : Nat := 7

/-- What `prepare_tag_modulation` and `prepare_allocated_tag_modulation` work
on: the transmit buffer, the memory from the start of the modulation buffer
(offset 0) onwards, and `free_buffer_pointer` as an offset into it. -/
structure ArenaState where
  enc : EncSt
  mem : Mem
  free_buffer_pointer : Nat

/-- `prepare_tag_modulation(response_info, max_buffer_size)`: the value
returned, the new state and the new `*response_info`.  `ToSendMax` is the
number of bytes of `ToSend` after the final `ToSendMax++` of the encoder. -/
def prepare_tag_modulation (par : Mem) (st : ArenaState) (response_info : tag_response_info_t)
    (max_buffer_size : Nat) : Bool × ArenaState × tag_response_info_t :=
  -- Prepare the tag modulation bits from the message
  let enc := CodeIso14443aAsTag st.enc par response_info.response response_info.response_n
  let st := { st with enc := enc }
  let ToSendMax := enc.ToSend.length
  -- Make sure we do not exceed the free buffer space
  if ToSendMax > max_buffer_size then (false, st, response_info)
  else
    -- Copy the byte array, used for this modulation to the buffer position
    let st := { st with mem := memcpyAt st.mem response_info.modulation (enc.ToSend.take ToSendMax) }
    (true, st, { response_info with
                 modulation_n := ToSendMax
                 ProxToAirDuration := enc.LastProxToAirDuration })

/-- `prepare_allocated_tag_modulation(response_info)` -/
def prepare_allocated_tag_modulation (par : Mem) (st : ArenaState)
    (response_info : tag_response_info_t) : Bool × ArenaState × tag_response_info_t :=
  -- Retrieve and store the current buffer index
  let response_info := { response_info with modulation := st.free_buffer_pointer }
  -- Determine the maximum size we can use from our buffer
  let max_buffer_size := ALLOCATED_TAG_MODULATION_BUFFER_SIZE
  let r := prepare_tag_modulation par st response_info max_buffer_size
  if r.1 then
    -- Update the free buffer offset
    (true, { r.2.1 with free_buffer_pointer := r.2.1.free_buffer_pointer + r.2.1.enc.ToSend.length },
      r.2.2)
  else (false, r.2.1, r.2.2)

/-- The responses that `SimulateIso14443aTag` prepares before its main loop:
the arrays `response1`, `response2`, `response2a`, `response3`, `response3a`,
`response5` and `response6` in the order of `responses[]`, with `modulation`
and `modulation_n` not yet set; `none` for an unknown `tagType`, where the
function returns.  `crcA` is `ComputeCrc14443(CRC_14443_A, ..)`. -/
def SimulateIso14443aTag_responses (crcA : List Nat → Nat × Nat) (tagType uid_1st uid_2nd : Nat) :
    Option (List tag_response_info_t) :=
  let ident : Option (Nat × Nat × Nat) :=
    if tagType = 1 then some (0x04, 0x00, 0x08)
    else if tagType = 2 then some (0x04, 0x00, 0x00)
    else if tagType = 3 then some (0x04, 0x03, 0x20)
    else if tagType = 4 then some (0x04, 0x00, 0x28)
    else if tagType = 5 then some (0x01, 0x0f, 0x01)
    else none
  match ident with
  | none => none
  | some (r10, r11, sak0) =>
    let response2 : List Nat := [0, 0, 0, 0, 0]
    let response2a : List Nat := [0, 0, 0, 0, 0]
    -- Check if the uid uses the (optional) part
    let response2 :=
      if uid_2nd ≠ 0 then memcpyList (response2.set 0 0x88) 1 (num_to_bytes uid_1st 3) 3
      else memcpyList response2 0 (num_to_bytes uid_1st 4) 4
    let response2a :=
      if uid_2nd ≠ 0 then setBCC (memcpyList response2a 0 (num_to_bytes uid_2nd 4) 4)
      else response2a
    let r10 := if uid_2nd ≠ 0 then r10 ||| 0x40 else r10 &&& 0xBF
    let sak := if uid_2nd ≠ 0 then sak0 ||| 0x04 else sak0 &&& 0xFB
    let response1 : List Nat := [r10, r11]
    -- Calculate the BitCountCheck (BCC) for the first 4 bytes of the UID.
    let response2 := setBCC response2
    -- Prepare the mandatory SAK (for 4 and 7 byte UID)
    let response3 : List Nat := [sak, (crcA [sak]).1, (crcA [sak]).2]
    -- Prepare the optional second SAK (for 7 byte UID), drop the cascade bit
    let response3a : List Nat := [sak &&& 0xFB, (crcA [sak &&& 0xFB]).1, (crcA [sak &&& 0xFB]).2]
    let response5 : List Nat := [0x00, 0x00, 0x00, 0x00]
    let response6 : List Nat :=
      [0x04, 0x58, 0x80, 0x02, (crcA [0x04, 0x58, 0x80, 0x02]).1, (crcA [0x04, 0x58, 0x80, 0x02]).2]
    some [⟨response1, 2, 0, 0, 0⟩, ⟨response2, 5, 0, 0, 0⟩, ⟨response2a, 5, 0, 0, 0⟩,
      ⟨response3, 3, 0, 0, 0⟩, ⟨response3a, 3, 0, 0, 0⟩, ⟨response5, 4, 0, 0, 0⟩,
      ⟨response6, 6, 0, 0, 0⟩]

/-- The loop `for (size_t i=0; i<TAG_RESPONSE_COUNT; i++)
prepare_allocated_tag_modulation(&responses[i]);` over the responses that are
left: the final state, and for each response the value returned by the call
(which the code does not look at) and the response afterwards. -/
def prepareResponses (par : Mem) :
    ArenaState → List tag_response_info_t → ArenaState × List (Bool × tag_response_info_t)
  | st, [] => (st, [])
  | st, r :: rest =>
    let a := prepare_allocated_tag_modulation par st r
    let b := prepareResponses par a.2.1 rest
    (b.1, (a.1, a.2.2) :: b.2)

/-- The start-up of `SimulateIso14443aTag` up to the end of the loop that
prepares the responses: `free_buffer_pointer` is set to the start of the
modulation buffer (offset 0), then the loop runs. -/
def SimulateIso14443aTag_prepare (crcA : List Nat → Nat × Nat) (par : Mem) (enc : EncSt)
    (mem : Mem) (tagType uid_1st uid_2nd : Nat) :
    Option (ArenaState × List (Bool × tag_response_info_t)) :=
  (SimulateIso14443aTag_responses crcA tagType uid_1st uid_2nd).map fun responses =>
    prepareResponses par ⟨enc, mem, 0⟩ responses

/-! ## The sniffer `SnoopIso14443a` -/

/-- `DELAY_READER_AIR2ARM_AS_SNIFFER` -/
abbrev DELAY_READER_AIR2ARM_AS_SNIFFER : Nat := 2 + 3 + 8

/-- `DELAY_TAG_AIR2ARM_AS_SNIFFER` -/
abbrev DELAY_TAG_AIR2ARM_AS_SNIFFER : Nat := 3 + 14 + 8

/-- The variables of `SnoopIso14443a` that live across iterations of its main
loop, the two decoders and the trace.  `stopped` says that the loop has been
left by `break` after a failed `LogTrace`. -/
structure SnoopState where
  Uart : tUart
  Demod : tDemod
  previous_data : Nat
  rsamples : Nat
  TagIsActive : Bool
  ReaderIsActive : Bool
  triggered : Bool
  trace : List TraceCall
  stopped : Bool

/-- The block `if(!TagIsActive) { .. }` of the main loop of `SnoopIso14443a`
for the sample `data` (`*data`).  The record handed to `LogTrace` holds the
`Uart.len` bytes of `receivedCmd` (which is `Uart.output`) and the parity bytes
that belong to them; `clk` is the value that `GetCountSspClk()` would
return. -/
def snoopReader (param : Nat) (room : List TraceCall → Nat → Bool) (clk : Nat) (st : SnoopState)
    (data : Nat) : SnoopState :=
  let readerdata := (st.previous_data &&& 0xF0) ||| (data >>> 4)
  let r := MillerDecoding st.Uart readerdata (((st.rsamples - 1) * 4) % 2 ^ 32) clk
  let st := { st with Uart := r.2 }
  if r.1 then
    -- check - if there is a short 7bit request from reader
    let st :=
      if ¬ st.triggered ∧ param &&& 0x02 ≠ 0 ∧ st.Uart.len = 1 ∧ st.Uart.bitCount = 7 then
        { st with triggered := true }
      else st
    let l :=
      if st.triggered then
        LogTrace room st.trace
          ⟨memRead st.Uart.output st.Uart.len, st.Uart.len,
            uint32 ((st.Uart.startTime : Int) * 16 - DELAY_READER_AIR2ARM_AS_SNIFFER),
            uint32 ((st.Uart.endTime : Int) * 16 - DELAY_READER_AIR2ARM_AS_SNIFFER),
            memRead st.Uart.parity ((st.Uart.len + 7) / 8), true⟩
      else (true, st.trace)
    if ¬ l.1 then { st with trace := l.2, stopped := true }
    else
      let st := { st with trace := l.2 }
      -- And ready to receive another command.
      let st := { st with Uart := UartReset st.Uart }
      -- And also reset the demod code
      let st := { st with Demod := DemodReset st.Demod }
      { st with ReaderIsActive := decide (st.Uart.state ≠ .STATE_UNSYNCD) }
  else { st with ReaderIsActive := decide (st.Uart.state ≠ .STATE_UNSYNCD) }

/-- The block `if(!ReaderIsActive) { .. }` of the main loop of
`SnoopIso14443a` for the sample `data`; `receivedCmd` and `receivedCmdPar` are
the buffers that `UartInit` is called with. -/
def snoopTag (param : Nat) (room : List TraceCall → Nat → Bool) (clk : Nat)
    (receivedCmd receivedCmdPar : Mem) (st : SnoopState) (data : Nat) : SnoopState :=
  let tagdata := ((st.previous_data <<< 4) ||| (data &&& 0x0F)) % 256
  let r := ManchesterDecoding st.Demod tagdata 0 (((st.rsamples - 1) * 4) % 2 ^ 32) clk
  let st := { st with Demod := r.2 }
  if r.1 then
    let l := LogTrace room st.trace
      ⟨memRead st.Demod.output st.Demod.len, st.Demod.len,
        uint32 ((st.Demod.startTime : Int) * 16 - DELAY_TAG_AIR2ARM_AS_SNIFFER),
        uint32 ((st.Demod.endTime : Int) * 16 - DELAY_TAG_AIR2ARM_AS_SNIFFER),
        memRead st.Demod.parity ((st.Demod.len + 7) / 8), false⟩
    if ¬ l.1 then { st with trace := l.2, stopped := true }
    else
      let st := { st with trace := l.2 }
      let st := if ¬ st.triggered ∧ param &&& 0x01 ≠ 0 then { st with triggered := true } else st
      -- And ready to receive another response.
      let st := { st with Demod := DemodReset st.Demod }
      -- And reset the Miller decoder including its (now outdated) input buffer
      let st := { st with Uart := UartInit st.Uart receivedCmd receivedCmdPar }
      { st with TagIsActive := decide (st.Demod.state ≠ .DEMOD_UNSYNCD) }
  else { st with TagIsActive := decide (st.Demod.state ≠ .DEMOD_UNSYNCD) }

/-- The end of an iteration: `previous_data = *data; rsamples++; data++`. -/
def snoopNext (st : SnoopState) (data : Nat) : SnoopState :=
  { st with previous_data := data, rsamples := (st.rsamples + 1) % 2 ^ 32 }

/-- One iteration of the main loop of `SnoopIso14443a` in which the sample
`data` is taken from the DMA buffer (the iterations that end before, on the
button, on a full buffer or for want of a sample, change none of the
variables).  The two Booleans say whether `MillerDecoding` and whether
`ManchesterDecoding` has been called in the iteration. -/
def SnoopIso14443a_step (param : Nat) (room : List TraceCall → Nat → Bool) (clk : Nat)
    (receivedCmd receivedCmdPar : Mem) (st : SnoopState) (data : Nat) :
    SnoopState × Bool × Bool :=
  if st.rsamples &&& 0x01 ≠ 0 then
    -- Need two samples to feed Miller and Manchester-Decoder
    let miller := !st.TagIsActive
    let st := if ¬ st.TagIsActive then snoopReader param room clk st data else st
    if st.stopped then (st, miller, false)
    else
      let manchester := !st.ReaderIsActive
      let st :=
        if ¬ st.ReaderIsActive then snoopTag param room clk receivedCmd receivedCmdPar st data
        else st
      if st.stopped then (st, miller, manchester)
      else (snoopNext st data, miller, manchester)
  else (snoopNext st data, false, false)

/-- The variables of `SnoopIso14443a` before its main loop: the trace is empty,
both decoders are initialised with their buffers, and `triggered` is
`!(param & 0x03)`. -/
def SnoopIso14443a_init (param : Nat) (Uart : tUart) (Demod : tDemod)
    (receivedCmd receivedCmdPar receivedResponse receivedResponsePar : Mem) : SnoopState :=
  { Uart := UartInit Uart receivedCmd receivedCmdPar
    Demod := DemodInit Demod receivedResponse receivedResponsePar
    previous_data := 0
    rsamples := 0
    TagIsActive := false
    ReaderIsActive := false
    triggered := decide (param &&& 0x03 = 0)
    trace := []
    stopped := false }

/-- The main loop of `SnoopIso14443a` over the samples that the DMA delivers,
up to a `break`. -/
def snoopRun (param : Nat) (room : List TraceCall → Nat → Bool) (clk : Nat)
    (receivedCmd receivedCmdPar : Mem) : SnoopState → List Nat → SnoopState
  | st, [] => st
  | st, data :: rest =>
    if st.stopped then st
    else snoopRun param room clk receivedCmd receivedCmdPar
      (SnoopIso14443a_step param room clk receivedCmd receivedCmdPar st data).1 rest

/-- `SnoopIso14443a(param)` on the samples `samples`: the variables when the
samples are used up or the loop has been left. -/
def SnoopIso14443a (param : Nat) (room : List TraceCall → Nat → Bool) (clk : Nat)
    (Uart : tUart) (Demod : tDemod)
    (receivedCmd receivedCmdPar receivedResponse receivedResponsePar : Mem)
    (samples : List Nat) : SnoopState :=
  snoopRun param room clk receivedCmd receivedCmdPar
    (SnoopIso14443a_init param Uart Demod receivedCmd receivedCmdPar receivedResponse
      receivedResponsePar) samples

/-- The samples that the sniffer gets while only the tag modulates: each byte
`t` of the stream of the tag (as `ManchesterDecoding` takes it) comes as two
samples with the halves of `t` in their low nibbles, the high nibbles being
those of an idle reader (`0xF`). -/
def snoopTagSamples (ts : List Nat) : List Nat :=
  ts.flatMap fun t => [0xF0 ||| (t >>> 4), 0xF0 ||| (t &&& 0x0F)]

/-- The samples that the sniffer gets while only the reader modulates: each
byte `r` of the stream of the reader (as `MillerDecoding` takes it) comes as
two samples with the halves of `r` in their high nibbles, the low nibbles being
those of an idle tag (`0x0`). -/
def snoopReaderSamples (rs : List Nat) : List Nat :=
  rs.flatMap fun r => [r &&& 0xF0, (r &&& 0x0F) <<< 4]

/-- The sniffer on the samples `samples`, with `Uart` and `Demod` all zero
before, buffers of zeros, a trace that always has room and the clock at 0. -/
def snoopOn (param : Nat) (samples : List Nat) : SnoopState :=
  SnoopIso14443a param roomAlways 0 Uart0 Demod0 (fun _ => 0) (fun _ => 0) (fun _ => 0)
    (fun _ => 0) samples

/-- Samples of a reader frame that is no 7-bit request (the two bytes `50 00`)
followed by samples of a tag answer (the two bytes `04 00`) and two idle
samples. -/
def snoopExchange : List Nat :=
  snoopReaderSamples (readerSamples 3 (CodeIso14443aAsReaderPar Enc0 [0x50, 0x00] 2
      (some (GetParity [0x50, 0x00] 2 (fun _ => 0)))))
    ++ snoopTagSamples (tagSamples 3 (CodeIso14443aAsTag Enc0 (fun _ => 0) [0x04, 0x00] 2))
    ++ [0xF0, 0xF0]

/-- The flags of the sniffer agree with the decoders: the tag is marked active
exactly when `Demod` is in a frame, the reader exactly when `Uart` is. -/
def SnoopInv (st : SnoopState) : Prop :=
  (st.TagIsActive = true ↔ st.Demod.state ≠ .DEMOD_UNSYNCD)
    ∧ (st.ReaderIsActive = true ↔ st.Uart.state ≠ .STATE_UNSYNCD)

/-- The variables of the sniffer after the first nine samples of
`snoopExchange`: the start of communication of the reader frame has been
seen. -/
def snoopInReaderFrame : SnoopState := snoopOn 0 (snoopExchange.take 9)

/-! # Theorems -/

/-! ## `GetParity` -/

theorem oddparity8_testBit (x j : Nat) :
    (oddparity8 x).testBit j = (decide (j = 0) && decide (popcount8 x % 2 = 0)) := by
  unfold oddparity8
  by_cases h : popcount8 x % 2 = 0
  · simp only [h, if_true, decide_True, Bool.and_true]
    cases j with
    | zero => simp
    | succ j => simp [Nat.testBit_succ]
  · simp [h]

theorem oddparity8_shift_testBit (x s k : Nat) :
    (oddparity8 x <<< s).testBit k = (decide (k = s) && decide (popcount8 x % 2 = 0)) := by
  rw [Nat.testBit_shiftLeft, oddparity8_testBit]
  by_cases h : k = s
  · subst h; simp
  · by_cases h2 : k ≥ s
    · have : k - s ≠ 0 := by omega
      simp [h, this]
    · simp [h, h2]

theorem GetParityStep_inv (cmd : List Nat) (i : Nat) (s : ParSt) (hi : i < 65536)
    (h : ParInv cmd i s) : ParInv cmd (i + 1) (GetParityStep s (cmd.getD i 0)) := by
  obtain ⟨h1, h2, h3, h4⟩ := h
  have hdm : 8 * (i / 8) + i % 8 = i := Nat.div_add_mod i 8
  unfold GetParityStep
  by_cases h7 : i % 8 = 7
  · have e1 : (i + 1) % 8 = 0 := by omega
    have e2 : (i + 1) / 8 = i / 8 + 1 := by omega
    rw [if_pos (by omega)]
    refine ⟨by simp [e1], by simp only [e2, h2]; omega, ?_, ?_⟩
    · intro k; simp [e1]
    · intro m hm k
      simp only [memSet, h2]
      by_cases hmi : m = i / 8
      · subst hmi
        simp only [if_true, Nat.testBit_mod_two_pow (_) 8, Nat.testBit_or, h3, h1, h7,
          oddparity8_shift_testBit, (by decide : 256 = 2 ^ 8)]
        by_cases hk : k < 8
        · by_cases hk0 : k = 0
          · subst hk0
            have : 8 * (i / 8) + 7 = i := by omega
            simp [parBit, this]
          · have hk1 : 7 - k < 7 := by omega
            simp [hk, hk0, hk1]
        · simp [hk]
      · rw [if_neg hmi]
        exact h4 m (by omega) k
  · have e1 : (i + 1) % 8 = i % 8 + 1 := by omega
    have e2 : (i + 1) / 8 = i / 8 := by omega
    rw [if_neg (by omega)]
    refine ⟨by simp only [h1, e1]; omega, by simp only [e2, h2], ?_, ?_⟩
    · intro k
      simp only [Nat.testBit_mod_two_pow (_) 8, Nat.testBit_or, h3, h1,
        oddparity8_shift_testBit, (by decide : 256 = 2 ^ 8), e1, e2]
      by_cases hk : k < 8
      · by_cases hk0 : k = 7 - i % 8
        · have e3 : 8 * (i / 8) + (7 - k) = i := by omega
          have e4 : ¬ 7 - k < i % 8 := by omega
          have e5 : 7 - k < i % 8 + 1 := by omega
          simp only [e3, parBit]
          simp [hk, hk0.symm, e4, e5]
        · by_cases hk3 : 7 - k < i % 8
          · have : 7 - k < i % 8 + 1 := by omega
            simp [hk, hk0, hk3, this]
          · have h5 : ¬ 7 - k < i % 8 + 1 := by omega
            simp [hk, hk0, hk3, h5]
      · simp [hk]
    · intro m hm k
      exact h4 m (by omega) k

theorem GetParityLoop_inv (cmd : List Nat) :
    ∀ (n i : Nat) (s : ParSt), i + n ≤ 65536 → ParInv cmd i s →
      ParInv cmd (i + n) (GetParityLoop cmd n i s)
  | 0, i, s, _, h => by simpa [GetParityLoop] using h
  | n + 1, i, s, hn, h => by
    have := GetParityLoop_inv cmd n (i + 1) _ (by omega) (GetParityStep_inv cmd i s (by omega) h)
    simpa [GetParityLoop, Nat.add_assoc, Nat.add_comm 1 n] using this

theorem ParInv_init (cmd : List Nat) (par : Mem) :
    ParInv cmd 0 { paritybit_cnt := 0, paritybyte_cnt := 0, parityBits := 0, par := par } :=
  ⟨rfl, rfl, by intro k; simp, by intro m hm; omega⟩

/-- Bit `k` of byte `m` of the parity array written by `GetParity`. -/
theorem GetParity_testBit (cmd : List Nat) (par : Mem) (hlen : cmd.length < 65536)
    (m k : Nat) (hm : m ≤ cmd.length / 8) :
    (GetParity cmd cmd.length par m).testBit k
      = (decide (k < 8) && decide (8 * m + (7 - k) < cmd.length) && parBit cmd (8 * m + (7 - k))) := by
  have h := GetParityLoop_inv cmd cmd.length 0
    { paritybit_cnt := 0, paritybyte_cnt := 0, parityBits := 0, par := par } (by omega)
    (ParInv_init cmd par)
  rw [Nat.zero_add] at h
  obtain ⟨_, h2, h3, h4⟩ := h
  unfold GetParity
  simp only [memSet, h2]
  have hdm : 8 * (cmd.length / 8) + cmd.length % 8 = cmd.length := Nat.div_add_mod _ 8
  by_cases hmi : m = cmd.length / 8
  · subst hmi
    rw [if_pos rfl, h3]
    by_cases hk : k < 8
    · by_cases hk3 : 7 - k < cmd.length % 8
      · have : 8 * (cmd.length / 8) + (7 - k) < cmd.length := by omega
        simp [hk, hk3, this]
      · have : ¬ 8 * (cmd.length / 8) + (7 - k) < cmd.length := by omega
        simp [hk, hk3, this]
    · simp [hk]
  · rw [if_neg hmi, h4 m (by omega)]
    by_cases hk : k < 8
    · have : 8 * m + (7 - k) < cmd.length := by omega
      simp [hk, this]
    · simp [hk]

/-- C3. `GetParity` writes one odd-parity bit per data byte, packed MSB-first:
for a byte sequence `cmd` of `n` bytes (`n` a `uint16_t`) and every `i < n`,
bit `7 - i % 8` of `par[i / 8]` is set exactly when `cmd[i]` has an even number
of 1 bits, and every other bit of the bytes `par[0 .. n / 8]` is 0. -/
theorem GetParity_spec (cmd : List Nat) (par : Mem) (hlen : cmd.length < 65536) :
    (∀ i, i < cmd.length →
      ((GetParity cmd cmd.length par (i / 8)).testBit (7 - i % 8) = true
        ↔ popcount8 (cmd.getD i 0) % 2 = 0))
    ∧ (∀ m k, m ≤ cmd.length / 8 → (¬ ∃ i, i < cmd.length ∧ m = i / 8 ∧ k = 7 - i % 8) →
      (GetParity cmd cmd.length par m).testBit k = false) := by
  constructor
  · intro i hi
    rw [GetParity_testBit cmd par hlen _ _ (Nat.div_le_div_right (Nat.le_of_lt hi))]
    have e : 8 * (i / 8) + (7 - (7 - i % 8)) = i := by omega
    have hk : 7 - i % 8 < 8 := by omega
    simp [e, hi, hk, parBit]
  · intro m k hm hno
    rw [GetParity_testBit cmd par hlen _ _ hm]
    by_cases hk : k < 8
    · by_cases hlt : 8 * m + (7 - k) < cmd.length
      · exact absurd ⟨8 * m + (7 - k), hlt, by omega, by omega⟩ hno
      · simp [hlt]
    · simp [hk]

theorem GetParity_spec_witness :
    (∀ i, i < [0x26, 0xff, 0x00].length →
      ((GetParity [0x26, 0xff, 0x00] [0x26, 0xff, 0x00].length (fun _ => 0xAA) (i / 8)).testBit
          (7 - i % 8) = true
        ↔ popcount8 ([0x26, 0xff, 0x00].getD i 0) % 2 = 0))
    ∧ (∀ m k, m ≤ [0x26, 0xff, 0x00].length / 8 →
      (¬ ∃ i, i < [0x26, 0xff, 0x00].length ∧ m = i / 8 ∧ k = 7 - i % 8) →
      (GetParity [0x26, 0xff, 0x00] [0x26, 0xff, 0x00].length (fun _ => 0xAA) m).testBit k = false) :=
  GetParity_spec [0x26, 0xff, 0x00] (fun _ => 0xAA) (by decide)

/-! ## Reader encoder: symbol sequence -/

theorem and_two_pow_ne_zero (x k : Nat) : (x &&& 2 ^ k != 0) = x.testBit k := by
  by_cases h : x.testBit k = true
  · have e : x &&& 2 ^ k = 2 ^ k := by
      apply Nat.eq_of_testBit_eq
      intro j
      by_cases hj : k = j
      · subst hj; simp [Nat.testBit_two_pow, h]
      · simp [Nat.testBit_two_pow, hj]
    have hp : (2 : Nat) ^ k ≠ 0 := by positivity
    simp [e, h, hp]
  · have e : x &&& 2 ^ k = 0 := by
      apply Nat.eq_of_testBit_eq
      intro j
      by_cases hj : k = j
      · subst hj; simp [Nat.testBit_two_pow, h]
      · simp [Nat.testBit_two_pow, hj]
    simp [e, h]

/-- The parity-bit test `parity[i>>3] & (0x80 >> (i & 7))` of both encoders. -/
theorem parity_mask_test (par : Mem) (i : Nat) :
    (par (i >>> 3) &&& (0x80 >>> (i &&& 0x0007)) != 0) = (par (i / 8)).testBit (7 - i % 8) := by
  have e1 : i &&& 7 = i % 8 := Nat.and_pow_two_sub_one_eq_mod i 3
  have e2 : (128 : Nat) >>> (i % 8) = 2 ^ (7 - i % 8) := by
    have : i % 8 < 8 := Nat.mod_lt _ (by decide)
    interval_cases (i % 8) <;> rfl
  have e3 : i >>> 3 = i / 8 := by rw [Nat.shiftRight_eq_div_pow]
  rw [e1, e2, e3, and_two_pow_ne_zero]

theorem bitsLSB_succ (b n : Nat) :
    bitsLSB b (n + 1) = (b &&& 1 != 0) :: bitsLSB (b >>> 1) n := by
  unfold bitsLSB
  rw [List.range_succ_eq_map, List.map_cons, List.map_map]
  congr 1
  · rcases Nat.mod_two_eq_zero_or_one b with h | h <;> simp [h]
  · apply List.map_congr_left
    intro j _
    simp [Nat.testBit_shiftRight, Nat.add_comm]

theorem millerSymbols_append (prev : Nat) (xs ys : List Bool) :
    millerSymbols prev (xs ++ ys) = millerSymbols prev xs ++ millerSymbols (millerLast prev xs) ys := by
  induction xs generalizing prev with
  | nil => rfl
  | cons b bs ih => simp [millerSymbols, millerLast, ih]

theorem millerLast_append (prev : Nat) (xs ys : List Bool) :
    millerLast prev (xs ++ ys) = millerLast (millerLast prev xs) ys := by
  induction xs generalizing prev with
  | nil => rfl
  | cons b bs ih => simp [millerLast, ih]

theorem millerSymbols_length (prev : Nat) (xs : List Bool) :
    (millerSymbols prev xs).length = xs.length := by
  induction xs generalizing prev with
  | nil => rfl
  | cons b bs ih => simp [millerSymbols, ih]

/-- After a non-empty bit sequence the last symbol is X exactly when the last
bit is 1. -/
theorem millerLast_eq_X (prev : Nat) (xs : List Bool) (b : Bool) :
    millerLast prev (xs ++ [b]) = SEC_X ↔ b = true := by
  rw [millerLast_append]
  cases b <;> simp [millerLast, millerSymbol]
  split <;> decide

theorem ReaderCodeBit_ToSend (s : EncSt) (prev : Nat) (bit : Bool) (h : EncOK s prev) :
    (ReaderCodeBit s bit).ToSend = s.ToSend ++ [millerSymbol prev bit]
      ∧ EncOK (ReaderCodeBit s bit) (millerSymbol prev bit)
      ∧ (ReaderCodeBit s bit).ToSendBit = s.ToSendBit := by
  obtain ⟨h01, hX⟩ := h
  unfold ReaderCodeBit millerSymbol EncOK
  cases bit
  · by_cases hl : s.last = 0
    · have hp : prev ≠ SEC_X := fun e => by rw [hX.mpr e] at hl; exact absurd hl (by decide)
      simp [hl, hp, EncSt.push]
    · have hl1 : s.last = 1 := by rcases h01 with h | h; exact absurd h hl; exact h
      have hp : prev = SEC_X := hX.mp hl1
      simp [hl1, hp, EncSt.push]
  · simp [EncSt.push]

theorem ReaderDataBits_ToSend :
    ∀ (n b : Nat) (s : EncSt) (prev : Nat), EncOK s prev →
      (ReaderDataBits n b s).ToSend = s.ToSend ++ millerSymbols prev (bitsLSB b n)
        ∧ EncOK (ReaderDataBits n b s) (millerLast prev (bitsLSB b n))
        ∧ (ReaderDataBits n b s).ToSendBit = s.ToSendBit
  | 0, b, s, prev, h => by simpa [ReaderDataBits, bitsLSB, millerSymbols, millerLast] using h
  | n + 1, b, s, prev, h => by
    obtain ⟨h1, h2, h3⟩ := ReaderCodeBit_ToSend s prev (b &&& 1 != 0) h
    obtain ⟨h4, h5, h6⟩ := ReaderDataBits_ToSend n (b >>> 1) _ _ h2
    rw [bitsLSB_succ]
    refine ⟨?_, ?_, ?_⟩
    · simp only [ReaderDataBits, h4, h1, millerSymbols, List.append_assoc, List.singleton_append]
    · simpa only [ReaderDataBits, millerLast] using h5
    · simp only [ReaderDataBits, h6, h3]

theorem ReaderBytes_ToSend (cmd : List Nat) (bits : Nat) (parity : Option Mem) :
    ∀ (n i : Nat) (s : EncSt) (prev : Nat), EncOK s prev →
      (ReaderBytes cmd bits parity n i s).ToSend
          = s.ToSend ++ millerSymbols prev ((List.range' i n).flatMap (byteBits cmd bits parity))
        ∧ EncOK (ReaderBytes cmd bits parity n i s)
            (millerLast prev ((List.range' i n).flatMap (byteBits cmd bits parity)))
        ∧ (ReaderBytes cmd bits parity n i s).ToSendBit = s.ToSendBit
  | 0, i, s, prev, h => by simpa [ReaderBytes, millerSymbols, millerLast] using h
  | n + 1, i, s, prev, h => by
    rw [List.range'_succ, List.flatMap_cons, millerSymbols_append, millerLast_append]
    have hb : byteBits cmd bits parity i = bitsLSB (cmd.getD i 0) (min (bits - i * 8) 8) ++
        match parity with
        | some par =>
          if min (bits - i * 8) 8 = 8 then [(par (i / 8)).testBit (7 - i % 8)] else []
        | none => [] := rfl
    rw [hb]
    unfold ReaderBytes
    generalize min (bits - i * 8) 8 = m
    obtain ⟨h1, h2, h3⟩ := ReaderDataBits_ToSend m (cmd.getD i 0) s prev h
    cases parity with
    | none =>
      obtain ⟨h4, h5, h6⟩ := ReaderBytes_ToSend cmd bits none n (i + 1) _ _ h2
      simp only [List.append_nil]
      exact ⟨by rw [h4, h1, List.append_assoc], h5, by rw [h6, h3]⟩
    | some par =>
      by_cases h8 : m = 8
      · obtain ⟨p1, p2, p3⟩ := ReaderCodeBit_ToSend _ _
          (par (i >>> 3) &&& (0x80 >>> (i &&& 0x0007)) != 0) h2
        obtain ⟨h4, h5, h6⟩ := ReaderBytes_ToSend cmd bits (some par) n (i + 1) _ _ p2
        rw [parity_mask_test] at p1 p2 p3 h4 h5 h6
        simp only [if_pos h8, parity_mask_test]
        rw [millerSymbols_append, millerLast_append]
        simp only [millerSymbols, millerLast]
        exact ⟨by rw [h4, p1, h1]; simp only [List.append_assoc, List.singleton_append,
          List.nil_append, List.append_nil], h5, by rw [h6, p3, h3]⟩
      · obtain ⟨h4, h5, h6⟩ := ReaderBytes_ToSend cmd bits (some par) n (i + 1) _ _ h2
        simp only [if_neg h8, List.append_nil]
        exact ⟨by rw [h4, h1, List.append_assoc], h5, by rw [h6, h3]⟩

/-- The end-of-communication code of `CodeIso14443aBitsAsReaderPar`. -/
theorem reader_eoc_ToSend (s : EncSt) (prev : Nat) (h : EncOK s prev) :
    ((if s.last = 0 then
        { s.push SEC_Z with
          LastProxToAirDuration := uint32 (8 * ((s.push SEC_Z).ToSendMax + 1) - 6) }
      else { s.push SEC_Y with last := 0 }).push SEC_Y).ToSend
      = s.ToSend ++ [if prev = SEC_X then SEC_Y else SEC_Z, SEC_Y] := by
  obtain ⟨h01, hX⟩ := h
  by_cases hl : s.last = 0
  · have hp : ¬ prev = SEC_X := fun e => by rw [hX.mpr e] at hl; exact absurd hl (by decide)
    rw [if_pos hl, if_neg hp]
    simp [EncSt.push]
  · rw [if_neg hl, if_pos (hX.mp (h01.resolve_left hl))]
    simp [EncSt.push]

/-- The whole output of `CodeIso14443aBitsAsReaderPar`: start of
communication, the coded bits, and the two symbols of the end of
communication. -/
theorem CodeIso14443aBitsAsReaderPar_ToSend (s0 : EncSt) (cmd : List Nat) (bits : Nat)
    (parity : Option Mem) :
    (CodeIso14443aBitsAsReaderPar s0 cmd bits parity).ToSend
      = SEC_Z :: millerSymbols SEC_Z (frameBits cmd bits parity)
        ++ [if millerLast SEC_Z (frameBits cmd bits parity) = SEC_X then SEC_Y else SEC_Z, SEC_Y] := by
  have h0 : ∀ st : EncSt, st.ToSend = [SEC_Z] → st.last = 0 →
      ((if (ReaderBytes cmd bits parity (nbytes bits) 0 st).last = 0 then
          { (ReaderBytes cmd bits parity (nbytes bits) 0 st).push SEC_Z with
            LastProxToAirDuration :=
              uint32 (8 * (((ReaderBytes cmd bits parity (nbytes bits) 0 st).push SEC_Z).ToSendMax + 1) - 6) }
        else { (ReaderBytes cmd bits parity (nbytes bits) 0 st).push SEC_Y with last := 0 }).push
          SEC_Y).ToSend
        = SEC_Z :: millerSymbols SEC_Z (frameBits cmd bits parity)
          ++ [if millerLast SEC_Z (frameBits cmd bits parity) = SEC_X then SEC_Y else SEC_Z, SEC_Y] := by
    intro st hT hl
    have hst : EncOK st SEC_Z := ⟨Or.inl hl, by rw [hl]; decide⟩
    obtain ⟨h1, h2, _⟩ := ReaderBytes_ToSend cmd bits parity (nbytes bits) 0 st SEC_Z hst
    rw [← List.range_eq_range'] at h1 h2
    rw [reader_eoc_ToSend _ _ h2, h1, hT]
    rfl
  exact h0 _ rfl rfl

theorem millerLast_Z_eq_X (bs : List Bool) :
    millerLast SEC_Z bs = SEC_X ↔ bs.getLast? = some true := by
  rcases List.eq_nil_or_concat bs with h | ⟨xs, b, h⟩
  · subst h; simp [millerLast]
  · subst h
    rw [List.concat_eq_append, millerLast_eq_X, List.getLast?_concat]
    simp

/-- C9. For every frame `(cmd, bits, parity)` the symbols that
`CodeIso14443aBitsAsReaderPar` puts in `ToSend` before the two symbols of the
end of communication are Sequence Z (start of communication) followed by one
symbol per transmitted bit, the transmitted bits being each byte's data bits
LSB-first and, after every complete byte when parity is supplied, that byte's
parity bit; a 1 is coded as X, a 0 as Z if the previous symbol was not X and as
Y if it was. -/
theorem reader_encoder_bit_mapping (s0 : EncSt) (cmd : List Nat) (bits : Nat)
    (parity : Option Mem) :
    ∃ eoc : List Nat, eoc.length = 2
      ∧ (CodeIso14443aBitsAsReaderPar s0 cmd bits parity).ToSend
          = SEC_Z :: millerSymbols SEC_Z (frameBits cmd bits parity) ++ eoc
      ∧ (millerSymbols SEC_Z (frameBits cmd bits parity)).length
          = (frameBits cmd bits parity).length :=
  ⟨[if millerLast SEC_Z (frameBits cmd bits parity) = SEC_X then SEC_Y else SEC_Z, SEC_Y], rfl,
    CodeIso14443aBitsAsReaderPar_ToSend s0 cmd bits parity, millerSymbols_length _ _⟩

/-- C10, as stated, fails: for the one-bit frame `1` (no parity) the last
transmitted bit is 1 and the encoder ends the sequence with Y, Y, not with
Z, Y. -/
theorem reader_encoder_eoc_counterexample :
    (frameBits [0x01] 1 none).getLast? = some true
      ∧ (CodeIso14443aBitsAsReaderPar ⟨[], 0, 0, 0⟩ [0x01] 1 none).ToSend
          = [SEC_Z, SEC_X, SEC_Y, SEC_Y]
      ∧ ¬ ∃ pre, (CodeIso14443aBitsAsReaderPar ⟨[], 0, 0, 0⟩ [0x01] 1 none).ToSend
          = pre ++ [SEC_Z, SEC_Y] := by
  have h : (CodeIso14443aBitsAsReaderPar ⟨[], 0, 0, 0⟩ [0x01] 1 none).ToSend
      = [SEC_Z, SEC_X, SEC_Y, SEC_Y] := by decide
  refine ⟨by decide, h, ?_⟩
  rintro ⟨pre, hp⟩
  rw [h] at hp
  have h2 := congrArg (fun l => l.reverse.getD 1 0) hp
  simp at h2

/-- C10 (amended). For every frame, `CodeIso14443aBitsAsReaderPar` ends the
symbol sequence with Sequence Y if the last transmitted bit was 1 and with
Sequence Z otherwise (the last bit was 0, or no bit was transmitted), followed
by one more Sequence Y. -/
theorem reader_encoder_eoc (s0 : EncSt) (cmd : List Nat) (bits : Nat) (parity : Option Mem) :
    ∃ pre : List Nat, (CodeIso14443aBitsAsReaderPar s0 cmd bits parity).ToSend
      = pre ++ [if (frameBits cmd bits parity).getLast? = some true then SEC_Y else SEC_Z, SEC_Y] := by
  refine ⟨SEC_Z :: millerSymbols SEC_Z (frameBits cmd bits parity), ?_⟩
  rw [CodeIso14443aBitsAsReaderPar_ToSend]
  by_cases h : (frameBits cmd bits parity).getLast? = some true
  · rw [if_pos h, if_pos ((millerLast_Z_eq_X _).mpr h)]
  · rw [if_neg h, if_neg (fun e => h ((millerLast_Z_eq_X _).mp e))]

/-! ## Miller decoder: errors and idle input -/

/-- C6, part (c) as stated, fails: a Sequence Z directly after the start of
communication is decoded as a logic 0 (state `STATE_MILLER_Z`, `bitCount = 1`);
the decoder is not reset. -/
theorem miller_Z_after_SOC_counterexample :
    (MillerRun 1000 0 (UartInit ⟨.STATE_UNSYNCD, 0, 0, 0, 0, 0, 0, 0, 0, 0, 0, 0, fun _ => 0, fun _ => 0⟩
        (fun _ => 0) (fun _ => 0)) [0xFF, 0xFF, 0x3F]).2.state = .STATE_START_OF_COMMUNICATION
    ∧ IsMillerModulationNibble1 0x3F = true ∧ IsMillerModulationNibble2 0x3F = false
    ∧ (MillerRun 1000 0 (UartInit ⟨.STATE_UNSYNCD, 0, 0, 0, 0, 0, 0, 0, 0, 0, 0, 0, fun _ => 0, fun _ => 0⟩
        (fun _ => 0) (fun _ => 0)) [0xFF, 0xFF, 0x3F, 0x3F]).2.state = .STATE_MILLER_Z
    ∧ (MillerRun 1000 0 (UartInit ⟨.STATE_UNSYNCD, 0, 0, 0, 0, 0, 0, 0, 0, 0, 0, 0, fun _ => 0, fun _ => 0⟩
        (fun _ => 0) (fun _ => 0)) [0xFF, 0xFF, 0x3F, 0x3F]).2.bitCount = 1 := by
  decide

/-- C6 (amended). When the decoder is in a frame and the next 8-tick slot is
(a) modulated in both halves, or (b) modulated in the first half only
(Sequence Z) directly after a Sequence X, or (c) not modulated at all
(Sequence Y) directly after the start of communication, `MillerDecoding`
returns false and the decoder is reset: state `STATE_UNSYNCD`, `len = 0`,
`bitCount = 0`. -/
theorem miller_error_reset (u : tUart) (bit non_real_time clk : Nat)
    (hframe : u.state ≠ .STATE_UNSYNCD)
    (herr :
      (IsMillerModulationNibble1 ((((u.fourBits <<< 8) ||| bit) % 4294967296) >>> u.syncBit) = true
        ∧ IsMillerModulationNibble2 ((((u.fourBits <<< 8) ||| bit) % 4294967296) >>> u.syncBit) = true)
      ∨ (IsMillerModulationNibble1 ((((u.fourBits <<< 8) ||| bit) % 4294967296) >>> u.syncBit) = true
        ∧ IsMillerModulationNibble2 ((((u.fourBits <<< 8) ||| bit) % 4294967296) >>> u.syncBit) = false
        ∧ u.state = .STATE_MILLER_X)
      ∨ (IsMillerModulationNibble1 ((((u.fourBits <<< 8) ||| bit) % 4294967296) >>> u.syncBit) = false
        ∧ IsMillerModulationNibble2 ((((u.fourBits <<< 8) ||| bit) % 4294967296) >>> u.syncBit) = false
        ∧ u.state = .STATE_START_OF_COMMUNICATION)) :
    (MillerDecoding u bit non_real_time clk).1 = false
      ∧ (MillerDecoding u bit non_real_time clk).2.state = .STATE_UNSYNCD
      ∧ (MillerDecoding u bit non_real_time clk).2.len = 0
      ∧ (MillerDecoding u bit non_real_time clk).2.bitCount = 0 := by
  unfold MillerDecoding
  rcases herr with ⟨h1, h2⟩ | ⟨h1, h2, h3⟩ | ⟨h1, h2, h3⟩
  · simp [hframe, h1, h2, UartReset]
  · simp [hframe, h1, h2, h3, UartReset]
  · simp [h1, h2, h3, UartReset, MillerSeqYTail]

theorem miller_error_reset_witness :
    (MillerDecoding ⟨.STATE_MILLER_X, 0x100, 1, 0, 0, 0, 0, 0, 0, 0xFFFFFFF3, 1000, 1014,
        fun _ => 0, fun _ => 0⟩ 0x3F 1000 0).1 = false
      ∧ (MillerDecoding ⟨.STATE_MILLER_X, 0x100, 1, 0, 0, 0, 0, 0, 0, 0xFFFFFFF3, 1000, 1014,
        fun _ => 0, fun _ => 0⟩ 0x3F 1000 0).2.state = .STATE_UNSYNCD
      ∧ (MillerDecoding ⟨.STATE_MILLER_X, 0x100, 1, 0, 0, 0, 0, 0, 0, 0xFFFFFFF3, 1000, 1014,
        fun _ => 0, fun _ => 0⟩ 0x3F 1000 0).2.len = 0
      ∧ (MillerDecoding ⟨.STATE_MILLER_X, 0x100, 1, 0, 0, 0, 0, 0, 0, 0xFFFFFFF3, 1000, 1014,
        fun _ => 0, fun _ => 0⟩ 0x3F 1000 0).2.bitCount = 0 :=
  miller_error_reset _ 0x3F 1000 0 (by decide) (Or.inr (Or.inl (by decide)))

/-- If every call on a sample of the list returns false and keeps `P`, the
whole run returns false throughout and keeps `P`. -/
theorem MillerRun_invariant (P : tUart → Prop) (t clk : Nat) (samples : List Nat)
    (hstep : ∀ u, P u → ∀ s ∈ samples,
      (MillerDecoding u s t clk).1 = false ∧ P (MillerDecoding u s t clk).2) :
    ∀ u, P u → (MillerRun t clk u samples).1 = List.replicate samples.length false
      ∧ P (MillerRun t clk u samples).2 := by
  induction samples with
  | nil => intro u hu; exact ⟨rfl, hu⟩
  | cons s ss ih =>
    intro u hu
    obtain ⟨h1, h2⟩ := hstep u hu s (List.mem_cons_self _ _)
    obtain ⟨h3, h4⟩ := ih (fun v hv x hx => hstep v hv x (List.mem_cons_of_mem _ hx)) _ h2
    exact ⟨by simp [MillerRun, h1, h3, List.replicate_succ], by simpa [MillerRun] using h4⟩

theorem ManchesterRun_invariant (P : tDemod → Prop) (offset t clk : Nat) (samples : List Nat)
    (hstep : ∀ d, P d → ∀ s ∈ samples,
      (ManchesterDecoding d s offset t clk).1 = false ∧ P (ManchesterDecoding d s offset t clk).2) :
    ∀ d, P d → (ManchesterRun offset t clk d samples).1 = List.replicate samples.length false
      ∧ P (ManchesterRun offset t clk d samples).2 := by
  induction samples with
  | nil => intro d hd; exact ⟨rfl, hd⟩
  | cons s ss ih =>
    intro d hd
    obtain ⟨h1, h2⟩ := hstep d hd s (List.mem_cons_self _ _)
    obtain ⟨h3, h4⟩ := ih (fun v hv x hx => hstep v hv x (List.mem_cons_of_mem _ hx)) _ h2
    exact ⟨by simp [ManchesterRun, h1, h3, List.replicate_succ], by simpa [ManchesterRun] using h4⟩

theorem miller_idle_step (u : tUart) (t clk : Nat)
    (h : MillerIdle u) :
    (MillerDecoding u 0xFF t clk).1 = false ∧ MillerIdle (MillerDecoding u 0xFF t clk).2 := by
  obtain ⟨h1, h2, h3⟩ := h
  unfold MillerDecoding MillerIdle
  have e1 : MillerSyncBit 255 = 9999 := by decide
  have e2 : MillerSyncBit 65535 = 9999 := by decide
  have e3 : MillerSyncBit 16777215 = 9999 := by decide
  have e4 : MillerSyncBit 4294967295 = 9999 := by decide
  rcases h3 with h | h | h | h | h <;>
    simp [h1, h2, h, e1, e2, e3, e4]

theorem manchester_idle_step (d : tDemod) (offset t clk : Nat)
    (h : ManchesterIdle d) :
    (ManchesterDecoding d 0x00 offset t clk).1 = false
      ∧ ManchesterIdle (ManchesterDecoding d 0x00 offset t clk).2 := by
  obtain ⟨h1, h2, h3⟩ := h
  unfold ManchesterDecoding ManchesterIdle
  have e1 : ManchesterSyncBit 0 = 0xFFFF := by decide
  rcases h3 with ⟨h, h'⟩ | ⟨h, h'⟩ | ⟨h, h'⟩ | ⟨h, h'⟩ <;>
    simp [h1, h2, h, h', e1]

/-- C7. Idle input emits nothing: for every `n`, feeding `n` sample bytes
`0xFF` to a Miller decoder fresh from `UartInit` never makes `MillerDecoding`
return true and leaves `Uart.len = 0`; feeding `n` sample bytes `0x00` to a
Manchester decoder fresh from `DemodInit` never makes `ManchesterDecoding`
return true and leaves `Demod.len = 0`. -/
theorem idle_input_emits_nothing (n : Nat) (u : tUart) (d : tDemod) (data parity : Mem)
    (offset non_real_time clk : Nat) :
    ((MillerRun non_real_time clk (UartInit u data parity) (List.replicate n 0xFF)).1
        = List.replicate n false
      ∧ (MillerRun non_real_time clk (UartInit u data parity) (List.replicate n 0xFF)).2.len = 0)
    ∧ ((ManchesterRun offset non_real_time clk (DemodInit d data parity) (List.replicate n 0x00)).1
        = List.replicate n false
      ∧ (ManchesterRun offset non_real_time clk (DemodInit d data parity)
          (List.replicate n 0x00)).2.len = 0) := by
  constructor
  · have h := MillerRun_invariant MillerIdle non_real_time clk (List.replicate n 0xFF)
      (fun v hv s hs => by
        rw [List.eq_of_mem_replicate hs]; exact miller_idle_step v non_real_time clk hv)
      (UartInit u data parity) ⟨rfl, rfl, Or.inl rfl⟩
    rw [List.length_replicate] at h
    exact ⟨h.1, h.2.2.1⟩
  · have h := ManchesterRun_invariant ManchesterIdle offset non_real_time clk (List.replicate n 0x00)
      (fun v hv s hs => by
        rw [List.eq_of_mem_replicate hs]; exact manchester_idle_step v offset non_real_time clk hv)
      (DemodInit d data parity) ⟨rfl, rfl, Or.inl ⟨rfl, rfl⟩⟩
    rw [List.length_replicate] at h
    exact ⟨h.1, h.2.2.1⟩

/-! ## Evaluations of the decoders on concrete sample streams -/

set_option maxRecDepth 100000 in
/-- C4 fails on the code. A frame of seven bytes `0x00`, each received with
parity bit 1, followed by three more data bits, is emitted by `MillerDecoding`
and by `ManchesterDecoding` with `len = 8` and with the parity byte `0x00`,
although the seven received parity bits left-justified are `0xFE` (which is
what `GetParity` gives for the seven bytes): `parityBits <<= (8 - (len & 7))`
shifts by 8 when the partial byte is the eighth of its group. -/
theorem parity_tail_lost_after_seven_bytes :
    ((MillerRun 1000 0 (UartInit Uart0 (fun _ => 0) (fun _ => 0))
          sevenBytesAndThreeBitsReader).1.getLast? = some true
      ∧ (MillerRun 1000 0 (UartInit Uart0 (fun _ => 0) (fun _ => 0))
          sevenBytesAndThreeBitsReader).2.len = 8
      ∧ (MillerRun 1000 0 (UartInit Uart0 (fun _ => 0) (fun _ => 0))
          sevenBytesAndThreeBitsReader).2.parity 0 = 0x00)
    ∧ ((ManchesterRun 0 1000 0 (DemodInit Demod0 (fun _ => 0) (fun _ => 0))
          sevenBytesAndThreeBitsTag).1.getLast? = some true
      ∧ (ManchesterRun 0 1000 0 (DemodInit Demod0 (fun _ => 0) (fun _ => 0))
          sevenBytesAndThreeBitsTag).2.len = 8
      ∧ (ManchesterRun 0 1000 0 (DemodInit Demod0 (fun _ => 0) (fun _ => 0))
          sevenBytesAndThreeBitsTag).2.parity 0 = 0x00)
    ∧ GetParity [0, 0, 0, 0, 0, 0, 0] 7 (fun _ => 0) 0 = 0xFE := by
  decide

set_option maxRecDepth 100000 in
/-- C5 fails on the code. A tag answer whose first data bit slot is modulated
in both halves is decoded into a frame (`ManchesterDecoding` returns true on
the last sample, `len = 1`) with `collisionPos = 0`: the position recorded
for the collision, `(len << 3) + bitCount`, is 0, the value that means "no
collision". -/
theorem collision_in_first_bit_not_reported :
    IsManchesterModulationNibble1 0xFF = true ∧ IsManchesterModulationNibble2 0xFF = true
    ∧ (ManchesterRun 0 1000 0 (DemodInit Demod0 (fun _ => 0) (fun _ => 0))
        collisionInFirstBit).1
        = [false, false, false, false, false, false, false, false, false, false, false, false,
           false, true]
    ∧ (ManchesterRun 0 1000 0 (DemodInit Demod0 (fun _ => 0) (fun _ => 0))
        collisionInFirstBit).2.len = 1
    ∧ (ManchesterRun 0 1000 0 (DemodInit Demod0 (fun _ => 0) (fun _ => 0))
        collisionInFirstBit).2.output 0 = 0x01
    ∧ (ManchesterRun 0 1000 0 (DemodInit Demod0 (fun _ => 0) (fun _ => 0))
        collisionInFirstBit).2.collisionPos = 0 := by
  decide

/-! ## Miller decoder: one symbol -/

theorem testBit_0xF0 (j : Nat) : (0xF0 : Nat).testBit j = (decide (4 ≤ j) && decide (j < 8)) := by
  by_cases h : j < 8
  · interval_cases j <;> rfl
  · have : (0xF0 : Nat).testBit j = false :=
      Nat.testBit_lt_two_pow (Nat.lt_of_lt_of_le (by decide : (0xF0 : Nat) < 2 ^ 8)
        (Nat.pow_le_pow_right (by decide) (by omega)))
    simp [this, h]

theorem testBit_0x0F (j : Nat) : (0x0F : Nat).testBit j = decide (j < 4) := by
  by_cases h : j < 4
  · interval_cases j <;> rfl
  · have : (0x0F : Nat).testBit j = false :=
      Nat.testBit_lt_two_pow (Nat.lt_of_lt_of_le (by decide : (0x0F : Nat) < 2 ^ 4)
        (Nat.pow_le_pow_right (by decide) (by omega)))
    simp [this, h]

/-- The high nibble of the window is the high nibble of the newest sample. -/
theorem window_and_0xF0 (fb bit m : Nat) (hm : 8 ≤ m) :
    (((fb <<< 8) ||| bit) % 2 ^ m) &&& 0xF0 = bit &&& 0xF0 := by
  apply Nat.eq_of_testBit_eq
  intro j
  rw [Nat.testBit_and, Nat.testBit_and, testBit_0xF0, Nat.testBit_mod_two_pow, Nat.testBit_or,
    Nat.testBit_shiftLeft]
  by_cases h : j < 8
  · have h1 : ¬ j ≥ 8 := by omega
    have h2 : j < m := by omega
    simp [h1, h2]
  · simp [h]

/-- The low nibble of the window is the low nibble of the newest sample. -/
theorem window_and_0x0F (fb bit m : Nat) (hm : 8 ≤ m) :
    (((fb <<< 8) ||| bit) % 2 ^ m) &&& 0x0F = bit &&& 0x0F := by
  apply Nat.eq_of_testBit_eq
  intro j
  rw [Nat.testBit_and, Nat.testBit_and, testBit_0x0F, Nat.testBit_mod_two_pow, Nat.testBit_or,
    Nat.testBit_shiftLeft]
  by_cases h : j < 4
  · have h1 : ¬ j ≥ 8 := by omega
    have h2 : j < m := by omega
    simp [h1, h2]
  · simp [h]

theorem miller_nibble1_window (fb bit : Nat) :
    IsMillerModulationNibble1 (((fb <<< 8) ||| bit) % 4294967296) = IsMillerModulationNibble1 bit := by
  unfold IsMillerModulationNibble1
  rw [show (4294967296 : Nat) = 2 ^ 32 from rfl, window_and_0xF0 fb bit 32 (by decide)]

theorem miller_nibble2_window (fb bit : Nat) :
    IsMillerModulationNibble2 (((fb <<< 8) ||| bit) % 4294967296) = IsMillerModulationNibble2 bit := by
  unfold IsMillerModulationNibble2
  rw [show (4294967296 : Nat) = 2 ^ 32 from rfl, window_and_0x0F fb bit 32 (by decide)]

theorem shiftReg_or_0x100 (sr : Nat) (h : sr < 512) : (sr >>> 1) ||| 0x100 = sr / 2 + 256 := by
  have h1 : sr >>> 1 = sr / 2 := by rw [Nat.shiftRight_eq_div_pow, Nat.pow_one]
  have h2 : sr / 2 < 2 ^ 8 := by simp only [Nat.reducePow]; omega
  have h3 := Nat.mul_add_lt_is_or h2 1
  rw [h1, Nat.lor_comm]
  simp only [Nat.reducePow, Nat.mul_one] at h3
  rw [← h3, Nat.add_comm]

theorem int16_small (x : Int) (h1 : -32768 ≤ x) (h2 : x < 32768) : int16 x = x := by
  unfold int16; omega

theorem UartStoreByte_lt (u : tUart) (h : u.bitCount < 9) : UartStoreByte u = u := by
  unfold UartStoreByte
  rw [if_neg (by omega)]

theorem complement_X : complement SEC_X = 243 := rfl
theorem complement_Y : complement SEC_Y = 255 := rfl
theorem complement_Z : complement SEC_Z = 63 := rfl

/-- Decoding the symbol of one bit while fewer than nine bits of the current
byte have been seen: `MillerDecoding` returns false and shifts the bit in. -/
theorem miller_bit_step (u : tUart) (prev c sr : Nat) (d : Int) (b : Bool) (t clk : Nat)
    (h : InByte u prev c sr d) (hc : c < 9) :
    (MillerDecoding u (complement (millerSymbol prev b)) t clk).1 = false
      ∧ ∃ u1, (MillerDecoding u (complement (millerSymbol prev b)) t clk).2 = UartStoreByte u1
        ∧ SameFrame u u1
        ∧ InByte u1 (millerSymbol prev b) (c + 1) (sr / 2 + 256 * (if b then 1 else 0))
            (symDur (millerSymbol prev b) (9 * u.len + c + 1) d)
        ∧ u1.state = symState (millerSymbol prev b) := by
  obtain ⟨h1, h2, h3, h4, h5, h6, h7⟩ := h
  have hbc : int16 ((c : Int) + 1) = (c : Int) + 1 := int16_small _ (by omega) (by omega)
  have hsr2 : sr / 2 + 256 < 512 := by omega
  have hsr3 : sr / 2 < 512 := by omega
  have hshift : sr >>> 1 = sr / 2 := by rw [Nat.shiftRight_eq_div_pow, Nat.pow_one]
  cases b
  · by_cases hp : prev = SEC_X
    · -- Sequence Y after Sequence X
      have hs : u.state = .STATE_MILLER_X := h3.mp hp
      have e1 : millerSymbol prev false = SEC_Y := by simp [millerSymbol, hp]
      rw [e1, complement_Y]
      refine ⟨?_, ?_⟩
      · simp [MillerDecoding, hs, h2, miller_nibble1_window, miller_nibble2_window,
          show IsMillerModulationNibble1 255 = false from rfl,
          show IsMillerModulationNibble2 255 = false from rfl]
      · refine ⟨{ u with
            fourBits := ((u.fourBits <<< 8) ||| 255) % 4294967296
            bitCount := int16 (u.bitCount + 1)
            shiftReg := u.shiftReg >>> 1
            state := .STATE_MILLER_Y }, ?_, ⟨rfl, rfl, rfl, rfl, rfl, rfl, rfl⟩, ?_, rfl⟩
        · simp [MillerDecoding, MillerSeqYTail, hs, h2,
            miller_nibble1_window, miller_nibble2_window,
            show IsMillerModulationNibble1 255 = false from rfl,
            show IsMillerModulationNibble2 255 = false from rfl]
        · exact
            { state_ne := by simp
              sync := h2
              link := by simp
              bc := by simp [h4, hbc]
              shift := by simp [h5, hshift]
              shift_lt := by simpa using hsr3
              et := by simpa [symDur] using h7 }
    · -- Sequence Z
      have hs : u.state ≠ .STATE_MILLER_X := fun e => hp (h3.mpr e)
      have e1 : millerSymbol prev false = SEC_Z := by simp [millerSymbol, hp]
      rw [e1, complement_Z]
      refine ⟨?_, ?_⟩
      · simp [MillerDecoding, hs, h1, h2, miller_nibble1_window, miller_nibble2_window,
          show IsMillerModulationNibble1 63 = true from rfl,
          show IsMillerModulationNibble2 63 = false from rfl]
      · refine ⟨{ u with
            fourBits := ((u.fourBits <<< 8) ||| 63) % 4294967296
            bitCount := int16 (u.bitCount + 1)
            shiftReg := u.shiftReg >>> 1
            state := .STATE_MILLER_Z
            endTime := uint32 ((u.startTime : Int)
              + 8 * (9 * (u.len : Int) + int16 (u.bitCount + 1) + 1) - 6) },
            ?_, ⟨rfl, rfl, rfl, rfl, rfl, rfl, rfl⟩, ?_, rfl⟩
        · simp [MillerDecoding, hs, h1, h2,
            miller_nibble1_window, miller_nibble2_window,
            show IsMillerModulationNibble1 63 = true from rfl,
            show IsMillerModulationNibble2 63 = false from rfl]
        · exact
            { state_ne := by simp
              sync := h2
              link := by simp
              bc := by simp [h4, hbc]
              shift := by simp [h5, hshift]
              shift_lt := by simpa using hsr3
              et := by
                have e : ((u.startTime : Int) + 8 * (9 * (u.len : Int) + ((c : Int) + 1) + 1) - 6)
                    = (u.startTime : Int) + (8 * (((9 * u.len + c + 1 : Nat) : Int) + 1) - 6) := by
                  push_cast; ring
                simp only [symDur, if_true, h4, hbc, e] }
  · -- Sequence X
    have e1 : millerSymbol prev true = SEC_X := by simp [millerSymbol]
    rw [e1, complement_X]
    refine ⟨?_, ?_⟩
    · simp [MillerDecoding, h1, h2, miller_nibble1_window, miller_nibble2_window,
        show IsMillerModulationNibble1 243 = false from rfl,
        show IsMillerModulationNibble2 243 = true from rfl]
    · refine ⟨{ u with
          fourBits := ((u.fourBits <<< 8) ||| 243) % 4294967296
          bitCount := int16 (u.bitCount + 1)
          shiftReg := (u.shiftReg >>> 1) ||| 0x100
          state := .STATE_MILLER_X
          endTime := uint32 ((u.startTime : Int)
            + 8 * (9 * (u.len : Int) + int16 (u.bitCount + 1) + 1) - 2) },
          ?_, ⟨rfl, rfl, rfl, rfl, rfl, rfl, rfl⟩, ?_, rfl⟩
      · simp [MillerDecoding, h1, h2,
          miller_nibble1_window, miller_nibble2_window,
          show IsMillerModulationNibble1 243 = false from rfl,
          show IsMillerModulationNibble2 243 = true from rfl]
      · exact
          { state_ne := by simp
            sync := h2
            link := by simp
            bc := by simp [h4, hbc]
            shift := by simp [h5, shiftReg_or_0x100 sr h6]
            shift_lt := by simpa using hsr2
            et := by
              have hne : SEC_X ≠ SEC_Z := by decide
              have e : ((u.startTime : Int) + 8 * (9 * (u.len : Int) + ((c : Int) + 1) + 1) - 2)
                  = (u.startTime : Int) + (8 * (((9 * u.len + c + 1 : Nat) : Int) + 1) - 2) := by
                push_cast; ring
              simp only [symDur, if_neg hne, if_true, h4, hbc, e] }

/-! ## Miller decoder: the bits of one byte -/

theorem MillerRun_append (t clk : Nat) (xs ys : List Nat) (u : tUart) :
    MillerRun t clk u (xs ++ ys)
      = ((MillerRun t clk u xs).1 ++ (MillerRun t clk (MillerRun t clk u xs).2 ys).1,
         (MillerRun t clk (MillerRun t clk u xs).2 ys).2) := by
  induction xs generalizing u with
  | nil => simp [MillerRun]
  | cons x xs ih => simp [MillerRun, ih]

theorem bitsLSB_succ_div (b n : Nat) :
    bitsLSB b (n + 1) = decide (b % 2 = 1) :: bitsLSB (b / 2) n := by
  rw [bitsLSB_succ]
  have h1 : b >>> 1 = b / 2 := by rw [Nat.shiftRight_eq_div_pow, Nat.pow_one]
  rw [h1]
  congr 1
  rcases Nat.mod_two_eq_zero_or_one b with h | h <;> simp [h]

theorem SameFrame.trans {u v w : tUart} (h1 : SameFrame u v) (h2 : SameFrame v w) :
    SameFrame u w :=
  ⟨h2.len.trans h1.len, h2.output.trans h1.output, h2.parity.trans h1.parity,
   h2.parityBits.trans h1.parityBits, h2.parityLen.trans h1.parityLen,
   h2.syncBit.trans h1.syncBit, h2.startTime.trans h1.startTime⟩

theorem SameFrame.refl (u : tUart) : SameFrame u u := ⟨rfl, rfl, rfl, rfl, rfl, rfl, rfl⟩

/-- Decoding the symbols of the `n` low bits of `b` inside one byte. -/
theorem miller_bits_run (t clk : Nat) :
    ∀ (n b : Nat) (u : tUart) (prev c sr : Nat) (d : Int), InByte u prev c sr d → c + n ≤ 8 →
      (MillerRun t clk u ((millerSymbols prev (bitsLSB b n)).map complement)).1
          = List.replicate n false
        ∧ SameFrame u (MillerRun t clk u ((millerSymbols prev (bitsLSB b n)).map complement)).2
        ∧ InByte (MillerRun t clk u ((millerSymbols prev (bitsLSB b n)).map complement)).2
            (millerLast prev (bitsLSB b n)) (c + n) (shiftIn sr b n)
            (symsDur (millerSymbols prev (bitsLSB b n)) (9 * u.len + c + 1) d)
  | 0, b, u, prev, c, sr, d, h, _ => by
    simpa [bitsLSB, millerSymbols, millerLast, MillerRun, shiftIn, symsDur] using
      ⟨SameFrame.refl u, h⟩
  | n + 1, b, u, prev, c, sr, d, h, hcn => by
    obtain ⟨h1, u1, h2, h3, h4, _⟩ := miller_bit_step u prev c sr d (decide (b % 2 = 1)) t clk h
      (by omega)
    have h5 : UartStoreByte u1 = u1 := UartStoreByte_lt u1 (by rw [h4.bc]; omega)
    rw [h5] at h2
    obtain ⟨g1, g2, g3⟩ := miller_bits_run t clk n (b / 2) u1 _ (c + 1) _ _ h4 (by omega)
    have hsr : sr / 2 + 256 * (if decide (b % 2 = 1) = true then 1 else 0)
        = sr / 2 + 256 * (b % 2) := by
      rcases Nat.mod_two_eq_zero_or_one b with hb | hb <;> simp [hb]
    rw [hsr, h3.len] at g3
    rw [bitsLSB_succ_div]
    simp only [millerSymbols, List.map_cons, MillerRun, millerLast, shiftIn, symsDur, h1, h2,
      g1, List.replicate_succ]
    refine ⟨trivial, h3.trans g2, ?_⟩
    have e : c + 1 + n = c + (n + 1) := by omega
    have e2 : 9 * u.len + (c + 1) + 1 = 9 * u.len + c + 1 + 1 := by omega
    rw [e, e2] at g3
    exact g3

/-! ## Miller decoder: one byte with its parity bit -/

theorem shiftIn_byte (b : Nat) (hb : b < 256) : shiftIn 0 b 8 = 2 * b := by
  simp only [shiftIn]
  omega

theorem FrameData.of_same {F : List Nat} {u v : tUart} {k : Nat} (h : FrameData F u k)
    (hs : SameFrame u v) : FrameData F v k :=
  ⟨by rw [hs.len, h.len], by rw [hs.output]; exact h.out, by rw [hs.parityLen, h.plen],
   by rw [hs.parityBits]; exact h.pbits, by rw [hs.parity]; exact h.pmem⟩

theorem parity_acc_testBit (pb : Nat) (p : Bool) (j : Nat) :
    (((pb <<< 1) % 256) ||| (if p then 1 else 0)).testBit j
      = ((decide (j < 8) && decide (1 ≤ j) && pb.testBit (j - 1)) || (decide (j = 0) && p)) := by
  rw [Nat.testBit_or, show (256 : Nat) = 2 ^ 8 from rfl, Nat.testBit_mod_two_pow,
    Nat.testBit_shiftLeft]
  have hp : (if p then 1 else 0 : Nat).testBit j = (decide (j = 0) && p) := by
    cases p
    · simp
    · cases j with
      | zero => simp
      | succ j => simp [Nat.testBit_succ]
  rw [hp]
  simp [Bool.and_assoc]

/-- The block `if(Uart.bitCount >= 9) { ... }` after the ninth bit of byte
`k` of the frame. -/
theorem store_byte_frame (F : List Nat) (u : tUart) (prev k : Nat) (d : Int)
    (hin : InByte u prev 9 (F.getD k 0 + 256 * (if parBit F k then 1 else 0)) d)
    (hfd : FrameData F u k) (hk : k + 1 < 65536) (hflush : (k + 1) % 8 = 0 → k < 2048)
    (hb : F.getD k 0 < 256) :
    InByte (UartStoreByte u) prev 0 0 d ∧ FrameData F (UartStoreByte u) (k + 1)
      ∧ (UartStoreByte u).startTime = u.startTime := by
  obtain ⟨i1, i2, i3, i4, i5, i6, i7⟩ := hin
  obtain ⟨f1, f2, f3, f4, f5⟩ := hfd
  have hdm : 8 * (k / 8) + k % 8 = k := Nat.div_add_mod k 8
  have hlen : (k + 1) % 65536 = k + 1 := by omega
  have hand : (k + 1) &&& 7 = (k + 1) % 8 := Nat.and_pow_two_sub_one_eq_mod (k + 1) 3
  have hlow : (F.getD k 0 + 256 * (if parBit F k then 1 else 0)) &&& 255 = F.getD k 0 := by
    have := Nat.and_pow_two_sub_one_eq_mod (F.getD k 0 + 256 * (if parBit F k then 1 else 0)) 8
    simp only [Nat.reducePow, Nat.add_one_sub_one] at this
    rw [this]
    split <;> omega
  have hhigh : ((F.getD k 0 + 256 * (if parBit F k then 1 else 0)) >>> 8) &&& 1
      = (if parBit F k then 1 else 0) := by
    rw [Nat.and_one_is_mod, Nat.shiftRight_eq_div_pow]
    simp only [Nat.reducePow]
    split <;> omega
  unfold UartStoreByte
  rw [if_pos (by rw [i4]; decide)]
  simp only [f1, i5, hlen, hand, hlow, hhigh]
  by_cases h8 : (k + 1) % 8 = 0
  · have e1 : (k + 1) / 8 = k / 8 + 1 := by omega
    have e2 : k % 8 = 7 := by omega
    have hk2 : k < 2048 := hflush h8
    have hplen : (k / 8) % 256 = k / 8 := by omega
    rw [if_pos h8]
    refine ⟨⟨i1, i2, i3, rfl, rfl, by decide, i7⟩, ⟨rfl, ?_, ?_, ?_, ?_⟩, rfl⟩
    · intro i hi
      simp only [memSet]
      by_cases hik : i = k
      · simp [hik]
      · rw [if_neg hik]; exact f2 i (by omega)
    · simp only [f3]; omega
    · intro j; simp [h8]
    · intro m hm j
      simp only [memSet, f3, hplen]
      by_cases hmk : m = k / 8
      · rw [if_pos hmk, parity_acc_testBit, f4, hmk, e2]
        by_cases hj0 : j = 0
        · subst hj0
          have : 8 * (k / 8) + (7 - 0) = k := by omega
          simp [this]
        · by_cases hj8 : j < 8
          · have a1 : 1 ≤ j := by omega
            have a2 : j - 1 < 7 := by omega
            have a3 : 7 - 1 - (j - 1) = 7 - j := by omega
            simp [hj0, hj8, a1, a2, a3]
          · simp [hj0, hj8]
      · rw [if_neg hmk]; exact f5 m (by omega) j
  · have e1 : (k + 1) / 8 = k / 8 := by omega
    have e2 : (k + 1) % 8 = k % 8 + 1 := by omega
    rw [if_neg h8]
    refine ⟨⟨i1, i2, i3, rfl, rfl, by decide, i7⟩, ⟨rfl, ?_, ?_, ?_, ?_⟩, rfl⟩
    · intro i hi
      simp only [memSet]
      by_cases hik : i = k
      · simp [hik]
      · rw [if_neg hik]; exact f2 i (by omega)
    · simp only [f3, e1]
    · intro j
      simp only [parity_acc_testBit, f4, e1, e2]
      by_cases hj0 : j = 0
      · subst hj0
        simp [hdm]
      · by_cases hj : j < k % 8 + 1
        · have a0 : j < 8 := by omega
          have a1 : 1 ≤ j := by omega
          have a2 : j - 1 < k % 8 := by omega
          have a3 : k % 8 - 1 - (j - 1) = k % 8 + 1 - 1 - j := by omega
          simp [hj0, hj, a0, a1, a2, a3]
        · have a2 : ¬ j - 1 < k % 8 := by omega
          simp [hj0, hj, a2]
    · intro m hm j
      exact f5 m (by omega) j

/-! ## Miller decoder: a whole frame -/

theorem symsDur_append (xs ys : List Nat) (n : Nat) (d : Int) :
    symsDur (xs ++ ys) n d = symsDur ys (n + xs.length) (symsDur xs n d) := by
  induction xs generalizing n d with
  | nil => rfl
  | cons x xs ih =>
    have e : n + 1 + xs.length = n + (xs.length + 1) := by omega
    show symsDur (xs ++ ys) (n + 1) (symDur x n d)
      = symsDur ys (n + (xs.length + 1)) (symsDur xs (n + 1) (symDur x n d))
    rw [ih, e]

theorem bitsLSB_length (b n : Nat) : (bitsLSB b n).length = n := by
  simp [bitsLSB]

/-- Decoding the nine symbols of byte `k` of the frame. -/
theorem miller_byte_run (t clk : Nat) (F : List Nat) (u : tUart) (prev k : Nat) (d : Int)
    (hin : InByte u prev 0 0 d) (hfd : FrameData F u k) (hk : k + 1 < 65536)
    (hflush : (k + 1) % 8 = 0 → k < 2048) (hb : F.getD k 0 < 256) :
    (MillerRun t clk u ((millerSymbols prev (dataBits F k)).map complement)).1
        = List.replicate 9 false
      ∧ InByte (MillerRun t clk u ((millerSymbols prev (dataBits F k)).map complement)).2
          (millerLast prev (dataBits F k)) 0 0
          (symsDur (millerSymbols prev (dataBits F k)) (9 * k + 1) d)
      ∧ FrameData F (MillerRun t clk u ((millerSymbols prev (dataBits F k)).map complement)).2
          (k + 1)
      ∧ (MillerRun t clk u ((millerSymbols prev (dataBits F k)).map complement)).2.startTime
          = u.startTime := by
  obtain ⟨g1, g2, g3⟩ := miller_bits_run t clk 8 (F.getD k 0) u prev 0 0 d hin (by decide)
  rw [shiftIn_byte _ hb, hfd.len] at g3
  obtain ⟨s1, u9, s2, s3, s4, _⟩ := miller_bit_step _ _ _ _ _ (parBit F k) t clk g3 (by decide)
  have e1 : 2 * F.getD k 0 / 2 = F.getD k 0 := by omega
  rw [e1, g2.len, hfd.len] at s4
  obtain ⟨r1, r2, r3⟩ :=
    store_byte_frame F u9 _ k _ s4 ((hfd.of_same g2).of_same s3) hk hflush hb
  have hB : ∀ (v : tUart) (q : Nat) (p : Bool),
      MillerRun t clk v ((millerSymbols q [p]).map complement)
        = ([(MillerDecoding v (complement (millerSymbol q p)) t clk).1],
           (MillerDecoding v (complement (millerSymbol q p)) t clk).2) := fun _ _ _ => rfl
  have hL : ∀ (q : Nat) (p : Bool), millerLast q [p] = millerSymbol q p := fun _ _ => rfl
  have hD : ∀ (q : Nat) (p : Bool) (n : Nat) (e : Int),
      symsDur (millerSymbols q [p]) n e = symDur (millerSymbol q p) n e := fun _ _ _ _ => rfl
  have e2 : 9 * k + 1 + 8 = 9 * k + 8 + 1 := by omega
  unfold dataBits
  rw [millerSymbols_append, List.map_append, MillerRun_append, millerLast_append,
    symsDur_append, millerSymbols_length, bitsLSB_length, hB, hL, hD, e2]
  dsimp only
  rw [g1, s1, s2]
  refine ⟨rfl, r1, r2, ?_⟩
  rw [r3, s3.startTime, g2.startTime]

/-- Decoding the symbols of the bytes `i .. i + n - 1` of the frame. -/
theorem miller_frame_run (t clk : Nat) (F : List Nat) :
    ∀ (n i : Nat) (u : tUart) (prev : Nat) (d : Int), InByte u prev 0 0 d → FrameData F u i →
      i + n ≤ 2055 → (∀ j, j < i + n → F.getD j 0 < 256) →
      (MillerRun t clk u
          ((millerSymbols prev ((List.range' i n).flatMap (dataBits F))).map complement)).1
          = List.replicate (9 * n) false
        ∧ InByte (MillerRun t clk u
            ((millerSymbols prev ((List.range' i n).flatMap (dataBits F))).map complement)).2
            (millerLast prev ((List.range' i n).flatMap (dataBits F))) 0 0
            (symsDur (millerSymbols prev ((List.range' i n).flatMap (dataBits F))) (9 * i + 1) d)
        ∧ FrameData F (MillerRun t clk u
            ((millerSymbols prev ((List.range' i n).flatMap (dataBits F))).map complement)).2
            (i + n)
        ∧ (MillerRun t clk u
            ((millerSymbols prev ((List.range' i n).flatMap (dataBits F))).map complement)).2.startTime
            = u.startTime
  | 0, i, u, prev, d, hin, hfd, _, _ => by
    simpa [millerSymbols, millerLast, MillerRun, symsDur] using ⟨hin, hfd⟩
  | n + 1, i, u, prev, d, hin, hfd, hn, hb => by
    obtain ⟨b1, b2, b3, b4⟩ := miller_byte_run t clk F u prev i d hin hfd (by omega)
      (by omega) (hb i (by omega))
    obtain ⟨f1, f2, f3, f4⟩ := miller_frame_run t clk F n (i + 1) _ _ _ b2 b3 (by omega)
      (fun j hj => hb j (by omega))
    have hl : (millerSymbols prev (dataBits F i)).length = 9 := by
      rw [millerSymbols_length]; simp [dataBits, bitsLSB_length]
    rw [List.range'_succ, List.flatMap_cons, millerSymbols_append, List.map_append,
      MillerRun_append, millerLast_append, symsDur_append, hl]
    have e1 : 9 * i + 1 + 9 = 9 * (i + 1) + 1 := by omega
    have e2 : i + (n + 1) = i + 1 + n := by omega
    rw [e1, e2]
    refine ⟨?_, f2, f3, by rw [f4, b4]⟩
    simp only [b1, f1]
    rw [← List.replicate_add, show 9 + 9 * n = 9 * (n + 1) by omega]

/-! ## Miller decoder: synchronisation and end of communication -/

theorem uint32_cast_add (x d : Int) : uint32 (((uint32 x : Nat) : Int) + d) = uint32 (x + d) := by
  unfold uint32
  omega

theorem miller_unsynced_nosync (u : tUart) (bit t clk : Nat) (h1 : u.state = .STATE_UNSYNCD)
    (hs : MillerSyncBit (((u.fourBits <<< 8) ||| bit) % 4294967296) = 9999) :
    MillerDecoding u bit t clk
      = (false, { u with fourBits := ((u.fourBits <<< 8) ||| bit) % 4294967296, syncBit := 9999 }) := by
  simp only [MillerDecoding, h1, hs, if_true, ne_eq, not_true_eq_false, if_false]

theorem miller_unsynced_sync (u : tUart) (bit t clk : Nat) (h1 : u.state = .STATE_UNSYNCD)
    (hs : MillerSyncBit (((u.fourBits <<< 8) ||| bit) % 4294967296) = 0) :
    MillerDecoding u bit t clk
      = (false, { u with
          fourBits := ((u.fourBits <<< 8) ||| bit) % 4294967296
          syncBit := 0
          startTime := uint32 ((if t ≠ 0 then t else clk &&& 0xfffffff8 : Nat) : Int)
          endTime := uint32 ((if t ≠ 0 then t else clk &&& 0xfffffff8 : Nat) : Int)
          state := .STATE_START_OF_COMMUNICATION }) := by
  have h0 : (0 : Nat) ≠ 9999 := by decide
  simp only [MillerDecoding, h1, hs, if_true, ne_eq, h0, not_false_eq_true, Nat.cast_zero,
    Int.sub_zero]

/-- An idle sample while unsynchronised: nothing changes but the window. -/
theorem miller_idle_fields (u : tUart) (t clk fb : Nat) (h1 : u.state = .STATE_UNSYNCD)
    (hfb : u.fourBits = fb) (hs : MillerSyncBit (((fb <<< 8) ||| 0xFF) % 4294967296) = 9999) :
    (MillerDecoding u 0xFF t clk).1 = false
      ∧ (MillerDecoding u 0xFF t clk).2.state = .STATE_UNSYNCD
      ∧ (MillerDecoding u 0xFF t clk).2.bitCount = u.bitCount
      ∧ (MillerDecoding u 0xFF t clk).2.len = u.len
      ∧ (MillerDecoding u 0xFF t clk).2.parityLen = u.parityLen
      ∧ (MillerDecoding u 0xFF t clk).2.shiftReg = u.shiftReg
      ∧ (MillerDecoding u 0xFF t clk).2.parityBits = u.parityBits
      ∧ (MillerDecoding u 0xFF t clk).2.output = u.output
      ∧ (MillerDecoding u 0xFF t clk).2.parity = u.parity
      ∧ (MillerDecoding u 0xFF t clk).2.fourBits = ((fb <<< 8) ||| 0xFF) % 4294967296 := by
  subst hfb
  rw [miller_unsynced_nosync u 0xFF t clk h1 hs]
  exact ⟨rfl, h1, rfl, rfl, rfl, rfl, rfl, rfl, rfl, rfl⟩

theorem miller_idle2_step (data par : Mem) (u : tUart) (t clk : Nat) (h : MillerIdle2 data par u) :
    (MillerDecoding u 0xFF t clk).1 = false ∧ MillerIdle2 data par (MillerDecoding u 0xFF t clk).2 := by
  obtain ⟨h1, h2, h3, h4, h5, h6, h7, h8, h9⟩ := h
  have key : ∀ fb, u.fourBits = fb → MillerSyncBit (((fb <<< 8) ||| 0xFF) % 4294967296) = 9999 →
      (((fb <<< 8) ||| 0xFF) % 4294967296 = 0xFFFF ∨ ((fb <<< 8) ||| 0xFF) % 4294967296 = 0xFFFFFF
        ∨ ((fb <<< 8) ||| 0xFF) % 4294967296 = 0xFFFFFFFF) →
      (MillerDecoding u 0xFF t clk).1 = false
        ∧ MillerIdle2 data par (MillerDecoding u 0xFF t clk).2 := by
    intro fb hfb hs hnext
    obtain ⟨a0, a1, a2, a3, a4, a5, a6, a7, a8, a9⟩ := miller_idle_fields u t clk fb h1 hfb hs
    exact ⟨a0, a1, a2.trans h2, a3.trans h3, a4.trans h4, a5.trans h5, a6.trans h6, a7.trans h7,
      a8.trans h8, by rw [a9]; exact hnext⟩
  rcases h9 with h | h | h
  · exact key _ h (by decide) (by decide)
  · exact key _ h (by decide) (by decide)
  · exact key _ h (by decide) (by decide)

/-- A Sequence Z after at least two idle samples is taken as the start of
communication, with `syncBit = 0`. -/
theorem miller_sync_step (F : List Nat) (data par : Mem) (u : tUart) (t clk : Nat)
    (h : MillerIdle2 data par u) :
    (MillerDecoding u (complement SEC_Z) t clk).1 = false
      ∧ InByte (MillerDecoding u (complement SEC_Z) t clk).2 SEC_Z 0 0 0
      ∧ FrameData F (MillerDecoding u (complement SEC_Z) t clk).2 0
      ∧ (MillerDecoding u (complement SEC_Z) t clk).2.output = data
      ∧ (MillerDecoding u (complement SEC_Z) t clk).2.startTime
          = uint32 ((if t ≠ 0 then t else clk &&& 0xfffffff8 : Nat) : Int) := by
  obtain ⟨h1, h2, h3, h4, h5, h6, h7, h8, h9⟩ := h
  have key : ∀ fb, u.fourBits = fb → MillerSyncBit (((fb <<< 8) ||| 63) % 4294967296) = 0 →
      MillerSyncBit (((u.fourBits <<< 8) ||| 63) % 4294967296) = 0 := by
    intro fb hfb hs; rw [hfb]; exact hs
  have hs : MillerSyncBit (((u.fourBits <<< 8) ||| 63) % 4294967296) = 0 := by
    rcases h9 with h | h | h
    · exact key _ h (by decide)
    · exact key _ h (by decide)
    · exact key _ h (by decide)
  rw [complement_Z, miller_unsynced_sync u 63 t clk h1 hs]
  refine ⟨rfl, ?_, ?_, h7, rfl⟩
  · exact
      { state_ne := by simp
        sync := rfl
        link := by simp
        bc := by simpa using h2
        shift := h5
        shift_lt := by decide
        et := by
          dsimp only
          rw [uint32_cast_add, Int.add_zero] }
  · exact
      { len := h3
        out := fun i hi => absurd hi (Nat.not_lt_zero i)
        plen := h4
        pbits := by intro j; simp [h6]
        pmem := fun m hm => absurd hm (Nat.not_lt_zero m) }

theorem window_idle_1 : ((0 <<< 8) ||| 0xFF) % 4294967296 = 255 := by decide
theorem window_idle_2 : ((255 <<< 8) ||| 0xFF) % 4294967296 = 0xFFFF := by decide
theorem nosync_idle_1 : MillerSyncBit (((0 <<< 8) ||| 0xFF) % 4294967296) = 9999 := by decide
theorem nosync_idle_2 : MillerSyncBit (((255 <<< 8) ||| 0xFF) % 4294967296) = 9999 := by decide

/-- Two idle samples after `UartInit`: the second call. -/
theorem miller_two_idle_state (t clk : Nat) (u0 : tUart) (data par : Mem) :
    (MillerDecoding (UartInit u0 data par) 0xFF t clk).1 = false
      ∧ (MillerDecoding (MillerDecoding (UartInit u0 data par) 0xFF t clk).2 0xFF t clk).1 = false
      ∧ MillerIdle2 data par
          (MillerDecoding (MillerDecoding (UartInit u0 data par) 0xFF t clk).2 0xFF t clk).2 := by
  obtain ⟨a0, a1, a2, a3, a4, a5, a6, a7, a8, a9⟩ :=
    miller_idle_fields (UartInit u0 data par) t clk 0 rfl rfl nosync_idle_1
  obtain ⟨b0, b1, b2, b3, b4, b5, b6, b7, b8, b9⟩ :=
    miller_idle_fields (MillerDecoding (UartInit u0 data par) 0xFF t clk).2 t clk 255 a1
      (a9.trans window_idle_1) nosync_idle_2
  exact ⟨a0, b0, b1, b2.trans a2, b3.trans a3, b4.trans a4, b5.trans a5, b6.trans a6,
    b7.trans a7, b8.trans a8, Or.inl (b9.trans window_idle_2)⟩

theorem replicate_false_snoc (m : Nat) :
    List.replicate m false ++ [false] = List.replicate (m + 1) false := by
  induction m with
  | zero => rfl
  | succ m ih => rw [List.replicate_succ, List.cons_append, ih, ← List.replicate_succ]

theorem MillerRun_cons (t clk : Nat) (u : tUart) (s : Nat) (ss : List Nat) :
    MillerRun t clk u (s :: ss)
      = ((MillerDecoding u s t clk).1 :: (MillerRun t clk (MillerDecoding u s t clk).2 ss).1,
         (MillerRun t clk (MillerDecoding u s t clk).2 ss).2) := rfl

theorem MillerRun_nil (t clk : Nat) (u : tUart) : MillerRun t clk u [] = ([], u) := rfl

/-- At least two idle samples and the start of communication. -/
theorem miller_sync_run (F : List Nat) (t clk n : Nat) (hn : 2 ≤ n) (u0 : tUart) (data par : Mem) :
    (MillerRun t clk (UartInit u0 data par) (List.replicate n 0xFF ++ [complement SEC_Z])).1
        = List.replicate (n + 1) false
      ∧ InByte (MillerRun t clk (UartInit u0 data par)
          (List.replicate n 0xFF ++ [complement SEC_Z])).2 SEC_Z 0 0 0
      ∧ FrameData F (MillerRun t clk (UartInit u0 data par)
          (List.replicate n 0xFF ++ [complement SEC_Z])).2 0
      ∧ (MillerRun t clk (UartInit u0 data par)
          (List.replicate n 0xFF ++ [complement SEC_Z])).2.output = data
      ∧ (MillerRun t clk (UartInit u0 data par)
          (List.replicate n 0xFF ++ [complement SEC_Z])).2.startTime
          = uint32 ((if t ≠ 0 then t else clk &&& 0xfffffff8 : Nat) : Int) := by
  obtain ⟨a0, a1, a2⟩ := miller_two_idle_state t clk u0 data par
  obtain ⟨b1, b2⟩ := MillerRun_invariant (MillerIdle2 data par) t clk (List.replicate (n - 2) 0xFF)
    (fun v hv s hs => by
      rw [List.eq_of_mem_replicate hs]; exact miller_idle2_step data par v t clk hv) _ a2
  obtain ⟨c1, c2, c3, c4, c5⟩ := miller_sync_step F data par _ t clk b2
  have hrep : List.replicate n 0xFF = 0xFF :: 0xFF :: List.replicate (n - 2) 0xFF := by
    obtain ⟨m, rfl⟩ : ∃ m, n = m + 2 := ⟨n - 2, by omega⟩
    simp [List.replicate_succ]
  rw [hrep, List.cons_append, List.cons_append, MillerRun_cons, MillerRun_cons, MillerRun_append,
    MillerRun_cons, MillerRun_nil]
  dsimp only
  rw [a0, a1, b1, c1, List.length_replicate]
  refine ⟨?_, c2, c3, c4, c5⟩
  have e2 : n + 1 = (n - 2) + 1 + 2 := by omega
  rw [e2, replicate_false_snoc]
  rfl

/-! ## Miller decoder: end of communication -/

theorem tail_shift_testBit (pb c j : Nat) :
    ((pb <<< (8 - c)) % 256).testBit j
      = (decide (j < 8) && decide (8 - c ≤ j) && pb.testBit (j - (8 - c))) := by
  rw [show (256 : Nat) = 2 ^ 8 from rfl, Nat.testBit_mod_two_pow, Nat.testBit_shiftLeft]
  simp [Bool.and_assoc]

/-- The final Sequence Y after the logic 0 of the end of communication: the
value returned and the new `Uart`. -/
theorem miller_eoc_equation (u : tUart) (prev k : Nat) (d : Int) (t clk : Nat)
    (hin : InByte u prev 1 0 d) (hst : u.state = .STATE_MILLER_Z ∨ u.state = .STATE_MILLER_Y)
    (hlen : u.len = k) (hk0 : 0 < k) :
    MillerDecoding u (complement SEC_Y) t clk
      = (true,
          if k % 8 ≠ 0 then
            { u with
              fourBits := ((u.fourBits <<< 8) ||| 255) % 4294967296
              state := .STATE_UNSYNCD
              bitCount := 0
              shiftReg := (u.shiftReg <<< 1) % 65536
              parityBits := (u.parityBits <<< (8 - k % 8)) % 256
              parity := memSet u.parity u.parityLen ((u.parityBits <<< (8 - k % 8)) % 256)
              parityLen := (u.parityLen + 1) % 256 }
          else
            { u with
              fourBits := ((u.fourBits <<< 8) ||| 255) % 4294967296
              state := .STATE_UNSYNCD
              bitCount := 0
              shiftReg := (u.shiftReg <<< 1) % 65536 }) := by
  obtain ⟨i1, i2, i3, i4, i5, i6, i7⟩ := hin
  have hand : k &&& 7 = k % 8 := Nat.and_pow_two_sub_one_eq_mod k 3
  have hb0 : int16 ((1 : Int) - 1) = 0 := by decide
  have hk' : k ≠ 0 := by omega
  rw [complement_Y]
  simp only [MillerDecoding, i1, i2, if_false, Nat.shiftRight_zero, miller_nibble1_window,
    miller_nibble2_window, show IsMillerModulationNibble1 255 = false from rfl,
    show IsMillerModulationNibble2 255 = false from rfl, Bool.false_eq_true, hst, if_true, i4,
    Nat.cast_one, hb0, hlen, hand, gt_iff_lt, Int.lt_irrefl]
  by_cases h8 : k % 8 = 0
  · simp [h8, hk']
  · simp [h8, hk']

/-- The final Sequence Y after the logic 0 of the end of communication: the
frame is emitted. -/
theorem miller_eoc_final (F : List Nat) (u : tUart) (prev k : Nat) (d : Int) (t clk : Nat)
    (hin : InByte u prev 1 0 d) (hst : u.state = .STATE_MILLER_Z ∨ u.state = .STATE_MILLER_Y)
    (hfd : FrameData F u k) (hk0 : 0 < k) (hk : k ≤ 2048) :
    (MillerDecoding u (complement SEC_Y) t clk).1 = true
      ∧ (MillerDecoding u (complement SEC_Y) t clk).2.len = k
      ∧ (MillerDecoding u (complement SEC_Y) t clk).2.output = u.output
      ∧ (∀ m j, 8 * m < k → ((MillerDecoding u (complement SEC_Y) t clk).2.parity m).testBit j
          = (decide (j < 8) && decide (8 * m + (7 - j) < k) && parBit F (8 * m + (7 - j))))
      ∧ (MillerDecoding u (complement SEC_Y) t clk).2.startTime = u.startTime
      ∧ (MillerDecoding u (complement SEC_Y) t clk).2.endTime = u.endTime := by
  have hd := miller_eoc_equation u prev k d t clk hin hst hfd.len hk0
  obtain ⟨f1, f2, f3, f4, f5⟩ := hfd
  have hdm : 8 * (k / 8) + k % 8 = k := Nat.div_add_mod k 8
  rw [hd]
  refine ⟨rfl, ?_, ?_, ?_, ?_, ?_⟩
  · split <;> exact f1
  · split <;> rfl
  · intro m j hm
    by_cases h8 : k % 8 = 0
    · rw [if_neg (by simpa using h8)]
      rw [f5 m (by omega) j]
      by_cases hj : j < 8
      · have : 8 * m + (7 - j) < k := by omega
        simp [hj, this]
      · simp [hj]
    · rw [if_pos h8]
      have hpl : u.parityLen = k / 8 := by rw [f3]; omega
      simp only [memSet, hpl]
      by_cases hmk : m = k / 8
      · rw [if_pos hmk, tail_shift_testBit, f4, hmk]
        by_cases hj : j < 8
        · by_cases hc : 8 - k % 8 ≤ j
          · have a1 : j - (8 - k % 8) < k % 8 := by omega
            have a2 : k % 8 - 1 - (j - (8 - k % 8)) = 7 - j := by omega
            have a3 : 8 * (k / 8) + (7 - j) < k := by omega
            simp [hj, hc, a1, a2, a3]
          · have a3 : ¬ 8 * (k / 8) + (7 - j) < k := by omega
            simp [hj, hc, a3]
        · simp [hj]
      · rw [if_neg hmk, f5 m (by omega) j]
        by_cases hj : j < 8
        · have : 8 * m + (7 - j) < k := by omega
          simp [hj, this]
        · simp [hj]
  · split <;> rfl
  · split <;> rfl

/-- Decoding the two symbols of the end of communication after `k` complete
bytes. -/
theorem miller_eoc_run (F : List Nat) (u : tUart) (prev k : Nat) (d : Int) (t clk : Nat)
    (hin : InByte u prev 0 0 d) (hfd : FrameData F u k) (hk0 : 0 < k) (hk : k ≤ 2048) :
    (MillerRun t clk u
        ([if prev = SEC_X then SEC_Y else SEC_Z, SEC_Y].map complement)).1 = [false, true]
      ∧ (MillerRun t clk u
        ([if prev = SEC_X then SEC_Y else SEC_Z, SEC_Y].map complement)).2.len = k
      ∧ (∀ i, i < k → (MillerRun t clk u
        ([if prev = SEC_X then SEC_Y else SEC_Z, SEC_Y].map complement)).2.output i = F.getD i 0)
      ∧ (∀ m j, 8 * m < k → ((MillerRun t clk u
        ([if prev = SEC_X then SEC_Y else SEC_Z, SEC_Y].map complement)).2.parity m).testBit j
          = (decide (j < 8) && decide (8 * m + (7 - j) < k) && parBit F (8 * m + (7 - j))))
      ∧ (MillerRun t clk u
        ([if prev = SEC_X then SEC_Y else SEC_Z, SEC_Y].map complement)).2.startTime = u.startTime
      ∧ (MillerRun t clk u
        ([if prev = SEC_X then SEC_Y else SEC_Z, SEC_Y].map complement)).2.endTime
          = uint32 ((u.startTime : Int)
              + symDur (if prev = SEC_X then SEC_Y else SEC_Z) (9 * k + 1) d) := by
  have hsym : (if prev = SEC_X then SEC_Y else SEC_Z) = millerSymbol prev false := by
    unfold millerSymbol
    by_cases h : prev = SEC_X <;> simp [h]
  rw [hsym]
  obtain ⟨s1, u1, s2, s3, s4, s5⟩ := miller_bit_step u prev 0 0 d false t clk hin (by decide)
  have h5 : UartStoreByte u1 = u1 := UartStoreByte_lt u1 (by rw [s4.bc]; decide)
  rw [h5] at s2
  have hst : u1.state = .STATE_MILLER_Z ∨ u1.state = .STATE_MILLER_Y := by
    rw [s5]
    unfold millerSymbol symState
    by_cases h : prev = SEC_X <;> simp [h]
  have s4' : InByte u1 (millerSymbol prev false) 1 0
      (symDur (millerSymbol prev false) (9 * k + 1) d) := by
    have := s4
    rw [hfd.len] at this
    simpa using this
  obtain ⟨e1, e2, e3, e4, e5, e6⟩ := miller_eoc_final F u1 _ k _ t clk s4' hst (hfd.of_same s3) hk0 hk
  rw [List.map_cons, List.map_cons, List.map_nil, MillerRun_cons, MillerRun_cons, MillerRun_nil]
  dsimp only
  rw [s1, s2, e1]
  refine ⟨rfl, e2, ?_, e4, by rw [e5, s3.startTime], ?_⟩
  · intro i hi
    rw [e3, s3.output]
    exact hfd.out i hi
  · rw [e6, s4'.et, s3.startTime]

/-! ## Reader-to-tag round trip -/

/-- The bits transmitted for a frame of complete bytes with the parity of
`GetParity`. -/
theorem frameBits_full (F : List Nat) (par0 : Mem) (hlen : F.length < 8192) :
    frameBits F ((F.length * 8) % 65536) (some (GetParity F F.length par0))
      = (List.range F.length).flatMap (dataBits F) := by
  have hb : (F.length * 8) % 65536 = F.length * 8 := by omega
  have hn : nbytes (F.length * 8) = F.length := by unfold nbytes; omega
  rw [hb]
  unfold frameBits
  rw [hn]
  unfold List.flatMap
  congr 1
  apply List.map_congr_left
  intro i hi
  have hi' : i < F.length := List.mem_range.mp hi
  have h8 : min (F.length * 8 - i * 8) 8 = 8 := by omega
  have hp : (GetParity F F.length par0 (i / 8)).testBit (7 - i % 8) = parBit F i := by
    rw [GetParity_testBit F par0 (by omega) _ _ (Nat.div_le_div_right (Nat.le_of_lt hi'))]
    have e : 8 * (i / 8) + (7 - (7 - i % 8)) = i := by omega
    have hk : 7 - i % 8 < 8 := by omega
    simp [e, hi', hk]
  simp only [byteBits, dataBits, h8, if_true, hp]

theorem parBit_eq_oddparity8 (F : List Nat) (i : Nat) :
    oddparity8 (F.getD i 0) = if parBit F i then 1 else 0 := by
  unfold oddparity8 parBit
  by_cases h : popcount8 (F.getD i 0) % 2 = 0 <;> simp [h]

/-- The symbols of a frame of complete bytes with the parity of `GetParity`. -/
theorem reader_ToSend_full (F : List Nat) (par0 : Mem) (s0 : EncSt) (hlen : F.length < 8192) :
    (CodeIso14443aAsReaderPar s0 F F.length (some (GetParity F F.length par0))).ToSend
      = SEC_Z :: millerSymbols SEC_Z ((List.range' 0 F.length).flatMap (dataBits F))
        ++ [if millerLast SEC_Z ((List.range' 0 F.length).flatMap (dataBits F)) = SEC_X
            then SEC_Y else SEC_Z, SEC_Y] := by
  unfold CodeIso14443aAsReaderPar
  rw [CodeIso14443aBitsAsReaderPar_ToSend, frameBits_full F par0 hlen, List.range_eq_range']

/-- The round trip up to the end of communication: the decoder has returned
false throughout, has stored the whole frame and is about to see the two
symbols of the end of communication. -/
theorem reader_round_trip_prefix (F : List Nat) (hlen : F.length ≤ 2055)
    (hbytes : ∀ b ∈ F, b < 256) (n : Nat) (hn : 2 ≤ n) (u0 : tUart) (data parity par0 : Mem)
    (s0 : EncSt) (t clk : Nat) :
    ∃ u : tUart,
      MillerRun t clk (UartInit u0 data parity)
          (readerSamples n (CodeIso14443aAsReaderPar s0 F F.length
            (some (GetParity F F.length par0))))
        = (List.replicate (n + 1 + 9 * F.length) false
            ++ (MillerRun t clk u
              ([if millerLast SEC_Z ((List.range' 0 F.length).flatMap (dataBits F)) = SEC_X
                then SEC_Y else SEC_Z, SEC_Y].map complement)).1,
           (MillerRun t clk u
              ([if millerLast SEC_Z ((List.range' 0 F.length).flatMap (dataBits F)) = SEC_X
                then SEC_Y else SEC_Z, SEC_Y].map complement)).2)
      ∧ InByte u (millerLast SEC_Z ((List.range' 0 F.length).flatMap (dataBits F))) 0 0
          (symsDur (millerSymbols SEC_Z ((List.range' 0 F.length).flatMap (dataBits F))) 1 0)
      ∧ FrameData F u F.length
      ∧ u.startTime = uint32 ((if t ≠ 0 then t else clk &&& 0xfffffff8 : Nat) : Int) := by
  have hb : ∀ j, j < 0 + F.length → F.getD j 0 < 256 := by
    intro j hj
    rw [Nat.zero_add] at hj
    rw [List.getD_eq_getElem _ _ hj]
    exact hbytes _ (List.getElem_mem _)
  have hT := reader_ToSend_full F par0 s0 (by omega)
  obtain ⟨a1, a2, a3, a4, a5⟩ := miller_sync_run F t clk n hn u0 data parity
  obtain ⟨b1, b2, b3, b4⟩ := miller_frame_run t clk F F.length 0 _ SEC_Z 0 a2 a3 (by omega) hb
  rw [Nat.zero_add] at b3
  have hS : readerSamples n (CodeIso14443aAsReaderPar s0 F F.length
        (some (GetParity F F.length par0)))
      = (List.replicate n 0xFF ++ [complement SEC_Z])
        ++ ((millerSymbols SEC_Z ((List.range' 0 F.length).flatMap (dataBits F))).map complement
          ++ [if millerLast SEC_Z ((List.range' 0 F.length).flatMap (dataBits F)) = SEC_X
              then SEC_Y else SEC_Z, SEC_Y].map complement) := by
    unfold readerSamples
    rw [hT]
    simp only [List.map_cons, List.map_append, List.append_assoc, List.cons_append,
      List.nil_append, List.map_nil]
  refine ⟨_, ?_, b2, b3, by rw [b4, a5]⟩
  rw [hS, MillerRun_append t clk (List.replicate n 0xFF ++ [complement SEC_Z]),
    MillerRun_append t clk
      ((millerSymbols SEC_Z ((List.range' 0 F.length).flatMap (dataBits F))).map complement)]
  dsimp only
  rw [a1, b1, ← List.append_assoc, List.append_replicate_replicate]

/-- The time of the last modulation of a frame of complete bytes, from the
symbols after the start of communication. -/
theorem reader_symsDur_full (F : List Nat) (par0 : Mem) (s0 : EncSt) (hlen : F.length < 8192) :
    symsDur ((CodeIso14443aAsReaderPar s0 F F.length
        (some (GetParity F F.length par0))).ToSend.drop 1) 1 0
      = symDur (if millerLast SEC_Z ((List.range' 0 F.length).flatMap (dataBits F)) = SEC_X
          then SEC_Y else SEC_Z) (9 * F.length + 1)
          (symsDur (millerSymbols SEC_Z ((List.range' 0 F.length).flatMap (dataBits F))) 1 0) := by
  have hl : ∀ xs : List Bool, (millerSymbols SEC_Z xs).length = xs.length :=
    millerSymbols_length SEC_Z
  have hlen9 : ((List.range' 0 F.length).flatMap (dataBits F)).length = 9 * F.length := by
    generalize 0 = i
    induction F.length generalizing i with
    | zero => rfl
    | succ m ih =>
      rw [List.range'_succ, List.flatMap_cons, List.length_append, ih]
      simp [dataBits, bitsLSB_length]
      omega
  rw [reader_ToSend_full F par0 s0 hlen]
  show symsDur (millerSymbols SEC_Z ((List.range' 0 F.length).flatMap (dataBits F))
      ++ [if millerLast SEC_Z ((List.range' 0 F.length).flatMap (dataBits F)) = SEC_X
          then SEC_Y else SEC_Z, SEC_Y]) 1 0 = _
  rw [symsDur_append, hl, hlen9]
  simp only [symsDur, symDur]
  have e : 1 + 9 * F.length = 9 * F.length + 1 := by omega
  rw [e]
  have hY : SEC_Y ≠ SEC_Z := by decide
  have hY2 : SEC_Y ≠ SEC_X := by decide
  simp [hY, hY2]

/-- The whole run of the reader-to-tag round trip, with the time stamps. -/
theorem reader_round_trip_run (F : List Nat) (hne : F ≠ []) (hlen : F.length ≤ 2048)
    (hbytes : ∀ b ∈ F, b < 256) (n : Nat) (hn : 2 ≤ n) (u0 : tUart) (data parity par0 : Mem)
    (s0 : EncSt) (t clk : Nat) :
    (MillerRun t clk (UartInit u0 data parity)
        (readerSamples n (CodeIso14443aAsReaderPar s0 F F.length
          (some (GetParity F F.length par0))))).1
        = List.replicate (n + 1 + 9 * F.length + 1) false ++ [true]
      ∧ (MillerRun t clk (UartInit u0 data parity)
        (readerSamples n (CodeIso14443aAsReaderPar s0 F F.length
          (some (GetParity F F.length par0))))).2.len = F.length
      ∧ (∀ i, i < F.length → (MillerRun t clk (UartInit u0 data parity)
        (readerSamples n (CodeIso14443aAsReaderPar s0 F F.length
          (some (GetParity F F.length par0))))).2.output i = F.getD i 0)
      ∧ (∀ m j, 8 * m < F.length → ((MillerRun t clk (UartInit u0 data parity)
        (readerSamples n (CodeIso14443aAsReaderPar s0 F F.length
          (some (GetParity F F.length par0))))).2.parity m).testBit j
          = (decide (j < 8) && decide (8 * m + (7 - j) < F.length) && parBit F (8 * m + (7 - j))))
      ∧ (MillerRun t clk (UartInit u0 data parity)
        (readerSamples n (CodeIso14443aAsReaderPar s0 F F.length
          (some (GetParity F F.length par0))))).2.startTime
          = uint32 ((if t ≠ 0 then t else clk &&& 0xfffffff8 : Nat) : Int)
      ∧ (MillerRun t clk (UartInit u0 data parity)
        (readerSamples n (CodeIso14443aAsReaderPar s0 F F.length
          (some (GetParity F F.length par0))))).2.endTime
          = uint32 (((uint32 ((if t ≠ 0 then t else clk &&& 0xfffffff8 : Nat) : Int) : Nat) : Int)
              + symsDur ((CodeIso14443aAsReaderPar s0 F F.length
                  (some (GetParity F F.length par0))).ToSend.drop 1) 1 0) := by
  have hk0 : 0 < F.length := List.length_pos.mpr hne
  obtain ⟨u, hrun, b2, b3, b4⟩ :=
    reader_round_trip_prefix F (by omega) hbytes n hn u0 data parity par0 s0 t clk
  obtain ⟨c1, c2, c3, c4, c5, c6⟩ := miller_eoc_run F u _ F.length _ t clk b2 b3 hk0 hlen
  rw [hrun, reader_symsDur_full F par0 s0 (by omega)]
  dsimp only
  rw [c1]
  refine ⟨?_, c2, c3, c4, by rw [c5, b4], by rw [c6, b4]⟩
  rw [show [false, true] = List.replicate 1 false ++ [true] from rfl, ← List.append_assoc,
    List.append_replicate_replicate]

/-! ## Reader-to-tag round trip: the claims -/

theorem MillerRun_length (t clk : Nat) (xs : List Nat) (u : tUart) :
    (MillerRun t clk u xs).1.length = xs.length := by
  induction xs generalizing u with
  | nil => rfl
  | cons x xs ih => rw [MillerRun_cons]; simp [ih]

theorem shift_mod_two_of_testBit (x j : Nat) (b : Bool) (h : x.testBit j = b) :
    (x >>> j) % 2 = if b then 1 else 0 := by
  rw [Nat.testBit_to_div_mod] at h
  rw [Nat.shiftRight_eq_div_pow]
  rcases Nat.mod_two_eq_zero_or_one (x / 2 ^ j) with h0 | h1
  · rw [h0] at h ⊢; cases b <;> simp_all
  · rw [h1] at h ⊢; cases b <;> simp_all

/-- The parity byte written at the end of communication when the frame does
not end on a group of eight bytes. -/
theorem miller_eoc_run_parity (F : List Nat) (u : tUart) (prev k : Nat) (d : Int) (t clk : Nat)
    (hin : InByte u prev 0 0 d) (hfd : FrameData F u k) (hk0 : 0 < k) (hk8 : k % 8 ≠ 0) :
    (MillerRun t clk u
        ([if prev = SEC_X then SEC_Y else SEC_Z, SEC_Y].map complement)).2.parity
      = memSet u.parity ((k / 8) % 256) ((u.parityBits <<< (8 - k % 8)) % 256) := by
  have hsym : (if prev = SEC_X then SEC_Y else SEC_Z) = millerSymbol prev false := by
    unfold millerSymbol
    by_cases h : prev = SEC_X <;> simp [h]
  rw [hsym]
  obtain ⟨s1, u1, s2, s3, s4, s5⟩ := miller_bit_step u prev 0 0 d false t clk hin (by decide)
  have h5 : UartStoreByte u1 = u1 := UartStoreByte_lt u1 (by rw [s4.bc]; decide)
  rw [h5] at s2
  have hst : u1.state = .STATE_MILLER_Z ∨ u1.state = .STATE_MILLER_Y := by
    rw [s5]
    unfold millerSymbol symState
    by_cases h : prev = SEC_X <;> simp [h]
  have hd := miller_eoc_equation u1 _ k _ t clk s4 hst (s3.len.trans hfd.len) hk0
  rw [List.map_cons, List.map_cons, List.map_nil, MillerRun_cons, MillerRun_cons, MillerRun_nil]
  dsimp only
  rw [s2, hd, if_pos hk8]
  show memSet u1.parity u1.parityLen _ = _
  rw [s3.parity, s3.parityLen, s3.parityBits, hfd.plen]

/-- C1. Reader-to-tag round trip for every non-empty byte sequence `F` with
`P = GetParity(F)`, where `F` has at most 2048 bytes (the buffers that
`UartInit` is given hold `MAX_FRAME_SIZE` = 256 bytes, so that every frame
that the decoder can store is covered): feeding a Miller decoder
fresh from `UartInit` at least two idle sample bytes `0xFF` followed by the
bitwise complement of each symbol byte produced by
`CodeIso14443aAsReaderPar(F, |F|, P)` makes `MillerDecoding` return false on
every sample before the last and true on the last one, with `Uart.len = |F|`,
`Uart.output[0 .. |F|-1] = F` and, for every `i < |F|`, bit `7 - i % 8` of
`Uart.parity[i / 8]` equal to the odd-parity bit of `F[i]`. -/
theorem reader_round_trip (F : List Nat) (hne : F ≠ []) (hlen : F.length ≤ 2048)
    (hbytes : ∀ b ∈ F, b < 256) (n : Nat) (hn : 2 ≤ n) (u0 : tUart) (data parity par0 : Mem)
    (s0 : EncSt) (non_real_time clk : Nat) :
    (MillerRun non_real_time clk (UartInit u0 data parity)
        (readerSamples n (CodeIso14443aAsReaderPar s0 F F.length
          (some (GetParity F F.length par0))))).1
        = List.replicate ((readerSamples n (CodeIso14443aAsReaderPar s0 F F.length
            (some (GetParity F F.length par0)))).length - 1) false ++ [true]
      ∧ (MillerRun non_real_time clk (UartInit u0 data parity)
        (readerSamples n (CodeIso14443aAsReaderPar s0 F F.length
          (some (GetParity F F.length par0))))).2.len = F.length
      ∧ (List.range F.length).map (MillerRun non_real_time clk (UartInit u0 data parity)
        (readerSamples n (CodeIso14443aAsReaderPar s0 F F.length
          (some (GetParity F F.length par0))))).2.output = F
      ∧ (∀ i, i < F.length → ((MillerRun non_real_time clk (UartInit u0 data parity)
        (readerSamples n (CodeIso14443aAsReaderPar s0 F F.length
          (some (GetParity F F.length par0))))).2.parity (i / 8) >>> (7 - i % 8)) % 2
          = oddparity8 (F.getD i 0)) := by
  obtain ⟨h1, h2, h3, h4, _, _⟩ :=
    reader_round_trip_run F hne hlen hbytes n hn u0 data parity par0 s0 non_real_time clk
  have hL := MillerRun_length non_real_time clk
    (readerSamples n (CodeIso14443aAsReaderPar s0 F F.length (some (GetParity F F.length par0))))
    (UartInit u0 data parity)
  rw [h1, List.length_append, List.length_replicate, List.length_singleton] at hL
  refine ⟨?_, h2, ?_, ?_⟩
  · rw [h1, ← hL, Nat.add_sub_cancel]
  · apply List.ext_getElem
    · simp
    · intro i hi1 hi2
      rw [List.getElem_map, List.getElem_range, h3 i hi2, List.getD_eq_getElem _ _ hi2]
  · intro i hi
    have hm : 8 * (i / 8) < F.length := by omega
    have hb := h4 (i / 8) (7 - i % 8) hm
    have e : 8 * (i / 8) + (7 - (7 - i % 8)) = i := by omega
    have hk : 7 - i % 8 < 8 := by omega
    rw [e] at hb
    simp only [hk, hi, decide_True, Bool.true_and] at hb
    rw [shift_mod_two_of_testBit _ _ _ hb, parBit_eq_oddparity8]

theorem reader_round_trip_witness :
    (MillerRun 1000 0 (UartInit Uart0 (fun _ => 0) (fun _ => 0))
        (readerSamples 2 (CodeIso14443aAsReaderPar Enc0 [0x26, 0xA5] [0x26, 0xA5].length
          (some (GetParity [0x26, 0xA5] [0x26, 0xA5].length (fun _ => 0)))))).1
        = List.replicate ((readerSamples 2 (CodeIso14443aAsReaderPar Enc0 [0x26, 0xA5]
            [0x26, 0xA5].length
            (some (GetParity [0x26, 0xA5] [0x26, 0xA5].length (fun _ => 0))))).length - 1) false
          ++ [true]
      ∧ (MillerRun 1000 0 (UartInit Uart0 (fun _ => 0) (fun _ => 0))
        (readerSamples 2 (CodeIso14443aAsReaderPar Enc0 [0x26, 0xA5] [0x26, 0xA5].length
          (some (GetParity [0x26, 0xA5] [0x26, 0xA5].length (fun _ => 0)))))).2.len
          = [0x26, 0xA5].length
      ∧ (List.range [0x26, 0xA5].length).map (MillerRun 1000 0
        (UartInit Uart0 (fun _ => 0) (fun _ => 0))
        (readerSamples 2 (CodeIso14443aAsReaderPar Enc0 [0x26, 0xA5] [0x26, 0xA5].length
          (some (GetParity [0x26, 0xA5] [0x26, 0xA5].length (fun _ => 0)))))).2.output
          = [0x26, 0xA5]
      ∧ (∀ i, i < [0x26, 0xA5].length → ((MillerRun 1000 0
        (UartInit Uart0 (fun _ => 0) (fun _ => 0))
        (readerSamples 2 (CodeIso14443aAsReaderPar Enc0 [0x26, 0xA5] [0x26, 0xA5].length
          (some (GetParity [0x26, 0xA5] [0x26, 0xA5].length (fun _ => 0)))))).2.parity (i / 8)
          >>> (7 - i % 8)) % 2 = oddparity8 ([0x26, 0xA5].getD i 0)) :=
  reader_round_trip [0x26, 0xA5] (by decide) (by decide) (by decide) 2 (by decide) Uart0
    (fun _ => 0) (fun _ => 0) (fun _ => 0) Enc0 1000 0

/-! ## Airtime: `LastProxToAirDuration` and `endTime - startTime` -/

theorem symsDur_snoc (xs : List Nat) (sym n : Nat) (d : Int) :
    symsDur (xs ++ [sym]) n d = symDur sym (n + xs.length) (symsDur xs n d) := by
  rw [symsDur_append]; rfl

/-- `LastProxToAirDuration` follows the symbols put in `ToSend`. -/
theorem ReaderCodeBit_dur (s : EncSt) (bit : Bool)
    (h : s.LastProxToAirDuration = uint32 (symsDur s.ToSend 0 0)) :
    (ReaderCodeBit s bit).LastProxToAirDuration
      = uint32 (symsDur (ReaderCodeBit s bit).ToSend 0 0) := by
  have hXZ : SEC_X ≠ SEC_Z := by decide
  have hYZ : SEC_Y ≠ SEC_Z := by decide
  have hYX : SEC_Y ≠ SEC_X := by decide
  unfold ReaderCodeBit
  cases bit
  · by_cases hl : s.last = 0
    · simp only [Bool.false_eq_true, if_false, if_pos hl, EncSt.push, EncSt.ToSendMax,
        symsDur_snoc, symDur, if_true, List.length_append, List.length_singleton]
      congr 1; push_cast; ring
    · simp only [Bool.false_eq_true, if_false, if_neg hl, EncSt.push, symsDur_snoc, symDur,
        if_neg hYZ, if_neg hYX]
      exact h
  · simp only [if_true, EncSt.push, EncSt.ToSendMax, symsDur_snoc, symDur, if_neg hXZ,
      List.length_append, List.length_singleton]
    congr 1; push_cast; ring

theorem ReaderDataBits_dur :
    ∀ (n b : Nat) (s : EncSt), s.LastProxToAirDuration = uint32 (symsDur s.ToSend 0 0) →
      (ReaderDataBits n b s).LastProxToAirDuration
        = uint32 (symsDur (ReaderDataBits n b s).ToSend 0 0)
  | 0, _, _, h => h
  | n + 1, b, s, h => ReaderDataBits_dur n (b >>> 1) _ (ReaderCodeBit_dur s _ h)

theorem ReaderBytes_dur (cmd : List Nat) (bits : Nat) (parity : Option Mem) :
    ∀ (n i : Nat) (s : EncSt), s.LastProxToAirDuration = uint32 (symsDur s.ToSend 0 0) →
      (ReaderBytes cmd bits parity n i s).LastProxToAirDuration
        = uint32 (symsDur (ReaderBytes cmd bits parity n i s).ToSend 0 0)
  | 0, _, _, h => h
  | n + 1, i, s, h => by
    unfold ReaderBytes
    apply ReaderBytes_dur cmd bits parity n (i + 1)
    have h1 := ReaderDataBits_dur (min (bits - i * 8) 8) (cmd.getD i 0) s h
    cases parity with
    | none => exact h1
    | some par =>
      dsimp only
      split
      · exact ReaderCodeBit_dur _ _ h1
      · exact h1

/-- The duration recorded by `CodeIso14443aBitsAsReaderPar` is the time of the
last modulation among the symbols it emitted. -/
theorem CodeIso14443aBitsAsReaderPar_dur (s0 : EncSt) (cmd : List Nat) (bits : Nat)
    (parity : Option Mem) :
    (CodeIso14443aBitsAsReaderPar s0 cmd bits parity).LastProxToAirDuration
      = uint32 (symsDur (CodeIso14443aBitsAsReaderPar s0 cmd bits parity).ToSend 0 0) := by
  have hYZ : SEC_Y ≠ SEC_Z := by decide
  have hYX : SEC_Y ≠ SEC_X := by decide
  have h0 : ∀ st : EncSt, st.LastProxToAirDuration = uint32 (symsDur st.ToSend 0 0) →
      ((if (ReaderBytes cmd bits parity (nbytes bits) 0 st).last = 0 then
          { (ReaderBytes cmd bits parity (nbytes bits) 0 st).push SEC_Z with
            LastProxToAirDuration :=
              uint32 (8 * (((ReaderBytes cmd bits parity (nbytes bits) 0 st).push SEC_Z).ToSendMax + 1) - 6) }
        else { (ReaderBytes cmd bits parity (nbytes bits) 0 st).push SEC_Y with last := 0 }).push
          SEC_Y).LastProxToAirDuration
        = uint32 (symsDur ((if (ReaderBytes cmd bits parity (nbytes bits) 0 st).last = 0 then
          { (ReaderBytes cmd bits parity (nbytes bits) 0 st).push SEC_Z with
            LastProxToAirDuration :=
              uint32 (8 * (((ReaderBytes cmd bits parity (nbytes bits) 0 st).push SEC_Z).ToSendMax + 1) - 6) }
        else { (ReaderBytes cmd bits parity (nbytes bits) 0 st).push SEC_Y with last := 0 }).push
          SEC_Y).ToSend 0 0) := by
    intro st hst
    have h1 := ReaderBytes_dur cmd bits parity (nbytes bits) 0 st hst
    by_cases hl : (ReaderBytes cmd bits parity (nbytes bits) 0 st).last = 0
    · simp only [if_pos hl, EncSt.push, EncSt.ToSendMax, symsDur_snoc, symDur, if_true,
        if_neg hYZ, if_neg hYX, List.length_append, List.length_singleton]
      congr 1; push_cast; ring
    · simp only [if_neg hl, EncSt.push, symsDur_snoc, symDur, if_neg hYZ, if_neg hYX]
      exact h1
  exact h0 _ rfl

/-- The value of `symsDur`: either no symbol of the list is modulated, or the
value is fixed by the last modulated symbol, at index `m`. -/
theorem symsDur_last (xs : List Nat) :
    ∀ (n : Nat) (d : Int),
      (symsDur xs n d = d
        ∧ ∀ j, j < xs.length → xs.getD j 0 ≠ SEC_Z ∧ xs.getD j 0 ≠ SEC_X)
      ∨ ∃ m, m < xs.length
        ∧ (∀ j, m < j → j < xs.length → xs.getD j 0 ≠ SEC_Z ∧ xs.getD j 0 ≠ SEC_X)
        ∧ ((xs.getD m 0 = SEC_Z ∧ symsDur xs n d = 8 * (((n + m : Nat) : Int) + 1) - 6)
          ∨ (xs.getD m 0 = SEC_X ∧ symsDur xs n d = 8 * (((n + m : Nat) : Int) + 1) - 2)) := by
  induction xs with
  | nil => intro n d; exact Or.inl ⟨rfl, fun j hj => absurd hj (Nat.not_lt_zero j)⟩
  | cons s ss ih =>
    intro n d
    have hcons : symsDur (s :: ss) n d = symsDur ss (n + 1) (symDur s n d) := rfl
    rcases ih (n + 1) (symDur s n d) with ⟨h1, h2⟩ | ⟨m, hm, h2, h3⟩
    · by_cases hz : s = SEC_Z
      · refine Or.inr ⟨0, by simp, ?_, Or.inl ⟨by simp [hz], ?_⟩⟩
        · intro j hj1 hj2
          obtain ⟨j', rfl⟩ : ∃ j', j = j' + 1 := ⟨j - 1, by omega⟩
          simpa using h2 j' (by simpa using hj2)
        · rw [hcons, h1, hz]; simp [symDur]
      · by_cases hx : s = SEC_X
        · refine Or.inr ⟨0, by simp, ?_, Or.inr ⟨by simp [hx], ?_⟩⟩
          · intro j hj1 hj2
            obtain ⟨j', rfl⟩ : ∃ j', j = j' + 1 := ⟨j - 1, by omega⟩
            simpa using h2 j' (by simpa using hj2)
          · have hXZ : SEC_X ≠ SEC_Z := by decide
            rw [hcons, h1, hx]; simp [symDur, hXZ]
        · refine Or.inl ⟨?_, ?_⟩
          · rw [hcons, h1]; simp [symDur, hz, hx]
          · intro j hj
            cases j with
            | zero => simpa using ⟨hz, hx⟩
            | succ j' => simpa using h2 j' (by simpa using hj)
    · refine Or.inr ⟨m + 1, by simpa using hm, ?_, ?_⟩
      · intro j hj1 hj2
        obtain ⟨j', rfl⟩ : ∃ j', j = j' + 1 := ⟨j - 1, by omega⟩
        simpa using h2 j' (by omega) (by simpa using hj2)
      · have e : n + 1 + m = n + (m + 1) := by omega
        rw [hcons, ← e]
        simpa using h3

/-- A symbol sequence that starts with a modulated symbol has a time of last
modulation that does not depend on the earlier one. -/
theorem symsDur_head_modulated (s : Nat) (ss : List Nat) (n : Nat) (d d' : Int)
    (h : s = SEC_Z ∨ s = SEC_X) : symsDur (s :: ss) n d = symsDur (s :: ss) n d' := by
  have hXZ : SEC_X ≠ SEC_Z := by decide
  show symsDur ss (n + 1) (symDur s n d) = symsDur ss (n + 1) (symDur s n d')
  rcases h with h | h <;> simp [symDur, h, hXZ]

/-- For a non-empty frame the first symbol after the start of communication
is modulated. -/
theorem reader_first_symbol (F : List Nat) (hne : F ≠ []) :
    ∃ s ss, (s = SEC_Z ∨ s = SEC_X)
      ∧ millerSymbols SEC_Z ((List.range' 0 F.length).flatMap (dataBits F)) = s :: ss := by
  obtain ⟨m, hm⟩ : ∃ m, F.length = m + 1 := ⟨F.length - 1, by
    have := List.length_pos.mpr hne; omega⟩
  rw [hm, List.range'_succ, List.flatMap_cons]
  unfold dataBits
  rw [bitsLSB_succ_div]
  refine ⟨millerSymbol SEC_Z (decide (F.getD 0 0 % 2 = 1)), _, ?_, rfl⟩
  unfold millerSymbol
  have hZX : SEC_Z ≠ SEC_X := by decide
  by_cases h : F.getD 0 0 % 2 = 1
  · rw [decide_eq_true h, if_pos rfl]; exact Or.inr rfl
  · rw [decide_eq_false h, if_neg (by decide), if_pos hZX]; exact Or.inl rfl

theorem uint32_sub_cancel (a : Nat) (d : Int) :
    uint32 (((uint32 (((uint32 (a : Int) : Nat) : Int) + d) : Nat) : Int)
      - ((uint32 (a : Int) : Nat) : Int)) = uint32 d := by
  unfold uint32
  omega

theorem uint32_small (d : Int) (h0 : 0 ≤ d) (h1 : d < 4294967296) : ((uint32 d : Nat) : Int) = d := by
  unfold uint32
  omega

theorem readerSamples_ToSend_length (F : List Nat) (par0 : Mem) (s0 : EncSt)
    (hlen : F.length < 8192) :
    (CodeIso14443aAsReaderPar s0 F F.length (some (GetParity F F.length par0))).ToSend.length
      = 9 * F.length + 3 := by
  have hlen9 : ((List.range' 0 F.length).flatMap (dataBits F)).length = 9 * F.length := by
    generalize 0 = i
    induction F.length generalizing i with
    | zero => rfl
    | succ m ih =>
      rw [List.range'_succ, List.flatMap_cons, List.length_append, ih]
      simp [dataBits, bitsLSB_length]
      omega
  rw [reader_ToSend_full F par0 s0 hlen]
  simp [millerSymbols_length, hlen9]

/-- C8. Airtime agreement: for every non-empty frame `F` (at most 2048 bytes;
the frames of the data model have at most 256), after the Miller decoder has
consumed the reader encoding of `F` as in the round trip, `Uart.endTime -
Uart.startTime` (in `uint32_t` arithmetic) differs by at most 1 from the
`LastProxToAirDuration` recorded by the encoder, in fact it is equal to it,
and that duration is 8 times the number of symbols up to and including the
last modulated one (index `m`), minus 6 if it is a Sequence Z and minus 2 if
it is a Sequence X. -/
theorem airtime_agreement (F : List Nat) (hne : F ≠ []) (hlen : F.length ≤ 2048)
    (hbytes : ∀ b ∈ F, b < 256) (n : Nat) (hn : 2 ≤ n) (u0 : tUart) (data parity par0 : Mem)
    (s0 : EncSt) (non_real_time clk : Nat) :
    Int.natAbs
        (((uint32 (((MillerRun non_real_time clk (UartInit u0 data parity)
            (readerSamples n (CodeIso14443aAsReaderPar s0 F F.length
              (some (GetParity F F.length par0))))).2.endTime : Int)
          - ((MillerRun non_real_time clk (UartInit u0 data parity)
            (readerSamples n (CodeIso14443aAsReaderPar s0 F F.length
              (some (GetParity F F.length par0))))).2.startTime : Int)) : Nat) : Int)
        - ((CodeIso14443aAsReaderPar s0 F F.length
            (some (GetParity F F.length par0))).LastProxToAirDuration : Int)) ≤ 1
      ∧ uint32 (((MillerRun non_real_time clk (UartInit u0 data parity)
            (readerSamples n (CodeIso14443aAsReaderPar s0 F F.length
              (some (GetParity F F.length par0))))).2.endTime : Int)
          - ((MillerRun non_real_time clk (UartInit u0 data parity)
            (readerSamples n (CodeIso14443aAsReaderPar s0 F F.length
              (some (GetParity F F.length par0))))).2.startTime : Int))
        = (CodeIso14443aAsReaderPar s0 F F.length
            (some (GetParity F F.length par0))).LastProxToAirDuration
      ∧ ∃ m, m < (CodeIso14443aAsReaderPar s0 F F.length
            (some (GetParity F F.length par0))).ToSend.length
        ∧ (∀ j, m < j → j < (CodeIso14443aAsReaderPar s0 F F.length
            (some (GetParity F F.length par0))).ToSend.length →
          (CodeIso14443aAsReaderPar s0 F F.length
            (some (GetParity F F.length par0))).ToSend.getD j 0 ≠ SEC_Z
          ∧ (CodeIso14443aAsReaderPar s0 F F.length
            (some (GetParity F F.length par0))).ToSend.getD j 0 ≠ SEC_X)
        ∧ (((CodeIso14443aAsReaderPar s0 F F.length
              (some (GetParity F F.length par0))).ToSend.getD m 0 = SEC_Z
            ∧ (CodeIso14443aAsReaderPar s0 F F.length
              (some (GetParity F F.length par0))).LastProxToAirDuration + 6 = 8 * (m + 1))
          ∨ ((CodeIso14443aAsReaderPar s0 F F.length
              (some (GetParity F F.length par0))).ToSend.getD m 0 = SEC_X
            ∧ (CodeIso14443aAsReaderPar s0 F F.length
              (some (GetParity F F.length par0))).LastProxToAirDuration + 2 = 8 * (m + 1))) := by
  obtain ⟨_, _, _, _, h5, h6⟩ :=
    reader_round_trip_run F hne hlen hbytes n hn u0 data parity par0 s0 non_real_time clk
  have hdur : (CodeIso14443aAsReaderPar s0 F F.length
        (some (GetParity F F.length par0))).LastProxToAirDuration
      = uint32 (symsDur (CodeIso14443aAsReaderPar s0 F F.length
          (some (GetParity F F.length par0))).ToSend 0 0) :=
    CodeIso14443aBitsAsReaderPar_dur s0 F _ _
  have hT := reader_ToSend_full F par0 s0 (by omega)
  have hL := readerSamples_ToSend_length F par0 s0 (by omega)
  obtain ⟨s, ss, hs, hss⟩ := reader_first_symbol F hne
  -- the decoder's and the encoder's time of last modulation are the same number
  have hD : symsDur ((CodeIso14443aAsReaderPar s0 F F.length
        (some (GetParity F F.length par0))).ToSend.drop 1) 1 0
      = symsDur (CodeIso14443aAsReaderPar s0 F F.length
          (some (GetParity F F.length par0))).ToSend 0 0 := by
    rw [hT, hss]
    show symsDur (s :: ss ++ _) 1 0 = symsDur (s :: ss ++ _) 1 (symDur SEC_Z 0 0)
    exact symsDur_head_modulated s _ 1 0 _ hs
  have heq : uint32 (((MillerRun non_real_time clk (UartInit u0 data parity)
            (readerSamples n (CodeIso14443aAsReaderPar s0 F F.length
              (some (GetParity F F.length par0))))).2.endTime : Int)
          - ((MillerRun non_real_time clk (UartInit u0 data parity)
            (readerSamples n (CodeIso14443aAsReaderPar s0 F F.length
              (some (GetParity F F.length par0))))).2.startTime : Int))
        = (CodeIso14443aAsReaderPar s0 F F.length
            (some (GetParity F F.length par0))).LastProxToAirDuration := by
    rw [h6, h5, hD, hdur, uint32_sub_cancel]
  refine ⟨by rw [heq]; simp, heq, ?_⟩
  rcases symsDur_last (CodeIso14443aAsReaderPar s0 F F.length
      (some (GetParity F F.length par0))).ToSend 0 0 with ⟨_, h2⟩ | ⟨m, hm, h2, h3⟩
  · exfalso
    have := (h2 0 (by rw [hL]; omega)).1
    rw [hT] at this
    exact this rfl
  · refine ⟨m, hm, h2, ?_⟩
    rw [hL] at hm
    rcases h3 with ⟨h3, h4⟩ | ⟨h3, h4⟩
    · refine Or.inl ⟨h3, ?_⟩
      rw [hdur, h4]
      have := uint32_small (8 * (((0 + m : Nat) : Int) + 1) - 6) (by omega) (by omega)
      omega
    · refine Or.inr ⟨h3, ?_⟩
      rw [hdur, h4]
      have := uint32_small (8 * (((0 + m : Nat) : Int) + 1) - 2) (by omega) (by omega)
      omega

theorem airtime_agreement_witness :
    Int.natAbs
        (((uint32 (((MillerRun 1000 0 (UartInit Uart0 (fun _ => 0) (fun _ => 0))
            (readerSamples 2 (CodeIso14443aAsReaderPar Enc0 [0x26, 0xA5] [0x26, 0xA5].length
              (some (GetParity [0x26, 0xA5] [0x26, 0xA5].length (fun _ => 0)))))).2.endTime : Int)
          - ((MillerRun 1000 0 (UartInit Uart0 (fun _ => 0) (fun _ => 0))
            (readerSamples 2 (CodeIso14443aAsReaderPar Enc0 [0x26, 0xA5] [0x26, 0xA5].length
              (some (GetParity [0x26, 0xA5] [0x26, 0xA5].length (fun _ => 0)))))).2.startTime
              : Int)) : Nat) : Int)
        - ((CodeIso14443aAsReaderPar Enc0 [0x26, 0xA5] [0x26, 0xA5].length
            (some (GetParity [0x26, 0xA5] [0x26, 0xA5].length
              (fun _ => 0)))).LastProxToAirDuration : Int)) ≤ 1 :=
  (airtime_agreement [0x26, 0xA5] (by decide) (by decide) (by decide) 2 (by decide) Uart0
    (fun _ => 0) (fun _ => 0) (fun _ => 0) Enc0 1000 0).1

/-! ## Tag encoder: symbol sequence -/

theorem TagDataBits_ToSend :
    ∀ (n b : Nat) (s : EncSt),
      (TagDataBits n b s).ToSend = s.ToSend ++ (bitsLSB b n).map manSymbol
  | 0, b, s => by simp [TagDataBits, bitsLSB]
  | n + 1, b, s => by
    rw [bitsLSB_succ, TagDataBits, TagDataBits_ToSend n (b >>> 1)]
    cases h : (b &&& 1 != 0)
    · simp [EncSt.push, manSymbol]
    · simp [EncSt.push, manSymbol]

/-- The bits coded by the loop over the bytes of `CodeIso14443aAsTagPar`. -/
theorem TagBytes_ToSend (cmd : List Nat) (parity : Mem) :
    ∀ (n i : Nat) (s : EncSt),
      (TagBytes cmd parity n i s).ToSend
        = s.ToSend ++ ((List.range' i n).flatMap
            (fun j => bitsLSB (cmd.getD j 0) 8 ++ [(parity (j / 8)).testBit (7 - j % 8)])).map
              manSymbol
  | 0, i, s => by simp [TagBytes]
  | n + 1, i, s => by
    rw [List.range'_succ, List.flatMap_cons, TagBytes]
    dsimp only
    rw [TagBytes_ToSend cmd parity n (i + 1), parity_mask_test]
    cases h : (parity (i / 8)).testBit (7 - i % 8)
    · simp [EncSt.push, TagDataBits_ToSend, manSymbol]
    · simp [EncSt.push, TagDataBits_ToSend, manSymbol]

/-- The symbols of a tag frame of complete bytes with the parity of
`GetParity`, from the start bit onwards. -/
theorem tag_ToSend_full (F : List Nat) (par0 : Mem) (s0 : EncSt) (hlen : F.length < 65536) :
    (CodeIso14443aAsTagPar s0 F F.length (GetParity F F.length par0)).ToSend.drop 1
      = SEC_D :: ((List.range' 0 F.length).flatMap (dataBits F)).map manSymbol ++ [SEC_F] := by
  have hb : ∀ i n, i + n ≤ F.length →
      (List.range' i n).flatMap
        (fun j => bitsLSB (F.getD j 0) 8
          ++ [(GetParity F F.length par0 (j / 8)).testBit (7 - j % 8)])
      = (List.range' i n).flatMap (dataBits F) := by
    intro i n
    induction n generalizing i with
    | zero => intro _; rfl
    | succ m ih =>
      intro h
      rw [List.range'_succ, List.flatMap_cons, List.flatMap_cons, ih (i + 1) (by omega)]
      have hi : i < F.length := by omega
      have hp : (GetParity F F.length par0 (i / 8)).testBit (7 - i % 8) = parBit F i := by
        rw [GetParity_testBit F par0 hlen _ _ (Nat.div_le_div_right (Nat.le_of_lt hi))]
        have e : 8 * (i / 8) + (7 - (7 - i % 8)) = i := by omega
        have hk : 7 - i % 8 < 8 := by omega
        simp [e, hi, hk]
      rw [hp]; rfl
  unfold CodeIso14443aAsTagPar
  simp only [EncSt.push, TagBytes_ToSend, hb 0 F.length (by omega)]
  simp [ToSendReset, ToSendStuffBit]

/-! ## Manchester decoder: one symbol -/

theorem man_nibble1_window (tb bit : Nat) :
    IsManchesterModulationNibble1 (((tb <<< 8) ||| bit) % 65536)
      = IsManchesterModulationNibble1 bit := by
  unfold IsManchesterModulationNibble1
  rw [show (65536 : Nat) = 2 ^ 16 from rfl, window_and_0xF0 tb bit 16 (by decide)]

theorem man_nibble2_window (tb bit : Nat) :
    IsManchesterModulationNibble2 (((tb <<< 8) ||| bit) % 65536)
      = IsManchesterModulationNibble2 bit := by
  unfold IsManchesterModulationNibble2
  rw [show (65536 : Nat) = 2 ^ 16 from rfl, window_and_0x0F tb bit 16 (by decide)]

/-- Decoding the symbol of one bit: `ManchesterDecoding` returns false and
shifts the bit in; after the ninth bit the byte is stored. -/
theorem man_bit_step (d : tDemod) (c sr : Nat) (b : Bool) (offset t clk : Nat)
    (h : InByteD d c sr) (hc : c < 9) :
    (ManchesterDecoding d (manSymbol b) offset t clk).1 = false
      ∧ ∃ d1, (ManchesterDecoding d (manSymbol b) offset t clk).2
          = { (if c + 1 = 9 then DemodStoreByte d1 else d1) with
              endTime := (ManchesterDecoding d (manSymbol b) offset t clk).2.endTime }
        ∧ SameFrameD d d1
        ∧ InByteD d1 (c + 1) (sr / 2 + 256 * (if b then 1 else 0)) := by
  obtain ⟨h1, h2, h3, h4, h5, h6⟩ := h
  have hbc : (c + 1) % 65536 = c + 1 := by omega
  have hshift : sr >>> 1 = sr / 2 := by rw [Nat.shiftRight_eq_div_pow, Nat.pow_one]
  have hge : (9 ≤ c + 1) = (c + 1 = 9) := by
    apply propext; constructor <;> intro <;> omega
  cases b
  · -- Sequence E
    have e1 : manSymbol false = 15 := rfl
    rw [e1]
    refine ⟨?_, ?_⟩
    · simp [ManchesterDecoding, h1, h2, man_nibble1_window, man_nibble2_window,
        show IsManchesterModulationNibble1 15 = false from rfl,
        show IsManchesterModulationNibble2 15 = true from rfl]
    · refine ⟨{ d with
          twoBits := ((d.twoBits <<< 8) ||| 15) % 65536
          bitCount := (d.bitCount + 1) % 65536
          shiftReg := d.shiftReg >>> 1 }, ?_, ⟨rfl, rfl, rfl, rfl, rfl, rfl⟩, ?_⟩
      · simp only [ManchesterDecoding, h1, h2, Nat.shiftRight_zero, man_nibble1_window,
          man_nibble2_window, show IsManchesterModulationNibble1 15 = false from rfl,
          show IsManchesterModulationNibble2 15 = true from rfl, if_true, if_false,
          Bool.false_eq_true, h3, hbc, ge_iff_le, hge]
        simp
      · exact ⟨h1, h2, by simp [h3, hbc], by simp [h4, hshift], by simp; omega, h6⟩
  · -- Sequence D
    have e1 : manSymbol true = 240 := rfl
    rw [e1]
    refine ⟨?_, ?_⟩
    · simp [ManchesterDecoding, h1, h2, man_nibble1_window, man_nibble2_window,
        show IsManchesterModulationNibble1 240 = true from rfl,
        show IsManchesterModulationNibble2 240 = false from rfl]
    · refine ⟨{ d with
          twoBits := ((d.twoBits <<< 8) ||| 240) % 65536
          bitCount := (d.bitCount + 1) % 65536
          shiftReg := (d.shiftReg >>> 1) ||| 0x100 }, ?_, ⟨rfl, rfl, rfl, rfl, rfl, rfl⟩, ?_⟩
      · simp only [ManchesterDecoding, h1, h2, Nat.shiftRight_zero, man_nibble1_window,
          man_nibble2_window, show IsManchesterModulationNibble1 240 = true from rfl,
          show IsManchesterModulationNibble2 240 = false from rfl, if_true, if_false,
          Bool.false_eq_true, h3, hbc]
        simp
      · exact ⟨h1, h2, by simp [h3, hbc], by simp [h4, shiftReg_or_0x100 sr h5],
          by simp; omega, h6⟩

/-! ## Manchester decoder: one byte with its parity bit -/

theorem ManchesterRun_cons (offset t clk : Nat) (d : tDemod) (s : Nat) (ss : List Nat) :
    ManchesterRun offset t clk d (s :: ss)
      = ((ManchesterDecoding d s offset t clk).1
          :: (ManchesterRun offset t clk (ManchesterDecoding d s offset t clk).2 ss).1,
         (ManchesterRun offset t clk (ManchesterDecoding d s offset t clk).2 ss).2) := rfl

theorem ManchesterRun_nil (offset t clk : Nat) (d : tDemod) :
    ManchesterRun offset t clk d [] = ([], d) := rfl

theorem ManchesterRun_append (offset t clk : Nat) (xs ys : List Nat) (d : tDemod) :
    ManchesterRun offset t clk d (xs ++ ys)
      = ((ManchesterRun offset t clk d xs).1
          ++ (ManchesterRun offset t clk (ManchesterRun offset t clk d xs).2 ys).1,
         (ManchesterRun offset t clk (ManchesterRun offset t clk d xs).2 ys).2) := by
  induction xs generalizing d with
  | nil => simp [ManchesterRun]
  | cons x xs ih => simp [ManchesterRun, ih]

theorem ManchesterRun_length (offset t clk : Nat) (xs : List Nat) (d : tDemod) :
    (ManchesterRun offset t clk d xs).1.length = xs.length := by
  induction xs generalizing d with
  | nil => rfl
  | cons x xs ih => rw [ManchesterRun_cons]; simp [ih]

theorem SameFrameD.step_trans {u v w : tDemod} (h1 : SameFrameD u v) (h2 : SameFrameD v w) :
    SameFrameD u w :=
  ⟨h2.len.trans h1.len, h2.output.trans h1.output, h2.parity.trans h1.parity,
   h2.parityBits.trans h1.parityBits, h2.parityLen.trans h1.parityLen,
   h2.startTime.trans h1.startTime⟩

theorem SameFrameD.same (d : tDemod) : SameFrameD d d := ⟨rfl, rfl, rfl, rfl, rfl, rfl⟩

theorem SameFrameD.with_endTime (d : tDemod) (e : Nat) : SameFrameD d { d with endTime := e } :=
  ⟨rfl, rfl, rfl, rfl, rfl, rfl⟩

theorem InByteD.keep_endTime {d : tDemod} {c sr : Nat} (h : InByteD d c sr) (e : Nat) :
    InByteD { d with endTime := e } c sr :=
  ⟨h.state, h.sync, h.bc, h.shift, h.shift_lt, h.coll⟩

theorem DemodData.of_sameD {F : List Nat} {u v : tDemod} {k : Nat} (h : DemodData F u k)
    (hs : SameFrameD u v) : DemodData F v k :=
  ⟨by rw [hs.len, h.len], by rw [hs.output]; exact h.out, by rw [hs.parityLen, h.plen],
   by rw [hs.parityBits]; exact h.pbits, by rw [hs.parity]; exact h.pmem⟩

/-- Decoding the symbols of the `n` low bits of `b` inside one byte. -/
theorem man_bits_run (offset t clk : Nat) :
    ∀ (n b : Nat) (d : tDemod) (c sr : Nat), InByteD d c sr → c + n ≤ 8 →
      (ManchesterRun offset t clk d ((bitsLSB b n).map manSymbol)).1 = List.replicate n false
        ∧ SameFrameD d (ManchesterRun offset t clk d ((bitsLSB b n).map manSymbol)).2
        ∧ InByteD (ManchesterRun offset t clk d ((bitsLSB b n).map manSymbol)).2
            (c + n) (shiftIn sr b n)
  | 0, b, d, c, sr, h, _ => by
    simpa [bitsLSB, ManchesterRun, shiftIn] using ⟨SameFrameD.same d, h⟩
  | n + 1, b, d, c, sr, h, hcn => by
    obtain ⟨h1, d1, h2, h3, h4⟩ := man_bit_step d c sr (decide (b % 2 = 1)) offset t clk h
      (by omega)
    rw [if_neg (by omega)] at h2
    have h3' : SameFrameD d (ManchesterDecoding d (manSymbol (decide (b % 2 = 1))) offset t clk).2 := by
      rw [h2]; exact h3.step_trans (SameFrameD.with_endTime d1 _)
    have h4' : InByteD (ManchesterDecoding d (manSymbol (decide (b % 2 = 1))) offset t clk).2
        (c + 1) (sr / 2 + 256 * (if decide (b % 2 = 1) = true then 1 else 0)) := by
      rw [h2]; exact h4.keep_endTime _
    obtain ⟨g1, g2, g3⟩ := man_bits_run offset t clk n (b / 2) _ (c + 1) _ h4' (by omega)
    have hsr : sr / 2 + 256 * (if decide (b % 2 = 1) = true then 1 else 0)
        = sr / 2 + 256 * (b % 2) := by
      rcases Nat.mod_two_eq_zero_or_one b with hb | hb <;> simp [hb]
    rw [hsr] at g3
    rw [bitsLSB_succ_div, List.map_cons, ManchesterRun_cons]
    dsimp only
    rw [h1, g1]
    refine ⟨rfl, h3'.step_trans g2, ?_⟩
    have e : c + 1 + n = c + (n + 1) := by omega
    rw [e] at g3
    exact g3

/-- The byte store of `ManchesterDecoding` after the ninth bit of byte `k` of
the frame. -/
theorem demod_store_byte_frame (F : List Nat) (d : tDemod) (k : Nat)
    (hin : InByteD d 9 (F.getD k 0 + 256 * (if parBit F k then 1 else 0)))
    (hfd : DemodData F d k) (hk : k + 1 < 65536) (hflush : (k + 1) % 8 = 0 → k < 2048)
    (hb : F.getD k 0 < 256) :
    InByteD (DemodStoreByte d) 0 0 ∧ DemodData F (DemodStoreByte d) (k + 1)
      ∧ (DemodStoreByte d).startTime = d.startTime := by
  obtain ⟨i1, i2, i4, i5, i6, i7⟩ := hin
  obtain ⟨f1, f2, f3, f4, f5⟩ := hfd
  have hdm : 8 * (k / 8) + k % 8 = k := Nat.div_add_mod k 8
  have hlen : (k + 1) % 65536 = k + 1 := by omega
  have hand : (k + 1) &&& 7 = (k + 1) % 8 := Nat.and_pow_two_sub_one_eq_mod (k + 1) 3
  have hlow : (F.getD k 0 + 256 * (if parBit F k then 1 else 0)) &&& 255 = F.getD k 0 := by
    have := Nat.and_pow_two_sub_one_eq_mod (F.getD k 0 + 256 * (if parBit F k then 1 else 0)) 8
    simp only [Nat.reducePow, Nat.add_one_sub_one] at this
    rw [this]
    split <;> omega
  have hhigh : ((F.getD k 0 + 256 * (if parBit F k then 1 else 0)) >>> 8) &&& 1
      = (if parBit F k then 1 else 0) := by
    rw [Nat.and_one_is_mod, Nat.shiftRight_eq_div_pow]
    simp only [Nat.reducePow]
    split <;> omega
  unfold DemodStoreByte
  simp only [f1, i5, hlen, hand, hlow, hhigh]
  by_cases h8 : (k + 1) % 8 = 0
  · have e1 : (k + 1) / 8 = k / 8 + 1 := by omega
    have e2 : k % 8 = 7 := by omega
    have hk2 : k < 2048 := hflush h8
    have hplen : (k / 8) % 256 = k / 8 := by omega
    rw [if_pos h8]
    refine ⟨⟨i1, i2, rfl, rfl, by decide, i7⟩, ⟨rfl, ?_, ?_, ?_, ?_⟩, rfl⟩
    · intro i hi
      simp only [memSet]
      by_cases hik : i = k
      · simp [hik]
      · rw [if_neg hik]; exact f2 i (by omega)
    · simp only [f3]; omega
    · intro j; simp [h8]
    · intro m hm j
      simp only [memSet, f3, hplen]
      by_cases hmk : m = k / 8
      · rw [if_pos hmk, parity_acc_testBit, f4, hmk, e2]
        by_cases hj0 : j = 0
        · subst hj0
          have : 8 * (k / 8) + (7 - 0) = k := by omega
          simp [this]
        · by_cases hj8 : j < 8
          · have a1 : 1 ≤ j := by omega
            have a2 : j - 1 < 7 := by omega
            have a3 : 7 - 1 - (j - 1) = 7 - j := by omega
            simp [hj0, hj8, a1, a2, a3]
          · simp [hj0, hj8]
      · rw [if_neg hmk]; exact f5 m (by omega) j
  · have e1 : (k + 1) / 8 = k / 8 := by omega
    have e2 : (k + 1) % 8 = k % 8 + 1 := by omega
    rw [if_neg h8]
    refine ⟨⟨i1, i2, rfl, rfl, by decide, i7⟩, ⟨rfl, ?_, ?_, ?_, ?_⟩, rfl⟩
    · intro i hi
      simp only [memSet]
      by_cases hik : i = k
      · simp [hik]
      · rw [if_neg hik]; exact f2 i (by omega)
    · simp only [f3, e1]
    · intro j
      simp only [parity_acc_testBit, f4, e1, e2]
      by_cases hj0 : j = 0
      · subst hj0
        simp [hdm]
      · by_cases hj : j < k % 8 + 1
        · have a0 : j < 8 := by omega
          have a1 : 1 ≤ j := by omega
          have a2 : j - 1 < k % 8 := by omega
          have a3 : k % 8 - 1 - (j - 1) = k % 8 + 1 - 1 - j := by omega
          simp [hj0, hj, a0, a1, a2, a3]
        · have a2 : ¬ j - 1 < k % 8 := by omega
          simp [hj0, hj, a2]
    · intro m hm j
      exact f5 m (by omega) j

/-- Decoding the nine symbols of byte `k` of the frame. -/
theorem man_byte_run (offset t clk : Nat) (F : List Nat) (d : tDemod) (k : Nat)
    (hin : InByteD d 0 0) (hfd : DemodData F d k) (hk : k + 1 < 65536)
    (hflush : (k + 1) % 8 = 0 → k < 2048) (hb : F.getD k 0 < 256) :
    (ManchesterRun offset t clk d ((dataBits F k).map manSymbol)).1 = List.replicate 9 false
      ∧ InByteD (ManchesterRun offset t clk d ((dataBits F k).map manSymbol)).2 0 0
      ∧ DemodData F (ManchesterRun offset t clk d ((dataBits F k).map manSymbol)).2 (k + 1)
      ∧ (ManchesterRun offset t clk d ((dataBits F k).map manSymbol)).2.startTime
          = d.startTime := by
  obtain ⟨g1, g2, g3⟩ := man_bits_run offset t clk 8 (F.getD k 0) d 0 0 hin (by decide)
  rw [shiftIn_byte _ hb, Nat.zero_add] at g3
  obtain ⟨s1, d9, s2, s3, s4⟩ := man_bit_step _ 8 _ (parBit F k) offset t clk g3 (by decide)
  have e1 : 2 * F.getD k 0 / 2 = F.getD k 0 := by omega
  rw [e1] at s4
  rw [if_pos (by decide)] at s2
  obtain ⟨r1, r2, r3⟩ :=
    demod_store_byte_frame F d9 k s4 ((hfd.of_sameD g2).of_sameD s3) hk hflush hb
  unfold dataBits
  rw [List.map_append, ManchesterRun_append, List.map_cons, List.map_nil, ManchesterRun_cons,
    ManchesterRun_nil]
  dsimp only
  rw [g1, s1]
  refine ⟨rfl, ?_, ?_, ?_⟩
  · rw [s2]; exact r1.keep_endTime _
  · rw [s2]; exact r2.of_sameD (SameFrameD.with_endTime _ _)
  · rw [s2]
    show (DemodStoreByte d9).startTime = _
    rw [r3, s3.startTime, g2.startTime]

/-- Decoding the symbols of the bytes `i .. i + n - 1` of the frame. -/
theorem man_frame_run (offset t clk : Nat) (F : List Nat) :
    ∀ (n i : Nat) (d : tDemod), InByteD d 0 0 → DemodData F d i →
      i + n ≤ 2055 → (∀ j, j < i + n → F.getD j 0 < 256) →
      (ManchesterRun offset t clk d
          (((List.range' i n).flatMap (dataBits F)).map manSymbol)).1
          = List.replicate (9 * n) false
        ∧ InByteD (ManchesterRun offset t clk d
            (((List.range' i n).flatMap (dataBits F)).map manSymbol)).2 0 0
        ∧ DemodData F (ManchesterRun offset t clk d
            (((List.range' i n).flatMap (dataBits F)).map manSymbol)).2 (i + n)
        ∧ (ManchesterRun offset t clk d
            (((List.range' i n).flatMap (dataBits F)).map manSymbol)).2.startTime
            = d.startTime
  | 0, i, d, hin, hfd, _, _ => by
    simpa [ManchesterRun] using ⟨hin, hfd⟩
  | n + 1, i, d, hin, hfd, hn, hb => by
    obtain ⟨b1, b2, b3, b4⟩ := man_byte_run offset t clk F d i hin hfd (by omega)
      (by omega) (hb i (by omega))
    obtain ⟨f1, f2, f3, f4⟩ := man_frame_run offset t clk F n (i + 1) _ b2 b3 (by omega)
      (fun j hj => hb j (by omega))
    rw [List.range'_succ, List.flatMap_cons, List.map_append, ManchesterRun_append]
    have e2 : i + (n + 1) = i + 1 + n := by omega
    rw [e2]
    refine ⟨?_, f2, f3, by rw [f4, b4]⟩
    simp only [b1, f1]
    rw [← List.replicate_add, show 9 + 9 * n = 9 * (n + 1) by omega]

/-! ## Manchester decoder: synchronisation and end of communication -/

theorem man_idle_low (d : tDemod) (offset t clk hc tb : Nat) (h1 : d.state = .DEMOD_UNSYNCD)
    (h2 : d.highCnt = hc) (h3 : d.twoBits = tb) (hlt : hc < 2) :
    (ManchesterDecoding d 0x00 offset t clk).1 = false
      ∧ (ManchesterDecoding d 0x00 offset t clk).2.state = .DEMOD_UNSYNCD
      ∧ (ManchesterDecoding d 0x00 offset t clk).2.len = d.len
      ∧ (ManchesterDecoding d 0x00 offset t clk).2.parityLen = d.parityLen
      ∧ (ManchesterDecoding d 0x00 offset t clk).2.shiftReg = d.shiftReg
      ∧ (ManchesterDecoding d 0x00 offset t clk).2.parityBits = d.parityBits
      ∧ (ManchesterDecoding d 0x00 offset t clk).2.collisionPos = d.collisionPos
      ∧ (ManchesterDecoding d 0x00 offset t clk).2.output = d.output
      ∧ (ManchesterDecoding d 0x00 offset t clk).2.parity = d.parity
      ∧ (ManchesterDecoding d 0x00 offset t clk).2.highCnt
          = (if ((tb <<< 8) ||| 0x00) % 65536 = 0 then (hc + 1) % 65536 else 0)
      ∧ (ManchesterDecoding d 0x00 offset t clk).2.twoBits = ((tb <<< 8) ||| 0x00) % 65536 := by
  simp only [ManchesterDecoding, h1, h2, h3, hlt, if_true]
  split <;> simp [h1, *]

theorem man_idle_high (d : tDemod) (offset t clk : Nat) (h1 : d.state = .DEMOD_UNSYNCD)
    (h2 : d.highCnt = 2) (h3 : d.twoBits = 0) :
    (ManchesterDecoding d 0x00 offset t clk).1 = false
      ∧ (ManchesterDecoding d 0x00 offset t clk).2.state = .DEMOD_UNSYNCD
      ∧ (ManchesterDecoding d 0x00 offset t clk).2.len = d.len
      ∧ (ManchesterDecoding d 0x00 offset t clk).2.parityLen = d.parityLen
      ∧ (ManchesterDecoding d 0x00 offset t clk).2.shiftReg = d.shiftReg
      ∧ (ManchesterDecoding d 0x00 offset t clk).2.parityBits = d.parityBits
      ∧ (ManchesterDecoding d 0x00 offset t clk).2.collisionPos = d.collisionPos
      ∧ (ManchesterDecoding d 0x00 offset t clk).2.output = d.output
      ∧ (ManchesterDecoding d 0x00 offset t clk).2.parity = d.parity
      ∧ (ManchesterDecoding d 0x00 offset t clk).2.highCnt = 2
      ∧ (ManchesterDecoding d 0x00 offset t clk).2.twoBits = 0 := by
  have e1 : ManchesterSyncBit 0 = 0xFFFF := by decide
  simp [ManchesterDecoding, h1, h2, h3, e1]

theorem man_window_1 : (if ((0xffff <<< 8) ||| 0x00) % 65536 = 0 then (0 + 1) % 65536 else 0) = 0
    ∧ ((0xffff <<< 8) ||| 0x00) % 65536 = 0xff00 := by decide

theorem man_window_2 : (if ((0xff00 <<< 8) ||| 0x00) % 65536 = 0 then (0 + 1) % 65536 else 0) = 1
    ∧ ((0xff00 <<< 8) ||| 0x00) % 65536 = 0 := by decide

theorem man_window_3 : (if ((0 <<< 8) ||| 0x00) % 65536 = 0 then (1 + 1) % 65536 else 0) = 2
    ∧ ((0 <<< 8) ||| 0x00) % 65536 = 0 := by decide

theorem man_idle_step1 (data par : Mem) (d : tDemod) (offset t clk : Nat)
    (h : ManIdle data par d 0 0xffff) :
    (ManchesterDecoding d 0x00 offset t clk).1 = false
      ∧ ManIdle data par (ManchesterDecoding d 0x00 offset t clk).2 0 0xff00 := by
  obtain ⟨h1, h2, h3, h4, h5, h6, h7, h8, h9, h10⟩ := h
  obtain ⟨a0, a1, a2, a3, a4, a5, a6, a7, a8, a9, a10⟩ :=
    man_idle_low d offset t clk 0 0xffff h1 h9 h10 (by decide)
  exact ⟨a0, a1, a2.trans h2, a3.trans h3, a4.trans h4, a5.trans h5, a6.trans h6, a7.trans h7,
    a8.trans h8, a9.trans man_window_1.1, a10.trans man_window_1.2⟩

theorem man_idle_step2 (data par : Mem) (d : tDemod) (offset t clk : Nat)
    (h : ManIdle data par d 0 0xff00) :
    (ManchesterDecoding d 0x00 offset t clk).1 = false
      ∧ ManIdle data par (ManchesterDecoding d 0x00 offset t clk).2 1 0 := by
  obtain ⟨h1, h2, h3, h4, h5, h6, h7, h8, h9, h10⟩ := h
  obtain ⟨a0, a1, a2, a3, a4, a5, a6, a7, a8, a9, a10⟩ :=
    man_idle_low d offset t clk 0 0xff00 h1 h9 h10 (by decide)
  exact ⟨a0, a1, a2.trans h2, a3.trans h3, a4.trans h4, a5.trans h5, a6.trans h6, a7.trans h7,
    a8.trans h8, a9.trans man_window_2.1, a10.trans man_window_2.2⟩

theorem man_idle_step3 (data par : Mem) (d : tDemod) (offset t clk : Nat)
    (h : ManIdle data par d 1 0) :
    (ManchesterDecoding d 0x00 offset t clk).1 = false
      ∧ ManIdle data par (ManchesterDecoding d 0x00 offset t clk).2 2 0 := by
  obtain ⟨h1, h2, h3, h4, h5, h6, h7, h8, h9, h10⟩ := h
  obtain ⟨a0, a1, a2, a3, a4, a5, a6, a7, a8, a9, a10⟩ :=
    man_idle_low d offset t clk 1 0 h1 h9 h10 (by decide)
  exact ⟨a0, a1, a2.trans h2, a3.trans h3, a4.trans h4, a5.trans h5, a6.trans h6, a7.trans h7,
    a8.trans h8, a9.trans man_window_3.1, a10.trans man_window_3.2⟩

theorem man_idle_step4 (data par : Mem) (d : tDemod) (offset t clk : Nat)
    (h : ManIdle data par d 2 0) :
    (ManchesterDecoding d 0x00 offset t clk).1 = false
      ∧ ManIdle data par (ManchesterDecoding d 0x00 offset t clk).2 2 0 := by
  obtain ⟨h1, h2, h3, h4, h5, h6, h7, h8, h9, h10⟩ := h
  obtain ⟨a0, a1, a2, a3, a4, a5, a6, a7, a8, a9, a10⟩ := man_idle_high d offset t clk h1 h9 h10
  exact ⟨a0, a1, a2.trans h2, a3.trans h3, a4.trans h4, a5.trans h5, a6.trans h6, a7.trans h7,
    a8.trans h8, a9, a10⟩

theorem DemodInit_idle (d0 : tDemod) (data par : Mem) :
    ManIdle data par (DemodInit d0 data par) 0 0xffff :=
  ⟨rfl, rfl, rfl, rfl, rfl, rfl, rfl, rfl, rfl, rfl⟩

theorem man_unsynced_sync (d : tDemod) (bit offset t clk : Nat) (h1 : d.state = .DEMOD_UNSYNCD)
    (h2 : ¬ d.highCnt < 2) (hs : ManchesterSyncBit (((d.twoBits <<< 8) ||| bit) % 65536) = 0) :
    ManchesterDecoding d bit offset t clk
      = (false, { d with
          twoBits := ((d.twoBits <<< 8) ||| bit) % 65536
          syncBit := 0
          startTime := uint32 ((if t ≠ 0 then t else clk &&& 0xfffffff8 : Nat) : Int)
          bitCount := offset
          state := .DEMOD_MANCHESTER_DATA }) := by
  have h0 : (0 : Nat) ≠ 65535 := by decide
  simp only [ManchesterDecoding, h1, h2, hs, if_true, if_false, ne_eq, h0, not_false_eq_true,
    Nat.cast_zero, Int.sub_zero]

theorem man_window_sync : ManchesterSyncBit (((0 <<< 8) ||| SEC_D) % 65536) = 0 := by decide

/-- The start bit (Sequence D) after at least three idle samples. -/
theorem man_sync_step (F : List Nat) (data par : Mem) (d : tDemod) (t clk : Nat)
    (h : ManIdle data par d 2 0) :
    (ManchesterDecoding d SEC_D 0 t clk).1 = false
      ∧ InByteD (ManchesterDecoding d SEC_D 0 t clk).2 0 0
      ∧ DemodData F (ManchesterDecoding d SEC_D 0 t clk).2 0
      ∧ (ManchesterDecoding d SEC_D 0 t clk).2.output = data := by
  obtain ⟨h1, h2, h3, h4, h5, h6, h7, h8, h9, h10⟩ := h
  have hd := man_unsynced_sync d SEC_D 0 t clk h1 (by rw [h9]; decide)
    (by rw [h10]; exact man_window_sync)
  rw [hd]
  refine ⟨rfl, ⟨rfl, rfl, rfl, h4, by decide, h6⟩, ⟨h2, ?_, ?_, ?_, ?_⟩, h7⟩
  · intro i hi; omega
  · exact h3
  · intro j
    show d.parityBits.testBit j = _
    simp [h5]
  · intro m hm; omega

/-- At least three idle samples and the start bit. -/
theorem man_sync_run (F : List Nat) (t clk n : Nat) (hn : 3 ≤ n) (d0 : tDemod) (data par : Mem) :
    (ManchesterRun 0 t clk (DemodInit d0 data par) (List.replicate n 0x00 ++ [SEC_D])).1
        = List.replicate (n + 1) false
      ∧ InByteD (ManchesterRun 0 t clk (DemodInit d0 data par)
          (List.replicate n 0x00 ++ [SEC_D])).2 0 0
      ∧ DemodData F (ManchesterRun 0 t clk (DemodInit d0 data par)
          (List.replicate n 0x00 ++ [SEC_D])).2 0
      ∧ (ManchesterRun 0 t clk (DemodInit d0 data par)
          (List.replicate n 0x00 ++ [SEC_D])).2.output = data := by
  obtain ⟨a1, a2⟩ := man_idle_step1 data par _ 0 t clk (DemodInit_idle d0 data par)
  obtain ⟨a3, a4⟩ := man_idle_step2 data par _ 0 t clk a2
  obtain ⟨a5, a6⟩ := man_idle_step3 data par _ 0 t clk a4
  obtain ⟨b1, b2⟩ := ManchesterRun_invariant (fun d => ManIdle data par d 2 0) 0 t clk
    (List.replicate (n - 3) 0x00)
    (fun v hv s hs => by
      rw [List.eq_of_mem_replicate hs]; exact man_idle_step4 data par v 0 t clk hv) _ a6
  obtain ⟨c1, c2, c3, c4⟩ := man_sync_step F data par _ t clk b2
  have hrep : List.replicate n 0x00 = 0x00 :: 0x00 :: 0x00 :: List.replicate (n - 3) 0x00 := by
    obtain ⟨m, rfl⟩ : ∃ m, n = m + 3 := ⟨n - 3, by omega⟩
    simp [List.replicate_succ]
  rw [hrep, List.cons_append, List.cons_append, List.cons_append, ManchesterRun_cons,
    ManchesterRun_cons, ManchesterRun_cons, ManchesterRun_append, ManchesterRun_cons,
    ManchesterRun_nil]
  dsimp only
  rw [a1, a3, a5, b1, c1, List.length_replicate]
  refine ⟨?_, c2, c3, c4⟩
  have e2 : n + 1 = (n - 3) + 1 + 3 := by omega
  rw [e2, replicate_false_snoc]
  rfl

/-- The end of communication (Sequence F) on a byte boundary: the value
returned and the new `Demod`. -/
theorem man_eoc_equation (d : tDemod) (k offset t clk : Nat)
    (hin : InByteD d 0 0) (hlen : d.len = k) (hk0 : 0 < k) :
    ManchesterDecoding d SEC_F offset t clk
      = (true,
          if k % 8 ≠ 0 then
            { d with
              twoBits := ((d.twoBits <<< 8) ||| 0) % 65536
              parityBits := (d.parityBits <<< (8 - k % 8)) % 256
              parity := memSet d.parity d.parityLen ((d.parityBits <<< (8 - k % 8)) % 256)
              parityLen := (d.parityLen + 1) % 256 }
          else
            { d with twoBits := ((d.twoBits <<< 8) ||| 0) % 65536 }) := by
  obtain ⟨i1, i2, i3, i4, i5, i6⟩ := hin
  have hand : k &&& 7 = k % 8 := Nat.and_pow_two_sub_one_eq_mod k 3
  have hk' : k ≠ 0 := by omega
  have e1 : SEC_F = 0 := rfl
  rw [e1]
  simp only [ManchesterDecoding, i1, i2, if_false, Nat.shiftRight_zero, man_nibble1_window,
    man_nibble2_window, show IsManchesterModulationNibble1 0 = false from rfl,
    show IsManchesterModulationNibble2 0 = false from rfl, Bool.false_eq_true, i3, hlen, hand,
    gt_iff_lt, Nat.lt_irrefl]
  by_cases h8 : k % 8 = 0
  · simp [h8, hk']
  · simp [h8, hk']

/-- The end of communication on a byte boundary: the frame is emitted. -/
theorem man_eoc_final (F : List Nat) (d : tDemod) (k offset t clk : Nat)
    (hin : InByteD d 0 0) (hfd : DemodData F d k) (hk0 : 0 < k) (hk : k ≤ 2048) :
    (ManchesterDecoding d SEC_F offset t clk).1 = true
      ∧ (ManchesterDecoding d SEC_F offset t clk).2.len = k
      ∧ (ManchesterDecoding d SEC_F offset t clk).2.output = d.output
      ∧ (∀ m j, 8 * m < k → ((ManchesterDecoding d SEC_F offset t clk).2.parity m).testBit j
          = (decide (j < 8) && decide (8 * m + (7 - j) < k) && parBit F (8 * m + (7 - j))))
      ∧ (ManchesterDecoding d SEC_F offset t clk).2.collisionPos = 0 := by
  have hd := man_eoc_equation d k offset t clk hin hfd.len hk0
  have hcoll := hin.coll
  obtain ⟨f1, f2, f3, f4, f5⟩ := hfd
  have hdm : 8 * (k / 8) + k % 8 = k := Nat.div_add_mod k 8
  rw [hd]
  refine ⟨rfl, ?_, ?_, ?_, ?_⟩
  · split <;> exact f1
  · split <;> rfl
  · intro m j hm
    by_cases h8 : k % 8 = 0
    · rw [if_neg (by simpa using h8)]
      rw [f5 m (by omega) j]
      by_cases hj : j < 8
      · have : 8 * m + (7 - j) < k := by omega
        simp [hj, this]
      · simp [hj]
    · rw [if_pos h8]
      have hpl : d.parityLen = k / 8 := by rw [f3]; omega
      simp only [memSet, hpl]
      by_cases hmk : m = k / 8
      · rw [if_pos hmk, tail_shift_testBit, f4, hmk]
        by_cases hj : j < 8
        · by_cases hc : 8 - k % 8 ≤ j
          · have a1 : j - (8 - k % 8) < k % 8 := by omega
            have a2 : k % 8 - 1 - (j - (8 - k % 8)) = 7 - j := by omega
            have a3 : 8 * (k / 8) + (7 - j) < k := by omega
            simp [hj, hc, a1, a2, a3]
          · have a3 : ¬ 8 * (k / 8) + (7 - j) < k := by omega
            simp [hj, hc, a3]
        · simp [hj]
      · rw [if_neg hmk, f5 m (by omega) j]
        by_cases hj : j < 8
        · have : 8 * m + (7 - j) < k := by omega
          simp [hj, this]
        · simp [hj]
  · split <;> exact hcoll

/-! ## Tag-to-reader round trip -/

/-- The round trip up to the end of communication: the decoder has returned
false throughout, has stored the whole frame and is about to see Sequence F. -/
theorem tag_round_trip_prefix (F : List Nat) (hlen : F.length ≤ 2055)
    (hbytes : ∀ b ∈ F, b < 256) (n : Nat) (hn : 3 ≤ n) (d0 : tDemod) (data parity par0 : Mem)
    (s0 : EncSt) (t clk : Nat) :
    ∃ d : tDemod,
      ManchesterRun 0 t clk (DemodInit d0 data parity)
          (tagSamples n (CodeIso14443aAsTagPar s0 F F.length (GetParity F F.length par0)))
        = (List.replicate (n + 1 + 9 * F.length) false
            ++ [(ManchesterDecoding d SEC_F 0 t clk).1],
           (ManchesterDecoding d SEC_F 0 t clk).2)
      ∧ InByteD d 0 0
      ∧ DemodData F d F.length := by
  have hb : ∀ j, j < 0 + F.length → F.getD j 0 < 256 := by
    intro j hj
    rw [Nat.zero_add] at hj
    rw [List.getD_eq_getElem _ _ hj]
    exact hbytes _ (List.getElem_mem _)
  have hT := tag_ToSend_full F par0 s0 (by omega)
  obtain ⟨a1, a2, a3, _⟩ := man_sync_run F t clk n hn d0 data parity
  obtain ⟨b1, b2, b3, _⟩ := man_frame_run 0 t clk F F.length 0 _ a2 a3 (by omega) hb
  rw [Nat.zero_add] at b3
  have hS : tagSamples n (CodeIso14443aAsTagPar s0 F F.length (GetParity F F.length par0))
      = (List.replicate n 0x00 ++ [SEC_D])
        ++ ((((List.range' 0 F.length).flatMap (dataBits F)).map manSymbol) ++ [SEC_F]) := by
    unfold tagSamples
    rw [hT]
    simp only [List.append_assoc, List.cons_append, List.nil_append]
  refine ⟨_, ?_, b2, b3⟩
  rw [hS, ManchesterRun_append 0 t clk (List.replicate n 0x00 ++ [SEC_D]),
    ManchesterRun_append 0 t clk (((List.range' 0 F.length).flatMap (dataBits F)).map manSymbol),
    ManchesterRun_cons, ManchesterRun_nil]
  dsimp only
  rw [a1, b1, ← List.append_assoc, List.append_replicate_replicate]

/-- The whole run of the tag-to-reader round trip. -/
theorem tag_round_trip_run (F : List Nat) (hne : F ≠ []) (hlen : F.length ≤ 2048)
    (hbytes : ∀ b ∈ F, b < 256) (n : Nat) (hn : 3 ≤ n) (d0 : tDemod) (data parity par0 : Mem)
    (s0 : EncSt) (t clk : Nat) :
    (ManchesterRun 0 t clk (DemodInit d0 data parity)
        (tagSamples n (CodeIso14443aAsTagPar s0 F F.length (GetParity F F.length par0)))).1
        = List.replicate (n + 1 + 9 * F.length) false ++ [true]
      ∧ (ManchesterRun 0 t clk (DemodInit d0 data parity)
        (tagSamples n (CodeIso14443aAsTagPar s0 F F.length (GetParity F F.length par0)))).2.len
          = F.length
      ∧ (∀ i, i < F.length → (ManchesterRun 0 t clk (DemodInit d0 data parity)
        (tagSamples n (CodeIso14443aAsTagPar s0 F F.length
          (GetParity F F.length par0)))).2.output i = F.getD i 0)
      ∧ (∀ m j, 8 * m < F.length → ((ManchesterRun 0 t clk (DemodInit d0 data parity)
        (tagSamples n (CodeIso14443aAsTagPar s0 F F.length
          (GetParity F F.length par0)))).2.parity m).testBit j
          = (decide (j < 8) && decide (8 * m + (7 - j) < F.length) && parBit F (8 * m + (7 - j))))
      ∧ (ManchesterRun 0 t clk (DemodInit d0 data parity)
        (tagSamples n (CodeIso14443aAsTagPar s0 F F.length
          (GetParity F F.length par0)))).2.collisionPos = 0 := by
  have hk0 : 0 < F.length := List.length_pos.mpr hne
  obtain ⟨d, hrun, b2, b3⟩ :=
    tag_round_trip_prefix F (by omega) hbytes n hn d0 data parity par0 s0 t clk
  obtain ⟨c1, c2, c3, c4, c5⟩ := man_eoc_final F d F.length 0 t clk b2 b3 hk0 hlen
  rw [hrun]
  dsimp only
  rw [c1]
  refine ⟨rfl, c2, ?_, c4, c5⟩
  intro i hi
  rw [c3]
  exact b3.out i hi

/-- The last sample of a tag frame is Sequence F. -/
theorem tagSamples_getLast (F : List Nat) (hlen : F.length < 65536) (n : Nat) (par0 : Mem)
    (s0 : EncSt) :
    (tagSamples n (CodeIso14443aAsTagPar s0 F F.length (GetParity F F.length par0))).getLast?
      = some SEC_F := by
  unfold tagSamples
  rw [tag_ToSend_full F par0 s0 hlen, ← List.append_assoc, List.getLast?_append]
  rfl

/-- The parity byte written at the end of communication when the frame does
not end on a group of eight bytes. -/
theorem man_eoc_parity (F : List Nat) (d : tDemod) (k offset t clk : Nat)
    (hin : InByteD d 0 0) (hfd : DemodData F d k) (hk0 : 0 < k) (hk8 : k % 8 ≠ 0) :
    (ManchesterDecoding d SEC_F offset t clk).2.parity
      = memSet d.parity ((k / 8) % 256) ((d.parityBits <<< (8 - k % 8)) % 256) := by
  rw [man_eoc_equation d k offset t clk hin hfd.len hk0, if_pos hk8]
  show memSet d.parity d.parityLen _ = _
  rw [hfd.plen]

/-- C2. Tag-to-reader round trip for every non-empty byte sequence `F` with
`P = GetParity(F)`, where `F` has at most 2048 bytes (the buffers that
`DemodInit` is given hold `MAX_FRAME_SIZE` = 256 bytes, so that every frame
that the decoder can store is covered): feeding a Manchester decoder
fresh from `DemodInit`, with offset 0, at least three idle sample bytes `0x00`
followed by the symbol bytes produced by `CodeIso14443aAsTagPar(F, |F|, P)`
from the start bit onwards (`ToSend[1..]`, without the correction byte) makes
`ManchesterDecoding` return false on every sample before the last and true on
the last one, which is the final Sequence F, with `Demod.len = |F|`,
`Demod.output[0 .. |F|-1] = F`, for every `i < |F|` bit `7 - i % 8` of
`Demod.parity[i / 8]` equal to the odd-parity bit of `F[i]`, and
`Demod.collisionPos = 0`. -/
theorem tag_round_trip (F : List Nat) (hne : F ≠ []) (hlen : F.length ≤ 2048)
    (hbytes : ∀ b ∈ F, b < 256) (n : Nat) (hn : 3 ≤ n) (d0 : tDemod) (data parity par0 : Mem)
    (s0 : EncSt) (non_real_time clk : Nat) :
    (ManchesterRun 0 non_real_time clk (DemodInit d0 data parity)
        (tagSamples n (CodeIso14443aAsTagPar s0 F F.length (GetParity F F.length par0)))).1
        = List.replicate ((tagSamples n (CodeIso14443aAsTagPar s0 F F.length
            (GetParity F F.length par0))).length - 1) false ++ [true]
      ∧ (tagSamples n (CodeIso14443aAsTagPar s0 F F.length
            (GetParity F F.length par0))).getLast? = some SEC_F
      ∧ (ManchesterRun 0 non_real_time clk (DemodInit d0 data parity)
        (tagSamples n (CodeIso14443aAsTagPar s0 F F.length (GetParity F F.length par0)))).2.len
          = F.length
      ∧ (List.range F.length).map (ManchesterRun 0 non_real_time clk (DemodInit d0 data parity)
        (tagSamples n (CodeIso14443aAsTagPar s0 F F.length
          (GetParity F F.length par0)))).2.output = F
      ∧ (∀ i, i < F.length → ((ManchesterRun 0 non_real_time clk (DemodInit d0 data parity)
        (tagSamples n (CodeIso14443aAsTagPar s0 F F.length
          (GetParity F F.length par0)))).2.parity (i / 8) >>> (7 - i % 8)) % 2
          = oddparity8 (F.getD i 0))
      ∧ (ManchesterRun 0 non_real_time clk (DemodInit d0 data parity)
        (tagSamples n (CodeIso14443aAsTagPar s0 F F.length
          (GetParity F F.length par0)))).2.collisionPos = 0 := by
  obtain ⟨h1, h2, h3, h4, h5⟩ :=
    tag_round_trip_run F hne hlen hbytes n hn d0 data parity par0 s0 non_real_time clk
  have hL := ManchesterRun_length 0 non_real_time clk
    (tagSamples n (CodeIso14443aAsTagPar s0 F F.length (GetParity F F.length par0)))
    (DemodInit d0 data parity)
  rw [h1, List.length_append, List.length_replicate, List.length_singleton] at hL
  refine ⟨?_, tagSamples_getLast F (by omega) n par0 s0, h2, ?_, ?_, h5⟩
  · rw [h1, ← hL, Nat.add_sub_cancel]
  · apply List.ext_getElem
    · simp
    · intro i hi1 hi2
      rw [List.getElem_map, List.getElem_range, h3 i hi2, List.getD_eq_getElem _ _ hi2]
  · intro i hi
    have hm : 8 * (i / 8) < F.length := by omega
    have hb := h4 (i / 8) (7 - i % 8) hm
    have e : 8 * (i / 8) + (7 - (7 - i % 8)) = i := by omega
    have hk : 7 - i % 8 < 8 := by omega
    rw [e] at hb
    simp only [hk, hi, decide_True, Bool.true_and] at hb
    rw [shift_mod_two_of_testBit _ _ _ hb, parBit_eq_oddparity8]

theorem tag_round_trip_witness :
    (ManchesterRun 0 1000 0 (DemodInit Demod0 (fun _ => 0) (fun _ => 0))
        (tagSamples 3 (CodeIso14443aAsTagPar Enc0 [0x04, 0xA5] [0x04, 0xA5].length
          (GetParity [0x04, 0xA5] [0x04, 0xA5].length (fun _ => 0))))).1
        = List.replicate ((tagSamples 3 (CodeIso14443aAsTagPar Enc0 [0x04, 0xA5]
            [0x04, 0xA5].length
            (GetParity [0x04, 0xA5] [0x04, 0xA5].length (fun _ => 0)))).length - 1) false
          ++ [true]
      ∧ (tagSamples 3 (CodeIso14443aAsTagPar Enc0 [0x04, 0xA5] [0x04, 0xA5].length
            (GetParity [0x04, 0xA5] [0x04, 0xA5].length (fun _ => 0)))).getLast? = some SEC_F
      ∧ (ManchesterRun 0 1000 0 (DemodInit Demod0 (fun _ => 0) (fun _ => 0))
        (tagSamples 3 (CodeIso14443aAsTagPar Enc0 [0x04, 0xA5] [0x04, 0xA5].length
          (GetParity [0x04, 0xA5] [0x04, 0xA5].length (fun _ => 0))))).2.len
          = [0x04, 0xA5].length
      ∧ (List.range [0x04, 0xA5].length).map (ManchesterRun 0 1000 0
        (DemodInit Demod0 (fun _ => 0) (fun _ => 0))
        (tagSamples 3 (CodeIso14443aAsTagPar Enc0 [0x04, 0xA5] [0x04, 0xA5].length
          (GetParity [0x04, 0xA5] [0x04, 0xA5].length (fun _ => 0))))).2.output
          = [0x04, 0xA5]
      ∧ (∀ i, i < [0x04, 0xA5].length → ((ManchesterRun 0 1000 0
        (DemodInit Demod0 (fun _ => 0) (fun _ => 0))
        (tagSamples 3 (CodeIso14443aAsTagPar Enc0 [0x04, 0xA5] [0x04, 0xA5].length
          (GetParity [0x04, 0xA5] [0x04, 0xA5].length (fun _ => 0))))).2.parity (i / 8)
          >>> (7 - i % 8)) % 2 = oddparity8 ([0x04, 0xA5].getD i 0))
      ∧ (ManchesterRun 0 1000 0 (DemodInit Demod0 (fun _ => 0) (fun _ => 0))
        (tagSamples 3 (CodeIso14443aAsTagPar Enc0 [0x04, 0xA5] [0x04, 0xA5].length
          (GetParity [0x04, 0xA5] [0x04, 0xA5].length (fun _ => 0))))).2.collisionPos = 0 :=
  tag_round_trip [0x04, 0xA5] (by decide) (by decide) (by decide) 3 (by decide) Demod0
    (fun _ => 0) (fun _ => 0) (fun _ => 0) Enc0 1000 0

/-! ## Reader encoder: the empty payload -/

/-- C11, as stated, fails: with `bits = 0` the transmit buffer holds the three
symbols Z, Z, Y and not the two symbols Z, Y, and the final `ToSendMax` is 3. -/
theorem reader_empty_payload_counterexample :
    (CodeIso14443aBitsAsReaderPar Enc0 [] 0 none).ToSend = [SEC_Z, SEC_Z, SEC_Y]
      ∧ (CodeIso14443aBitsAsReaderPar Enc0 [] 0 none).ToSend ≠ [SEC_Z, SEC_Y]
      ∧ (CodeIso14443aBitsAsReaderPar Enc0 [] 0 none).ToSendMax + 1 ≠ 2 := by
  decide

/-- C11 (amended). Empty payload: `CodeIso14443aBitsAsReaderPar` called with
`bits = 0` produces exactly the three symbols Z, Z, Y (the start of
communication, then the end of communication, which is a logic 0 coded as
Sequence Z followed by Sequence Y), so that after the final `ToSendMax++`
`ToSendMax = 3`. -/
theorem reader_empty_payload (s0 : EncSt) (cmd : List Nat) (parity : Option Mem) :
    (CodeIso14443aBitsAsReaderPar s0 cmd 0 parity).ToSend = [SEC_Z, SEC_Z, SEC_Y]
      ∧ (CodeIso14443aBitsAsReaderPar s0 cmd 0 parity).ToSendMax + 1 = 3 := by
  have h : (CodeIso14443aBitsAsReaderPar s0 cmd 0 parity).ToSend = [SEC_Z, SEC_Z, SEC_Y] := by
    simp [CodeIso14443aBitsAsReaderPar, ToSendReset, EncSt.push, nbytes, ReaderBytes]
  refine ⟨h, ?_⟩
  unfold EncSt.ToSendMax
  rw [h]
  rfl

/-! ## Tag encoder: the layout of the modulation bytes -/

theorem tag_stuff_bits (s0 : EncSt) :
    (ToSendStuffBit (ToSendStuffBit (ToSendStuffBit (ToSendStuffBit (ToSendStuffBit
      (ToSendStuffBit (ToSendStuffBit (ToSendStuffBit (ToSendReset s0) 0) 0) 0) 0) 1) 0) 0)
        0).ToSend = [0x08] := by
  simp [ToSendStuffBit, ToSendReset]

theorem tagByteBits_length (cmd : List Nat) (parity : Mem) :
    ∀ (n i : Nat), ((List.range' i n).flatMap (tagByteBits cmd parity)).length = 9 * n
  | 0, i => rfl
  | n + 1, i => by
    rw [List.range'_succ, List.flatMap_cons, List.length_append, tagByteBits_length cmd parity n]
    simp [tagByteBits, bitsLSB_length]
    omega

/-- C12. Tag encoder layout: for every frame `cmd` of `len` bytes with parity
bits `parity`, `CodeIso14443aAsTagPar` produces exactly `9 * len + 3`
modulation bytes: one correction byte (`0x08`, the eight stuff-bits), the
start bit Sequence D, then for each byte `i` its eight data bits LSB-first (D
for 1, E for 0) followed by its parity symbol (D if bit `7 - i % 8` of
`parity[i / 8]` is set, else E), and finally the end marker Sequence F. -/
theorem tag_encoder_layout (s0 : EncSt) (cmd : List Nat) (len : Nat) (parity : Mem) :
    (CodeIso14443aAsTagPar s0 cmd len parity).ToSend
        = 0x08 :: SEC_D :: (((List.range len).flatMap (tagByteBits cmd parity)).map manSymbol
            ++ [SEC_F])
      ∧ (CodeIso14443aAsTagPar s0 cmd len parity).ToSend.length = 9 * len + 3
      ∧ (CodeIso14443aAsTagPar s0 cmd len parity).ToSendMax + 1 = ((9 * len + 3 : Nat) : Int) := by
  have h : (CodeIso14443aAsTagPar s0 cmd len parity).ToSend
      = 0x08 :: SEC_D :: (((List.range len).flatMap (tagByteBits cmd parity)).map manSymbol
          ++ [SEC_F]) := by
    unfold CodeIso14443aAsTagPar
    simp only [EncSt.push, TagBytes_ToSend, tag_stuff_bits, List.range_eq_range']
    have e : (fun j => bitsLSB (cmd.getD j 0) 8 ++ [(parity (j / 8)).testBit (7 - j % 8)])
        = tagByteBits cmd parity := rfl
    rw [e]
    simp
  have hl : (CodeIso14443aAsTagPar s0 cmd len parity).ToSend.length = 9 * len + 3 := by
    rw [h, List.range_eq_range']
    simp only [List.length_cons, List.length_append, List.length_map, tagByteBits_length,
      List.length_nil]
  refine ⟨h, hl, ?_⟩
  unfold EncSt.ToSendMax
  rw [hl]
  omega

/-! ## `PrepareDelayedTransfer` is a shift of the bit stream -/

theorem delayBitmask_eq (d : Nat) (hd : d ≤ 8) : delayBitmask d = 2 ^ d - 1 := by
  interval_cases d <;> decide

theorem range_map_append {α : Type} (a b : Nat) (f g : Nat → α) :
    (List.range a).map f ++ (List.range b).map g
      = (List.range (a + b)).map (fun k => if k < a then f k else g (k - a)) := by
  rw [List.range_add, List.map_append, List.map_map]
  congr 1
  · apply List.map_congr_left
    intro k hk
    simp [List.mem_range.mp hk]
  · apply List.map_congr_left
    intro k _
    simp

/-- One step of the loop: the bits of the new byte followed by the bits
carried out are the bits carried in followed by the bits of the old byte. -/
theorem delayShift_step (d c b : Nat) (hd : d ≤ 8) (hc : c < 2 ^ d) (hb : b < 256) :
    lowBitsMSB 8 (((b >>> d) ||| (c <<< (8 - d))) % 256) ++ lowBitsMSB d (b &&& (2 ^ d - 1))
      = lowBitsMSB d c ++ lowBitsMSB 8 b := by
  unfold lowBitsMSB
  rw [range_map_append, range_map_append, Nat.add_comm d 8]
  apply List.map_congr_left
  intro k hk
  have hk' : k < 8 + d := List.mem_range.mp hk
  have hbig : ∀ j, 8 ≤ j → b.testBit j = false := by
    intro j hj
    apply Nat.testBit_lt_two_pow
    calc b < 2 ^ 8 := hb
      _ ≤ 2 ^ j := Nat.pow_le_pow_right (by decide) hj
  have hcbig : ∀ j, d ≤ j → c.testBit j = false := by
    intro j hj
    apply Nat.testBit_lt_two_pow
    calc c < 2 ^ d := hc
      _ ≤ 2 ^ j := Nat.pow_le_pow_right (by decide) hj
  rw [Nat.and_pow_two_sub_one_eq_mod, show (256 : Nat) = 2 ^ 8 from rfl]
  simp only [Nat.testBit_mod_two_pow, Nat.testBit_or, Nat.testBit_shiftRight,
    Nat.testBit_shiftLeft]
  by_cases h8 : k < 8
  · by_cases hkd : k < d
    · have e1 : d + (8 - 1 - k) = (d + 7 - k) := by omega
      have e2 : 8 - 1 - k < 8 := by omega
      have e3 : 8 - d ≤ 8 - 1 - k := by omega
      have e4 : 8 - 1 - k - (8 - d) = d - 1 - k := by omega
      simp [h8, hkd, e1, e2, e3, e4, hbig (d + 7 - k) (by omega)]
    · have e1 : d + (8 - 1 - k) = 8 - 1 - (k - d) := by omega
      have e2 : 8 - 1 - k < 8 := by omega
      have e3 : ¬ 8 - d ≤ 8 - 1 - k := by omega
      simp [h8, hkd, e1, e2, e3]
  · have hkd : ¬ k < d := by omega
    have e1 : d - 1 - (k - 8) < d := by omega
    have e2 : d - 1 - (k - 8) = 8 - 1 - (k - d) := by omega
    simp [h8, hkd, e1, e2]
    intro _
    omega

theorem bitString_cons (b : Nat) (bs : List Nat) :
    bitString (b :: bs) = lowBitsMSB 8 b ++ bitString bs := rfl

theorem bitString_append (xs ys : List Nat) :
    bitString (xs ++ ys) = bitString xs ++ bitString ys := by
  simp [bitString]

/-- The loop of `PrepareDelayedTransfer`: the bits of the new array followed by
the bits carried out are the bits carried in followed by the bits of the old
array. -/
theorem delayShift_bits (d : Nat) (hd : d ≤ 8) :
    ∀ (bytes : List Nat) (c : Nat), c < 2 ^ d → (∀ b ∈ bytes, b < 256) →
      bitString (delayShift d (2 ^ d - 1) bytes c) ++ lowBitsMSB d (delayCarry (2 ^ d - 1) bytes c)
        = lowBitsMSB d c ++ bitString bytes
  | [], c, _, _ => by simp [delayShift, delayCarry, bitString]
  | b :: rest, c, hc, hb => by
    have hb0 : b < 256 := hb b (List.mem_cons_self _ _)
    have hc1 : b &&& (2 ^ d - 1) < 2 ^ d := by
      rw [Nat.and_pow_two_sub_one_eq_mod]
      exact Nat.mod_lt _ (Nat.pos_pow_of_pos d (by decide))
    have ih := delayShift_bits d hd rest (b &&& (2 ^ d - 1)) hc1
      (fun x hx => hb x (List.mem_cons_of_mem _ hx))
    simp only [delayShift, delayCarry, bitString_cons]
    rw [List.append_assoc, ih, ← List.append_assoc, delayShift_step d c b hd hc hb0,
      List.append_assoc]

theorem delayShift_length (d m : Nat) :
    ∀ (bytes : List Nat) (c : Nat), (delayShift d m bytes c).length = bytes.length
  | [], _ => rfl
  | b :: rest, c => by simp [delayShift, delayShift_length d m rest]

theorem delayCarry_snoc (m : Nat) (x : Nat) :
    ∀ (bytes : List Nat) (c : Nat), delayCarry m (bytes ++ [x]) c = x &&& m
  | [], _ => rfl
  | b :: rest, c => by simp [delayCarry, delayCarry_snoc m x rest]

theorem lowBitsMSB_zero (d : Nat) : lowBitsMSB d 0 = List.replicate d false := by
  unfold lowBitsMSB
  apply List.ext_getElem
  · simp
  · intro i h1 h2
    simp

/-- C13. `PrepareDelayedTransfer` is a right shift of the bit stream: for
every symbol array `S` of `n` bytes and every `delay` with `d = delay mod 8` in
1..7, afterwards `ToSendMax = n + 1` and the bit string of `ToSend` (bytes in
order, most significant bit first) is `d` zero bits, then the bit string of
`S`, then `8 - d` zero bits; when `d = 0` the array and `ToSendMax` are
unchanged.  The array fits the `uint16_t` loop index. -/
theorem PrepareDelayedTransfer_shift (S : List Nat) (delay : Nat)
    (hbytes : ∀ b ∈ S, b < 256) (_hlen : S.length + 1 < 65536) :
    (delay % 8 ≠ 0 →
        (PrepareDelayedTransfer S delay).length = S.length + 1
          ∧ bitString (PrepareDelayedTransfer S delay)
              = List.replicate (delay % 8) false ++ bitString S
                  ++ List.replicate (8 - delay % 8) false)
      ∧ (delay % 8 = 0 → PrepareDelayedTransfer S delay = S) := by
  have hand : delay &&& 7 = delay % 8 := Nat.and_pow_two_sub_one_eq_mod delay 3
  have hd : delay % 8 < 8 := Nat.mod_lt _ (by decide)
  constructor
  · intro h0
    have hP : PrepareDelayedTransfer S delay
        = delayShift (delay % 8) (2 ^ (delay % 8) - 1) (S ++ [0x00]) 0 := by
      unfold PrepareDelayedTransfer
      simp only [hand, ne_eq, h0, not_false_eq_true, if_true]
      rw [delayBitmask_eq _ (by omega)]
    rw [hP]
    refine ⟨by rw [delayShift_length]; simp, ?_⟩
    have hb2 : ∀ b ∈ S ++ [0x00], b < 256 := by
      intro b hb
      rcases List.mem_append.mp hb with h | h
      · exact hbytes b h
      · rw [List.mem_singleton.mp h]; decide
    have key := delayShift_bits (delay % 8) (by omega) (S ++ [0x00]) 0
      (Nat.pos_pow_of_pos _ (by decide)) hb2
    rw [delayCarry_snoc, Nat.zero_and, lowBitsMSB_zero, bitString_append] at key
    have e8 : bitString [0x00] = List.replicate (8 - delay % 8) false
        ++ List.replicate (delay % 8) false := by
      rw [List.append_replicate_replicate, show 8 - delay % 8 + delay % 8 = 8 by omega]
      rfl
    rw [e8, ← List.append_assoc, ← List.append_assoc] at key
    exact List.append_cancel_right key
  · intro h0
    unfold PrepareDelayedTransfer
    simp [hand, h0]

theorem PrepareDelayedTransfer_shift_witness :
    (3 % 8 ≠ 0 →
        (PrepareDelayedTransfer [SEC_Z, SEC_X, SEC_Y] 3).length = [SEC_Z, SEC_X, SEC_Y].length + 1
          ∧ bitString (PrepareDelayedTransfer [SEC_Z, SEC_X, SEC_Y] 3)
              = List.replicate (3 % 8) false ++ bitString [SEC_Z, SEC_X, SEC_Y]
                  ++ List.replicate (8 - 3 % 8) false)
      ∧ (3 % 8 = 0 → PrepareDelayedTransfer [SEC_Z, SEC_X, SEC_Y] 3 = [SEC_Z, SEC_X, SEC_Y]) :=
  PrepareDelayedTransfer_shift [SEC_Z, SEC_X, SEC_Y] 3 (by decide) (by decide)

/-! ## `iso14_apdu`: the block number -/

/-- C14, as stated, fails: a response of three bytes whose first byte is an
I-block PCB with the current block number (0) does not toggle
`iso14_pcb_blocknum`. -/
theorem iso14_apdu_toggle_counterexample :
    (0x02 &&& 0xC0 = 0) ∧ (0x02 &&& 0x01 = 0)
      ∧ (iso14_apdu crcZero 0 [] 0 [0x02, 0x12, 0x34]).iso14_pcb_blocknum = 0 := by
  decide

/-- C14 (amended). Block-number toggle: for every response received by
`iso14_apdu`, `iso14_pcb_blocknum` is toggled if and only if the response has
at least 4 bytes and its first byte (PCB) is an I-block (`(PCB & 0xC0) = 0`)
or an R(ACK) (`(PCB & 0xD0) = 0x80`) whose low bit equals the current
`iso14_pcb_blocknum`; in every other case, including no response, the block
number is unchanged. -/
theorem iso14_apdu_toggle (crcA : List Nat → Nat × Nat) (bn : Nat) (cmd : List Nat)
    (cmd_len : Nat) (data : List Nat) :
    ((iso14_apdu crcA bn cmd cmd_len data).iso14_pcb_blocknum ≠ bn
        ↔ (data.length ≥ 4
            ∧ ((data.getD 0 0 &&& 0xC0) = 0 ∨ (data.getD 0 0 &&& 0xD0) = 0x80)
            ∧ (data.getD 0 0 &&& 0x01) = bn))
      ∧ ((data.length ≥ 4
            ∧ ((data.getD 0 0 &&& 0xC0) = 0 ∨ (data.getD 0 0 &&& 0xD0) = 0x80)
            ∧ (data.getD 0 0 &&& 0x01) = bn)
          → (iso14_apdu crcA bn cmd cmd_len data).iso14_pcb_blocknum = 1 - bn ∧ bn ≤ 1) := by
  have hlow : data.getD 0 0 &&& 0x01 ≤ 1 := by
    rw [Nat.and_one_is_mod]; omega
  have htog : bn ≤ 1 → (bn ^^^ 1) % 256 = 1 - bn := by
    intro h
    interval_cases bn <;> rfl
  unfold iso14_apdu
  dsimp only
  by_cases h0 : data.length = 0
  · simp [h0]
  · by_cases hc : data.length ≥ 4
        ∧ ((data.getD 0 0 &&& 0xC0) = 0 ∨ (data.getD 0 0 &&& 0xD0) = 0x80)
        ∧ (data.getD 0 0 &&& 0x01) = bn
    · have hbn : bn ≤ 1 := by rw [← hc.2.2]; exact hlow
      rw [if_neg h0, if_pos hc]
      refine ⟨⟨fun _ => hc, fun _ => ?_⟩, fun _ => ⟨htog hbn, hbn⟩⟩
      show (bn ^^^ 1) % 256 ≠ bn
      rw [htog hbn]
      omega
    · rw [if_neg h0, if_neg hc]
      exact ⟨⟨fun h => absurd rfl h, fun h => absurd h hc⟩, fun h => absurd h hc⟩

theorem iso14_apdu_pcb (crcA : List Nat → Nat × Nat) (bn : Nat) (cmd : List Nat)
    (cmd_len : Nat) (data : List Nat) :
    (iso14_apdu crcA bn cmd cmd_len data).real_cmd.getD 0 0 = 0x0a ||| bn := by
  have h : ∀ r : ApduResult, r.real_cmd = AppendCrc14443a crcA
      (([0x0a ||| bn, 0x00] ++ (List.range cmd_len).map (fun i => cmd.getD i 0)) ++ [0, 0])
      (cmd_len + 2) → r.real_cmd.getD 0 0 = 0x0a ||| bn := by
    intro r hr
    rw [hr]
    simp [AppendCrc14443a]
  unfold iso14_apdu
  dsimp only
  split
  · exact h _ rfl
  · split
    · exact h _ rfl
    · exact h _ rfl

theorem apduRun_parity (crcA : List Nat → Nat × Nat) :
    ∀ (xs : List (List Nat × Nat × List Nat)) (bn : Nat), bn ≤ 1 →
      answeredByIBlocks crcA bn xs = true → apduRun crcA bn xs = (bn + xs.length) % 2
  | [], bn, hbn, _ => by
    simp only [apduRun, List.length_nil, Nat.add_zero]
    omega
  | (cmd, cmd_len, data) :: rest, bn, hbn, h => by
    simp only [answeredByIBlocks, Bool.and_eq_true, decide_eq_true_eq] at h
    obtain ⟨⟨⟨h1, h2⟩, h3⟩, h4⟩ := h
    rw [iso14_apdu_pcb] at h3
    have hpcb : (0x0a ||| bn) &&& 0x01 = bn := by
      interval_cases bn <;> rfl
    rw [hpcb] at h3
    obtain ⟨t1, _⟩ := (iso14_apdu_toggle crcA bn cmd cmd_len data).2 ⟨h1, Or.inl h2, h3⟩
    rw [t1] at h4
    have ih := apduRun_parity crcA rest (1 - bn) (by omega) h4
    simp only [apduRun, t1, ih, List.length_cons]
    omega

/-- C15. APDU block-number parity: starting from `iso14_pcb_blocknum = 0` (as
set by a successful select with RATS), after `k` consecutive `iso14_apdu`
exchanges each answered by an I-block of at least 4 bytes whose block-number
bit equals the block number sent in the request, `iso14_pcb_blocknum` equals
`k mod 2`, and the PCB sent in the next request is `0x0A | (k mod 2)`. -/
theorem apdu_block_number_parity (crcA : List Nat → Nat × Nat)
    (xs : List (List Nat × Nat × List Nat)) (h : answeredByIBlocks crcA 0 xs = true)
    (cmd : List Nat) (cmd_len : Nat) (data : List Nat) :
    apduRun crcA 0 xs = xs.length % 2
      ∧ (iso14_apdu crcA (apduRun crcA 0 xs) cmd cmd_len data).real_cmd.getD 0 0
          = 0x0A ||| (xs.length % 2) := by
  have h1 := apduRun_parity crcA xs 0 (by decide) h
  rw [Nat.zero_add] at h1
  exact ⟨h1, by rw [iso14_apdu_pcb, h1]⟩

theorem apdu_block_number_parity_witness :
    apduRun crcZero 0 [([0x90], 1, [0x02, 0x90, 0x00, 0x11, 0x22]),
        ([0x91], 1, [0x03, 0x90, 0x00, 0x11]), ([0x92], 1, [0x02, 0x00, 0x11, 0x22])]
        = [([0x90], 1, [0x02, 0x90, 0x00, 0x11, 0x22]),
            ([0x91], 1, [0x03, 0x90, 0x00, 0x11]),
            ([0x92], 1, [0x02, 0x00, 0x11, 0x22])].length % 2
      ∧ (iso14_apdu crcZero (apduRun crcZero 0 [([0x90], 1, [0x02, 0x90, 0x00, 0x11, 0x22]),
          ([0x91], 1, [0x03, 0x90, 0x00, 0x11]), ([0x92], 1, [0x02, 0x00, 0x11, 0x22])])
          [0x93] 1 []).real_cmd.getD 0 0
          = 0x0A ||| ([([0x90], 1, [0x02, 0x90, 0x00, 0x11, 0x22]),
            ([0x91], 1, [0x03, 0x90, 0x00, 0x11]),
            ([0x92], 1, [0x02, 0x00, 0x11, 0x22])].length % 2) :=
  apdu_block_number_parity crcZero _ (by decide) [0x93] 1 []



/-! ## MIFARE emulator: loss of the field -/

/-- C19, as stated, fails: after WUPA, SELECT and the authentication command
`60 00` the emulator is in `MFEMUL_AUTH1` with `cardAUTHKEY = 0` and a cipher
state that is not the destroyed one; the iteration in which `EmGetCmd` reports
the loss of the field enters `MFEMUL_NOFIELD` and leaves both as they are. -/
theorem field_loss_counterexample :
    (Mifare1ksim_run envPlain flags4B 0 sim4B
        [rx [0x52], rx [0x93, 0x70, 0xDE, 0xAD, 0xBE, 0xAF, 0x62, 0, 0],
         rx [0x60, 0x00, 0, 0]]).1.cardSTATE = .MFEMUL_AUTH1
      ∧ (Mifare1ksim_run envPlain flags4B 0 sim4B
        [rx [0x52], rx [0x93, 0x70, 0xDE, 0xAD, 0xBE, 0xAF, 0x62, 0, 0],
         rx [0x60, 0x00, 0, 0], fieldLost]).1.cardSTATE = .MFEMUL_NOFIELD
      ∧ (Mifare1ksim_run envPlain flags4B 0 sim4B
        [rx [0x52], rx [0x93, 0x70, 0xDE, 0xAD, 0xBE, 0xAF, 0x62, 0, 0],
         rx [0x60, 0x00, 0, 0], fieldLost]).1.cardAUTHKEY = 0
      ∧ (Mifare1ksim_run envPlain flags4B 0 sim4B
        [rx [0x52], rx [0x93, 0x70, 0xDE, 0xAD, 0xBE, 0xAF, 0x62, 0, 0],
         rx [0x60, 0x00, 0, 0], fieldLost]).1.cardAUTHKEY ≠ 0xFF
      ∧ (Mifare1ksim_run envPlain flags4B 0 sim4B
        [rx [0x52], rx [0x93, 0x70, 0xDE, 0xAD, 0xBE, 0xAF, 0x62, 0, 0],
         rx [0x60, 0x00, 0, 0], fieldLost]).1.pcs ≠ envPlain.crypto1_destroy
          (Mifare1ksim_run envPlain flags4B 0 sim4B
            [rx [0x52], rx [0x93, 0x70, 0xDE, 0xAD, 0xBE, 0xAF, 0x62, 0, 0],
             rx [0x60, 0x00, 0, 0]]).1.pcs := by
  decide

/-- C19 (amended). Field loss in `Mifare1ksim`: whenever `EmGetCmd` reports
that the field is gone (result 2), the emulator enters `MFEMUL_NOFIELD` and
sends nothing, whatever the state was before; the cipher state and
`cardAUTHKEY` (and all other variables but `len`) are left as they are. -/
theorem field_loss_step (env : MfEnv) (flags : MfFlags) (exitAfterNReads : Nat) (s : MfSim)
    (inp : MfInput)
    (hcall : s.cardSTATE ≠ .MFEMUL_NOFIELD
      ∨ (env.MAX_ADC_HF_VOLTAGE * inp.avgAdc) >>> 10 > env.MF_MINFIELDV)
    (hres : inp.res = 2) :
    Mifare1ksim_step env flags exitAfterNReads s inp
        = ({ s with len := 0, cardSTATE := .MFEMUL_NOFIELD }, [])
      ∧ (Mifare1ksim_step env flags exitAfterNReads s inp).1.cardSTATE = .MFEMUL_NOFIELD
      ∧ (Mifare1ksim_step env flags exitAfterNReads s inp).1.pcs = s.pcs
      ∧ (Mifare1ksim_step env flags exitAfterNReads s inp).1.cardAUTHKEY = s.cardAUTHKEY := by
  have h : Mifare1ksim_step env flags exitAfterNReads s inp
      = ({ s with len := 0, cardSTATE := .MFEMUL_NOFIELD }, []) := by
    unfold Mifare1ksim_step
    by_cases h0 : s.cardSTATE = .MFEMUL_NOFIELD
    · have hv : (env.MAX_ADC_HF_VOLTAGE * inp.avgAdc) >>> 10 > env.MF_MINFIELDV := by
        rcases hcall with h | h
        · exact absurd h0 h
        · exact h
      simp [h0, hv, hres, cardSTATE_TO_IDLE]
    · simp [h0, hres]
  rw [h]
  exact ⟨rfl, rfl, rfl, rfl⟩

theorem field_loss_step_witness :
    Mifare1ksim_step envPlain flags4B 0
        (Mifare1ksim_run envPlain flags4B 0 sim4B [rx [0x52]]).1 fieldLost
        = ({ (Mifare1ksim_run envPlain flags4B 0 sim4B [rx [0x52]]).1 with
              len := 0, cardSTATE := .MFEMUL_NOFIELD }, [])
      ∧ (Mifare1ksim_step envPlain flags4B 0
          (Mifare1ksim_run envPlain flags4B 0 sim4B [rx [0x52]]).1 fieldLost).1.cardSTATE
          = .MFEMUL_NOFIELD
      ∧ (Mifare1ksim_step envPlain flags4B 0
          (Mifare1ksim_run envPlain flags4B 0 sim4B [rx [0x52]]).1 fieldLost).1.pcs
          = (Mifare1ksim_run envPlain flags4B 0 sim4B [rx [0x52]]).1.pcs
      ∧ (Mifare1ksim_step envPlain flags4B 0
          (Mifare1ksim_run envPlain flags4B 0 sim4B [rx [0x52]]).1 fieldLost).1.cardAUTHKEY
          = (Mifare1ksim_run envPlain flags4B 0 sim4B [rx [0x52]]).1.cardAUTHKEY :=
  field_loss_step envPlain flags4B 0 _ fieldLost (Or.inl (by decide)) rfl

/-! ## MIFARE emulator: the check of the authentication -/

/-- C16 (the claim fails on the code). After WUPA and SELECT the emulator with
UID `DE AD BE AF` is in `MFEMUL_WORK` and not authenticated (`cardAUTHKEY =
0xFF`), and the command READ of block 0 is answered with the 18 bytes of
the block and its CRC instead of the 4-bit NACK.  Likewise, after an
authentication for sector 1 followed by a new WUPA and SELECT, block 4 is
read without a new authentication. -/
theorem unauthenticated_read_accepted :
    (Mifare1ksim_run envPlain flags4B 0 sim4B
        [rx [0x52], rx [0x93, 0x70, 0xDE, 0xAD, 0xBE, 0xAF, 0x62, 0, 0]]).1.cardSTATE
        = .MFEMUL_WORK
      ∧ (Mifare1ksim_run envPlain flags4B 0 sim4B
        [rx [0x52], rx [0x93, 0x70, 0xDE, 0xAD, 0xBE, 0xAF, 0x62, 0, 0]]).1.cardAUTHKEY = 0xFF
      ∧ Mifare1ksim_step envPlain flags4B 0 (Mifare1ksim_run envPlain flags4B 0 sim4B
        [rx [0x52], rx [0x93, 0x70, 0xDE, 0xAD, 0xBE, 0xAF, 0x62, 0, 0]]).1
        (rx [0x30, 0x00, 0, 0])
          = ({ (Mifare1ksim_run envPlain flags4B 0 sim4B
                [rx [0x52], rx [0x93, 0x70, 0xDE, 0xAD, 0xBE, 0xAF, 0x62, 0, 0]]).1 with
                receivedCmd := memWrite (Mifare1ksim_run envPlain flags4B 0 sim4B
                  [rx [0x52], rx [0x93, 0x70, 0xDE, 0xAD, 0xBE, 0xAF, 0x62, 0, 0]]).1.receivedCmd
                  [0x30, 0x00, 0, 0]
                len := 4
                numReads := 1 },
              [.EmSendCmdPar (List.replicate 18 0) []])
      ∧ (Mifare1ksim_run envPlain flags4B 0 sim4B
        [rx [0x52], rx [0x93, 0x70, 0xDE, 0xAD, 0xBE, 0xAF, 0x62, 0, 0],
         rx [0x60, 0x04, 0, 0], rx [0, 0, 0, 0, 0x01, 0x02, 0x03, 0x04],
         rx [0x30, 0x04, 0, 0],
         rx [0x52], rx [0x93, 0x70, 0xDE, 0xAD, 0xBE, 0xAF, 0x62, 0, 0]]).2
          = [.EmSendCmdEx [0x04, 0x00] true, .EmSendCmd [0x08, 0xb6, 0xdd],
             .EmSendCmd [0x01, 0x02, 0x03, 0x04], .EmSendCmd [0x01, 0x02, 0x03, 0x04],
             .EmSendCmdPar (List.replicate 18 0) [],
             .EmSendCmdEx [0x04, 0x00] true, .EmSendCmd [0x08, 0xb6, 0xdd]]
      ∧ (Mifare1ksim_run envPlain flags4B 0 sim4B
        [rx [0x52], rx [0x93, 0x70, 0xDE, 0xAD, 0xBE, 0xAF, 0x62, 0, 0],
         rx [0x60, 0x04, 0, 0], rx [0, 0, 0, 0, 0x01, 0x02, 0x03, 0x04],
         rx [0x30, 0x04, 0, 0],
         rx [0x52], rx [0x93, 0x70, 0xDE, 0xAD, 0xBE, 0xAF, 0x62, 0, 0]]).1.cardAUTHKEY = 0xFF
      ∧ (Mifare1ksim_step envPlain flags4B 0 (Mifare1ksim_run envPlain flags4B 0 sim4B
        [rx [0x52], rx [0x93, 0x70, 0xDE, 0xAD, 0xBE, 0xAF, 0x62, 0, 0],
         rx [0x60, 0x04, 0, 0], rx [0, 0, 0, 0, 0x01, 0x02, 0x03, 0x04],
         rx [0x30, 0x04, 0, 0],
         rx [0x52], rx [0x93, 0x70, 0xDE, 0xAD, 0xBE, 0xAF, 0x62, 0, 0]]).1
        (rx [0x30, 0x04, 0, 0])).2 = [.EmSendCmdPar (List.replicate 18 0) []] := by
  refine ⟨by decide, by decide, ?_, by decide, by decide, by decide⟩
  rfl

/-! ## MIFARE emulator: general facts about one iteration -/

theorem Mifare1ksim_step_rx (env : MfEnv) (flags : MfFlags) (n : Nat) (s : MfSim) (inp : MfInput)
    (hfield : s.cardSTATE ≠ .MFEMUL_NOFIELD) (h2 : inp.res ≠ 2) (h1 : inp.res ≠ 1) :
    Mifare1ksim_step env flags n s inp
      = if (mfReceive s inp.frame).len = 1
            ∧ (((mfReceive s inp.frame).receivedCmd 0 = ISO14443A_CMD_REQA
                ∧ (mfReceive s inp.frame).cardSTATE ≠ .MFEMUL_HALTED)
              ∨ (mfReceive s inp.frame).receivedCmd 0 = ISO14443A_CMD_WUPA) then
          mfReqaWupa env flags (mfReceive s inp.frame)
        else mfSwitch env flags n (mfReceive s inp.frame) := by
  unfold Mifare1ksim_step
  simp only [hfield, h2, h1, if_false]

theorem mfReceive_one (s : MfSim) (b : Nat) :
    (mfReceive s [b]).len = 1 ∧ (mfReceive s [b]).receivedCmd 0 = b
      ∧ (mfReceive s [b]).cardSTATE = s.cardSTATE := ⟨rfl, rfl, rfl⟩

theorem mfSend4bit_fields (env : MfEnv) (s : MfSim) (v : Nat) :
    (mfSend4bit env s v).1.cardSTATE = s.cardSTATE
      ∧ (mfSend4bit env s v).1.cardAUTHKEY = s.cardAUTHKEY
      ∧ (mfSend4bit env s v).2 = [.EmSend4bit (env.mf_crypto1_encrypt4bit s.pcs v).1] :=
  ⟨rfl, rfl, rfl⟩

/-- A frame of one byte in state `MFEMUL_WORK`: the state stays and at most a
4-bit answer is sent. -/
theorem mfWork_one_byte (env : MfEnv) (flags : MfFlags) (n : Nat) (s : MfSim) (h : s.len = 1) :
    (mfWork env flags n s).1.cardSTATE = s.cardSTATE
      ∧ ∀ x ∈ (mfWork env flags n s).2, ∃ v, x = MfSent.EmSend4bit v := by
  have key : ∀ s1 : MfSim, s1.len = 1 → s1.cardSTATE = s.cardSTATE →
      (if s1.len = 4 ∧ (s1.receivedCmd 0 = 0x60 ∨ s1.receivedCmd 0 = 0x61) then
          mfWorkAuth env flags (decide (s.cardAUTHKEY ≠ 0xFF)) s1
        else if s1.len = 1 ∧ s1.receivedCmd 0 = env.CARD_ACK then
          mfSend4bit env s1 env.CARD_NACK_NA
        else if s1.len = 1 ∧ s1.receivedCmd 0 = env.CARD_NACK_NA then
          mfSend4bit env s1 env.CARD_ACK
        else if s1.len ≠ 4 then (s1, [])
        else mfWorkCmd env n s1).1.cardSTATE = s.cardSTATE
      ∧ ∀ x ∈ (if s1.len = 4 ∧ (s1.receivedCmd 0 = 0x60 ∨ s1.receivedCmd 0 = 0x61) then
          mfWorkAuth env flags (decide (s.cardAUTHKEY ≠ 0xFF)) s1
        else if s1.len = 1 ∧ s1.receivedCmd 0 = env.CARD_ACK then
          mfSend4bit env s1 env.CARD_NACK_NA
        else if s1.len = 1 ∧ s1.receivedCmd 0 = env.CARD_NACK_NA then
          mfSend4bit env s1 env.CARD_ACK
        else if s1.len ≠ 4 then (s1, [])
        else mfWorkCmd env n s1).2, ∃ v, x = MfSent.EmSend4bit v := by
    intro s1 h1 hst
    have h4 : ¬ (s1.len = 4 ∧ (s1.receivedCmd 0 = 0x60 ∨ s1.receivedCmd 0 = 0x61)) := by
      rw [h1]; simp
    have hne : s1.len ≠ 4 := by rw [h1]; decide
    rw [if_neg h4]
    split
    · exact ⟨hst, by simp [mfSend4bit]⟩
    · split
      · exact ⟨hst, by simp [mfSend4bit]⟩
      · simp only [hne, ne_eq, not_false_eq_true, if_true]
        exact ⟨hst, by simp⟩
  have h0 : s.len ≠ 0 := by rw [h]; decide
  unfold mfWork
  rw [if_neg h0]
  dsimp only
  split
  · exact key (mfDecrypt env s) h rfl
  · exact key s h rfl

theorem mfIntReg_state (env : MfEnv) (s : MfSim) (f : Nat → Nat → Nat) :
    ((mfIntReg env s f).1.cardSTATE = .MFEMUL_IDLE ∨ (mfIntReg env s f).1.cardSTATE = .MFEMUL_WORK)
      ∧ ∀ x ∈ (mfIntReg env s f).2, ∃ v, x = MfSent.EmSend4bit v := by
  unfold mfIntReg
  dsimp only
  split
  · exact ⟨Or.inl rfl, by simp [mfSend4bit]⟩
  · exact ⟨Or.inr rfl, by simp⟩

/-- The switch on a frame of one byte never enters `MFEMUL_SELECT1` and sends
at most a 4-bit answer. -/
theorem mfSwitch_one_byte (env : MfEnv) (flags : MfFlags) (n : Nat) (s : MfSim) (h : s.len = 1) :
    (mfSwitch env flags n s).1.cardSTATE ≠ .MFEMUL_SELECT1
      ∧ (∀ x ∈ (mfSwitch env flags n s).2, ∃ v, x = MfSent.EmSend4bit v)
      ∧ (s.cardSTATE = .MFEMUL_HALTED → mfSwitch env flags n s = (s, [])) := by
  unfold mfSwitch
  cases hst : s.cardSTATE
  case MFEMUL_NOFIELD => simp [hst]
  case MFEMUL_IDLE => simp [hst]
  case MFEMUL_HALTED => simp [hst]
  case MFEMUL_SELECT1 => simp [h, cardSTATE_TO_IDLE]
  case MFEMUL_SELECT2 => simp [h, hst]
  case MFEMUL_SELECT3 => simp [h, cardSTATE_TO_IDLE]
  case MFEMUL_AUTH1 => simp [mfAuth1, h, cardSTATE_TO_IDLE]
  case MFEMUL_WORK =>
    obtain ⟨a, b⟩ := mfWork_one_byte env flags n s h
    simp only [reduceCtorEq, false_implies, and_true]
    exact ⟨by rw [a, hst]; decide, b⟩
  case MFEMUL_WRITEBL2 => simp [h, cardSTATE_TO_IDLE]
  case MFEMUL_INTREG_INC =>
    obtain ⟨a, b⟩ := mfIntReg_state env s (fun reg ans => (reg + ans) % 2 ^ 32)
    simp only [reduceCtorEq, false_implies, and_true]
    exact ⟨by rcases a with a | a <;> rw [a] <;> decide, b⟩
  case MFEMUL_INTREG_DEC =>
    obtain ⟨a, b⟩ := mfIntReg_state env s (fun reg ans => (reg + 2 ^ 32 - ans % 2 ^ 32) % 2 ^ 32)
    simp only [reduceCtorEq, false_implies, and_true]
    exact ⟨by rcases a with a | a <;> rw [a] <;> decide, b⟩
  case MFEMUL_INTREG_REST =>
    obtain ⟨a, b⟩ := mfIntReg_state env s (fun reg _ => reg)
    simp only [reduceCtorEq, false_implies, and_true]
    exact ⟨by rcases a with a | a <;> rw [a] <;> decide, b⟩

theorem mfReqaWupa_fields (env : MfEnv) (flags : MfFlags) (s : MfSim) :
    (mfReqaWupa env flags s).2 = [.EmSendCmdEx s.rATQA (s.receivedCmd 0 = ISO14443A_CMD_WUPA)]
      ∧ (mfReqaWupa env flags s).1.cardSTATE = .MFEMUL_SELECT1
      ∧ (mfReqaWupa env flags s).1.pcs = env.crypto1_destroy s.pcs
      ∧ (mfReqaWupa env flags s).1.cardAUTHKEY = 0xFF
      ∧ (mfReqaWupa env flags s).1.rATQA = s.rATQA := by
  unfold mfReqaWupa
  dsimp only
  split <;> exact ⟨rfl, rfl, rfl, rfl, rfl⟩

/-! ## MIFARE emulator: REQA and WUPA -/

/-- C17. REQA/WUPA handling in `Mifare1ksim`: for every card state with the
field present, a frame of one byte `b` makes the emulator answer ATQA, enter
`MFEMUL_SELECT1` and clear the authentication (CRYPTO1 destroyed, `cardAUTHKEY
= 0xFF`) if and only if `b` is WUPA (`0x52`), or it is REQA (`0x26`) and the
state is not `MFEMUL_HALTED`; otherwise the state entered is not
`MFEMUL_SELECT1` and at most a 4-bit answer is sent, and a REQA received in
`MFEMUL_HALTED` sends nothing and leaves the state `MFEMUL_HALTED`.  A second
REQA in a row gives the same answer and leaves the same state:
`cardSTATE` and `cardAUTHKEY` are as after the first and CRYPTO1 is destroyed
again; only the nonce is drawn again when `FLAG_RANDOM_NONCE` is set. -/
theorem reqa_wupa_handling (env : MfEnv) (flags : MfFlags) (n : Nat) (s : MfSim)
    (inp inp2 : MfInput) (b : Nat) (hfield : s.cardSTATE ≠ .MFEMUL_NOFIELD)
    (hres : inp.res ≠ 2 ∧ inp.res ≠ 1) (hframe : inp.frame = [b])
    (hres2 : inp2.res ≠ 2 ∧ inp2.res ≠ 1) (hframe2 : inp2.frame = [ISO14443A_CMD_REQA]) :
    (((Mifare1ksim_step env flags n s inp).2
          = [.EmSendCmdEx s.rATQA (b = ISO14443A_CMD_WUPA)]
        ∧ (Mifare1ksim_step env flags n s inp).1.cardSTATE = .MFEMUL_SELECT1
        ∧ (Mifare1ksim_step env flags n s inp).1.pcs = env.crypto1_destroy s.pcs
        ∧ (Mifare1ksim_step env flags n s inp).1.cardAUTHKEY = 0xFF)
      ↔ (b = ISO14443A_CMD_WUPA
          ∨ (b = ISO14443A_CMD_REQA ∧ s.cardSTATE ≠ .MFEMUL_HALTED)))
    ∧ (¬ (b = ISO14443A_CMD_WUPA ∨ (b = ISO14443A_CMD_REQA ∧ s.cardSTATE ≠ .MFEMUL_HALTED)) →
        (Mifare1ksim_step env flags n s inp).1.cardSTATE ≠ .MFEMUL_SELECT1
          ∧ ∀ x ∈ (Mifare1ksim_step env flags n s inp).2, ∃ v, x = MfSent.EmSend4bit v)
    ∧ (b = ISO14443A_CMD_REQA → s.cardSTATE = .MFEMUL_HALTED →
        (Mifare1ksim_step env flags n s inp).2 = []
          ∧ (Mifare1ksim_step env flags n s inp).1.cardSTATE = .MFEMUL_HALTED)
    ∧ (b = ISO14443A_CMD_REQA →
        (Mifare1ksim_step env flags n (Mifare1ksim_step env flags n s inp).1 inp2).2
            = (Mifare1ksim_step env flags n s inp).2
          ∧ (Mifare1ksim_step env flags n (Mifare1ksim_step env flags n s inp).1 inp2).1.cardSTATE
            = (Mifare1ksim_step env flags n s inp).1.cardSTATE
          ∧ (Mifare1ksim_step env flags n (Mifare1ksim_step env flags n s inp).1 inp2).1.cardAUTHKEY
            = (Mifare1ksim_step env flags n s inp).1.cardAUTHKEY
          ∧ (Mifare1ksim_step env flags n (Mifare1ksim_step env flags n s inp).1 inp2).1.pcs
            = (if s.cardSTATE = .MFEMUL_HALTED then (Mifare1ksim_step env flags n s inp).1.pcs
               else env.crypto1_destroy (Mifare1ksim_step env flags n s inp).1.pcs)) := by
  have hstep := Mifare1ksim_step_rx env flags n s inp hfield hres.1 hres.2
  rw [hframe] at hstep
  obtain ⟨r1, r2, r3⟩ := mfReceive_one s b
  rw [r1, r2, r3] at hstep
  simp only [true_and] at hstep
  by_cases hc : b = ISO14443A_CMD_WUPA ∨ (b = ISO14443A_CMD_REQA ∧ s.cardSTATE ≠ .MFEMUL_HALTED)
  · have hc' : (b = ISO14443A_CMD_REQA ∧ s.cardSTATE ≠ .MFEMUL_HALTED)
        ∨ b = ISO14443A_CMD_WUPA := hc.symm
    rw [if_pos hc'] at hstep
    obtain ⟨f1, f2, f3, f4, f5⟩ := mfReqaWupa_fields env flags (mfReceive s [b])
    rw [r2] at f1
    refine ⟨⟨fun _ => hc, fun _ => ?_⟩, fun h => absurd hc h, ?_, ?_⟩
    · rw [hstep]; exact ⟨f1, f2, f3, f4⟩
    · intro hb hh
      rcases hc with h | h
      · rw [hb] at h; exact absurd h (by decide)
      · exact absurd hh h.2
    · intro hb
      have hnh : s.cardSTATE ≠ .MFEMUL_HALTED := by
        rcases hc with h | h
        · rw [hb] at h; exact absurd h (by decide)
        · exact h.2
      have hstep2 := Mifare1ksim_step_rx env flags n (Mifare1ksim_step env flags n s inp).1 inp2
        (by rw [hstep, f2]; decide) hres2.1 hres2.2
      rw [hframe2] at hstep2
      obtain ⟨q1, q2, q3⟩ := mfReceive_one (Mifare1ksim_step env flags n s inp).1
        ISO14443A_CMD_REQA
      rw [q1, q2, q3] at hstep2
      have hs1 : (Mifare1ksim_step env flags n s inp).1.cardSTATE = .MFEMUL_SELECT1 := by
        rw [hstep]; exact f2
      rw [if_pos (by rw [hs1]; decide)] at hstep2
      obtain ⟨g1, g2, g3, g4, g5⟩ := mfReqaWupa_fields env flags
        (mfReceive (Mifare1ksim_step env flags n s inp).1 [ISO14443A_CMD_REQA])
      rw [hstep2, if_neg hnh]
      refine ⟨?_, by rw [g2, hs1], ?_, g3⟩
      · have e1 : (mfReceive (mfReqaWupa env flags (mfReceive s [b])).1
            [ISO14443A_CMD_REQA]).rATQA = s.rATQA := f5
        rw [g1, hstep, f1, e1, hb]
        rfl
      · rw [g4, hstep, f4]
  · have hc' : ¬ ((b = ISO14443A_CMD_REQA ∧ s.cardSTATE ≠ .MFEMUL_HALTED)
        ∨ b = ISO14443A_CMD_WUPA) := fun h => hc h.symm
    rw [if_neg hc'] at hstep
    obtain ⟨m1, m2, m3⟩ := mfSwitch_one_byte env flags n (mfReceive s [b]) r1
    refine ⟨⟨fun h => ?_, fun h => absurd h hc⟩, fun _ => ?_, ?_, ?_⟩
    · rw [hstep] at h; exact absurd h.2.1 m1
    · rw [hstep]; exact ⟨m1, m2⟩
    · intro _ hh
      rw [hstep, m3 (by rw [r3]; exact hh)]
      exact ⟨rfl, hh⟩
    · intro hb
      have hh : s.cardSTATE = .MFEMUL_HALTED := by
        by_contra hne
        exact hc (Or.inr ⟨hb, hne⟩)
      have e1 : Mifare1ksim_step env flags n s inp = (mfReceive s [b], []) := by
        rw [hstep, m3 (by rw [r3]; exact hh)]
      have hstep2 := Mifare1ksim_step_rx env flags n (Mifare1ksim_step env flags n s inp).1 inp2
        (by rw [e1]; show s.cardSTATE ≠ _; rw [hh]; decide) hres2.1 hres2.2
      rw [hframe2] at hstep2
      obtain ⟨q1, q2, q3⟩ := mfReceive_one (Mifare1ksim_step env flags n s inp).1
        ISO14443A_CMD_REQA
      rw [q1, q2, q3] at hstep2
      have hs1 : (Mifare1ksim_step env flags n s inp).1.cardSTATE = .MFEMUL_HALTED := by
        rw [e1]; exact hh
      rw [if_neg (by rw [hs1]; decide)] at hstep2
      obtain ⟨k1, k2, k3⟩ := mfSwitch_one_byte env flags n
        (mfReceive (Mifare1ksim_step env flags n s inp).1 [ISO14443A_CMD_REQA]) q1
      rw [hstep2, k3 (by rw [q3]; exact hs1), if_pos hh]
      refine ⟨?_, rfl, rfl, rfl⟩
      rw [e1]



/-! ## MIFARE emulator: the state `MFEMUL_AUTH1` -/

theorem memRead_memWrite (m : Mem) (xs : List Nat) (k : Nat) (hk : k ≤ xs.length) :
    memRead (memWrite m xs) k = xs.take k := by
  apply List.ext_getElem
  · simp [memRead, hk]
  · intro i h1 h2
    have hi : i < k := by simpa [memRead] using h1
    have hi' : i < xs.length := by omega
    simp [memRead, memWrite, hi', List.getD_eq_getElem _ _ hi']

/-- The collector leaves the cipher state and the received frame as they are. -/
theorem mfCollect_pcs (env : MfEnv) (flags : MfFlags) (nr ar : Nat) :
    ∀ (k i : Nat) (s : MfSim),
      (mfCollect env flags nr ar k i s).pcs = s.pcs
        ∧ (mfCollect env flags nr ar k i s).cardSTATE = s.cardSTATE
  | 0, _, _ => ⟨rfl, rfl⟩
  | k + 1, i, s => by
    unfold mfCollect
    split
    · split
      · split
        · split
          · exact ⟨rfl, rfl⟩
          · dsimp only
            split
            · split
              · split <;> exact ⟨rfl, rfl⟩
              · exact ⟨rfl, rfl⟩
            · split <;> exact ⟨rfl, rfl⟩
        · exact ⟨rfl, rfl⟩
      · exact ⟨rfl, rfl⟩
    · exact mfCollect_pcs env flags nr ar k (i + 1) s

/-- The case `MFEMUL_AUTH1` on a frame of eight bytes; `sc` is the state after
the collector. -/
theorem mfAuth1_eight (env : MfEnv) (flags : MfFlags) (s sc : MfSim) (nr ar : Nat)
    (h8 : s.len = 8)
    (hnr : bytes_to_num (memRead s.receivedCmd 4) 4 % 2 ^ 32 = nr)
    (har : bytes_to_num ((memRead s.receivedCmd 8).drop 4) 4 % 2 ^ 32 = ar)
    (hsc : (if flags.FLAG_NR_AR_ATTACK then mfCollect env flags nr ar ATTACK_KEY_COUNT 0 s
            else s) = sc) :
    (mfAuth1 env flags s).1.cardRr
        = ar ^^^ (env.crypto1_word (env.crypto1_word sc.pcs nr 1).2 0 0).1
      ∧ (ar ^^^ (env.crypto1_word (env.crypto1_word sc.pcs nr 1).2 0 0).1
            = env.prng_successor sc.nonce 64 →
          (mfAuth1 env flags s).2
              = [.EmSendCmd (num_to_bytes
                  (env.prng_successor sc.nonce 96
                    ^^^ (env.crypto1_word (env.crypto1_word
                          (env.crypto1_word sc.pcs nr 1).2 0 0).2 0 0).1) 4)]
            ∧ (mfAuth1 env flags s).1.cardSTATE = .MFEMUL_WORK)
      ∧ (ar ^^^ (env.crypto1_word (env.crypto1_word sc.pcs nr 1).2 0 0).1
            ≠ env.prng_successor sc.nonce 64 →
          (mfAuth1 env flags s).2 = [] ∧ (mfAuth1 env flags s).1.cardSTATE = .MFEMUL_IDLE) := by
  unfold mfAuth1
  rw [if_neg (by rw [h8]; decide)]
  simp only [hnr, har, hsc]
  by_cases hc : ar ^^^ (env.crypto1_word (env.crypto1_word sc.pcs nr 1).2 0 0).1
      = env.prng_successor sc.nonce 64
  · rw [if_neg (fun h => h hc)]
    exact ⟨rfl, fun _ => ⟨rfl, rfl⟩, fun h => absurd hc h⟩
  · rw [if_pos hc]
    exact ⟨rfl, fun h => absurd h hc, fun _ => ⟨rfl, rfl⟩⟩

/-- C18, as stated, fails: in `MFEMUL_AUTH1` the one-byte frame WUPA, whose
length is not 8, is answered with ATQA and leads to `MFEMUL_SELECT1`, not to
`MFEMUL_IDLE` without an answer. -/
theorem auth1_wupa_counterexample :
    simAuth1.cardSTATE = .MFEMUL_AUTH1
      ∧ (Mifare1ksim_step envPlain flags4B 0 simAuth1 (rx [0x52])).2
          = [.EmSendCmdEx [0x04, 0x00] true]
      ∧ (Mifare1ksim_step envPlain flags4B 0 simAuth1 (rx [0x52])).1.cardSTATE
          = .MFEMUL_SELECT1 := by
  decide

/-- C18 (amended). AUTH1 step of `Mifare1ksim` (with CRYPTO1 and
`prng_successor` as abstract functions): on an 8-byte frame `{nr, ar}` the
emulator steps the cipher with `nr` and computes `cardRr = ar XOR
crypto1_word(0)`; if `cardRr = prng_successor(nt, 64)` it answers
`prng_successor(nt, 96) XOR crypto1_word(0)` and enters `MFEMUL_WORK`,
otherwise it sends no answer and enters `MFEMUL_IDLE`; a frame of any length
other than 8 that is not a one-byte REQA or WUPA also sends it to
`MFEMUL_IDLE` without an answer. -/
theorem auth1_step (env : MfEnv) (flags : MfFlags) (n : Nat) (s : MfSim) (inp : MfInput)
    (hst : s.cardSTATE = .MFEMUL_AUTH1) (hres : inp.res ≠ 2 ∧ inp.res ≠ 1) :
    (inp.frame.length = 8 →
      (Mifare1ksim_step env flags n s inp).1.cardRr
          = auth1_ar inp.frame
              ^^^ (env.crypto1_word (env.crypto1_word s.pcs (auth1_nr inp.frame) 1).2 0 0).1
        ∧ ((Mifare1ksim_step env flags n s inp).1.cardRr
              = env.prng_successor (auth1_nt env flags s inp.frame) 64 →
            (Mifare1ksim_step env flags n s inp).2
                = [.EmSendCmd (num_to_bytes
                    (env.prng_successor (auth1_nt env flags s inp.frame) 96
                      ^^^ (env.crypto1_word (env.crypto1_word
                            (env.crypto1_word s.pcs (auth1_nr inp.frame) 1).2 0 0).2 0 0).1) 4)]
              ∧ (Mifare1ksim_step env flags n s inp).1.cardSTATE = .MFEMUL_WORK)
        ∧ ((Mifare1ksim_step env flags n s inp).1.cardRr
              ≠ env.prng_successor (auth1_nt env flags s inp.frame) 64 →
            (Mifare1ksim_step env flags n s inp).2 = []
              ∧ (Mifare1ksim_step env flags n s inp).1.cardSTATE = .MFEMUL_IDLE))
      ∧ (inp.frame.length ≠ 8 →
          ¬ (inp.frame = [ISO14443A_CMD_REQA] ∨ inp.frame = [ISO14443A_CMD_WUPA]) →
          (Mifare1ksim_step env flags n s inp).2 = []
            ∧ (Mifare1ksim_step env flags n s inp).1.cardSTATE = .MFEMUL_IDLE) := by
  have hstep := Mifare1ksim_step_rx env flags n s inp (by rw [hst]; decide) hres.1 hres.2
  have hlen : (mfReceive s inp.frame).len = inp.frame.length := rfl
  have hcs : (mfReceive s inp.frame).cardSTATE = .MFEMUL_AUTH1 := hst
  have hsw : mfSwitch env flags n (mfReceive s inp.frame) = mfAuth1 env flags (mfReceive s inp.frame) := by
    unfold mfSwitch
    rw [hcs]
  constructor
  · intro h8
    have hne : ¬ ((mfReceive s inp.frame).len = 1
        ∧ (((mfReceive s inp.frame).receivedCmd 0 = ISO14443A_CMD_REQA
            ∧ (mfReceive s inp.frame).cardSTATE ≠ .MFEMUL_HALTED)
          ∨ (mfReceive s inp.frame).receivedCmd 0 = ISO14443A_CMD_WUPA)) := by
      rw [hlen, h8]; simp
    rw [if_neg hne, hsw] at hstep
    have hnr : bytes_to_num (memRead (mfReceive s inp.frame).receivedCmd 4) 4 % 2 ^ 32
        = auth1_nr inp.frame := by
      show bytes_to_num (memRead (memWrite s.receivedCmd inp.frame) 4) 4 % 2 ^ 32 = _
      rw [memRead_memWrite _ _ _ (by omega)]
      rfl
    have har : bytes_to_num ((memRead (mfReceive s inp.frame).receivedCmd 8).drop 4) 4 % 2 ^ 32
        = auth1_ar inp.frame := by
      show bytes_to_num ((memRead (memWrite s.receivedCmd inp.frame) 8).drop 4) 4 % 2 ^ 32 = _
      rw [memRead_memWrite _ _ _ (by omega), List.take_of_length_le (by omega)]
      rfl
    obtain ⟨p1, _⟩ := mfCollect_pcs env flags (auth1_nr inp.frame) (auth1_ar inp.frame)
      ATTACK_KEY_COUNT 0 (mfReceive s inp.frame)
    have hpcs : (if flags.FLAG_NR_AR_ATTACK then
          mfCollect env flags (auth1_nr inp.frame) (auth1_ar inp.frame) ATTACK_KEY_COUNT 0
            (mfReceive s inp.frame)
        else mfReceive s inp.frame).pcs = s.pcs := by
      split
      · exact p1
      · rfl
    obtain ⟨a1, a2, a3⟩ := mfAuth1_eight env flags (mfReceive s inp.frame) _ _ _
      (by rw [hlen, h8]) hnr har rfl
    rw [hpcs] at a1 a2 a3
    rw [hstep, a1]
    exact ⟨rfl, a2, a3⟩
  · intro h8 hq
    have hne : ¬ ((mfReceive s inp.frame).len = 1
        ∧ (((mfReceive s inp.frame).receivedCmd 0 = ISO14443A_CMD_REQA
            ∧ (mfReceive s inp.frame).cardSTATE ≠ .MFEMUL_HALTED)
          ∨ (mfReceive s inp.frame).receivedCmd 0 = ISO14443A_CMD_WUPA)) := by
      rintro ⟨a, b⟩
      rw [hlen] at a
      obtain ⟨x, hx⟩ := List.length_eq_one.mp a
      have hx0 : (mfReceive s inp.frame).receivedCmd 0 = x := by rw [hx]; rfl
      rw [hx0] at b
      rcases b with b | b
      · exact hq (Or.inl (by rw [hx, b.1]))
      · exact hq (Or.inr (by rw [hx, b]))
    rw [if_neg hne, hsw] at hstep
    rw [hstep]
    unfold mfAuth1
    rw [if_pos (by rw [hlen]; exact h8)]
    exact ⟨rfl, rfl⟩

/-! ## MIFARE emulator: cascade levels 2 and 3 -/

theorem mfReceive_byte (s : MfSim) (frame : List Nat) (i : Nat) (hi : i < frame.length) :
    (mfReceive s frame).receivedCmd i = frame.getD i 0 := by
  show memWrite s.receivedCmd frame i = _
  unfold memWrite
  rw [if_pos hi]

theorem not_reqa_wupa (s : MfSim) (frame : List Nat)
    (hq : ¬ (frame = [ISO14443A_CMD_REQA] ∨ frame = [ISO14443A_CMD_WUPA])) :
    ¬ ((mfReceive s frame).len = 1
        ∧ (((mfReceive s frame).receivedCmd 0 = ISO14443A_CMD_REQA
            ∧ (mfReceive s frame).cardSTATE ≠ .MFEMUL_HALTED)
          ∨ (mfReceive s frame).receivedCmd 0 = ISO14443A_CMD_WUPA)) := by
  rintro ⟨a, b⟩
  have a' : frame.length = 1 := a
  obtain ⟨x, hx⟩ := List.length_eq_one.mp a'
  have hx0 : (mfReceive s frame).receivedCmd 0 = x := by rw [hx]; rfl
  rw [hx0] at b
  rcases b with b | b
  · exact hq (Or.inl (by rw [hx, b.1]))
  · exact hq (Or.inr (by rw [hx, b]))

/-- The conditions of the emulator on `len` and `receivedCmd` in terms of the
frame received. -/
theorem select_conditions (s : MfSim) (frame : List Nat) (code : Nat) (uid : List Nat) :
    (((mfReceive s frame).len = 2 ∧ ((mfReceive s frame).receivedCmd 0 = code
        ∧ (mfReceive s frame).receivedCmd 1 = 0x20)) ↔ isSelectAll code frame)
      ∧ (((mfReceive s frame).len = 9 ∧ ((mfReceive s frame).receivedCmd 0 = code
          ∧ (mfReceive s frame).receivedCmd 1 = 0x70
          ∧ (memRead (mfReceive s frame).receivedCmd 6).drop 2 = uid.take 4))
        ↔ isSelect code uid frame) := by
  have hlen : (mfReceive s frame).len = frame.length := rfl
  constructor
  · constructor
    · rintro ⟨a, b, c⟩
      rw [hlen] at a
      rw [mfReceive_byte s frame 0 (by omega)] at b
      rw [mfReceive_byte s frame 1 (by omega)] at c
      exact ⟨a, b, c⟩
    · rintro ⟨a, b, c⟩
      rw [hlen, mfReceive_byte s frame 0 (by omega), mfReceive_byte s frame 1 (by omega)]
      exact ⟨a, b, c⟩
  · have hm : frame.length = 9 → memRead (mfReceive s frame).receivedCmd 6 = frame.take 6 :=
      fun h => memRead_memWrite _ _ _ (by omega)
    constructor
    · rintro ⟨a, b, c, d⟩
      rw [hlen] at a
      rw [mfReceive_byte s frame 0 (by omega)] at b
      rw [mfReceive_byte s frame 1 (by omega)] at c
      rw [hm a] at d
      exact ⟨a, b, c, d⟩
    · rintro ⟨a, b, c, d⟩
      rw [hlen, mfReceive_byte s frame 0 (by omega), mfReceive_byte s frame 1 (by omega), hm a]
      exact ⟨a, b, c, d⟩

/-- C20, as stated, fails: in `MFEMUL_SELECT2` a frame of three bytes that is
neither SELECT_ALL nor SELECT leaves the emulator in `MFEMUL_SELECT2` (not in
`MFEMUL_IDLE`), and the frame `E0 80 00 00` of four bytes makes it enter
`MFEMUL_WORK`, where it is answered with a 4-bit NACK. -/
theorem cascade_level_2_counterexample :
    simSelect2.cardSTATE = .MFEMUL_SELECT2
      ∧ (Mifare1ksim_step envPlain flags7B 0 simSelect2 (rx [0x01, 0x02, 0x03])).2 = []
      ∧ (Mifare1ksim_step envPlain flags7B 0 simSelect2 (rx [0x01, 0x02, 0x03])).1.cardSTATE
          = .MFEMUL_SELECT2
      ∧ (Mifare1ksim_step envPlain flags7B 0 simSelect2 (rx [0xe0, 0x80, 0x00, 0x00])).2
          = [.EmSend4bit 0x04]
      ∧ (Mifare1ksim_step envPlain flags7B 0 simSelect2 (rx [0xe0, 0x80, 0x00, 0x00])).1.cardSTATE
          = .MFEMUL_WORK := by
  decide

/-- C20 (amended). Cascade levels 2 and 3 of `Mifare1ksim`, with select codes
`0x95` and `0x97` and fragments `rUIDBCC2` and `rUIDBCC3`: in `MFEMUL_SELECT2`
(and `MFEMUL_SELECT3`) a 2-byte SELECT_ALL is answered with the level's
UID+BCC, and a 9-byte SELECT carrying the level's four UID bytes is answered
with a SAK and advances the state (from level 2 to `MFEMUL_WORK` for a 7-byte
UID and to `MFEMUL_SELECT3` for a 10-byte UID, from level 3 to `MFEMUL_WORK`).
Every other non-empty frame that is not a one-byte REQA or WUPA gets no answer
in `MFEMUL_SELECT3` and returns the emulator to `MFEMUL_IDLE`; in
`MFEMUL_SELECT2` it gets no answer and leaves the state as it is unless it has
four bytes, in which case it is handled as a command in `MFEMUL_WORK`. -/
theorem cascade_levels_2_3 (env : MfEnv) (flags : MfFlags) (n : Nat) (s : MfSim) (inp : MfInput)
    (hres : inp.res ≠ 2 ∧ inp.res ≠ 1) (hne : inp.frame ≠ [])
    (hq : ¬ (inp.frame = [ISO14443A_CMD_REQA] ∨ inp.frame = [ISO14443A_CMD_WUPA])) :
    (s.cardSTATE = .MFEMUL_SELECT2 →
      (isSelectAll 0x95 inp.frame →
        (Mifare1ksim_step env flags n s inp).2 = [.EmSendCmd s.rUIDBCC2]
          ∧ (Mifare1ksim_step env flags n s inp).1.cardSTATE = .MFEMUL_SELECT2)
      ∧ (isSelect 0x95 s.rUIDBCC2 inp.frame →
          (s.UID_LEN = 7 →
            (Mifare1ksim_step env flags n s inp).2 = [.EmSendCmd s.rSAKfinal]
              ∧ (Mifare1ksim_step env flags n s inp).1.cardSTATE = .MFEMUL_WORK)
          ∧ (s.UID_LEN = 10 →
            (Mifare1ksim_step env flags n s inp).2 = [.EmSendCmd s.rSAK1]
              ∧ (Mifare1ksim_step env flags n s inp).1.cardSTATE = .MFEMUL_SELECT3))
      ∧ (¬ isSelectAll 0x95 inp.frame → ¬ isSelect 0x95 s.rUIDBCC2 inp.frame →
          (inp.frame.length ≠ 4 →
            (Mifare1ksim_step env flags n s inp).2 = []
              ∧ (Mifare1ksim_step env flags n s inp).1.cardSTATE = .MFEMUL_SELECT2)
          ∧ (inp.frame.length = 4 →
            Mifare1ksim_step env flags n s inp
              = mfWork env flags n { mfReceive s inp.frame with cardSTATE := .MFEMUL_WORK })))
    ∧ (s.cardSTATE = .MFEMUL_SELECT3 →
      (isSelectAll 0x97 inp.frame →
        (Mifare1ksim_step env flags n s inp).2 = [.EmSendCmd s.rUIDBCC3]
          ∧ (Mifare1ksim_step env flags n s inp).1.cardSTATE = .MFEMUL_SELECT3)
      ∧ (isSelect 0x97 s.rUIDBCC3 inp.frame →
          (Mifare1ksim_step env flags n s inp).2 = [.EmSendCmd s.rSAKfinal]
            ∧ (Mifare1ksim_step env flags n s inp).1.cardSTATE = .MFEMUL_WORK)
      ∧ (¬ isSelectAll 0x97 inp.frame → ¬ isSelect 0x97 s.rUIDBCC3 inp.frame →
          (Mifare1ksim_step env flags n s inp).2 = []
            ∧ (Mifare1ksim_step env flags n s inp).1.cardSTATE = .MFEMUL_IDLE)) := by
  have hlen : (mfReceive s inp.frame).len = inp.frame.length := rfl
  have hl0 : (mfReceive s inp.frame).len ≠ 0 := by
    rw [hlen]
    intro h
    exact hne (List.length_eq_zero.mp h)
  constructor
  · intro hst
    have hstep := Mifare1ksim_step_rx env flags n s inp (by rw [hst]; decide) hres.1 hres.2
    rw [if_neg (not_reqa_wupa s inp.frame hq)] at hstep
    have hcs : (mfReceive s inp.frame).cardSTATE = .MFEMUL_SELECT2 := hst
    obtain ⟨c1, c2⟩ := select_conditions s inp.frame 0x95 (mfReceive s inp.frame).rUIDBCC2
    have hsw : mfSwitch env flags n (mfReceive s inp.frame)
        = if isSelectAll 0x95 inp.frame then
            (mfReceive s inp.frame, [.EmSendCmd s.rUIDBCC2])
          else if isSelect 0x95 s.rUIDBCC2 inp.frame then
            if s.UID_LEN = 7 then
              ({ mfReceive s inp.frame with cardSTATE := .MFEMUL_WORK }, [.EmSendCmd s.rSAKfinal])
            else if s.UID_LEN = 10 then
              ({ mfReceive s inp.frame with cardSTATE := .MFEMUL_SELECT3 }, [.EmSendCmd s.rSAK1])
            else (mfReceive s inp.frame, [])
          else if inp.frame.length ≠ 4 then (mfReceive s inp.frame, [])
          else mfWork env flags n { mfReceive s inp.frame with cardSTATE := .MFEMUL_WORK } := by
      unfold mfSwitch
      rw [hcs]
      dsimp only
      rw [if_neg hl0]
      simp only [ISO14443A_CMD_ANTICOLL_OR_SELECT_2] at c1 c2 ⊢
      simp only [c1, c2]
      rfl
    rw [hstep, hsw]
    refine ⟨fun h => ?_, fun h => ⟨fun h7 => ?_, fun h10 => ?_⟩, fun h1 h2 => ⟨fun h4 => ?_, fun h4 => ?_⟩⟩
    · rw [if_pos h]; exact ⟨rfl, hst⟩
    · have hna : ¬ isSelectAll 0x95 inp.frame := by
        rintro ⟨a, _⟩; rw [h.1] at a; exact absurd a (by decide)
      rw [if_neg hna, if_pos h, if_pos h7]; exact ⟨rfl, rfl⟩
    · have hna : ¬ isSelectAll 0x95 inp.frame := by
        rintro ⟨a, _⟩; rw [h.1] at a; exact absurd a (by decide)
      rw [if_neg hna, if_pos h, if_neg (by rw [h10]; decide), if_pos h10]; exact ⟨rfl, rfl⟩
    · rw [if_neg h1, if_neg h2, if_pos h4]; exact ⟨rfl, hst⟩
    · rw [if_neg h1, if_neg h2, if_neg (fun h => h h4)]
  · intro hst
    have hstep := Mifare1ksim_step_rx env flags n s inp (by rw [hst]; decide) hres.1 hres.2
    rw [if_neg (not_reqa_wupa s inp.frame hq)] at hstep
    have hcs : (mfReceive s inp.frame).cardSTATE = .MFEMUL_SELECT3 := hst
    obtain ⟨c1, c2⟩ := select_conditions s inp.frame 0x97 (mfReceive s inp.frame).rUIDBCC3
    have hsw : mfSwitch env flags n (mfReceive s inp.frame)
        = if isSelectAll 0x97 inp.frame then
            (mfReceive s inp.frame, [.EmSendCmd s.rUIDBCC3])
          else if isSelect 0x97 s.rUIDBCC3 inp.frame then
            ({ mfReceive s inp.frame with cardSTATE := .MFEMUL_WORK }, [.EmSendCmd s.rSAKfinal])
          else (cardSTATE_TO_IDLE (mfReceive s inp.frame), []) := by
      unfold mfSwitch
      rw [hcs]
      dsimp only
      rw [if_neg hl0]
      simp only [ISO14443A_CMD_ANTICOLL_OR_SELECT_3] at c1 c2 ⊢
      simp only [c1, c2]
      rfl
    rw [hstep, hsw]
    refine ⟨fun h => ?_, fun h => ?_, fun h1 h2 => ?_⟩
    · rw [if_pos h]; exact ⟨rfl, hst⟩
    · have hna : ¬ isSelectAll 0x97 inp.frame := by
        rintro ⟨a, _⟩; rw [h.1] at a; exact absurd a (by decide)
      rw [if_neg hna, if_pos h]; exact ⟨rfl, rfl⟩
    · rw [if_neg h1, if_neg h2]; exact ⟨rfl, rfl⟩

theorem reqa_wupa_handling_witness :
    (((Mifare1ksim_step envPlain flags4B 0 simSelect1 rxReqa).2
          = [.EmSendCmdEx simSelect1.rATQA (0x26 = ISO14443A_CMD_WUPA)]
        ∧ (Mifare1ksim_step envPlain flags4B 0 simSelect1 rxReqa).1.cardSTATE = .MFEMUL_SELECT1
        ∧ (Mifare1ksim_step envPlain flags4B 0 simSelect1 rxReqa).1.pcs = envPlain.crypto1_destroy
            simSelect1.pcs
        ∧ (Mifare1ksim_step envPlain flags4B 0 simSelect1 rxReqa).1.cardAUTHKEY = 0xFF)
      ↔ (0x26 = ISO14443A_CMD_WUPA
          ∨ (0x26 = ISO14443A_CMD_REQA ∧ simSelect1.cardSTATE ≠ .MFEMUL_HALTED)))
    ∧ (¬ (0x26 = ISO14443A_CMD_WUPA ∨ (0x26 = ISO14443A_CMD_REQA ∧ simSelect1.cardSTATE ≠
        .MFEMUL_HALTED)) →
        (Mifare1ksim_step envPlain flags4B 0 simSelect1 rxReqa).1.cardSTATE ≠ .MFEMUL_SELECT1
          ∧ ∀ x ∈ (Mifare1ksim_step envPlain flags4B 0 simSelect1 rxReqa).2, ∃ v, x =
              MfSent.EmSend4bit v)
    ∧ (0x26 = ISO14443A_CMD_REQA → simSelect1.cardSTATE = .MFEMUL_HALTED →
        (Mifare1ksim_step envPlain flags4B 0 simSelect1 rxReqa).2 = []
          ∧ (Mifare1ksim_step envPlain flags4B 0 simSelect1 rxReqa).1.cardSTATE = .MFEMUL_HALTED)
    ∧ (0x26 = ISO14443A_CMD_REQA →
        (Mifare1ksim_step envPlain flags4B 0 (Mifare1ksim_step envPlain flags4B 0 simSelect1
            rxReqa).1 rxReqa).2
            = (Mifare1ksim_step envPlain flags4B 0 simSelect1 rxReqa).2
          ∧ (Mifare1ksim_step envPlain flags4B 0 (Mifare1ksim_step envPlain flags4B 0 simSelect1
              rxReqa).1 rxReqa).1.cardSTATE
            = (Mifare1ksim_step envPlain flags4B 0 simSelect1 rxReqa).1.cardSTATE
          ∧ (Mifare1ksim_step envPlain flags4B 0 (Mifare1ksim_step envPlain flags4B 0 simSelect1
              rxReqa).1 rxReqa).1.cardAUTHKEY
            = (Mifare1ksim_step envPlain flags4B 0 simSelect1 rxReqa).1.cardAUTHKEY
          ∧ (Mifare1ksim_step envPlain flags4B 0 (Mifare1ksim_step envPlain flags4B 0 simSelect1
              rxReqa).1 rxReqa).1.pcs
            = (if simSelect1.cardSTATE = .MFEMUL_HALTED then (Mifare1ksim_step envPlain flags4B 0
                simSelect1 rxReqa).1.pcs
               else envPlain.crypto1_destroy (Mifare1ksim_step envPlain flags4B 0 simSelect1
                   rxReqa).1.pcs)) :=
  reqa_wupa_handling envPlain flags4B 0 simSelect1 rxReqa rxReqa 0x26 (by decide)
    (by decide) rfl (by decide) rfl

theorem auth1_step_witness :
    (rxNrAr.frame.length = 8 →
      (Mifare1ksim_step envPlain flags4B 0 simAuth1 rxNrAr).1.cardRr
          = auth1_ar rxNrAr.frame
              ^^^ (envPlain.crypto1_word (envPlain.crypto1_word simAuth1.pcs (auth1_nr
                  rxNrAr.frame) 1).2 0 0).1
        ∧ ((Mifare1ksim_step envPlain flags4B 0 simAuth1 rxNrAr).1.cardRr
              = envPlain.prng_successor (auth1_nt envPlain flags4B simAuth1 rxNrAr.frame) 64 →
            (Mifare1ksim_step envPlain flags4B 0 simAuth1 rxNrAr).2
                = [.EmSendCmd (num_to_bytes
                    (envPlain.prng_successor (auth1_nt envPlain flags4B simAuth1 rxNrAr.frame) 96
                      ^^^ (envPlain.crypto1_word (envPlain.crypto1_word
                            (envPlain.crypto1_word simAuth1.pcs (auth1_nr rxNrAr.frame) 1).2 0 0).2
                                0 0).1) 4)]
              ∧ (Mifare1ksim_step envPlain flags4B 0 simAuth1 rxNrAr).1.cardSTATE = .MFEMUL_WORK)
        ∧ ((Mifare1ksim_step envPlain flags4B 0 simAuth1 rxNrAr).1.cardRr
              ≠ envPlain.prng_successor (auth1_nt envPlain flags4B simAuth1 rxNrAr.frame) 64 →
            (Mifare1ksim_step envPlain flags4B 0 simAuth1 rxNrAr).2 = []
              ∧ (Mifare1ksim_step envPlain flags4B 0 simAuth1 rxNrAr).1.cardSTATE = .MFEMUL_IDLE))
      ∧ (rxNrAr.frame.length ≠ 8 →
          ¬ (rxNrAr.frame = [ISO14443A_CMD_REQA] ∨ rxNrAr.frame = [ISO14443A_CMD_WUPA]) →
          (Mifare1ksim_step envPlain flags4B 0 simAuth1 rxNrAr).2 = []
            ∧ (Mifare1ksim_step envPlain flags4B 0 simAuth1 rxNrAr).1.cardSTATE = .MFEMUL_IDLE) :=
  auth1_step envPlain flags4B 0 simAuth1 rxNrAr (by decide)
    (by decide)

theorem cascade_levels_2_3_witness :
    (simSelect2.cardSTATE = .MFEMUL_SELECT2 →
      (isSelectAll 0x95 rxSelectAll2.frame →
        (Mifare1ksim_step envPlain flags7B 0 simSelect2 rxSelectAll2).2 = [.EmSendCmd
            simSelect2.rUIDBCC2]
          ∧ (Mifare1ksim_step envPlain flags7B 0 simSelect2 rxSelectAll2).1.cardSTATE =
              .MFEMUL_SELECT2)
      ∧ (isSelect 0x95 simSelect2.rUIDBCC2 rxSelectAll2.frame →
          (simSelect2.UID_LEN = 7 →
            (Mifare1ksim_step envPlain flags7B 0 simSelect2 rxSelectAll2).2 = [.EmSendCmd
                simSelect2.rSAKfinal]
              ∧ (Mifare1ksim_step envPlain flags7B 0 simSelect2 rxSelectAll2).1.cardSTATE =
                  .MFEMUL_WORK)
          ∧ (simSelect2.UID_LEN = 10 →
            (Mifare1ksim_step envPlain flags7B 0 simSelect2 rxSelectAll2).2 = [.EmSendCmd
                simSelect2.rSAK1]
              ∧ (Mifare1ksim_step envPlain flags7B 0 simSelect2 rxSelectAll2).1.cardSTATE =
                  .MFEMUL_SELECT3))
      ∧ (¬ isSelectAll 0x95 rxSelectAll2.frame → ¬ isSelect 0x95 simSelect2.rUIDBCC2
          rxSelectAll2.frame →
          (rxSelectAll2.frame.length ≠ 4 →
            (Mifare1ksim_step envPlain flags7B 0 simSelect2 rxSelectAll2).2 = []
              ∧ (Mifare1ksim_step envPlain flags7B 0 simSelect2 rxSelectAll2).1.cardSTATE =
                  .MFEMUL_SELECT2)
          ∧ (rxSelectAll2.frame.length = 4 →
            Mifare1ksim_step envPlain flags7B 0 simSelect2 rxSelectAll2
              = mfWork envPlain flags7B 0 { mfReceive simSelect2 rxSelectAll2.frame with cardSTATE
                  := .MFEMUL_WORK })))
    ∧ (simSelect2.cardSTATE = .MFEMUL_SELECT3 →
      (isSelectAll 0x97 rxSelectAll2.frame →
        (Mifare1ksim_step envPlain flags7B 0 simSelect2 rxSelectAll2).2 = [.EmSendCmd
            simSelect2.rUIDBCC3]
          ∧ (Mifare1ksim_step envPlain flags7B 0 simSelect2 rxSelectAll2).1.cardSTATE =
              .MFEMUL_SELECT3)
      ∧ (isSelect 0x97 simSelect2.rUIDBCC3 rxSelectAll2.frame →
          (Mifare1ksim_step envPlain flags7B 0 simSelect2 rxSelectAll2).2 = [.EmSendCmd
              simSelect2.rSAKfinal]
            ∧ (Mifare1ksim_step envPlain flags7B 0 simSelect2 rxSelectAll2).1.cardSTATE =
                .MFEMUL_WORK)
      ∧ (¬ isSelectAll 0x97 rxSelectAll2.frame → ¬ isSelect 0x97 simSelect2.rUIDBCC3
          rxSelectAll2.frame →
          (Mifare1ksim_step envPlain flags7B 0 simSelect2 rxSelectAll2).2 = []
            ∧ (Mifare1ksim_step envPlain flags7B 0 simSelect2 rxSelectAll2).1.cardSTATE =
                .MFEMUL_IDLE)) :=
  cascade_levels_2_3 envPlain flags7B 0 simSelect2 rxSelectAll2 (by decide) (by decide)
    (by decide)

/-! ## The timeout derived from the ATS -/

/-- C27. ATS-derived timeout: for every ATS with length byte `ats[0] > 1` whose
format byte `ats[1]` has bit 5 set (TB(1) present), `iso14a_set_ATS_timeout`
sets `iso14a_timeout` to `32 * 2^FWI` (`= 256*16*2^FWI / 128`), where FWI is
the high nibble of TB(1) and TB(1) is `ats[3]` if bit 4 of `ats[1]` is set
(TA(1) present) and `ats[2]` otherwise; for every other ATS `iso14a_timeout`
is left unchanged. -/
theorem ATS_timeout (ats : Mem) (iso14a_timeout : Nat) (h2 : ats 2 < 256) (h3 : ats 3 < 256) :
    (ats 0 > 1 → (ats 1 &&& 0x20) = 0x20 →
        iso14a_set_ATS_timeout ats iso14a_timeout
            = 32 * 2 ^ ((if (ats 1 &&& 0x10) = 0x10 then ats 3 else ats 2) / 16)
          ∧ iso14a_set_ATS_timeout ats iso14a_timeout
            = 256 * 16 * 2 ^ ((if (ats 1 &&& 0x10) = 0x10 then ats 3 else ats 2) / 16) / 128)
      ∧ (¬ (ats 0 > 1 ∧ (ats 1 &&& 0x20) = 0x20) →
          iso14a_set_ATS_timeout ats iso14a_timeout = iso14a_timeout) := by
  constructor
  · intro h0 h1
    have key : ∀ tb1, tb1 < 256 →
        (256 * 16 * (1 <<< ((((tb1 % 256) &&& 0xf0) >>> 4) % 256))) % 2 ^ 32 / (8 * 16)
          = 32 * 2 ^ (tb1 / 16)
        ∧ (256 * 16 * (1 <<< ((((tb1 % 256) &&& 0xf0) >>> 4) % 256))) % 2 ^ 32 / (8 * 16)
          = 256 * 16 * 2 ^ (tb1 / 16) / 128 := by
      intro tb1 htb
      have hn : (((tb1 % 256) &&& 0xf0) >>> 4) % 256 = tb1 / 16 := by
        interval_cases tb1 <;> rfl
      rw [hn]
      have hq : tb1 / 16 < 16 := by omega
      generalize tb1 / 16 = q at hq
      interval_cases q <;> decide
    have htb : (if (ats 1 &&& 0x10) = 0x10 then ats 3 else ats 2) < 256 := by
      split
      · exact h3
      · exact h2
    unfold iso14a_set_ATS_timeout
    rw [if_pos h0, if_pos h1]
    exact key _ htb
  · intro h
    unfold iso14a_set_ATS_timeout
    by_cases h0 : ats 0 > 1
    · rw [if_pos h0, if_neg (fun h1 => h ⟨h0, h1⟩)]
    · rw [if_neg h0]

theorem ATS_timeout_witness :
    ((memWrite (fun _ => 0) [0x06, 0x75, 0x77, 0x81, 0x02, 0x80]) 0 > 1 →
      ((memWrite (fun _ => 0) [0x06, 0x75, 0x77, 0x81, 0x02, 0x80]) 1 &&& 0x20) = 0x20 →
        iso14a_set_ATS_timeout (memWrite (fun _ => 0) [0x06, 0x75, 0x77, 0x81, 0x02, 0x80]) 1050
            = 32 * 2 ^ ((if ((memWrite (fun _ => 0) [0x06, 0x75, 0x77, 0x81, 0x02, 0x80]) 1
                &&& 0x10) = 0x10 then (memWrite (fun _ => 0) [0x06, 0x75, 0x77, 0x81, 0x02, 0x80]) 3
                else (memWrite (fun _ => 0) [0x06, 0x75, 0x77, 0x81, 0x02, 0x80]) 2) / 16)
          ∧ iso14a_set_ATS_timeout (memWrite (fun _ => 0) [0x06, 0x75, 0x77, 0x81, 0x02, 0x80]) 1050
            = 256 * 16 * 2 ^ ((if ((memWrite (fun _ => 0) [0x06, 0x75, 0x77, 0x81, 0x02, 0x80]) 1
                &&& 0x10) = 0x10 then (memWrite (fun _ => 0) [0x06, 0x75, 0x77, 0x81, 0x02, 0x80]) 3
                else (memWrite (fun _ => 0) [0x06, 0x75, 0x77, 0x81, 0x02, 0x80]) 2) / 16) / 128)
      ∧ (¬ ((memWrite (fun _ => 0) [0x06, 0x75, 0x77, 0x81, 0x02, 0x80]) 0 > 1
            ∧ ((memWrite (fun _ => 0) [0x06, 0x75, 0x77, 0x81, 0x02, 0x80]) 1 &&& 0x20) = 0x20) →
          iso14a_set_ATS_timeout (memWrite (fun _ => 0) [0x06, 0x75, 0x77, 0x81, 0x02, 0x80]) 1050
            = 1050) :=
  ATS_timeout (memWrite (fun _ => 0) [0x06, 0x75, 0x77, 0x81, 0x02, 0x80]) 1050 (by decide)
    (by decide)

/-! ## `TransmitFor14443a`: the start of a transfer and the request guard time -/

theorem MAX_eq_max (a b : Nat) : MAX a b = max a b := by
  unfold MAX
  split <;> omega

theorem and_fffffff8 (x : Nat) (hx : x < 2 ^ 32) : x &&& 0xfffffff8 = x / 8 * 8 := by
  apply Nat.eq_of_testBit_eq
  intro i
  have hm : x / 8 * 8 = (x >>> 3) <<< 3 := by
    rw [Nat.shiftRight_eq_div_pow, Nat.shiftLeft_eq]
  rw [hm, Nat.testBit_and, Nat.testBit_shiftLeft, Nat.testBit_shiftRight]
  by_cases h3 : i < 3
  · have : (0xfffffff8 : Nat).testBit i = false := by
      interval_cases i <;> rfl
    simp [this, h3, Nat.not_le.mpr h3]
  · have h3' : 3 ≤ i := by omega
    have e : 3 + (i - 3) = i := by omega
    by_cases h32 : i < 32
    · have : (0xfffffff8 : Nat).testBit i = true := by
        interval_cases i <;> rfl
      simp [this, h3', e]
    · have hb : x.testBit i = false := by
        apply Nat.testBit_lt_two_pow
        calc x < 2 ^ 32 := hx
          _ ≤ 2 ^ i := Nat.pow_le_pow_right (by decide) (by omega)
      simp [hb, h3', e]

/-- C28, as stated, fails: with `NextTransferTime = 16` and the clock at 0 the
transfer starts at 24, whereas `max(NextTransferTime, now + 8)` rounded up to
a multiple of 8 is 16. -/
theorem transmit_schedule_counterexample :
    (TransmitFor14443a ⟨[], 16, 0⟩ 0 none 0).1.LastTimeProxToAirStart = 24
      ∧ roundUp8 (max 16 (0 + 8)) = 16 := by
  decide

/-- The start of a transfer made without a timing argument. -/
theorem TransmitFor14443a_start (st : TxState) (len now : Nat)
    (hN : st.NextTransferTime < 2 ^ 32) (hnow : now < 2 ^ 32) :
    (TransmitFor14443a st len none now).1.LastTimeProxToAirStart
        = (max st.NextTransferTime now / 8 * 8 + 8) % 2 ^ 32
      ∧ (max st.NextTransferTime now + 8 < 2 ^ 32 →
          (TransmitFor14443a st len none now).1.LastTimeProxToAirStart % 8 = 0
            ∧ max st.NextTransferTime now
                < (TransmitFor14443a st len none now).1.LastTimeProxToAirStart
            ∧ (TransmitFor14443a st len none now).1.LastTimeProxToAirStart
                ≤ max st.NextTransferTime now + 8) := by
  have hmax : max st.NextTransferTime now < 2 ^ 32 := by
    rcases Nat.le_total st.NextTransferTime now with h | h
    · rw [Nat.max_eq_right h]; exact hnow
    · rw [Nat.max_eq_left h]; exact hN
  have h1 : (TransmitFor14443a st len none now).1.LastTimeProxToAirStart
      = (max st.NextTransferTime now / 8 * 8 + 8) % 2 ^ 32 := by
    show ((MAX st.NextTransferTime now &&& 0xfffffff8) + 8) % 2 ^ 32 = _
    rw [MAX_eq_max, and_fffffff8 _ hmax]
  refine ⟨h1, fun hw => ?_⟩
  rw [h1]
  have e : (max st.NextTransferTime now / 8 * 8 + 8) % 2 ^ 32
      = max st.NextTransferTime now / 8 * 8 + 8 := by
    apply Nat.mod_eq_of_lt
    omega
  rw [e]
  omega

/-- C28 (amended). Reader transmit scheduling without a timing argument: for
every value of `NextTransferTime` and every current tick count `now`,
`TransmitFor14443a` with `timing = NULL` starts the transfer at
`max(NextTransferTime, now)` rounded down to a multiple of 8 ticks, plus 8
(in `uint32_t`), and records that value as `LastTimeProxToAirStart`; short of
the wrap-around of the counter this is the first multiple of 8 after
`max(NextTransferTime, now)`. -/
theorem transmit_schedule (st : TxState) (len now : Nat)
    (hN : st.NextTransferTime < 2 ^ 32) (hnow : now < 2 ^ 32) :
    (TransmitFor14443a st len none now).1.LastTimeProxToAirStart
        = (max st.NextTransferTime now / 8 * 8 + 8) % 2 ^ 32
      ∧ (max st.NextTransferTime now + 8 < 2 ^ 32 →
          (TransmitFor14443a st len none now).1.LastTimeProxToAirStart % 8 = 0
            ∧ max st.NextTransferTime now
                < (TransmitFor14443a st len none now).1.LastTimeProxToAirStart
            ∧ (TransmitFor14443a st len none now).1.LastTimeProxToAirStart
                ≤ max st.NextTransferTime now + 8) :=
  TransmitFor14443a_start st len now hN hnow

theorem transmit_schedule_witness :
    (TransmitFor14443a ⟨[], 16, 0⟩ 0 none 5).1.LastTimeProxToAirStart
        = (max (⟨[], 16, 0⟩ : TxState).NextTransferTime 5 / 8 * 8 + 8) % 2 ^ 32
      ∧ (max (⟨[], 16, 0⟩ : TxState).NextTransferTime 5 + 8 < 2 ^ 32 →
          (TransmitFor14443a ⟨[], 16, 0⟩ 0 none 5).1.LastTimeProxToAirStart % 8 = 0
            ∧ max (⟨[], 16, 0⟩ : TxState).NextTransferTime 5
                < (TransmitFor14443a ⟨[], 16, 0⟩ 0 none 5).1.LastTimeProxToAirStart
            ∧ (TransmitFor14443a ⟨[], 16, 0⟩ 0 none 5).1.LastTimeProxToAirStart
                ≤ max (⟨[], 16, 0⟩ : TxState).NextTransferTime 5 + 8) :=
  transmit_schedule ⟨[], 16, 0⟩ 0 5 (by decide) (by decide)

theorem TransmitFor14443a_next (st : TxState) (len : Nat) (timing : Option Nat) (now : Nat) :
    (TransmitFor14443a st len timing now).1.NextTransferTime
      = max st.NextTransferTime
          (((TransmitFor14443a st len timing now).1.LastTimeProxToAirStart + REQUEST_GUARD_TIME)
            % 2 ^ 32) := by
  unfold TransmitFor14443a
  cases timing with
  | none => simp only [MAX_eq_max]
  | some t =>
    simp only [MAX_eq_max]
    split <;> rfl

/-- C29. Request guard time: after every call of `TransmitFor14443a`,
`NextTransferTime` is at least `LastTimeProxToAirStart + REQUEST_GUARD_TIME`
(438 ticks; the sum is a `uint32_t`) and is not smaller than before the
call; hence, absent 32-bit counter wrap-around, any two consecutive
transmissions made with `timing = NULL`, between which `NextTransferTime` has
not decreased, start at least 438 ticks apart. -/
theorem request_guard_time (st st2 : TxState) (len len2 : Nat) (timing : Option Nat)
    (now now2 : Nat) (hN : st.NextTransferTime < 2 ^ 32) (hnow : now < 2 ^ 32)
    (hnow2 : now2 < 2 ^ 32) (hN2 : st2.NextTransferTime < 2 ^ 32)
    (hkeep : (TransmitFor14443a st len none now).1.NextTransferTime ≤ st2.NextTransferTime)
    (hwrap1 : max st.NextTransferTime now + 8 + REQUEST_GUARD_TIME < 2 ^ 32)
    (hwrap2 : max st2.NextTransferTime now2 + 8 < 2 ^ 32) :
    REQUEST_GUARD_TIME = 438
      ∧ (TransmitFor14443a st len timing now).1.NextTransferTime
          ≥ ((TransmitFor14443a st len timing now).1.LastTimeProxToAirStart + REQUEST_GUARD_TIME)
              % 2 ^ 32
      ∧ ((TransmitFor14443a st len timing now).1.LastTimeProxToAirStart + REQUEST_GUARD_TIME
            < 2 ^ 32 →
          (TransmitFor14443a st len timing now).1.NextTransferTime
            ≥ (TransmitFor14443a st len timing now).1.LastTimeProxToAirStart + REQUEST_GUARD_TIME)
      ∧ (TransmitFor14443a st len timing now).1.NextTransferTime ≥ st.NextTransferTime
      ∧ (TransmitFor14443a st2 len2 none now2).1.LastTimeProxToAirStart
          ≥ (TransmitFor14443a st len none now).1.LastTimeProxToAirStart + 438 := by
  have hn := TransmitFor14443a_next st len timing now
  refine ⟨by decide, ?_, ?_, ?_, ?_⟩
  · rw [hn]; exact Nat.le_max_right _ _
  · intro h
    rw [hn, Nat.mod_eq_of_lt h]
    exact Nat.le_max_right _ _
  · rw [hn]; exact Nat.le_max_left _ _
  · obtain ⟨a1, a2⟩ := TransmitFor14443a_start st len now hN hnow
    obtain ⟨b1, b2⟩ := TransmitFor14443a_start st2 len2 now2 hN2 hnow2
    obtain ⟨_, a4, a5⟩ := a2 (by omega)
    obtain ⟨_, b4, _⟩ := b2 hwrap2
    have hn1 := TransmitFor14443a_next st len none now
    have hR : REQUEST_GUARD_TIME = 438 := by decide
    rw [hR] at hwrap1 hn1
    have hm : ((TransmitFor14443a st len none now).1.LastTimeProxToAirStart + 438) % 2 ^ 32
        = (TransmitFor14443a st len none now).1.LastTimeProxToAirStart + 438 := by
      apply Nat.mod_eq_of_lt
      omega
    rw [hm] at hn1
    have h5 : (TransmitFor14443a st len none now).1.LastTimeProxToAirStart + 438
        ≤ (TransmitFor14443a st len none now).1.NextTransferTime := by
      rw [hn1]; exact Nat.le_max_right _ _
    have h6 : st2.NextTransferTime ≤ max st2.NextTransferTime now2 := Nat.le_max_left _ _
    omega

theorem request_guard_time_witness :
    REQUEST_GUARD_TIME = 438
      ∧ (TransmitFor14443a txFirst 3 none 5).1.NextTransferTime
          ≥ ((TransmitFor14443a txFirst 3 none 5).1.LastTimeProxToAirStart + REQUEST_GUARD_TIME)
              % 2 ^ 32
      ∧ ((TransmitFor14443a txFirst 3 none 5).1.LastTimeProxToAirStart + REQUEST_GUARD_TIME
            < 2 ^ 32 →
          (TransmitFor14443a txFirst 3 none 5).1.NextTransferTime
            ≥ (TransmitFor14443a txFirst 3 none 5).1.LastTimeProxToAirStart + REQUEST_GUARD_TIME)
      ∧ (TransmitFor14443a txFirst 3 none 5).1.NextTransferTime ≥ txFirst.NextTransferTime
      ∧ (TransmitFor14443a txSecond 3 none 450).1.LastTimeProxToAirStart
          ≥ (TransmitFor14443a txFirst 3 none 5).1.LastTimeProxToAirStart + 438 :=
  request_guard_time txFirst txSecond 3 3 none 5 450 (by decide) (by decide) (by decide)
    (by decide) (by decide) (by decide) (by decide)

/-! ## MIFARE emulator: the identity of the card -/

theorem mfCollect_ident (env : MfEnv) (flags : MfFlags) (nr ar : Nat) :
    ∀ (k i : Nat) (s : MfSim), mfIdent (mfCollect env flags nr ar k i s) = mfIdent s
  | 0, _, _ => rfl
  | k + 1, i, s => by
    unfold mfCollect
    split
    · split
      · split
        · split
          · rfl
          · dsimp only
            split
            · split
              · split <;> rfl
              · rfl
            · split <;> rfl
        · rfl
      · rfl
    · exact mfCollect_ident env flags nr ar k (i + 1) s

theorem mfAuth1_ident (env : MfEnv) (flags : MfFlags) (s : MfSim) :
    mfIdent (mfAuth1 env flags s).1 = mfIdent s := by
  have hc : mfIdent (if flags.FLAG_NR_AR_ATTACK then
      mfCollect env flags (bytes_to_num (memRead s.receivedCmd 4) 4 % 2 ^ 32)
        (bytes_to_num ((memRead s.receivedCmd 8).drop 4) 4 % 2 ^ 32) ATTACK_KEY_COUNT 0 s
      else s) = mfIdent s := by
    split
    · exact mfCollect_ident _ _ _ _ _ _ _
    · rfl
  unfold mfAuth1
  split
  · rfl
  · dsimp only
    generalize (if flags.FLAG_NR_AR_ATTACK then
      mfCollect env flags (bytes_to_num (memRead s.receivedCmd 4) 4 % 2 ^ 32)
        (bytes_to_num ((memRead s.receivedCmd 8).drop 4) 4 % 2 ^ 32) ATTACK_KEY_COUNT 0 s
      else s) = sc at hc ⊢
    split
    · exact hc
    · exact hc

theorem mfWorkAuth_ident (env : MfEnv) (flags : MfFlags) (e : Bool) (s : MfSim) :
    mfIdent (mfWorkAuth env flags e s).1 = mfIdent s := by
  unfold mfWorkAuth
  split
  · rfl
  · dsimp only
    split <;> rfl

theorem mfIdent_ite (c : Prop) [Decidable c] (a b : MfSim × List MfSent)
    (v : List Nat × List Nat × List Nat × List Nat × List Nat × List Nat × Nat × Nat)
    (ha : mfIdent a.1 = v) (hb : mfIdent b.1 = v) :
    mfIdent (if c then a else b).1 = v := by
  split <;> assumption

theorem mfWorkCmd_ident (env : MfEnv) (n : Nat) (s : MfSim) :
    mfIdent (mfWorkCmd env n s).1 = mfIdent s := by
  unfold mfWorkCmd
  apply mfIdent_ite _ _ _ _ rfl
  apply mfIdent_ite _ _ _ _ rfl
  apply mfIdent_ite
  · dsimp only
    split <;> rfl
  apply mfIdent_ite _ _ _ _ rfl
  apply mfIdent_ite
  · apply mfIdent_ite _ _ _ _ rfl
    dsimp only
    by_cases h1 : s.receivedCmd 0 = 0xC1 <;> by_cases h0 : s.receivedCmd 0 = 0xC0
      <;> by_cases h2 : s.receivedCmd 0 = 0xC2 <;> simp only [h1, h0, h2, if_true, if_false]
      <;> rfl
  apply mfIdent_ite
  · dsimp only
    split <;> rfl
  apply mfIdent_ite _ _ _ _ rfl
  apply mfIdent_ite _ _ _ _ rfl
  rfl

theorem mfWork_ident (env : MfEnv) (flags : MfFlags) (n : Nat) (s : MfSim) :
    mfIdent (mfWork env flags n s).1 = mfIdent s := by
  have key : ∀ s1 : MfSim, mfIdent s1 = mfIdent s → ∀ e : Bool,
      mfIdent (if s1.len = 4 ∧ (s1.receivedCmd 0 = 0x60 ∨ s1.receivedCmd 0 = 0x61) then
          mfWorkAuth env flags e s1
        else if s1.len = 1 ∧ s1.receivedCmd 0 = env.CARD_ACK then
          mfSend4bit env s1 env.CARD_NACK_NA
        else if s1.len = 1 ∧ s1.receivedCmd 0 = env.CARD_NACK_NA then
          mfSend4bit env s1 env.CARD_ACK
        else if s1.len ≠ 4 then (s1, [])
        else mfWorkCmd env n s1).1 = mfIdent s := by
    intro s1 h1 e
    split
    · rw [mfWorkAuth_ident]; exact h1
    · split
      · exact h1
      · split
        · exact h1
        · split
          · exact h1
          · rw [mfWorkCmd_ident]; exact h1
  unfold mfWork
  split
  · rfl
  · dsimp only
    split
    · exact key (mfDecrypt env s) rfl _
    · exact key s rfl _

theorem mfIntReg_ident (env : MfEnv) (s : MfSim) (f : Nat → Nat → Nat) :
    mfIdent (mfIntReg env s f).1 = mfIdent s := by
  unfold mfIntReg
  dsimp only
  split <;> rfl

theorem mfSwitch_ident (env : MfEnv) (flags : MfFlags) (n : Nat) (s : MfSim) :
    mfIdent (mfSwitch env flags n s).1 = mfIdent s := by
  unfold mfSwitch
  cases hst : s.cardSTATE
  case MFEMUL_NOFIELD => rfl
  case MFEMUL_IDLE => rfl
  case MFEMUL_HALTED => rfl
  case MFEMUL_SELECT1 =>
    dsimp only
    split_ifs <;> rfl
  case MFEMUL_SELECT2 =>
    dsimp only
    split
    · rfl
    · split
      · rfl
      · split
        · split_ifs <;> rfl
        · split
          · rfl
          · rw [mfWork_ident]; rfl
  case MFEMUL_SELECT3 =>
    dsimp only
    split_ifs <;> rfl
  case MFEMUL_AUTH1 => exact mfAuth1_ident env flags s
  case MFEMUL_WORK => exact mfWork_ident env flags n s
  case MFEMUL_WRITEBL2 =>
    dsimp only
    split <;> rfl
  case MFEMUL_INTREG_INC => exact mfIntReg_ident env s _
  case MFEMUL_INTREG_DEC => exact mfIntReg_ident env s _
  case MFEMUL_INTREG_REST => exact mfIntReg_ident env s _

theorem mfReqaWupa_ident (env : MfEnv) (flags : MfFlags) (s : MfSim) :
    mfIdent (mfReqaWupa env flags s).1 = mfIdent s := by
  unfold mfReqaWupa
  dsimp only
  split <;> rfl

theorem Mifare1ksim_step_ident (env : MfEnv) (flags : MfFlags) (n : Nat) (s : MfSim)
    (inp : MfInput) : mfIdent (Mifare1ksim_step env flags n s inp).1 = mfIdent s := by
  have key : ∀ s1 : MfSim, mfIdent s1 = mfIdent s →
      mfIdent (if s1.cardSTATE = .MFEMUL_NOFIELD then (s1, [])
        else if inp.res = 2 then ({ s1 with len := 0, cardSTATE := .MFEMUL_NOFIELD }, [])
        else if inp.res = 1 then ({ s1 with len := 0, stopped := true }, [])
        else
          if (mfReceive s1 inp.frame).len = 1
              ∧ (((mfReceive s1 inp.frame).receivedCmd 0 = ISO14443A_CMD_REQA
                  ∧ (mfReceive s1 inp.frame).cardSTATE ≠ .MFEMUL_HALTED)
                ∨ (mfReceive s1 inp.frame).receivedCmd 0 = ISO14443A_CMD_WUPA) then
            mfReqaWupa env flags (mfReceive s1 inp.frame)
          else mfSwitch env flags n (mfReceive s1 inp.frame)).1 = mfIdent s := by
    intro s1 h1
    split
    · exact h1
    · split
      · exact h1
      · split
        · exact h1
        · split
          · rw [mfReqaWupa_ident]; exact h1
          · rw [mfSwitch_ident]; exact h1
  unfold Mifare1ksim_step
  exact key (if s.cardSTATE = .MFEMUL_NOFIELD then
      if (env.MAX_ADC_HF_VOLTAGE * inp.avgAdc) >>> 10 > env.MF_MINFIELDV then cardSTATE_TO_IDLE s
      else s
    else s) (by split_ifs <;> rfl)

theorem Mifare1ksim_run_ident (env : MfEnv) (flags : MfFlags) (n : Nat) :
    ∀ (inputs : List MfInput) (s : MfSim),
      mfIdent (Mifare1ksim_run env flags n s inputs).1 = mfIdent s
  | [], _ => rfl
  | inp :: rest, s => by
    unfold Mifare1ksim_run
    split
    · rfl
    · dsimp only
      rw [Mifare1ksim_run_ident env flags n rest, Mifare1ksim_step_ident]

theorem bytes_to_num_four (a b c d : Nat) (rest : List Nat)
    (ha : a < 256) (hb : b < 256) (hc : c < 256) (hd : d < 256) :
    bytes_to_num (a :: b :: c :: d :: rest) 4 % 2 ^ 32
      = 2 ^ 24 * a + 2 ^ 16 * b + 2 ^ 8 * c + d := by
  have e : bytes_to_num (a :: b :: c :: d :: rest) 4
      = ((((((((0 <<< 8 ||| a) % 2 ^ 64) <<< 8 ||| b) % 2 ^ 64) <<< 8 ||| c) % 2 ^ 64) <<< 8
          ||| d) % 2 ^ 64) := rfl
  rw [e]
  have h8 : ∀ x y : Nat, y < 256 → (x <<< 8 ||| y) = x * 256 + y := by
    intro x y hy
    rw [Nat.shiftLeft_eq, Nat.mul_comm x, ← Nat.mul_add_lt_is_or (by simpa using hy)]
  rw [h8 _ _ ha, h8 _ _ hb, h8 _ _ hc, h8 _ _ hd]
  omega

theorem Mifare1ksim_init_7B (env : MfEnv) (flags : MfFlags) (emul : Mem) (rng : Nat)
    (u0 u1 u2 u3 u4 u5 u6 : Nat) (h4 : flags.FLAG_4B_UID_IN_DATA = false)
    (h7 : flags.FLAG_7B_UID_IN_DATA = true) :
    mfIdent (Mifare1ksim_init env flags [u0, u1, u2, u3, u4, u5, u6] emul rng)
      = ([0x44, 0x00], [0x88, u0, u1, u2, 0x88 ^^^ u0 ^^^ u1 ^^^ u2],
          [u3, u4, u5, u6, u3 ^^^ u4 ^^^ u5 ^^^ u6], [0xde, 0xad, 0xbe, 0xaf, 0x62],
          [0x08, 0xb6, 0xdd], [0x04, 0xda, 0x17], 7,
          bytes_to_num [u3, u4, u5, u6, 0x62] 4 % 2 ^ 32) := by
  have h44 : (0x44 : Nat) = 0x04 ||| 0x40 := by decide
  rw [h44]
  obtain ⟨f1, f2, f3, f4, f5, f6⟩ := flags
  dsimp only at h4 h7
  subst h4 h7
  cases f6 <;> rfl

theorem Mifare1ksim_init_10B (env : MfEnv) (flags : MfFlags) (emul : Mem) (rng : Nat)
    (u0 u1 u2 u3 u4 u5 u6 u7 u8 u9 : Nat) (h4 : flags.FLAG_4B_UID_IN_DATA = false)
    (h7 : flags.FLAG_7B_UID_IN_DATA = false) (h10 : flags.FLAG_10B_UID_IN_DATA = true) :
    mfIdent (Mifare1ksim_init env flags [u0, u1, u2, u3, u4, u5, u6, u7, u8, u9] emul rng)
      = ([0x84, 0x00], [0x88, u0, u1, u2, 0x88 ^^^ u0 ^^^ u1 ^^^ u2],
          [0x88, u3, u4, u5, 0x88 ^^^ u3 ^^^ u4 ^^^ u5],
          [u6, u7, u8, u9, u6 ^^^ u7 ^^^ u8 ^^^ u9],
          [0x08, 0xb6, 0xdd], [0x04, 0xda, 0x17], 10,
          bytes_to_num [u6, u7, u8, u9, 0x62] 4 % 2 ^ 32) := by
  have h84 : (0x84 : Nat) = 0x04 ||| 0x80 := by decide
  rw [h84]
  obtain ⟨f1, f2, f3, f4, f5, f6⟩ := flags
  dsimp only at h4 h7 h10
  subst h4 h7 h10
  cases f6 <;> rfl

/-- What the emulator sends in answer to REQA and to the SELECT_ALL command of
each cascade level: `rATQA` and the UID fragment of the level. -/
theorem Mifare1ksim_step_answers (env : MfEnv) (flags : MfFlags) (n : Nat) (s : MfSim)
    (inp : MfInput) (hres : inp.res ≠ 2 ∧ inp.res ≠ 1) :
    (s.cardSTATE ≠ .MFEMUL_NOFIELD → s.cardSTATE ≠ .MFEMUL_HALTED → inp.frame = [0x26] →
        (Mifare1ksim_step env flags n s inp).2 = [.EmSendCmdEx s.rATQA false])
      ∧ (s.cardSTATE = .MFEMUL_SELECT1 → inp.frame = [0x93, 0x20] →
        (Mifare1ksim_step env flags n s inp).2 = [.EmSendCmd s.rUIDBCC1])
      ∧ (s.cardSTATE = .MFEMUL_SELECT2 → inp.frame = [0x95, 0x20] →
        (Mifare1ksim_step env flags n s inp).2 = [.EmSendCmd s.rUIDBCC2])
      ∧ (s.cardSTATE = .MFEMUL_SELECT3 → inp.frame = [0x97, 0x20] →
        (Mifare1ksim_step env flags n s inp).2 = [.EmSendCmd s.rUIDBCC3]) := by
  refine ⟨fun hf hh hfr => ?_, fun hst hfr => ?_, fun hst hfr => ?_, fun hst hfr => ?_⟩
  · have hstep := Mifare1ksim_step_rx env flags n s inp hf hres.1 hres.2
    rw [hfr] at hstep
    rw [hstep, if_pos ⟨rfl, Or.inl ⟨rfl, hh⟩⟩]
    rfl
  · have hstep := Mifare1ksim_step_rx env flags n s inp (by rw [hst]; decide) hres.1 hres.2
    rw [if_neg (not_reqa_wupa s inp.frame (by rw [hfr]; decide))] at hstep
    rw [hfr] at hstep
    have hcs : (mfReceive s [0x93, 0x20]).cardSTATE = .MFEMUL_SELECT1 := hst
    rw [hstep]
    unfold mfSwitch
    rw [hcs]
    dsimp only
    rw [if_pos ⟨rfl, rfl, rfl⟩]
    rfl
  · have hstep := Mifare1ksim_step_rx env flags n s inp (by rw [hst]; decide) hres.1 hres.2
    rw [if_neg (not_reqa_wupa s inp.frame (by rw [hfr]; decide))] at hstep
    rw [hfr] at hstep
    have hcs : (mfReceive s [0x95, 0x20]).cardSTATE = .MFEMUL_SELECT2 := hst
    have hl : ¬ (mfReceive s [0x95, 0x20]).len = 0 := by
      show ¬ (2 = 0)
      decide
    rw [hstep]
    unfold mfSwitch
    rw [hcs]
    dsimp only
    rw [if_neg hl, if_pos ⟨rfl, rfl, rfl⟩]
    rfl
  · have hstep := Mifare1ksim_step_rx env flags n s inp (by rw [hst]; decide) hres.1 hres.2
    rw [if_neg (not_reqa_wupa s inp.frame (by rw [hfr]; decide))] at hstep
    rw [hfr] at hstep
    have hcs : (mfReceive s [0x97, 0x20]).cardSTATE = .MFEMUL_SELECT3 := hst
    have hl : ¬ (mfReceive s [0x97, 0x20]).len = 0 := by
      show ¬ (2 = 0)
      decide
    rw [hstep]
    unfold mfSwitch
    rw [hcs]
    dsimp only
    rw [if_neg hl, if_pos ⟨rfl, rfl, rfl⟩]
    rfl

/-- C21 (emulated card identity).  With `FLAG_7B_UID_IN_DATA` (and without
`FLAG_4B_UID_IN_DATA`, which is tested first) and the UID `u0 .. u6` in
`datain`, at every point of every run of the main loop of `Mifare1ksim` the
ATQA is `44 00`, the fragment of cascade level 1 is `88 u0 u1 u2 BCC`, the
fragment of level 2 is `u3 u4 u5 u6 BCC`, each BCC being the XOR of the four
bytes before it, and `cuid` is the big-endian number `u3 u4 u5 u6`; these are
the frames sent in answer to REQA and to the SELECT_ALL commands `93 20` and
`95 20`.  With `FLAG_10B_UID_IN_DATA` (and neither of the other two flags) and
the UID `u0 .. u9` the fragments are `88 u0 u1 u2 BCC`, `88 u3 u4 u5 BCC` and
`u6 u7 u8 u9 BCC`, sent in answer to `93 20`, `95 20` and `97 20`, byte 0 of
the ATQA is `0x84` and `cuid` is `u6 u7 u8 u9`. -/
theorem emulated_card_identity (env : MfEnv) (flags : MfFlags) (n : Nat) (emul : Mem) (rng : Nat)
    (u0 u1 u2 u3 u4 u5 u6 u7 u8 u9 : Nat) (inputs : List MfInput) (inp : MfInput)
    (h4 : flags.FLAG_4B_UID_IN_DATA = false)
    (hu : u3 < 256 ∧ u4 < 256 ∧ u5 < 256 ∧ u6 < 256 ∧ u7 < 256 ∧ u8 < 256 ∧ u9 < 256)
    (hres : inp.res ≠ 2 ∧ inp.res ≠ 1) :
    (flags.FLAG_7B_UID_IN_DATA = true →
      (Mifare1ksim_after env flags n [u0, u1, u2, u3, u4, u5, u6] emul rng inputs).rATQA
          = [0x44, 0x00]
        ∧ (Mifare1ksim_after env flags n [u0, u1, u2, u3, u4, u5, u6] emul rng inputs).rUIDBCC1
          = [0x88, u0, u1, u2, 0x88 ^^^ u0 ^^^ u1 ^^^ u2]
        ∧ (Mifare1ksim_after env flags n [u0, u1, u2, u3, u4, u5, u6] emul rng inputs).rUIDBCC2
          = [u3, u4, u5, u6, u3 ^^^ u4 ^^^ u5 ^^^ u6]
        ∧ (Mifare1ksim_after env flags n [u0, u1, u2, u3, u4, u5, u6] emul rng inputs).cuid
          = 2 ^ 24 * u3 + 2 ^ 16 * u4 + 2 ^ 8 * u5 + u6
        ∧ ((Mifare1ksim_after env flags n [u0, u1, u2, u3, u4, u5, u6] emul rng inputs).cardSTATE
              ≠ .MFEMUL_NOFIELD →
            (Mifare1ksim_after env flags n [u0, u1, u2, u3, u4, u5, u6] emul rng inputs).cardSTATE
              ≠ .MFEMUL_HALTED →
            inp.frame = [0x26] →
            (Mifare1ksim_step env flags n
              (Mifare1ksim_after env flags n [u0, u1, u2, u3, u4, u5, u6] emul rng inputs) inp).2
              = [.EmSendCmdEx [0x44, 0x00] false])
        ∧ ((Mifare1ksim_after env flags n [u0, u1, u2, u3, u4, u5, u6] emul rng inputs).cardSTATE
              = .MFEMUL_SELECT1 →
            inp.frame = [0x93, 0x20] →
            (Mifare1ksim_step env flags n
              (Mifare1ksim_after env flags n [u0, u1, u2, u3, u4, u5, u6] emul rng inputs) inp).2
              = [.EmSendCmd [0x88, u0, u1, u2, 0x88 ^^^ u0 ^^^ u1 ^^^ u2]])
        ∧ ((Mifare1ksim_after env flags n [u0, u1, u2, u3, u4, u5, u6] emul rng inputs).cardSTATE
              = .MFEMUL_SELECT2 →
            inp.frame = [0x95, 0x20] →
            (Mifare1ksim_step env flags n
              (Mifare1ksim_after env flags n [u0, u1, u2, u3, u4, u5, u6] emul rng inputs) inp).2
              = [.EmSendCmd [u3, u4, u5, u6, u3 ^^^ u4 ^^^ u5 ^^^ u6]]))
    ∧ (flags.FLAG_7B_UID_IN_DATA = false → flags.FLAG_10B_UID_IN_DATA = true →
      (Mifare1ksim_after env flags n [u0, u1, u2, u3, u4, u5, u6, u7, u8, u9] emul rng
          inputs).rATQA.getD 0 0 = 0x84
        ∧ (Mifare1ksim_after env flags n [u0, u1, u2, u3, u4, u5, u6, u7, u8, u9] emul rng
          inputs).rUIDBCC1 = [0x88, u0, u1, u2, 0x88 ^^^ u0 ^^^ u1 ^^^ u2]
        ∧ (Mifare1ksim_after env flags n [u0, u1, u2, u3, u4, u5, u6, u7, u8, u9] emul rng
          inputs).rUIDBCC2 = [0x88, u3, u4, u5, 0x88 ^^^ u3 ^^^ u4 ^^^ u5]
        ∧ (Mifare1ksim_after env flags n [u0, u1, u2, u3, u4, u5, u6, u7, u8, u9] emul rng
          inputs).rUIDBCC3 = [u6, u7, u8, u9, u6 ^^^ u7 ^^^ u8 ^^^ u9]
        ∧ (Mifare1ksim_after env flags n [u0, u1, u2, u3, u4, u5, u6, u7, u8, u9] emul rng
          inputs).cuid = 2 ^ 24 * u6 + 2 ^ 16 * u7 + 2 ^ 8 * u8 + u9
        ∧ ((Mifare1ksim_after env flags n [u0, u1, u2, u3, u4, u5, u6, u7, u8, u9] emul rng
              inputs).cardSTATE = .MFEMUL_SELECT1 →
            inp.frame = [0x93, 0x20] →
            (Mifare1ksim_step env flags n
              (Mifare1ksim_after env flags n [u0, u1, u2, u3, u4, u5, u6, u7, u8, u9] emul rng
                inputs) inp).2
              = [.EmSendCmd [0x88, u0, u1, u2, 0x88 ^^^ u0 ^^^ u1 ^^^ u2]])
        ∧ ((Mifare1ksim_after env flags n [u0, u1, u2, u3, u4, u5, u6, u7, u8, u9] emul rng
              inputs).cardSTATE = .MFEMUL_SELECT2 →
            inp.frame = [0x95, 0x20] →
            (Mifare1ksim_step env flags n
              (Mifare1ksim_after env flags n [u0, u1, u2, u3, u4, u5, u6, u7, u8, u9] emul rng
                inputs) inp).2
              = [.EmSendCmd [0x88, u3, u4, u5, 0x88 ^^^ u3 ^^^ u4 ^^^ u5]])
        ∧ ((Mifare1ksim_after env flags n [u0, u1, u2, u3, u4, u5, u6, u7, u8, u9] emul rng
              inputs).cardSTATE = .MFEMUL_SELECT3 →
            inp.frame = [0x97, 0x20] →
            (Mifare1ksim_step env flags n
              (Mifare1ksim_after env flags n [u0, u1, u2, u3, u4, u5, u6, u7, u8, u9] emul rng
                inputs) inp).2
              = [.EmSendCmd [u6, u7, u8, u9, u6 ^^^ u7 ^^^ u8 ^^^ u9]])) := by
  obtain ⟨b3, b4, b5, b6, b7, b8, b9⟩ := hu
  constructor
  · intro h7
    have hid : mfIdent (Mifare1ksim_after env flags n [u0, u1, u2, u3, u4, u5, u6] emul rng inputs)
        = _ := (Mifare1ksim_run_ident env flags n inputs _).trans
          (Mifare1ksim_init_7B env flags emul rng u0 u1 u2 u3 u4 u5 u6 h4 h7)
    generalize Mifare1ksim_after env flags n [u0, u1, u2, u3, u4, u5, u6] emul rng inputs = s at hid ⊢
    simp only [mfIdent, Prod.mk.injEq] at hid
    obtain ⟨i1, i2, i3, -, -, -, -, i8⟩ := hid
    obtain ⟨a1, a2, a3, -⟩ := Mifare1ksim_step_answers env flags n s inp hres
    rw [i1] at a1
    rw [i2] at a2
    rw [i3] at a3
    rw [bytes_to_num_four u3 u4 u5 u6 _ b3 b4 b5 b6] at i8
    exact ⟨i1, i2, i3, i8, a1, a2, a3⟩
  · intro h7 h10
    have hid : mfIdent (Mifare1ksim_after env flags n [u0, u1, u2, u3, u4, u5, u6, u7, u8, u9] emul
        rng inputs) = _ := (Mifare1ksim_run_ident env flags n inputs _).trans
          (Mifare1ksim_init_10B env flags emul rng u0 u1 u2 u3 u4 u5 u6 u7 u8 u9 h4 h7 h10)
    generalize Mifare1ksim_after env flags n [u0, u1, u2, u3, u4, u5, u6, u7, u8, u9] emul rng
      inputs = s at hid ⊢
    simp only [mfIdent, Prod.mk.injEq] at hid
    obtain ⟨i1, i2, i3, i4, -, -, -, i8⟩ := hid
    obtain ⟨-, a2, a3, a4⟩ := Mifare1ksim_step_answers env flags n s inp hres
    rw [i2] at a2
    rw [i3] at a3
    rw [i4] at a4
    rw [bytes_to_num_four u6 u7 u8 u9 _ b6 b7 b8 b9] at i8
    refine ⟨?_, i2, i3, i4, i8, a2, a3, a4⟩
    rw [i1]
    rfl

theorem emulated_card_identity_witness :
    (flags7B.FLAG_7B_UID_IN_DATA = true →
      (Mifare1ksim_after envPlain flags7B 0 [0x04, 0x51, 0xF1, 0xA2, 0xB3, 0xC4, 0xD5] (fun _ => 0)
          0 simInputs2).rATQA
          = [0x44, 0x00]
        ∧ (Mifare1ksim_after envPlain flags7B 0 [0x04, 0x51, 0xF1, 0xA2, 0xB3, 0xC4, 0xD5] (fun _
            => 0) 0 simInputs2).rUIDBCC1
          = [0x88, 0x04, 0x51, 0xF1, 0x88 ^^^ 0x04 ^^^ 0x51 ^^^ 0xF1]
        ∧ (Mifare1ksim_after envPlain flags7B 0 [0x04, 0x51, 0xF1, 0xA2, 0xB3, 0xC4, 0xD5] (fun _
            => 0) 0 simInputs2).rUIDBCC2
          = [0xA2, 0xB3, 0xC4, 0xD5, 0xA2 ^^^ 0xB3 ^^^ 0xC4 ^^^ 0xD5]
        ∧ (Mifare1ksim_after envPlain flags7B 0 [0x04, 0x51, 0xF1, 0xA2, 0xB3, 0xC4, 0xD5] (fun _
            => 0) 0 simInputs2).cuid
          = 2 ^ 24 * 0xA2 + 2 ^ 16 * 0xB3 + 2 ^ 8 * 0xC4 + 0xD5
        ∧ ((Mifare1ksim_after envPlain flags7B 0 [0x04, 0x51, 0xF1, 0xA2, 0xB3, 0xC4, 0xD5] (fun _
            => 0) 0 simInputs2).cardSTATE
              ≠ .MFEMUL_NOFIELD →
            (Mifare1ksim_after envPlain flags7B 0 [0x04, 0x51, 0xF1, 0xA2, 0xB3, 0xC4, 0xD5] (fun _
                => 0) 0 simInputs2).cardSTATE
              ≠ .MFEMUL_HALTED →
            rxSelectAll2.frame = [0x26] →
            (Mifare1ksim_step envPlain flags7B 0
              (Mifare1ksim_after envPlain flags7B 0 [0x04, 0x51, 0xF1, 0xA2, 0xB3, 0xC4, 0xD5] (fun
                  _ => 0) 0 simInputs2) rxSelectAll2).2
              = [.EmSendCmdEx [0x44, 0x00] false])
        ∧ ((Mifare1ksim_after envPlain flags7B 0 [0x04, 0x51, 0xF1, 0xA2, 0xB3, 0xC4, 0xD5] (fun _
            => 0) 0 simInputs2).cardSTATE
              = .MFEMUL_SELECT1 →
            rxSelectAll2.frame = [0x93, 0x20] →
            (Mifare1ksim_step envPlain flags7B 0
              (Mifare1ksim_after envPlain flags7B 0 [0x04, 0x51, 0xF1, 0xA2, 0xB3, 0xC4, 0xD5] (fun
                  _ => 0) 0 simInputs2) rxSelectAll2).2
              = [.EmSendCmd [0x88, 0x04, 0x51, 0xF1, 0x88 ^^^ 0x04 ^^^ 0x51 ^^^ 0xF1]])
        ∧ ((Mifare1ksim_after envPlain flags7B 0 [0x04, 0x51, 0xF1, 0xA2, 0xB3, 0xC4, 0xD5] (fun _
            => 0) 0 simInputs2).cardSTATE
              = .MFEMUL_SELECT2 →
            rxSelectAll2.frame = [0x95, 0x20] →
            (Mifare1ksim_step envPlain flags7B 0
              (Mifare1ksim_after envPlain flags7B 0 [0x04, 0x51, 0xF1, 0xA2, 0xB3, 0xC4, 0xD5] (fun
                  _ => 0) 0 simInputs2) rxSelectAll2).2
              = [.EmSendCmd [0xA2, 0xB3, 0xC4, 0xD5, 0xA2 ^^^ 0xB3 ^^^ 0xC4 ^^^ 0xD5]]))
    ∧ (flags7B.FLAG_7B_UID_IN_DATA = false → flags7B.FLAG_10B_UID_IN_DATA = true →
      (Mifare1ksim_after envPlain flags7B 0 [0x04, 0x51, 0xF1, 0xA2, 0xB3, 0xC4, 0xD5, 0, 0, 0]
          (fun _ => 0) 0
          simInputs2).rATQA.getD 0 0 = 0x84
        ∧ (Mifare1ksim_after envPlain flags7B 0 [0x04, 0x51, 0xF1, 0xA2, 0xB3, 0xC4, 0xD5, 0, 0, 0]
            (fun _ => 0) 0
          simInputs2).rUIDBCC1 = [0x88, 0x04, 0x51, 0xF1, 0x88 ^^^ 0x04 ^^^ 0x51 ^^^ 0xF1]
        ∧ (Mifare1ksim_after envPlain flags7B 0 [0x04, 0x51, 0xF1, 0xA2, 0xB3, 0xC4, 0xD5, 0, 0, 0]
            (fun _ => 0) 0
          simInputs2).rUIDBCC2 = [0x88, 0xA2, 0xB3, 0xC4, 0x88 ^^^ 0xA2 ^^^ 0xB3 ^^^ 0xC4]
        ∧ (Mifare1ksim_after envPlain flags7B 0 [0x04, 0x51, 0xF1, 0xA2, 0xB3, 0xC4, 0xD5, 0, 0, 0]
            (fun _ => 0) 0
          simInputs2).rUIDBCC3 = [0xD5, 0, 0, 0, 0xD5 ^^^ 0 ^^^ 0 ^^^ 0]
        ∧ (Mifare1ksim_after envPlain flags7B 0 [0x04, 0x51, 0xF1, 0xA2, 0xB3, 0xC4, 0xD5, 0, 0, 0]
            (fun _ => 0) 0
          simInputs2).cuid = 2 ^ 24 * 0xD5 + 2 ^ 16 * 0 + 2 ^ 8 * 0 + 0
        ∧ ((Mifare1ksim_after envPlain flags7B 0 [0x04, 0x51, 0xF1, 0xA2, 0xB3, 0xC4, 0xD5, 0, 0,
            0] (fun _ => 0) 0
              simInputs2).cardSTATE = .MFEMUL_SELECT1 →
            rxSelectAll2.frame = [0x93, 0x20] →
            (Mifare1ksim_step envPlain flags7B 0
              (Mifare1ksim_after envPlain flags7B 0 [0x04, 0x51, 0xF1, 0xA2, 0xB3, 0xC4, 0xD5, 0,
                  0, 0] (fun _ => 0) 0
                simInputs2) rxSelectAll2).2
              = [.EmSendCmd [0x88, 0x04, 0x51, 0xF1, 0x88 ^^^ 0x04 ^^^ 0x51 ^^^ 0xF1]])
        ∧ ((Mifare1ksim_after envPlain flags7B 0 [0x04, 0x51, 0xF1, 0xA2, 0xB3, 0xC4, 0xD5, 0, 0,
            0] (fun _ => 0) 0
              simInputs2).cardSTATE = .MFEMUL_SELECT2 →
            rxSelectAll2.frame = [0x95, 0x20] →
            (Mifare1ksim_step envPlain flags7B 0
              (Mifare1ksim_after envPlain flags7B 0 [0x04, 0x51, 0xF1, 0xA2, 0xB3, 0xC4, 0xD5, 0,
                  0, 0] (fun _ => 0) 0
                simInputs2) rxSelectAll2).2
              = [.EmSendCmd [0x88, 0xA2, 0xB3, 0xC4, 0x88 ^^^ 0xA2 ^^^ 0xB3 ^^^ 0xC4]])
        ∧ ((Mifare1ksim_after envPlain flags7B 0 [0x04, 0x51, 0xF1, 0xA2, 0xB3, 0xC4, 0xD5, 0, 0,
            0] (fun _ => 0) 0
              simInputs2).cardSTATE = .MFEMUL_SELECT3 →
            rxSelectAll2.frame = [0x97, 0x20] →
            (Mifare1ksim_step envPlain flags7B 0
              (Mifare1ksim_after envPlain flags7B 0 [0x04, 0x51, 0xF1, 0xA2, 0xB3, 0xC4, 0xD5, 0,
                  0, 0] (fun _ => 0) 0
                simInputs2) rxSelectAll2).2
              = [.EmSendCmd [0xD5, 0, 0, 0, 0xD5 ^^^ 0 ^^^ 0 ^^^ 0]])) :=
  emulated_card_identity envPlain flags7B 0 (fun _ => 0) 0 0x04 0x51 0xF1 0xA2 0xB3 0xC4 0xD5 0 0 0
    simInputs2 rxSelectAll2 (by decide) (by decide) (by decide)

/-! ## Reader: one cascade level of `iso14443a_select_card` without collision -/

theorem ReaderReceive_cons (st : SelState) (a : TagAnswer) (rest : List TagAnswer)
    (h : st.answers = a :: rest) :
    ReaderReceive st = (a.data.length,
      { st with resp := memWrite st.resp a.data, answers := rest,
                collisionPos := a.collisionPos, demodLen := a.data.length }) := by
  unfold ReaderReceive
  rw [h]

theorem ReaderReceive_nil (st : SelState) (h : st.answers = []) :
    ReaderReceive st = (0, { st with collisionPos := 0, demodLen := 0 }) := by
  unfold ReaderReceive
  rw [h]

theorem selUidResp_no_collision (nc fuel : Nat) (st : SelState) (f : TagAnswer)
    (rest : List TagAnswer) (a b c d : Nat) (more : List Nat)
    (hans : st.answers = f :: rest) (hf : f.data = a :: b :: c :: d :: more)
    (hcol : f.collisionPos = 0) :
    selUidResp true nc fuel st = some (.next
      { st with
        resp := memWrite st.resp f.data
        answers := rest
        sent := st.sent ++ [(st.sel_all, 16)]
        collisionPos := 0
        demodLen := f.data.length
        uid_resp := memWrite st.uid_resp [a, b, c, d]
        uid_resp_len := 4 }) := by
  unfold selUidResp
  have hr := ReaderReceive_cons (ReaderTransmit st st.sel_all 2) f rest hans
  simp only [if_true]
  rw [hr]
  have hl : f.data.length ≠ 0 := by rw [hf]; simp
  simp only [hl, if_false, hcol, ne_eq, not_true_eq_false]
  rw [hf]
  have hm : memRead (memWrite (ReaderTransmit st st.sel_all 2).resp (a :: b :: c :: d :: more)) 4
      = [a, b, c, d] := by
    rw [memRead_memWrite _ _ _ (by simp)]
    rfl
  rw [hm]
  rfl

theorem selCommand_fields (crcA : List Nat → Nat × Nat) (st : SelState) (a b c d : Nat)
    (hu : memRead st.uid_resp 4 = [a, b, c, d]) :
    (selCommand crcA st).answers = st.answers
      ∧ (selCommand crcA st).resp = st.resp
      ∧ (selCommand crcA st).uid_resp = st.uid_resp
      ∧ (selCommand crcA st).uid_resp_len = st.uid_resp_len
      ∧ (selCommand crcA st).cascade_level = st.cascade_level
      ∧ (selCommand crcA st).sel_all = st.sel_all
      ∧ (selCommand crcA st).iso14_pcb_blocknum = st.iso14_pcb_blocknum
      ∧ (selCommand crcA st).iso14a_timeout = st.iso14a_timeout
      ∧ (selCommand crcA st).card = st.card
      ∧ (selCommand crcA st).uid_ptr = st.uid_ptr
      ∧ (selCommand crcA st).cuid = st.cuid.map (fun _ => bytes_to_num [a, b, c, d] 4 % 2 ^ 32)
      ∧ (selCommand crcA st).sent = st.sent ++
          [(AppendCrc14443a crcA
              [st.sel_uid 0, 0x70, a, b, c, d, a ^^^ b ^^^ c ^^^ d, st.sel_uid 7, st.sel_uid 8] 7,
            72)] := by
  have h9 : memRead (memSet (memcpyAt (memSet st.sel_uid 1 0x70) 2 [a, b, c, d]) 6
      (memcpyAt (memSet st.sel_uid 1 0x70) 2 [a, b, c, d] 2
        ^^^ memcpyAt (memSet st.sel_uid 1 0x70) 2 [a, b, c, d] 3
        ^^^ memcpyAt (memSet st.sel_uid 1 0x70) 2 [a, b, c, d] 4
        ^^^ memcpyAt (memSet st.sel_uid 1 0x70) 2 [a, b, c, d] 5)) 9
      = [st.sel_uid 0, 0x70, a, b, c, d, a ^^^ b ^^^ c ^^^ d, st.sel_uid 7, st.sel_uid 8] := rfl
  have h99 : ∀ m : Mem, memRead (memWrite m (AppendCrc14443a crcA
      [st.sel_uid 0, 0x70, a, b, c, d, a ^^^ b ^^^ c ^^^ d, st.sel_uid 7, st.sel_uid 8] 7)) 9
      = AppendCrc14443a crcA
      [st.sel_uid 0, 0x70, a, b, c, d, a ^^^ b ^^^ c ^^^ d, st.sel_uid 7, st.sel_uid 8] 7 :=
    fun m => rfl
  unfold selCommand
  simp only [hu]
  rw [h9, h99]
  exact ⟨rfl, rfl, rfl, rfl, rfl, rfl, rfl, rfl, rfl, rfl, rfl, rfl⟩

theorem selExpose_fields (anticollision : Bool) (st : SelState) (a b c d : Nat)
    (hu : memRead st.uid_resp 4 = [a, b, c, d]) (hlen : st.uid_resp_len = 4) :
    (selExpose anticollision st).answers = st.answers
      ∧ (selExpose anticollision st).sak = st.resp 0
      ∧ (selExpose anticollision st).resp = st.resp
      ∧ (selExpose anticollision st).cascade_level = st.cascade_level
      ∧ (selExpose anticollision st).sel_all = st.sel_all
      ∧ (selExpose anticollision st).iso14_pcb_blocknum = st.iso14_pcb_blocknum
      ∧ (selExpose anticollision st).iso14a_timeout = st.iso14a_timeout
      ∧ (selExpose anticollision st).cuid = st.cuid
      ∧ (selExpose anticollision st).sent = st.sent
      ∧ (selExpose anticollision st).card = st.card.map (fun (x : iso14a_card_select_t) =>
          { x with
            uid := memcpyAt x.uid (st.cascade_level * 3)
              (if st.resp 0 &&& 0x04 ≠ 0 then [b, c, d] else [a, b, c, d])
            uidlen := (x.uidlen + (if st.resp 0 &&& 0x04 ≠ 0 then 3 else 4)) % 256 })
      ∧ (selExpose anticollision st).uid_ptr = (if anticollision then
          st.uid_ptr.map (fun m => memcpyAt m (st.cascade_level * 3)
            (if st.resp 0 &&& 0x04 ≠ 0 then [b, c, d] else [a, b, c, d]))
          else st.uid_ptr) := by
  have hu1 : st.uid_resp 1 = b ∧ st.uid_resp 2 = c ∧ st.uid_resp 3 = d := by
    have h := hu
    simp [memRead, List.range_succ] at h
    exact h.2
  have h3 : memRead (memWrite st.uid_resp [b, c, d]) 3 = [b, c, d] := rfl
  unfold selExpose
  by_cases hs : st.resp 0 &&& 0x04 ≠ 0
  · cases anticollision
    · simp only [hs, if_true, if_false, Bool.false_eq_true, ne_eq, not_false_eq_true, hu1.1,
        hu1.2.1, hu1.2.2, h3]
      repeat' apply And.intro
      all_goals trivial
    · simp only [hs, if_true, ne_eq, not_false_eq_true, hu1.1, hu1.2.1, hu1.2.2, h3]
      repeat' apply And.intro
      all_goals trivial
  · cases anticollision
    · simp only [hs, if_false, Bool.false_eq_true, ne_eq, not_false_eq_true, hlen, hu]
      repeat' apply And.intro
      all_goals trivial
    · simp only [hs, if_false, if_true, ne_eq, not_false_eq_true, hlen, hu]
      repeat' apply And.intro
      all_goals trivial

theorem selSelect_next (crcA : List Nat → Nat × Nat) (anticollision : Bool) (st : SelState)
    (k : TagAnswer) (rest : List TagAnswer) (a b c d s : Nat) (srest : List Nat)
    (hans : st.answers = k :: rest) (hk : k.data = s :: srest)
    (hu : memRead st.uid_resp 4 = [a, b, c, d]) (hlen : st.uid_resp_len = 4) :
    ∃ st1, selSelect crcA anticollision st = .next st1
      ∧ st1.answers = rest ∧ st1.sak = s ∧ st1.cascade_level = st.cascade_level
      ∧ st1.sel_all = st.sel_all
      ∧ st1.iso14_pcb_blocknum = st.iso14_pcb_blocknum
      ∧ st1.iso14a_timeout = st.iso14a_timeout
      ∧ st1.cuid = st.cuid.map (fun _ => bytes_to_num [a, b, c, d] 4 % 2 ^ 32)
      ∧ st1.sent = st.sent ++
          [(AppendCrc14443a crcA
              [st.sel_uid 0, 0x70, a, b, c, d, a ^^^ b ^^^ c ^^^ d, st.sel_uid 7, st.sel_uid 8] 7,
            72)]
      ∧ st1.card = st.card.map (fun (x : iso14a_card_select_t) =>
          { x with
            uid := memcpyAt x.uid (st.cascade_level * 3)
              (if s &&& 0x04 ≠ 0 then [b, c, d] else [a, b, c, d])
            uidlen := (x.uidlen + (if s &&& 0x04 ≠ 0 then 3 else 4)) % 256 })
      ∧ st1.uid_ptr = (if anticollision then
          st.uid_ptr.map (fun m => memcpyAt m (st.cascade_level * 3)
            (if s &&& 0x04 ≠ 0 then [b, c, d] else [a, b, c, d]))
          else st.uid_ptr) := by
  obtain ⟨c1, c2, c3, c4, c5, c6, c7, c8, c9, c10, c11, c12⟩ := selCommand_fields crcA st a b c d hu
  have hl : k.data.length ≠ 0 := by rw [hk]; simp
  have hr := ReaderReceive_cons (selCommand crcA st) k rest (c1.trans hans)
  have h0 : memWrite (selCommand crcA st).resp k.data 0 = s := by
    rw [hk]
    simp [memWrite]
  obtain ⟨e1, e2, e3, e4, e5, e6, e7, e8, e9, e10, e11⟩ := selExpose_fields anticollision
    { selCommand crcA st with
      resp := memWrite (selCommand crcA st).resp k.data, answers := rest,
      collisionPos := k.collisionPos, demodLen := k.data.length } a b c d (c3 ▸ hu) (c4 ▸ hlen)
  refine ⟨selExpose anticollision
    { selCommand crcA st with
      resp := memWrite (selCommand crcA st).resp k.data, answers := rest,
      collisionPos := k.collisionPos, demodLen := k.data.length }, ?_, e1, ?_, ?_, ?_, ?_, ?_, ?_,
      ?_, ?_, ?_⟩
  · unfold selSelect
    simp only
    rw [hr]
    simp only [hl, if_false]
  · rw [e2]; exact h0
  · rw [e4]; exact c5
  · rw [e5]; exact c6
  · rw [e6]; exact c7
  · rw [e7]; exact c8
  · rw [e8]; exact c11
  · rw [e9]; exact c12
  · rw [e10]
    show Option.map _ (selCommand crcA st).card = _
    rw [c9]
    show Option.map (fun (x : iso14a_card_select_t) =>
      { x with
        uid := memcpyAt x.uid ((selCommand crcA st).cascade_level * 3)
          (if memWrite (selCommand crcA st).resp k.data 0 &&& 0x04 ≠ 0 then [b, c, d]
            else [a, b, c, d])
        uidlen := (x.uidlen + (if memWrite (selCommand crcA st).resp k.data 0 &&& 0x04 ≠ 0 then 3
          else 4)) % 256 }) st.card = _
    rw [h0, c5]
  · rw [e11]
    show (if anticollision then
      (selCommand crcA st).uid_ptr.map (fun m => memcpyAt m ((selCommand crcA st).cascade_level * 3)
        (if memWrite (selCommand crcA st).resp k.data 0 &&& 0x04 ≠ 0 then [b, c, d]
          else [a, b, c, d]))
      else (selCommand crcA st).uid_ptr) = _
    rw [h0, c5, c10]

/-- One cascade level of `iso14443a_select_card` with `anticollision` set, a
SELECT_ALL answer of at least four bytes without collision and a SAK
answer. -/
theorem selCascade_level (crcA : List Nat → Nat × Nat) (nc fuel : Nat) (st : SelState)
    (f k : TagAnswer) (rest : List TagAnswer) (a b c d s : Nat) (more srest : List Nat)
    (hsak : st.sak &&& 0x04 ≠ 0) (hans : st.answers = f :: k :: rest)
    (hf : f.data = a :: b :: c :: d :: more) (hcol : f.collisionPos = 0)
    (hk : k.data = s :: srest) :
    ∃ st1, selCascade crcA true nc (fuel + 1) st = selCascade crcA true nc fuel st1
      ∧ st1.answers = rest ∧ st1.sak = s ∧ st1.cascade_level = st.cascade_level + 1
      ∧ st1.sel_all = st.sel_all.set 0 ((0x93 + st.cascade_level * 2) % 256)
      ∧ st1.iso14_pcb_blocknum = st.iso14_pcb_blocknum
      ∧ st1.iso14a_timeout = st.iso14a_timeout
      ∧ st1.cuid = st.cuid.map (fun _ => bytes_to_num [a, b, c, d] 4 % 2 ^ 32)
      ∧ st1.sent = st.sent ++
          [(st.sel_all.set 0 ((0x93 + st.cascade_level * 2) % 256), 16),
           ([(0x93 + st.cascade_level * 2) % 256, 0x70, a, b, c, d, a ^^^ b ^^^ c ^^^ d,
              (crcA [(0x93 + st.cascade_level * 2) % 256, 0x70, a, b, c, d,
                a ^^^ b ^^^ c ^^^ d]).1,
              (crcA [(0x93 + st.cascade_level * 2) % 256, 0x70, a, b, c, d,
                a ^^^ b ^^^ c ^^^ d]).2], 72)]
      ∧ st1.card = st.card.map (fun (x : iso14a_card_select_t) =>
          { x with
            uid := memcpyAt x.uid (st.cascade_level * 3)
              (if s &&& 0x04 ≠ 0 then [b, c, d] else [a, b, c, d])
            uidlen := (x.uidlen + (if s &&& 0x04 ≠ 0 then 3 else 4)) % 256 })
      ∧ st1.uid_ptr = st.uid_ptr.map (fun m => memcpyAt m (st.cascade_level * 3)
            (if s &&& 0x04 ≠ 0 then [b, c, d] else [a, b, c, d])) := by
  have hA := selUidResp_no_collision nc fuel
    { st with sel_uid := memSet st.sel_uid 0 ((0x93 + st.cascade_level * 2) % 256)
              sel_all := st.sel_all.set 0 ((0x93 + st.cascade_level * 2) % 256) }
    f (k :: rest) a b c d more hans hf hcol
  obtain ⟨st1, h1, g1, g2, g3, g4, g5, g6, g7, g8, g9, g10⟩ := selSelect_next crcA true
    { st with
      sel_uid := memSet st.sel_uid 0 ((0x93 + st.cascade_level * 2) % 256)
      sel_all := st.sel_all.set 0 ((0x93 + st.cascade_level * 2) % 256)
      resp := memWrite st.resp f.data
      answers := k :: rest
      sent := st.sent ++ [(st.sel_all.set 0 ((0x93 + st.cascade_level * 2) % 256), 16)]
      collisionPos := 0
      demodLen := f.data.length
      uid_resp := memWrite st.uid_resp [a, b, c, d]
      uid_resp_len := 4 } k rest a b c d s srest rfl hk rfl rfl
  refine ⟨{ st1 with cascade_level := st1.cascade_level + 1 }, ?_, g1, g2, ?_, g4, g5, g6, g7, ?_,
    g9, ?_⟩
  · show selCascade crcA true nc (fuel + 1) st = _
    rw [selCascade]
    simp only [hsak, if_false]
    rw [hA]
    simp only
    rw [h1]
  · show st1.cascade_level + 1 = _
    rw [g3]
  · show st1.sent = _
    rw [g8]
    simp only [List.append_assoc]
    rfl
  · show st1.uid_ptr = _
    rw [g10]
    rfl

theorem selCascade_exit (crcA : List Nat → Nat × Nat) (anticollision : Bool) (nc fuel : Nat)
    (st : SelState) (hsak : st.sak &&& 0x04 = 0) :
    selCascade crcA anticollision nc (fuel + 1) st = some (.next st) := by
  rw [selCascade]
  simp only [hsak, if_true]

/-- The code after the loop leaves the UID, its length and the crypto UID as
they are and stores `sak` in the card record. -/
theorem selFinish_card (crcA : List Nat → Nat × Nat) (st : SelState) :
    (selFinish crcA st).2.cuid = st.cuid
      ∧ (selFinish crcA st).2.uid_ptr = st.uid_ptr
      ∧ (selFinish crcA st).2.card.map (fun c => (c.uid, c.uidlen, c.sak))
          = st.card.map (fun c => (c.uid, c.uidlen, st.sak)) := by
  unfold selFinish
  by_cases h20 : st.sak &&& 0x20 = 0
  · simp only [h20, if_true]
    refine ⟨by trivial, by trivial, ?_⟩
    cases st.card <;> rfl
  · simp only [h20, if_false]
    unfold ReaderReceive ReaderTransmit ReaderTransmitBits
    cases hans : st.answers with
    | nil =>
      refine ⟨by trivial, by trivial, ?_⟩
      cases st.card <;> rfl
    | cons a rest =>
      by_cases hl : a.data.length = 0
      · simp only [hl, if_true]
        refine ⟨by trivial, by trivial, ?_⟩
        cases st.card <;> rfl
      · simp only [hl, if_false]
        refine ⟨by trivial, by trivial, ?_⟩
        cases st.card <;> rfl

/-- The start of `iso14443a_select_card`: WUPA is sent, the ATQA is stored and,
unless its low five bits are zero, the loop over the cascade levels is entered
with `sak = 0x04` and `cascade_level = 0`. -/
theorem selRun_start (crcA : List Nat → Nat × Nat) (anticollision : Bool) (nc fuel : Nat)
    (uid_ptr : Option Mem) (card : Option iso14a_card_select_t) (cuid : Option Nat) (resp : Mem)
    (q : TagAnswer) (rest : List TagAnswer) (bn tmo q0 : Nat) (qr : List Nat)
    (hq : q.data = q0 :: qr) (hq0 : q0 &&& 0x1F ≠ 0) :
    ∃ st0, selRun crcA anticollision nc fuel (selInit uid_ptr card cuid resp (q :: rest) bn tmo)
        = (match selCascade crcA anticollision nc fuel st0 with
            | none => none
            | some (.return0 st) => some (0, st)
            | some (.next st) => some (selFinish crcA st))
      ∧ st0.answers = rest ∧ st0.sak = 0x04 ∧ st0.cascade_level = 0
      ∧ st0.sel_all = [0x93, 0x20]
      ∧ st0.iso14_pcb_blocknum = bn ∧ st0.iso14a_timeout = tmo
      ∧ st0.cuid = cuid
      ∧ st0.sent = [([0x52], 7)]
      ∧ st0.card = card.map (fun (x : iso14a_card_select_t) =>
          { x with atqa := memRead (memWrite resp q.data) 2, uidlen := 0, uid := memZero x.uid 10 })
      ∧ st0.uid_ptr = (if anticollision then uid_ptr.map (fun m => memZero m 10) else uid_ptr) := by
  have hl : q.data.length ≠ 0 := by rw [hq]; simp
  have h0 : memWrite resp q.data 0 = q0 := by
    rw [hq]
    simp [memWrite]
  have hr := ReaderReceive_cons
    (ReaderTransmitBits (selInit uid_ptr card cuid resp (q :: rest) bn tmo) [0x52] 7) q rest rfl
  have h0x : memWrite (ReaderTransmitBits (selInit uid_ptr card cuid resp (q :: rest) bn tmo)
      [0x52] 7).resp q.data 0 &&& 0x1F ≠ 0 := by
    show memWrite resp q.data 0 &&& 0x1F ≠ 0
    rw [h0]
    exact hq0
  refine ⟨{ selInit uid_ptr card cuid resp (q :: rest) bn tmo with
      sent := [([0x52], 7)]
      resp := memWrite resp q.data
      answers := rest
      collisionPos := q.collisionPos
      demodLen := q.data.length
      card := card.map (fun (x : iso14a_card_select_t) =>
          { x with atqa := memRead (memWrite resp q.data) 2, uidlen := 0, uid := memZero x.uid 10 })
      uid_ptr := (if anticollision then uid_ptr.map (fun m => memZero m 10) else uid_ptr) },
    ?_, rfl, rfl, rfl, rfl, rfl, rfl, rfl, rfl, rfl, rfl⟩
  unfold selRun
  simp only
  rw [hr]
  simp only [hl, if_false]
  cases anticollision
  · simp only [h0x, if_false, Bool.false_eq_true]
    rfl
  · simp only [h0x, if_false, if_true]
    rfl

theorem card_fields_read (c : Option iso14a_card_select_t) :
    c.map (fun x => (memRead x.uid 10, x.uidlen, x.sak))
      = (c.map (fun x => (x.uid, x.uidlen, x.sak))).map
          (fun p => (memRead p.1 10, p.2.1, p.2.2)) := by
  cases c <;> rfl

/-- C23 (reader selection returns the UID).  For a UID `u` of 4, 7 or 10 bytes:
when the ATQA has a bit set among its low five bits, the tag answers the
SELECT_ALL of each level without collision with the fragment of the level
(`88` and three UID bytes on the levels before the last, four UID bytes on the
last level, then a BCC byte) and each SELECT with a SAK whose bit 2 is set on
the levels before the last and clear on the last, then
`iso14443a_select_card` with `anticollision` set returns, the card record
holds `uid = u` (the rest of the ten bytes zero), `uidlen = |u|` and the last
SAK, and the crypto UID is the big-endian number of the four UID bytes of the
last level. -/
theorem select_card_returns_uid (crcA : List Nat → Nat × Nat) (uid_ptr : Option Mem)
    (card : iso14a_card_select_t) (cuid nc : Nat) (resp : Mem) (bn tmo : Nat) (q : TagAnswer)
    (tail : List TagAnswer) (q0 : Nat) (qr : List Nat)
    (u0 u1 u2 u3 u4 u5 u6 u7 u8 u9 b1 b2 b3 s1 s2 sT : Nat) (k1 k2 kT : List Nat)
    (hq : q.data = q0 :: qr) (hq0 : q0 &&& 0x1F ≠ 0)
    (hu : ∀ x ∈ [u0, u1, u2, u3, u4, u5, u6, u7, u8, u9], x < 256)
    (h1 : s1 &&& 0x04 ≠ 0) (h2 : s2 &&& 0x04 ≠ 0) (hT : sT &&& 0x04 = 0) :
    (iso14443a_select_card crcA uid_ptr (some card) (some cuid) true nc resp
        (q :: ⟨[u0, u1, u2, u3, b1], 0⟩ :: ⟨sT :: kT, 0⟩ :: tail) bn tmo).map
        (fun r => (r.2.card.map (fun c => (memRead c.uid 10, c.uidlen, c.sak)), r.2.cuid))
      = some (some ([u0, u1, u2, u3, 0, 0, 0, 0, 0, 0], 4, sT),
          some (2 ^ 24 * u0 + 2 ^ 16 * u1 + 2 ^ 8 * u2 + u3))
    ∧ (iso14443a_select_card crcA uid_ptr (some card) (some cuid) true nc resp
        (q :: ⟨[0x88, u0, u1, u2, b1], 0⟩ :: ⟨s1 :: k1, 0⟩
          :: ⟨[u3, u4, u5, u6, b2], 0⟩ :: ⟨sT :: kT, 0⟩ :: tail) bn tmo).map
        (fun r => (r.2.card.map (fun c => (memRead c.uid 10, c.uidlen, c.sak)), r.2.cuid))
      = some (some ([u0, u1, u2, u3, u4, u5, u6, 0, 0, 0], 7, sT),
          some (2 ^ 24 * u3 + 2 ^ 16 * u4 + 2 ^ 8 * u5 + u6))
    ∧ (iso14443a_select_card crcA uid_ptr (some card) (some cuid) true nc resp
        (q :: ⟨[0x88, u0, u1, u2, b1], 0⟩ :: ⟨s1 :: k1, 0⟩
          :: ⟨[0x88, u3, u4, u5, b2], 0⟩ :: ⟨s2 :: k2, 0⟩
          :: ⟨[u6, u7, u8, u9, b3], 0⟩ :: ⟨sT :: kT, 0⟩ :: tail) bn tmo).map
        (fun r => (r.2.card.map (fun c => (memRead c.uid 10, c.uidlen, c.sak)), r.2.cuid))
      = some (some ([u0, u1, u2, u3, u4, u5, u6, u7, u8, u9], 10, sT),
          some (2 ^ 24 * u6 + 2 ^ 16 * u7 + 2 ^ 8 * u8 + u9)) := by
  have v0 : u0 < 256 := hu u0 (by simp)
  have v1 : u1 < 256 := hu u1 (by simp)
  have v2 : u2 < 256 := hu u2 (by simp)
  have v3 : u3 < 256 := hu u3 (by simp)
  have v4 : u4 < 256 := hu u4 (by simp)
  have v5 : u5 < 256 := hu u5 (by simp)
  have v6 : u6 < 256 := hu u6 (by simp)
  have v7 : u7 < 256 := hu u7 (by simp)
  have v8 : u8 < 256 := hu u8 (by simp)
  have v9 : u9 < 256 := hu u9 (by simp)
  refine ⟨?_, ?_, ?_⟩
  · obtain ⟨st0, e0, a1, a2, a3, a4, a5, a6, a7, a8, a9, a10⟩ := selRun_start crcA true nc
      (tail.length + 1 + 1 + 1 + 1) uid_ptr (some card) (some cuid) resp q
      (⟨[u0, u1, u2, u3, b1], 0⟩ :: ⟨sT :: kT, 0⟩ :: tail) bn tmo q0 qr hq hq0
    obtain ⟨st1, e1, c1, c2, c3, c4, c5, c6, c7, c8, c9, c10⟩ := selCascade_level crcA nc
      (tail.length + 1 + 1 + 1) st0 _ _ tail u0 u1 u2 u3 sT [b1] kT (by rw [a2]; decide) a1 rfl
      rfl rfl
    have e2 := selCascade_exit crcA true nc (tail.length + 1 + 1) st1 (by rw [c2]; exact hT)
    have hrun : iso14443a_select_card crcA uid_ptr (some card) (some cuid) true nc resp
        (q :: ⟨[u0, u1, u2, u3, b1], 0⟩ :: ⟨sT :: kT, 0⟩ :: tail) bn tmo
        = some (selFinish crcA st1) := by
      show selRun crcA true nc (tail.length + 1 + 1 + 1 + 1) _ = _
      rw [e0, e1, e2]
    obtain ⟨f1, f2, f3⟩ := selFinish_card crcA st1
    rw [hrun, Option.map_some', card_fields_read, f3, f1, c7, a7, c9, a9, c2]
    simp only [Option.map_some', a3, hT, ne_eq, not_true_eq_false, if_false]
    rw [bytes_to_num_four u0 u1 u2 u3 [] v0 v1 v2 v3]
    rfl
  · obtain ⟨st0, e0, a1, a2, a3, a4, a5, a6, a7, a8, a9, a10⟩ := selRun_start crcA true nc
      (tail.length + 1 + 1 + 1 + 1 + 1 + 1) uid_ptr (some card) (some cuid) resp q
      (⟨[0x88, u0, u1, u2, b1], 0⟩ :: ⟨s1 :: k1, 0⟩
        :: ⟨[u3, u4, u5, u6, b2], 0⟩ :: ⟨sT :: kT, 0⟩ :: tail) bn tmo q0 qr hq hq0
    obtain ⟨st1, e1, c1, c2, c3, c4, c5, c6, c7, c8, c9, c10⟩ := selCascade_level crcA nc
      (tail.length + 1 + 1 + 1 + 1 + 1) st0 _ _ _ 0x88 u0 u1 u2 s1 [b1] k1 (by rw [a2]; decide) a1
      rfl rfl rfl
    obtain ⟨st2, e2, d1, d2, d3, d4, d5, d6, d7, d8, d9, d10⟩ := selCascade_level crcA nc
      (tail.length + 1 + 1 + 1 + 1) st1 _ _ tail u3 u4 u5 u6 sT [b2] kT (by rw [c2]; exact h1) c1
      rfl rfl rfl
    have e3 := selCascade_exit crcA true nc (tail.length + 1 + 1 + 1) st2 (by rw [d2]; exact hT)
    have hrun : iso14443a_select_card crcA uid_ptr (some card) (some cuid) true nc resp
        (q :: ⟨[0x88, u0, u1, u2, b1], 0⟩ :: ⟨s1 :: k1, 0⟩
          :: ⟨[u3, u4, u5, u6, b2], 0⟩ :: ⟨sT :: kT, 0⟩ :: tail) bn tmo
        = some (selFinish crcA st2) := by
      show selRun crcA true nc (tail.length + 1 + 1 + 1 + 1 + 1 + 1) _ = _
      rw [e0, e1, e2, e3]
    obtain ⟨f1, f2, f3⟩ := selFinish_card crcA st2
    rw [hrun, Option.map_some', card_fields_read, f3, f1, d7, c7, a7, d9, c9, a9, d2, c3]
    simp only [Option.map_some', a3, hT, h1, ne_eq, not_true_eq_false, not_false_eq_true, if_false,
      if_true]
    rw [bytes_to_num_four u3 u4 u5 u6 [] v3 v4 v5 v6]
    rfl
  · obtain ⟨st0, e0, a1, a2, a3, a4, a5, a6, a7, a8, a9, a10⟩ := selRun_start crcA true nc
      (tail.length + 1 + 1 + 1 + 1 + 1 + 1 + 1 + 1) uid_ptr (some card) (some cuid) resp q
      (⟨[0x88, u0, u1, u2, b1], 0⟩ :: ⟨s1 :: k1, 0⟩
        :: ⟨[0x88, u3, u4, u5, b2], 0⟩ :: ⟨s2 :: k2, 0⟩
        :: ⟨[u6, u7, u8, u9, b3], 0⟩ :: ⟨sT :: kT, 0⟩ :: tail) bn tmo q0 qr hq hq0
    obtain ⟨st1, e1, c1, c2, c3, c4, c5, c6, c7, c8, c9, c10⟩ := selCascade_level crcA nc
      (tail.length + 1 + 1 + 1 + 1 + 1 + 1 + 1) st0 _ _ _ 0x88 u0 u1 u2 s1 [b1] k1
      (by rw [a2]; decide) a1 rfl rfl rfl
    obtain ⟨st2, e2, d1, d2, d3, d4, d5, d6, d7, d8, d9, d10⟩ := selCascade_level crcA nc
      (tail.length + 1 + 1 + 1 + 1 + 1 + 1) st1 _ _ _ 0x88 u3 u4 u5 s2 [b2] k2
      (by rw [c2]; exact h1) c1 rfl rfl rfl
    obtain ⟨st3, e3, g1, g2, g3, g4, g5, g6, g7, g8, g9, g10⟩ := selCascade_level crcA nc
      (tail.length + 1 + 1 + 1 + 1 + 1) st2 _ _ tail u6 u7 u8 u9 sT [b3] kT
      (by rw [d2]; exact h2) d1 rfl rfl rfl
    have e4 := selCascade_exit crcA true nc (tail.length + 1 + 1 + 1 + 1) st3
      (by rw [g2]; exact hT)
    have hrun : iso14443a_select_card crcA uid_ptr (some card) (some cuid) true nc resp
        (q :: ⟨[0x88, u0, u1, u2, b1], 0⟩ :: ⟨s1 :: k1, 0⟩
          :: ⟨[0x88, u3, u4, u5, b2], 0⟩ :: ⟨s2 :: k2, 0⟩
          :: ⟨[u6, u7, u8, u9, b3], 0⟩ :: ⟨sT :: kT, 0⟩ :: tail) bn tmo
        = some (selFinish crcA st3) := by
      show selRun crcA true nc (tail.length + 1 + 1 + 1 + 1 + 1 + 1 + 1 + 1) _ = _
      rw [e0, e1, e2, e3, e4]
    obtain ⟨f1, f2, f3⟩ := selFinish_card crcA st3
    rw [hrun, Option.map_some', card_fields_read, f3, f1, g7, d7, c7, a7, g9, d9, c9, a9, g2,
      d3, c3]
    simp only [Option.map_some', a3, hT, h1, h2, ne_eq, not_true_eq_false, not_false_eq_true,
      if_false, if_true]
    rw [bytes_to_num_four u6 u7 u8 u9 [] v6 v7 v8 v9]
    rfl

theorem select_card_returns_uid_witness :
    (iso14443a_select_card crcZero none (some cardBlank) (some 0) true 0 (fun _ => 0)
        (⟨[0x44, 0x00], 0⟩ :: ⟨[0x04, 0x51, 0xF1, 0xA2, 0x2C], 0⟩ :: ⟨0x08 :: [0xb6, 0xdd], 0⟩ ::
            []) 0 0).map
        (fun r => (r.2.card.map (fun c => (memRead c.uid 10, c.uidlen, c.sak)), r.2.cuid))
      = some (some ([0x04, 0x51, 0xF1, 0xA2, 0, 0, 0, 0, 0, 0], 4, 0x08),
          some (2 ^ 24 * 0x04 + 2 ^ 16 * 0x51 + 2 ^ 8 * 0xF1 + 0xA2))
    ∧ (iso14443a_select_card crcZero none (some cardBlank) (some 0) true 0 (fun _ => 0)
        (⟨[0x44, 0x00], 0⟩ :: ⟨[0x88, 0x04, 0x51, 0xF1, 0x2C], 0⟩ :: ⟨0x04 :: [0xda, 0x17], 0⟩
          :: ⟨[0xA2, 0xB3, 0xC4, 0xD5, 0x00], 0⟩ :: ⟨0x08 :: [0xb6, 0xdd], 0⟩ :: []) 0 0).map
        (fun r => (r.2.card.map (fun c => (memRead c.uid 10, c.uidlen, c.sak)), r.2.cuid))
      = some (some ([0x04, 0x51, 0xF1, 0xA2, 0xB3, 0xC4, 0xD5, 0, 0, 0], 7, 0x08),
          some (2 ^ 24 * 0xA2 + 2 ^ 16 * 0xB3 + 2 ^ 8 * 0xC4 + 0xD5))
    ∧ (iso14443a_select_card crcZero none (some cardBlank) (some 0) true 0 (fun _ => 0)
        (⟨[0x44, 0x00], 0⟩ :: ⟨[0x88, 0x04, 0x51, 0xF1, 0x2C], 0⟩ :: ⟨0x04 :: [0xda, 0x17], 0⟩
          :: ⟨[0x88, 0xA2, 0xB3, 0xC4, 0x00], 0⟩ :: ⟨0x04 :: [0xda, 0x17], 0⟩
          :: ⟨[0xD5, 0xE6, 0xF7, 0x08, 0x11], 0⟩ :: ⟨0x08 :: [0xb6, 0xdd], 0⟩ :: []) 0 0).map
        (fun r => (r.2.card.map (fun c => (memRead c.uid 10, c.uidlen, c.sak)), r.2.cuid))
      = some (some ([0x04, 0x51, 0xF1, 0xA2, 0xB3, 0xC4, 0xD5, 0xE6, 0xF7, 0x08], 10, 0x08),
          some (2 ^ 24 * 0xD5 + 2 ^ 16 * 0xE6 + 2 ^ 8 * 0xF7 + 0x08)) :=
  select_card_returns_uid crcZero none cardBlank 0 0 (fun _ => 0) 0 0 ⟨[0x44, 0x00], 0⟩ [] 0x44
      [0x00]
    0x04 0x51 0xF1 0xA2 0xB3 0xC4 0xD5 0xE6 0xF7 0x08 0x2C 0x00 0x11 0x04 0x04 0x08 [0xda, 0x17]
    [0xda, 0x17] [0xb6, 0xdd] rfl (by decide) (by decide) (by decide) (by decide) (by decide)

/-! ## Reader: the end of `iso14443a_select_card` -/

theorem selFinish_plain (crcA : List Nat → Nat × Nat) (st : SelState)
    (h : st.sak &&& 0x20 = 0) :
    selFinish crcA st
      = (2, { st with card := st.card.map fun (c : iso14a_card_select_t) =>
                { c with sak := st.sak, ats_len := 0 } }) := by
  unfold selFinish
  simp only [h, if_true]

theorem selFinish_silent (crcA : List Nat → Nat × Nat) (st : SelState)
    (h : st.sak &&& 0x20 ≠ 0) (hans : st.answers = []) :
    (selFinish crcA st).1 = 0
      ∧ (selFinish crcA st).2.sent = st.sent ++
          [([0xE0, 0x80, (crcA [0xE0, 0x80]).1, (crcA [0xE0, 0x80]).2], 32)]
      ∧ (selFinish crcA st).2.card = st.card.map fun (c : iso14a_card_select_t) =>
          { c with sak := st.sak, ats_len := 0 } := by
  unfold selFinish
  simp only [h, if_false]
  generalize hT : ReaderTransmit _ _ _ = T
  have hTa : T.answers = [] := by rw [← hT]; exact hans
  rw [ReaderReceive_nil T hTa]
  simp only [if_true]
  subst hT
  exact ⟨by trivial, by trivial, by trivial⟩

theorem selFinish_ats (crcA : List Nat → Nat × Nat) (st : SelState) (a : TagAnswer)
    (rest : List TagAnswer) (h : st.sak &&& 0x20 ≠ 0) (hans : st.answers = a :: rest)
    (ha : a.data ≠ []) :
    (selFinish crcA st).1 = 1
      ∧ (selFinish crcA st).2.sent = st.sent ++
          [([0xE0, 0x80, (crcA [0xE0, 0x80]).1, (crcA [0xE0, 0x80]).2], 32)]
      ∧ (selFinish crcA st).2.iso14_pcb_blocknum = 0
      ∧ (selFinish crcA st).2.iso14a_timeout
          = iso14a_set_ATS_timeout (memWrite st.resp a.data) st.iso14a_timeout
      ∧ (selFinish crcA st).2.card = st.card.map fun (c : iso14a_card_select_t) =>
          { c with sak := st.sak, ats_len := a.data.length % 256,
                   ats := memRead (memWrite st.resp a.data) ATS_SIZE } := by
  have hl : a.data.length ≠ 0 := fun h0 => ha (List.length_eq_zero.mp h0)
  unfold selFinish
  simp only [h, if_false]
  generalize hT : ReaderTransmit _ _ _ = T
  have hTa : T.answers = a :: rest := by rw [← hT]; exact hans
  rw [ReaderReceive_cons T a rest hTa]
  simp only [hl, if_false]
  subst hT
  refine ⟨by trivial, by trivial, by trivial, by trivial, ?_⟩
  show Option.map _ (Option.map _ st.card) = _
  cases st.card <;> rfl

/-- A selection of one cascade level without collision: what was transmitted
and the variables when the loop over the cascade levels is left. -/
theorem select_card_one_level (crcA : List Nat → Nat × Nat) (uid_ptr : Option Mem)
    (card : Option iso14a_card_select_t) (cuid : Option Nat) (nc : Nat) (resp : Mem)
    (bn tmo : Nat) (q : TagAnswer) (tail : List TagAnswer) (q0 : Nat) (qr : List Nat)
    (a b c d sT : Nat) (more kT : List Nat)
    (hq : q.data = q0 :: qr) (hq0 : q0 &&& 0x1F ≠ 0) (hT : sT &&& 0x04 = 0) :
    ∃ st1, iso14443a_select_card crcA uid_ptr card cuid true nc resp
          (q :: ⟨a :: b :: c :: d :: more, 0⟩ :: ⟨sT :: kT, 0⟩ :: tail) bn tmo
        = some (selFinish crcA st1)
      ∧ st1.answers = tail ∧ st1.sak = sT
      ∧ st1.iso14_pcb_blocknum = bn ∧ st1.iso14a_timeout = tmo
      ∧ st1.sent = [([0x52], 7), ([0x93, 0x20], 16),
          ([0x93, 0x70, a, b, c, d, a ^^^ b ^^^ c ^^^ d,
            (crcA [0x93, 0x70, a, b, c, d, a ^^^ b ^^^ c ^^^ d]).1,
            (crcA [0x93, 0x70, a, b, c, d, a ^^^ b ^^^ c ^^^ d]).2], 72)]
      ∧ st1.card.isSome = card.isSome := by
  obtain ⟨st0, e0, a1, a2, a3, a4, a5, a6, a7, a8, a9, a10⟩ := selRun_start crcA true nc
    (tail.length + 1 + 1 + 1 + 1) uid_ptr card cuid resp q
    (⟨a :: b :: c :: d :: more, 0⟩ :: ⟨sT :: kT, 0⟩ :: tail) bn tmo q0 qr hq hq0
  obtain ⟨st1, e1, c1, c2, c3, c4, c5, c6, c7, c8, c9, c10⟩ := selCascade_level crcA nc
    (tail.length + 1 + 1 + 1) st0 _ _ tail a b c d sT more kT (by rw [a2]; decide) a1 rfl
    rfl rfl
  have e2 := selCascade_exit crcA true nc (tail.length + 1 + 1) st1 (by rw [c2]; exact hT)
  refine ⟨st1, ?_, c1, c2, c5.trans a5, c6.trans a6, ?_, ?_⟩
  · show selRun crcA true nc (tail.length + 1 + 1 + 1 + 1) _ = _
    rw [e0, e1, e2]
  · rw [c8, a8, a4, a3]
    rfl
  · rw [c9, a9]
    cases card <;> rfl

/-- An ATQA whose low five bits are zero: the function returns 3 when only
WUPA has been sent. -/
theorem select_card_proprietary (crcA : List Nat → Nat × Nat) (uid_ptr : Option Mem)
    (card : Option iso14a_card_select_t) (cuid : Option Nat) (anticollision : Bool) (nc : Nat)
    (resp : Mem) (bn tmo : Nat) (q : TagAnswer) (rest : List TagAnswer) (q0 : Nat) (qr : List Nat)
    (hq : q.data = q0 :: qr) (hq0 : q0 &&& 0x1F = 0) :
    (iso14443a_select_card crcA uid_ptr card cuid anticollision nc resp (q :: rest) bn tmo).map
        (fun r => (r.1, r.2.sent)) = some (3, [([0x52], 7)]) := by
  have hl : q.data.length ≠ 0 := by rw [hq]; simp
  have h0 : memWrite resp q.data 0 = q0 := by
    rw [hq]
    simp [memWrite]
  have hr := ReaderReceive_cons
    (ReaderTransmitBits (selInit uid_ptr card cuid resp (q :: rest) bn tmo) [0x52] 7) q rest rfl
  have h0x : memWrite (ReaderTransmitBits (selInit uid_ptr card cuid resp (q :: rest) bn tmo)
      [0x52] 7).resp q.data 0 &&& 0x1F = 0 := by
    show memWrite resp q.data 0 &&& 0x1F = 0
    rw [h0]
    exact hq0
  unfold iso14443a_select_card selRun
  simp only
  rw [hr]
  simp only [hl, if_false]
  cases anticollision
  · simp only [h0x, if_true, Bool.false_eq_true, if_false]
    rfl
  · simp only [h0x, if_true]
    rfl

theorem iso14a_set_ATS_timeout_congr (m1 m2 : Mem) (t : Nat)
    (h : m1 0 = m2 0 ∧ m1 1 = m2 1 ∧ m1 2 = m2 2 ∧ m1 3 = m2 3) :
    iso14a_set_ATS_timeout m1 t = iso14a_set_ATS_timeout m2 t := by
  unfold iso14a_set_ATS_timeout
  rw [h.1, h.2.1, h.2.2.1, h.2.2.2]

theorem memWrite_congr (m1 m2 : Mem) (xs : List Nat) (i : Nat) (hi : i < xs.length) :
    memWrite m1 xs i = memWrite m2 xs i := by
  unfold memWrite
  rw [if_pos hi, if_pos hi]

/-- C26 (end of selection).  For any variables `st` with which the loop over
the cascade levels is left: when bit 5 of `sak` is clear the function returns 2,
nothing more is transmitted and the card record has that SAK and
`ats_len = 0`; otherwise RATS `E0 80` with CRC-A is transmitted, the function
returns 0 when no answer comes, and on an answer `x` it returns 1 with
`iso14_pcb_blocknum = 0`, the timeout set from the ATS by
`iso14a_set_ATS_timeout` and the length of the ATS in the card record.  When
the low five bits of the first ATQA byte are zero the function returns 3 and
only WUPA has been sent.  For a selection of one cascade level without
collision these are the results of `iso14443a_select_card`: 2 without RATS, 0
with RATS and no ATS, 1 with RATS and an ATS (here of four bytes or more). -/
theorem end_of_selection (crcA : List Nat → Nat × Nat) (st : SelState) (x : TagAnswer)
    (rest : List TagAnswer) (uid_ptr : Option Mem) (card : iso14a_card_select_t)
    (cuid : Option Nat) (anticollision : Bool) (nc : Nat) (resp : Mem) (bn tmo : Nat)
    (q : TagAnswer) (q0 : Nat) (qr : List Nat) (a b c d sT : Nat) (more kT : List Nat)
    (hq : q.data = q0 :: qr) (hT : sT &&& 0x04 = 0) (hx : 4 ≤ x.data.length) :
    (st.sak &&& 0x20 = 0 →
        (selFinish crcA st).1 = 2 ∧ (selFinish crcA st).2.sent = st.sent
          ∧ (selFinish crcA st).2.card.map (fun y => (y.sak, y.ats_len))
              = st.card.map (fun _ => (st.sak, 0)))
      ∧ (st.sak &&& 0x20 ≠ 0 → st.answers = [] →
        (selFinish crcA st).1 = 0
          ∧ (selFinish crcA st).2.sent = st.sent ++
              [([0xE0, 0x80, (crcA [0xE0, 0x80]).1, (crcA [0xE0, 0x80]).2], 32)])
      ∧ (st.sak &&& 0x20 ≠ 0 → st.answers = x :: rest →
        (selFinish crcA st).1 = 1
          ∧ (selFinish crcA st).2.sent = st.sent ++
              [([0xE0, 0x80, (crcA [0xE0, 0x80]).1, (crcA [0xE0, 0x80]).2], 32)]
          ∧ (selFinish crcA st).2.iso14_pcb_blocknum = 0
          ∧ (selFinish crcA st).2.iso14a_timeout
              = iso14a_set_ATS_timeout (memWrite st.resp x.data) st.iso14a_timeout
          ∧ (selFinish crcA st).2.card.map (fun y => (y.sak, y.ats_len))
              = st.card.map (fun _ => (st.sak, x.data.length % 256)))
      ∧ (q0 &&& 0x1F = 0 →
        (iso14443a_select_card crcA uid_ptr (some card) cuid anticollision nc resp (q :: rest)
            bn tmo).map (fun r => (r.1, r.2.sent)) = some (3, [([0x52], 7)]))
      ∧ (q0 &&& 0x1F ≠ 0 → sT &&& 0x20 = 0 →
        (iso14443a_select_card crcA uid_ptr (some card) cuid true nc resp
            (q :: ⟨a :: b :: c :: d :: more, 0⟩ :: ⟨sT :: kT, 0⟩ :: x :: rest) bn tmo).map
            (fun r => (r.1, r.2.sent, r.2.card.map (fun y => (y.sak, y.ats_len))))
          = some (2, [([0x52], 7), ([0x93, 0x20], 16),
              ([0x93, 0x70, a, b, c, d, a ^^^ b ^^^ c ^^^ d,
                (crcA [0x93, 0x70, a, b, c, d, a ^^^ b ^^^ c ^^^ d]).1,
                (crcA [0x93, 0x70, a, b, c, d, a ^^^ b ^^^ c ^^^ d]).2], 72)],
              some (sT, 0)))
      ∧ (q0 &&& 0x1F ≠ 0 → sT &&& 0x20 ≠ 0 →
        (iso14443a_select_card crcA uid_ptr (some card) cuid true nc resp
            [q, ⟨a :: b :: c :: d :: more, 0⟩, ⟨sT :: kT, 0⟩] bn tmo).map
            (fun r => (r.1, r.2.sent))
          = some (0, [([0x52], 7), ([0x93, 0x20], 16),
              ([0x93, 0x70, a, b, c, d, a ^^^ b ^^^ c ^^^ d,
                (crcA [0x93, 0x70, a, b, c, d, a ^^^ b ^^^ c ^^^ d]).1,
                (crcA [0x93, 0x70, a, b, c, d, a ^^^ b ^^^ c ^^^ d]).2], 72),
              ([0xE0, 0x80, (crcA [0xE0, 0x80]).1, (crcA [0xE0, 0x80]).2], 32)]))
      ∧ (q0 &&& 0x1F ≠ 0 → sT &&& 0x20 ≠ 0 →
        (iso14443a_select_card crcA uid_ptr (some card) cuid true nc resp
            (q :: ⟨a :: b :: c :: d :: more, 0⟩ :: ⟨sT :: kT, 0⟩ :: x :: rest) bn tmo).map
            (fun r => (r.1, r.2.sent, r.2.iso14_pcb_blocknum, r.2.iso14a_timeout,
              r.2.card.map (fun y => (y.sak, y.ats_len))))
          = some (1, [([0x52], 7), ([0x93, 0x20], 16),
              ([0x93, 0x70, a, b, c, d, a ^^^ b ^^^ c ^^^ d,
                (crcA [0x93, 0x70, a, b, c, d, a ^^^ b ^^^ c ^^^ d]).1,
                (crcA [0x93, 0x70, a, b, c, d, a ^^^ b ^^^ c ^^^ d]).2], 72),
              ([0xE0, 0x80, (crcA [0xE0, 0x80]).1, (crcA [0xE0, 0x80]).2], 32)],
              0, iso14a_set_ATS_timeout (memWrite (fun _ => 0) x.data) tmo,
              some (sT, x.data.length % 256))) := by
  have hxne : x.data ≠ [] := by
    intro h0
    rw [h0] at hx
    exact absurd hx (by decide)
  refine ⟨fun h => ?_, fun h hans => ?_, fun h hans => ?_, fun h3 => ?_, fun hq0 h20 => ?_,
    fun hq0 h20 => ?_, fun hq0 h20 => ?_⟩
  · rw [selFinish_plain crcA st h]
    refine ⟨rfl, rfl, ?_⟩
    show Option.map _ (Option.map _ st.card) = _
    cases st.card <;> rfl
  · obtain ⟨r1, r2, -⟩ := selFinish_silent crcA st h hans
    exact ⟨r1, r2⟩
  · obtain ⟨r1, r2, r3, r4, r5⟩ := selFinish_ats crcA st x rest h hans hxne
    refine ⟨r1, r2, r3, r4, ?_⟩
    rw [r5]
    cases st.card <;> rfl
  · exact select_card_proprietary crcA uid_ptr (some card) cuid anticollision nc resp bn tmo q rest
      q0 qr hq h3
  · obtain ⟨st1, e1, c1, c2, c3, c4, c5, c6⟩ := select_card_one_level crcA uid_ptr (some card)
      cuid nc resp bn tmo q (x :: rest) q0 qr a b c d sT more kT hq hq0 hT
    obtain ⟨y, hy⟩ := Option.isSome_iff_exists.mp c6
    rw [e1, Option.map_some', selFinish_plain crcA st1 (by rw [c2]; exact h20), c5, hy, c2]
    rfl
  · obtain ⟨st1, e1, c1, c2, c3, c4, c5, c6⟩ := select_card_one_level crcA uid_ptr (some card)
      cuid nc resp bn tmo q [] q0 qr a b c d sT more kT hq hq0 hT
    obtain ⟨r1, r2, -⟩ := selFinish_silent crcA st1 (by rw [c2]; exact h20) c1
    rw [e1, Option.map_some', r1, r2, c5]
    rfl
  · obtain ⟨st1, e1, c1, c2, c3, c4, c5, c6⟩ := select_card_one_level crcA uid_ptr (some card)
      cuid nc resp bn tmo q (x :: rest) q0 qr a b c d sT more kT hq hq0 hT
    obtain ⟨y, hy⟩ := Option.isSome_iff_exists.mp c6
    obtain ⟨r1, r2, r3, r4, r5⟩ := selFinish_ats crcA st1 x rest (by rw [c2]; exact h20) c1 hxne
    rw [e1, Option.map_some', r1, r2, r3, r4, r5, c5, c4, hy, c2,
      iso14a_set_ATS_timeout_congr (memWrite st1.resp x.data) (memWrite (fun _ => 0) x.data) tmo
        ⟨memWrite_congr _ _ _ 0 (by omega), memWrite_congr _ _ _ 1 (by omega),
          memWrite_congr _ _ _ 2 (by omega), memWrite_congr _ _ _ 3 (by omega)⟩]
    rfl

theorem end_of_selection_witness :
    (selBlank.sak &&& 0x20 = 0 →
        (selFinish crcZero selBlank).1 = 2 ∧ (selFinish crcZero selBlank).2.sent = selBlank.sent
          ∧ (selFinish crcZero selBlank).2.card.map (fun y => (y.sak, y.ats_len))
              = selBlank.card.map (fun _ => (selBlank.sak, 0)))
      ∧ (selBlank.sak &&& 0x20 ≠ 0 → selBlank.answers = [] →
        (selFinish crcZero selBlank).1 = 0
          ∧ (selFinish crcZero selBlank).2.sent = selBlank.sent ++
              [([0xE0, 0x80, (crcZero [0xE0, 0x80]).1, (crcZero [0xE0, 0x80]).2], 32)])
      ∧ (selBlank.sak &&& 0x20 ≠ 0 → selBlank.answers = atsAnswer :: [] →
        (selFinish crcZero selBlank).1 = 1
          ∧ (selFinish crcZero selBlank).2.sent = selBlank.sent ++
              [([0xE0, 0x80, (crcZero [0xE0, 0x80]).1, (crcZero [0xE0, 0x80]).2], 32)]
          ∧ (selFinish crcZero selBlank).2.iso14_pcb_blocknum = 0
          ∧ (selFinish crcZero selBlank).2.iso14a_timeout
              = iso14a_set_ATS_timeout (memWrite selBlank.resp atsAnswer.data)
                  selBlank.iso14a_timeout
          ∧ (selFinish crcZero selBlank).2.card.map (fun y => (y.sak, y.ats_len))
              = selBlank.card.map (fun _ => (selBlank.sak, atsAnswer.data.length % 256)))
      ∧ (0x04 &&& 0x1F = 0 →
        (iso14443a_select_card crcZero none (some cardBlank) none true 0 (fun _ => 0) (atqaAnswer
            :: [])
            5 7).map (fun r => (r.1, r.2.sent)) = some (3, [([0x52], 7)]))
      ∧ (0x04 &&& 0x1F ≠ 0 → 0x28 &&& 0x20 = 0 →
        (iso14443a_select_card crcZero none (some cardBlank) none true 0 (fun _ => 0)
            (atqaAnswer :: ⟨0xDE :: 0xAD :: 0xBE :: 0xAF :: [0x62], 0⟩ :: ⟨0x28 :: [0x00, 0x00], 0⟩
                :: atsAnswer :: []) 5 7).map
            (fun r => (r.1, r.2.sent, r.2.card.map (fun y => (y.sak, y.ats_len))))
          = some (2, [([0x52], 7), ([0x93, 0x20], 16),
              ([0x93, 0x70, 0xDE, 0xAD, 0xBE, 0xAF, 0xDE ^^^ 0xAD ^^^ 0xBE ^^^ 0xAF,
                (crcZero [0x93, 0x70, 0xDE, 0xAD, 0xBE, 0xAF, 0xDE ^^^ 0xAD ^^^ 0xBE ^^^ 0xAF]).1,
                (crcZero [0x93, 0x70, 0xDE, 0xAD, 0xBE, 0xAF, 0xDE ^^^ 0xAD ^^^ 0xBE ^^^ 0xAF]).2],
                    72)],
              some (0x28, 0)))
      ∧ (0x04 &&& 0x1F ≠ 0 → 0x28 &&& 0x20 ≠ 0 →
        (iso14443a_select_card crcZero none (some cardBlank) none true 0 (fun _ => 0)
            [atqaAnswer, ⟨0xDE :: 0xAD :: 0xBE :: 0xAF :: [0x62], 0⟩, ⟨0x28 :: [0x00, 0x00], 0⟩] 5
                7).map
            (fun r => (r.1, r.2.sent))
          = some (0, [([0x52], 7), ([0x93, 0x20], 16),
              ([0x93, 0x70, 0xDE, 0xAD, 0xBE, 0xAF, 0xDE ^^^ 0xAD ^^^ 0xBE ^^^ 0xAF,
                (crcZero [0x93, 0x70, 0xDE, 0xAD, 0xBE, 0xAF, 0xDE ^^^ 0xAD ^^^ 0xBE ^^^ 0xAF]).1,
                (crcZero [0x93, 0x70, 0xDE, 0xAD, 0xBE, 0xAF, 0xDE ^^^ 0xAD ^^^ 0xBE ^^^ 0xAF]).2],
                    72),
              ([0xE0, 0x80, (crcZero [0xE0, 0x80]).1, (crcZero [0xE0, 0x80]).2], 32)]))
      ∧ (0x04 &&& 0x1F ≠ 0 → 0x28 &&& 0x20 ≠ 0 →
        (iso14443a_select_card crcZero none (some cardBlank) none true 0 (fun _ => 0)
            (atqaAnswer :: ⟨0xDE :: 0xAD :: 0xBE :: 0xAF :: [0x62], 0⟩ :: ⟨0x28 :: [0x00, 0x00], 0⟩
                :: atsAnswer :: []) 5 7).map
            (fun r => (r.1, r.2.sent, r.2.iso14_pcb_blocknum, r.2.iso14a_timeout,
              r.2.card.map (fun y => (y.sak, y.ats_len))))
          = some (1, [([0x52], 7), ([0x93, 0x20], 16),
              ([0x93, 0x70, 0xDE, 0xAD, 0xBE, 0xAF, 0xDE ^^^ 0xAD ^^^ 0xBE ^^^ 0xAF,
                (crcZero [0x93, 0x70, 0xDE, 0xAD, 0xBE, 0xAF, 0xDE ^^^ 0xAD ^^^ 0xBE ^^^ 0xAF]).1,
                (crcZero [0x93, 0x70, 0xDE, 0xAD, 0xBE, 0xAF, 0xDE ^^^ 0xAD ^^^ 0xBE ^^^ 0xAF]).2],
                    72),
              ([0xE0, 0x80, (crcZero [0xE0, 0x80]).1, (crcZero [0xE0, 0x80]).2], 32)],
              0, iso14a_set_ATS_timeout (memWrite (fun _ => 0) atsAnswer.data) 7,
              some (0x28, atsAnswer.data.length % 256))) :=
  end_of_selection crcZero selBlank atsAnswer [] none cardBlank none true 0 (fun _ => 0) 5 7
      atqaAnswer
    0x04 [0x00] 0xDE 0xAD 0xBE 0xAF 0x28 [0x62] [0x00, 0x00] rfl (by decide) (by decide)

/-! ## The 4-byte UID `DE AD BE AF`: emulator and reader -/

theorem Mifare1ksim_init_4B (env : MfEnv) (flags : MfFlags) (emul : Mem) (rng : Nat)
    (u0 u1 u2 u3 : Nat) (h4 : flags.FLAG_4B_UID_IN_DATA = true) :
    mfIdent (Mifare1ksim_init env flags [u0, u1, u2, u3] emul rng)
      = ([0x04, 0x00], [u0, u1, u2, u3, u0 ^^^ u1 ^^^ u2 ^^^ u3],
          [0xde, 0xad, 0xbe, 0xaf, 0x62], [0xde, 0xad, 0xbe, 0xaf, 0x62],
          [0x08, 0xb6, 0xdd], [0x04, 0xda, 0x17], 4,
          bytes_to_num [u0, u1, u2, u3, u0 ^^^ u1 ^^^ u2 ^^^ u3] 4 % 2 ^ 32) := by
  obtain ⟨f1, f2, f3, f4, f5, f6⟩ := flags
  dsimp only at h4
  subst h4
  cases f6 <;> rfl

/-- C22, as stated, fails: the BCC that the emulator appends to `DE AD BE AF`
and that the reader puts in byte 6 of its SELECT command is `0x62`, not
`0xCC`. -/
theorem scenario1_check_byte_counterexample :
    sim4B.rUIDBCC1.getD 4 0 = 0x62
      ∧ (iso14443a_select_card crcZero none (some cardBlank) none true 0 (fun _ => 0)
          [⟨sim4B.rATQA, 0⟩, ⟨sim4B.rUIDBCC1, 0⟩, ⟨sim4B.rSAKfinal, 0⟩] 0 0).map
          (fun r => (r.2.sent.getD 2 ([], 0)).1.getD 6 0) = some 0x62
      ∧ (0x62 : Nat) ≠ 0xCC := by
  decide

/-- C22 (scenario 1, amended).  For the 4-byte UID `DE AD BE AF` given with
`FLAG_4B_UID_IN_DATA`, at every point of every run of the emulator the answer
to SELECT_ALL is `DE AD BE AF 62` (the BCC is `0x62`), the ATQA is `04 00` and
the final SAK is `0x08`; and a reader whose tag gives these answers sends the
SELECT command `93 70 DE AD BE AF 62` with CRC, whose byte 6 is `0x62`, and
returns 2. -/
theorem scenario1_check_byte (env : MfEnv) (flags : MfFlags) (n : Nat) (emul : Mem) (rng : Nat)
    (inputs : List MfInput) (crcA : List Nat → Nat × Nat) (uid_ptr : Option Mem)
    (card : Option iso14a_card_select_t) (cuid : Option Nat) (nc : Nat) (resp : Mem)
    (bn tmo : Nat) (tail : List TagAnswer) (h4 : flags.FLAG_4B_UID_IN_DATA = true) :
    (Mifare1ksim_after env flags n [0xDE, 0xAD, 0xBE, 0xAF] emul rng inputs).rUIDBCC1
        = [0xDE, 0xAD, 0xBE, 0xAF, 0x62]
      ∧ (Mifare1ksim_after env flags n [0xDE, 0xAD, 0xBE, 0xAF] emul rng inputs).rATQA
        = [0x04, 0x00]
      ∧ (Mifare1ksim_after env flags n [0xDE, 0xAD, 0xBE, 0xAF] emul rng inputs).rSAKfinal
        = [0x08, 0xb6, 0xdd]
      ∧ (iso14443a_select_card crcA uid_ptr card cuid true nc resp
          (⟨[0x04, 0x00], 0⟩ :: ⟨[0xDE, 0xAD, 0xBE, 0xAF, 0x62], 0⟩ :: ⟨[0x08, 0xb6, 0xdd], 0⟩
            :: tail) bn tmo).map (fun r => (r.1, r.2.sent))
        = some (2, [([0x52], 7), ([0x93, 0x20], 16),
            ([0x93, 0x70, 0xDE, 0xAD, 0xBE, 0xAF, 0x62,
              (crcA [0x93, 0x70, 0xDE, 0xAD, 0xBE, 0xAF, 0x62]).1,
              (crcA [0x93, 0x70, 0xDE, 0xAD, 0xBE, 0xAF, 0x62]).2], 72)]) := by
  have hid : mfIdent (Mifare1ksim_after env flags n [0xDE, 0xAD, 0xBE, 0xAF] emul rng inputs)
      = _ := (Mifare1ksim_run_ident env flags n inputs _).trans
        (Mifare1ksim_init_4B env flags emul rng 0xDE 0xAD 0xBE 0xAF h4)
  generalize Mifare1ksim_after env flags n [0xDE, 0xAD, 0xBE, 0xAF] emul rng inputs = s at hid ⊢
  simp only [mfIdent, Prod.mk.injEq] at hid
  obtain ⟨i1, i2, -, -, i5, -, -, -⟩ := hid
  have hx : (0xDE ^^^ 0xAD ^^^ 0xBE ^^^ 0xAF : Nat) = 0x62 := by decide
  refine ⟨?_, i1, i5, ?_⟩
  · rw [i2, hx]
  · obtain ⟨st1, e1, c1, c2, c3, c4, c5, c6⟩ := select_card_one_level crcA uid_ptr card
      cuid nc resp bn tmo ⟨[0x04, 0x00], 0⟩ tail 0x04 [0x00] 0xDE 0xAD 0xBE 0xAF 0x08 [0x62]
      [0xb6, 0xdd] rfl (by decide) (by decide)
    rw [e1, Option.map_some', selFinish_plain crcA st1 (by rw [c2]; decide), c5, hx]

theorem scenario1_check_byte_witness :
    (Mifare1ksim_after envPlain flags4B 0 [0xDE, 0xAD, 0xBE, 0xAF] (fun _ => 0) 0
        [rx [0x52]]).rUIDBCC1
        = [0xDE, 0xAD, 0xBE, 0xAF, 0x62]
      ∧ (Mifare1ksim_after envPlain flags4B 0 [0xDE, 0xAD, 0xBE, 0xAF] (fun _ => 0) 0
        [rx [0x52]]).rATQA
        = [0x04, 0x00]
      ∧ (Mifare1ksim_after envPlain flags4B 0 [0xDE, 0xAD, 0xBE, 0xAF] (fun _ => 0) 0
        [rx [0x52]]).rSAKfinal
        = [0x08, 0xb6, 0xdd]
      ∧ (iso14443a_select_card crcZero none (some cardBlank) none true 0 (fun _ => 0)
          (⟨[0x04, 0x00], 0⟩ :: ⟨[0xDE, 0xAD, 0xBE, 0xAF, 0x62], 0⟩ :: ⟨[0x08, 0xb6, 0xdd], 0⟩
            :: []) 0 0).map (fun r => (r.1, r.2.sent))
        = some (2, [([0x52], 7), ([0x93, 0x20], 16),
            ([0x93, 0x70, 0xDE, 0xAD, 0xBE, 0xAF, 0x62,
              (crcZero [0x93, 0x70, 0xDE, 0xAD, 0xBE, 0xAF, 0x62]).1,
              (crcZero [0x93, 0x70, 0xDE, 0xAD, 0xBE, 0xAF, 0x62]).2], 72)]) :=
  scenario1_check_byte envPlain flags4B 0 (fun _ => 0) 0 [rx [0x52]] crcZero none
    (some cardBlank) none 0 (fun _ => 0) 0 0 [] rfl

/-! ## Reader: the cascade tag and the number of cascade levels -/

/-- C24, as stated, fails: with the SAK `08`, whose bit 2 is clear, all four
bytes `DE AD BE AF` are stored and `uidlen` is 4; with the SAK `04`, whose bit
2 is set, the first byte `88` is removed and three bytes are stored. -/
theorem cascade_tag_stripping_counterexample :
    (0x08 &&& 0x04 = 0)
      ∧ (iso14443a_select_card crcZero none (some cardBlank) none true 0 (fun _ => 0)
          [⟨[0x04, 0x00], 0⟩, ⟨[0xDE, 0xAD, 0xBE, 0xAF, 0x62], 0⟩, ⟨[0x08, 0xb6, 0xdd], 0⟩]
          0 0).map (fun r => r.2.card.map (fun c => (memRead c.uid 4, c.uidlen)))
        = some (some ([0xDE, 0xAD, 0xBE, 0xAF], 4))
      ∧ (0x04 &&& 0x04 ≠ 0)
      ∧ (iso14443a_select_card crcZero none (some cardBlank) none true 0 (fun _ => 0)
          [⟨[0x44, 0x00], 0⟩, ⟨[0x88, 0x04, 0x51, 0xF1, 0x2C], 0⟩, ⟨[0x04, 0xda, 0x17], 0⟩]
          0 0).map (fun r => r.2.card.map (fun c => (memRead c.uid 4, c.uidlen)))
        = some (some ([0x04, 0x51, 0xF1, 0x00], 3)) := by
  decide

/-- C24 (cascade tag, amended).  On each cascade level, with the four bytes
`a b c d` of the level in `uid_resp` and the SAK `s` received for the SELECT:
when bit 2 of `s` is set the first byte is removed and the three bytes `b c d`
are stored (at offset `3 * cascade_level` of the UID of the card record and,
with `anticollision`, of `uid_ptr`), and `uidlen` grows by 3; when bit 2 of `s`
is clear all four bytes `a b c d` are stored and `uidlen` grows by 4. -/
theorem cascade_tag_stripping (crcA : List Nat → Nat × Nat) (anticollision : Bool)
    (st : SelState) (k : TagAnswer) (rest : List TagAnswer) (a b c d s : Nat) (srest : List Nat)
    (hans : st.answers = k :: rest) (hk : k.data = s :: srest)
    (hu : memRead st.uid_resp 4 = [a, b, c, d]) (hlen : st.uid_resp_len = 4) :
    ∃ st1, selSelect crcA anticollision st = .next st1 ∧ st1.sak = s
      ∧ (s &&& 0x04 ≠ 0 →
          st1.card = st.card.map (fun (x : iso14a_card_select_t) =>
              { x with uid := memcpyAt x.uid (st.cascade_level * 3) [b, c, d]
                       uidlen := (x.uidlen + 3) % 256 })
            ∧ st1.uid_ptr = (if anticollision then
                st.uid_ptr.map (fun m => memcpyAt m (st.cascade_level * 3) [b, c, d])
              else st.uid_ptr))
      ∧ (s &&& 0x04 = 0 →
          st1.card = st.card.map (fun (x : iso14a_card_select_t) =>
              { x with uid := memcpyAt x.uid (st.cascade_level * 3) [a, b, c, d]
                       uidlen := (x.uidlen + 4) % 256 })
            ∧ st1.uid_ptr = (if anticollision then
                st.uid_ptr.map (fun m => memcpyAt m (st.cascade_level * 3) [a, b, c, d])
              else st.uid_ptr)) := by
  obtain ⟨st1, h1, g1, g2, g3, g4, g5, g6, g7, g8, g9, g10⟩ :=
    selSelect_next crcA anticollision st k rest a b c d s srest hans hk hu hlen
  refine ⟨st1, h1, g2, fun hs => ?_, fun hs => ?_⟩
  · rw [g9, g10]
    simp only [hs, ne_eq, not_false_eq_true, if_true]
    exact ⟨by trivial, by trivial⟩
  · rw [g9, g10]
    simp only [hs, ne_eq, not_true_eq_false, if_false]
    exact ⟨by trivial, by trivial⟩

theorem cascade_tag_stripping_witness :
    ∃ st1, selSelect crcZero true selAtSelect = .next st1 ∧ st1.sak = 0x08
      ∧ (0x08 &&& 0x04 ≠ 0 →
          st1.card = selAtSelect.card.map (fun (x : iso14a_card_select_t) =>
              { x with uid := memcpyAt x.uid (selAtSelect.cascade_level * 3) [0xAD, 0xBE, 0xAF]
                       uidlen := (x.uidlen + 3) % 256 })
            ∧ st1.uid_ptr = (if true then
                selAtSelect.uid_ptr.map
                  (fun m => memcpyAt m (selAtSelect.cascade_level * 3) [0xAD, 0xBE, 0xAF])
              else selAtSelect.uid_ptr))
      ∧ (0x08 &&& 0x04 = 0 →
          st1.card = selAtSelect.card.map (fun (x : iso14a_card_select_t) =>
              { x with uid := memcpyAt x.uid (selAtSelect.cascade_level * 3)
                         [0xDE, 0xAD, 0xBE, 0xAF]
                       uidlen := (x.uidlen + 4) % 256 })
            ∧ st1.uid_ptr = (if true then
                selAtSelect.uid_ptr.map
                  (fun m => memcpyAt m (selAtSelect.cascade_level * 3) [0xDE, 0xAD, 0xBE, 0xAF])
              else selAtSelect.uid_ptr)) :=
  cascade_tag_stripping crcZero true selAtSelect sakAnswer [] 0xDE 0xAD 0xBE 0xAF 0x08
    [0xb6, 0xdd] rfl rfl rfl rfl

/-- C25 (evaluation).  With the tag `tagStuck`, whose SAK has bit 2 set on
every level, `iso14443a_select_card` runs a fourth cascade level with the
select code `0x99` and starts a fifth with `0x9B` before it returns 0 for want
of an answer; it has then stored twelve UID bytes, at the indices 0 to 11 of the
ten-byte arrays behind `uid_ptr` and in the card record, and `uidlen` is 12. -/
theorem cascade_levels_not_bounded :
    (iso14443a_select_card crcZero (some fun _ => 0) (some cardBlank) none true 0 (fun _ => 0)
        tagStuck 0 0).map (fun r => (r.1, r.2.cascade_level)) = some (0, 4)
      ∧ (iso14443a_select_card crcZero (some fun _ => 0) (some cardBlank) none true 0
          (fun _ => 0) tagStuck 0 0).map (fun r => r.2.sent.map (fun p => p.1.take 2))
        = some [[0x52], [0x93, 0x20], [0x93, 0x70], [0x95, 0x20], [0x95, 0x70], [0x97, 0x20],
            [0x97, 0x70], [0x99, 0x20], [0x99, 0x70], [0x9B, 0x20]]
      ∧ (iso14443a_select_card crcZero (some fun _ => 0) (some cardBlank) none true 0
          (fun _ => 0) tagStuck 0 0).map
          (fun r => r.2.card.map (fun c => (memRead c.uid 12, c.uidlen)))
        = some (some ([1, 2, 3, 1, 2, 3, 1, 2, 3, 1, 2, 3], 12))
      ∧ (iso14443a_select_card crcZero (some fun _ => 0) (some cardBlank) none true 0
          (fun _ => 0) tagStuck 0 0).map (fun r => r.2.uid_ptr.map (fun m => memRead m 12))
        = some (some [1, 2, 3, 1, 2, 3, 1, 2, 3, 1, 2, 3]) := by
  refine ⟨by decide, by decide, by decide, by decide⟩

/-! ## Reader: `iso14443a_select_card` returns -/

theorem ReaderReceive_length (st : SelState) :
    (ReaderReceive st).2.answers.length ≤ st.answers.length
      ∧ ((ReaderReceive st).1 ≠ 0 →
          (ReaderReceive st).2.answers.length + 1 = st.answers.length) := by
  unfold ReaderReceive
  cases h : st.answers with
  | nil => exact ⟨by simp [h], fun h0 => absurd rfl h0⟩
  | cons a rest => exact ⟨by simp, fun _ => by simp⟩

theorem selCollision_total :
    ∀ (fuel : Nat) (st : SelState) (bits off : Nat), st.answers.length < fuel →
      ∃ o, selCollision fuel st bits off = some o
        ∧ ∀ st1 b1 o1, o = .next (st1, b1, o1) → st1.answers.length ≤ st.answers.length
  | 0, _, _, _, h => absurd h (Nat.not_lt_zero _)
  | fuel + 1, st, bits, off, h => by
    rw [selCollision]
    by_cases hc : st.collisionPos = 0
    · simp only [hc, if_true]
      refine ⟨_, rfl, ?_⟩
      intro st1 b1 o1 e
      injection e with e
      injection e with e1 _
      rw [← e1]
    · simp only [hc, if_false]
      generalize hT : ReaderTransmitBits _ _ _ = T
      have hTa : T.answers = st.answers := by rw [← hT]; rfl
      obtain ⟨l1, l2⟩ := ReaderReceive_length T
      by_cases hr : (ReaderReceive T).1 = 0
      · simp only [hr, if_true]
        refine ⟨_, rfl, ?_⟩
        intro st1 b1 o1 e
        cases e
      · simp only [hr, if_false]
        have hlt : (ReaderReceive T).2.answers.length < fuel := by
          have := l2 hr
          rw [hTa] at this
          omega
        obtain ⟨o, ho, hb⟩ := selCollision_total fuel (ReaderReceive T).2 _ _ hlt
        refine ⟨o, ho, ?_⟩
        intro st1 b1 o1 e
        have := hb st1 b1 o1 e
        rw [hTa] at l1
        omega

theorem selUidResp_total (anticollision : Bool) (nc fuel : Nat) (st : SelState)
    (h : st.answers.length ≤ fuel) :
    ∃ o, selUidResp anticollision nc fuel st = some o
      ∧ ∀ st1, o = .next st1 → st1.answers.length ≤ st.answers.length := by
  unfold selUidResp
  cases anticollision
  · simp only [Bool.false_eq_true, if_false]
    split
    · refine ⟨_, rfl, ?_⟩
      intro st1 e
      injection e with e
      rw [← e]
    · refine ⟨_, rfl, ?_⟩
      intro st1 e
      injection e with e
      rw [← e]
  · simp only [if_true]
    generalize hT : ReaderTransmit _ _ _ = T
    have hTa : T.answers = st.answers := by rw [← hT]; rfl
    obtain ⟨l1, l2⟩ := ReaderReceive_length T
    rw [hTa] at l1 l2
    by_cases hr : (ReaderReceive T).1 = 0
    · simp only [hr, if_true]
      refine ⟨_, rfl, ?_⟩
      intro st1 e
      cases e
    · simp only [hr, if_false]
      by_cases hc : (ReaderReceive T).2.collisionPos = 0
      · simp only [hc, ne_eq, not_true_eq_false, if_false]
        refine ⟨_, rfl, ?_⟩
        intro st1 e
        injection e with e
        rw [← e]
        exact l1
      · simp only [hc, ne_eq, not_false_eq_true, if_true]
        have hlt : ({ (ReaderReceive T).2 with
            uid_resp := memZero (ReaderReceive T).2.uid_resp 4 } : SelState).answers.length
            < fuel := by
          show (ReaderReceive T).2.answers.length < fuel
          have := l2 hr
          omega
        obtain ⟨o, ho, hb⟩ := selCollision_total fuel _ 0 0 hlt
        rw [ho]
        cases o with
        | return0 s0 =>
          refine ⟨_, rfl, ?_⟩
          intro st1 e
          cases e
        | next p =>
          obtain ⟨s1, b1, o1⟩ := p
          refine ⟨_, rfl, ?_⟩
          intro st1 e
          injection e with e
          rw [← e]
          have := hb s1 b1 o1 rfl
          exact Nat.le_trans this l1

theorem selExpose_answers (anticollision : Bool) (st : SelState) :
    (selExpose anticollision st).answers = st.answers := by
  unfold selExpose
  by_cases hs : st.resp 0 &&& 0x04 ≠ 0 <;> cases anticollision <;>
    simp only [hs, if_true, if_false, Bool.false_eq_true, ne_eq, not_false_eq_true,
      not_true_eq_false]

theorem selSelect_length (crcA : List Nat → Nat × Nat) (anticollision : Bool) (st st1 : SelState)
    (h : selSelect crcA anticollision st = .next st1) :
    st1.answers.length < st.answers.length := by
  unfold selSelect at h
  simp only at h
  have hTa : (selCommand crcA st).answers = st.answers := rfl
  obtain ⟨l1, l2⟩ := ReaderReceive_length (selCommand crcA st)
  by_cases hr : (ReaderReceive (selCommand crcA st)).1 = 0
  · rw [if_pos hr] at h
    cases h
  · rw [if_neg hr] at h
    injection h with h
    have e : st1.answers = (ReaderReceive (selCommand crcA st)).2.answers := by
      rw [← h]
      exact selExpose_answers anticollision _
    rw [e]
    have := l2 hr
    rw [hTa] at this
    omega

theorem selCascade_total (crcA : List Nat → Nat × Nat) (anticollision : Bool) (nc : Nat) :
    ∀ (fuel : Nat) (st : SelState), st.answers.length < fuel →
      ∃ o, selCascade crcA anticollision nc fuel st = some o
  | 0, _, h => absurd h (Nat.not_lt_zero _)
  | fuel + 1, st, h => by
    rw [selCascade]
    by_cases hs : st.sak &&& 0x04 = 0
    · simp only [hs, if_true]
      exact ⟨_, rfl⟩
    · simp only [hs, if_false]
      obtain ⟨o, ho, hb⟩ := selUidResp_total anticollision nc fuel
        { st with
          sel_uid := memSet st.sel_uid 0 ((0x93 + st.cascade_level * 2) % 256)
          sel_all := st.sel_all.set 0 ((0x93 + st.cascade_level * 2) % 256) }
        (Nat.le_of_lt_succ h)
      rw [ho]
      cases o with
      | return0 s0 => exact ⟨_, rfl⟩
      | next s1 =>
        have h1 : s1.answers.length ≤ st.answers.length := hb s1 rfl
        simp only
        cases hsel : selSelect crcA anticollision s1 with
        | return0 s0 => exact ⟨_, rfl⟩
        | next s2 =>
          have h2 := selSelect_length crcA anticollision s1 s2 hsel
          simp only
          exact selCascade_total crcA anticollision nc fuel _ (by
            show s2.answers.length < fuel
            omega)

/-- `iso14443a_select_card` returns, whatever the tag answers: the bound on the
number of loop iterations is never reached. -/
theorem iso14443a_select_card_total (crcA : List Nat → Nat × Nat) (uid_ptr : Option Mem)
    (card : Option iso14a_card_select_t) (cuid : Option Nat) (anticollision : Bool) (nc : Nat)
    (resp : Mem) (answers : List TagAnswer) (bn tmo : Nat) :
    ∃ r, iso14443a_select_card crcA uid_ptr card cuid anticollision nc resp answers bn tmo
      = some r := by
  unfold iso14443a_select_card selRun
  simp only
  generalize hT : ReaderTransmitBits _ _ _ = T
  have hTa : T.answers = answers := by rw [← hT]; rfl
  obtain ⟨l1, l2⟩ := ReaderReceive_length T
  rw [hTa] at l1 l2
  by_cases hr : (ReaderReceive T).1 = 0
  · simp only [hr, if_true]
    exact ⟨_, rfl⟩
  · simp only [hr, if_false]
    have hlt : (ReaderReceive T).2.answers.length < answers.length + 1 := by
      have := l2 hr
      omega
    cases anticollision
    · simp only [Bool.false_eq_true, if_false]
      by_cases hq : (ReaderReceive T).2.resp 0 &&& 0x1F = 0
      · simp only [hq, if_true]
        exact ⟨_, rfl⟩
      · simp only [hq, if_false]
        obtain ⟨o, ho⟩ := selCascade_total crcA false nc (answers.length + 1)
          { (ReaderReceive T).2 with
            card := (ReaderReceive T).2.card.map fun (c : iso14a_card_select_t) =>
              { c with atqa := memRead (ReaderReceive T).2.resp 2, uidlen := 0,
                       uid := memZero c.uid 10 } } hlt
        rw [ho]
        cases o <;> exact ⟨_, rfl⟩
    · simp only [if_true]
      by_cases hq : (ReaderReceive T).2.resp 0 &&& 0x1F = 0
      · simp only [hq, if_true]
        exact ⟨_, rfl⟩
      · simp only [hq, if_false]
        obtain ⟨o, ho⟩ := selCascade_total crcA true nc (answers.length + 1)
          { (ReaderReceive T).2 with
            card := (ReaderReceive T).2.card.map fun (c : iso14a_card_select_t) =>
              { c with atqa := memRead (ReaderReceive T).2.resp 2, uidlen := 0,
                       uid := memZero c.uid 10 }
            uid_ptr := (ReaderReceive T).2.uid_ptr.map fun m => memZero m 10 } hlt
        rw [ho]
        cases o <;> exact ⟨_, rfl⟩

/-! ## The nonce collector: one AUTH1 visit -/

theorem mfCollect_succ (env : MfEnv) (flags : MfFlags) (nr ar n i : Nat) (s : MfSim) :
    mfCollect env flags nr ar (n + 1) i s
      = if s.ar_nr_collected.getD (i + s.mM) 0 = 0
            ∨ (s.cardAUTHSC = (s.ar_nr_resp.getD (i + s.mM) nonces_zero).sector
                ∧ s.cardAUTHKEY = (s.ar_nr_resp.getD (i + s.mM) nonces_zero).keytype
                ∧ s.ar_nr_collected.getD (i + s.mM) 0 > 0) then
          mfCollectSlot env flags nr ar i s
        else mfCollect env flags nr ar n (i + 1) s := rfl

/-- The loop of the collector passes the slots that are taken by other pairs
and acts on the first slot that is free or belongs to the pair. -/
theorem mfCollect_at (env : MfEnv) (flags : MfFlags) (nr ar : Nat) (s : MfSim) (j : Nat) :
    ∀ (n i : Nat), i ≤ j → j < i + n →
      (∀ k, i ≤ k → k < j →
        ¬ (s.ar_nr_collected.getD (k + s.mM) 0 = 0
            ∨ (s.cardAUTHSC = (s.ar_nr_resp.getD (k + s.mM) nonces_zero).sector
                ∧ s.cardAUTHKEY = (s.ar_nr_resp.getD (k + s.mM) nonces_zero).keytype
                ∧ s.ar_nr_collected.getD (k + s.mM) 0 > 0))) →
      (s.ar_nr_collected.getD (j + s.mM) 0 = 0
        ∨ (s.cardAUTHSC = (s.ar_nr_resp.getD (j + s.mM) nonces_zero).sector
            ∧ s.cardAUTHKEY = (s.ar_nr_resp.getD (j + s.mM) nonces_zero).keytype
            ∧ s.ar_nr_collected.getD (j + s.mM) 0 > 0)) →
      mfCollect env flags nr ar n i s = mfCollectSlot env flags nr ar j s
  | 0, i, h1, h2, _, _ => absurd h2 (by omega)
  | n + 1, i, h1, h2, hskip, htake => by
    rw [mfCollect_succ]
    by_cases hij : i = j
    · subst hij
      rw [if_pos htake]
    · rw [if_neg (hskip i (Nat.le_refl _) (by omega))]
      exact mfCollect_at env flags nr ar s j n (i + 1) (by omega) (by omega)
        (fun k hk1 hk2 => hskip k (by omega) hk2) htake

/-- An AUTH1 visit with a frame of eight bytes and `FLAG_NR_AR_ATTACK`: the
collector is left as by `mfCollect` with the `nr` and `ar` of the frame. -/
theorem auth1Visit_coll (env : MfEnv) (flags : MfFlags) (n : Nat) (s : MfSim)
    (sector keytype : Nat) (frame : List Nat) (h8 : frame.length = 8)
    (hfl : flags.FLAG_NR_AR_ATTACK = true) :
    mfColl (auth1Visit env flags n s sector keytype frame)
      = mfColl (mfCollect env flags (auth1_nr frame) (auth1_ar frame) ATTACK_KEY_COUNT 0
          (mfReceive (atAuth1 s sector keytype) frame)) := by
  have hstep := Mifare1ksim_step_rx env flags n (atAuth1 s sector keytype) ⟨0, 0, frame⟩
    (by show MfEmul.MFEMUL_AUTH1 ≠ _; decide) (by show (0 : Nat) ≠ 2; decide)
    (by show (0 : Nat) ≠ 1; decide)
  have hne : ¬ (frame = [ISO14443A_CMD_REQA] ∨ frame = [ISO14443A_CMD_WUPA]) := by
    rintro (h | h) <;> rw [h] at h8 <;> exact absurd h8 (by decide)
  rw [if_neg (not_reqa_wupa _ frame hne)] at hstep
  have hsw : mfSwitch env flags n (mfReceive (atAuth1 s sector keytype) frame)
      = mfAuth1 env flags (mfReceive (atAuth1 s sector keytype) frame) := by
    unfold mfSwitch
    rfl
  have hnr : bytes_to_num (memRead (mfReceive (atAuth1 s sector keytype) frame).receivedCmd 4) 4
      % 2 ^ 32 = auth1_nr frame := by
    show bytes_to_num (memRead (memWrite s.receivedCmd frame) 4) 4 % 2 ^ 32 = _
    rw [memRead_memWrite _ _ _ (by omega)]
    rfl
  have har : bytes_to_num ((memRead (mfReceive (atAuth1 s sector keytype) frame).receivedCmd
      8).drop 4) 4 % 2 ^ 32 = auth1_ar frame := by
    show bytes_to_num ((memRead (memWrite s.receivedCmd frame) 8).drop 4) 4 % 2 ^ 32 = _
    rw [memRead_memWrite _ _ _ (by omega), List.take_of_length_le (by omega)]
    rfl
  unfold auth1Visit
  rw [hstep, hsw]
  unfold mfAuth1
  rw [if_neg (by show ¬ (frame.length ≠ 8); rw [h8]; decide)]
  simp only [hnr, har, hfl, if_true]
  split <;> rfl

theorem getD_set_eq {α : Type} (l : List α) (k i : Nat) (v d : α) (hk : k < l.length) :
    (l.set k v).getD i d = if i = k then v else l.getD i d := by
  by_cases h : i = k
  · subst h
    rw [if_pos rfl, List.getD_eq_getElem _ _ (by rw [List.length_set]; exact hk)]
    simp
  · rw [if_neg h]
    simp only [List.getD_eq_getElem?_getD]
    rw [List.getElem?_set_ne (fun e => h e.symm)]

theorem getD_incr8 (l : List Nat) (k i : Nat) (hk : k < l.length) :
    (incr8 l k).getD i 0 = if i = k then (l.getD k 0 + 1) % 256 else l.getD i 0 :=
  getD_set_eq l k i _ 0 hk

theorem length_incr8 (l : List Nat) (k : Nat) : (incr8 l k).length = l.length := by
  unfold incr8
  rw [List.length_set]

/-- A first nonce for pair `j` while the standard half is collected. -/
theorem collect_first (env : MfEnv) (flags : MfFlags) (sec key : Nat → Nat) (nr ar : Nat)
    (s : MfSim) (j a0 a1 : Nat) (hj : j < 7)
    (hinv : CollInv sec key (mfColl s) (fun i => if i % 7 < j then 1 else 0) j a0 a1 j 0 0
      false false)
    (hsc : s.cardAUTHSC = sec j) (hkey : s.cardAUTHKEY = key j)
    (hp : ∀ i, i < j → ¬ (sec j = sec i ∧ key j = key i)) (har : ar ≠ a0) :
    CollInv sec key (mfColl (mfCollect env flags nr ar ATTACK_KEY_COUNT 0 s))
      (fun i => if i % 7 < j + 1 then 1 else 0) (j + 1) (if j = 0 then ar else a0)
      (if j = 1 then ar else a1) (j + 1) 0 0 false false := by
  obtain ⟨hlc, hlr, hc, hs, h0, h1, hn1, hn2, hnm, hgm, hmM, hfin⟩ := hinv
  simp only [mfColl] at hlc hlr hc hs h0 h1 hn1 hn2 hnm hgm hmM hfin
  have hm : s.mM = 0 := by simpa using hmM
  have hskip : ∀ k, 0 ≤ k → k < j →
      ¬ (s.ar_nr_collected.getD (k + s.mM) 0 = 0
          ∨ (s.cardAUTHSC = (s.ar_nr_resp.getD (k + s.mM) nonces_zero).sector
              ∧ s.cardAUTHKEY = (s.ar_nr_resp.getD (k + s.mM) nonces_zero).keytype
              ∧ s.ar_nr_collected.getD (k + s.mM) 0 > 0)) := by
    intro k _ hk
    rw [hm, Nat.add_zero, hc k (by omega), hsc, hkey, (hs k hk).1, (hs k hk).2.1]
    have : k % 7 < j := by rw [Nat.mod_eq_of_lt (by omega)]; exact hk
    simp only [this, if_true]
    rintro (h | ⟨h1, h2, _⟩)
    · exact absurd h (by decide)
    · exact hp k hk ⟨h1, h2⟩
  have hcj : s.ar_nr_collected.getD j 0 = 0 := by
    rw [hc j (by omega)]
    have : ¬ j % 7 < j := by rw [Nat.mod_eq_of_lt hj]; exact Nat.lt_irrefl _
    simp only [this, if_false]
  have htake : s.ar_nr_collected.getD (j + s.mM) 0 = 0
      ∨ (s.cardAUTHSC = (s.ar_nr_resp.getD (j + s.mM) nonces_zero).sector
          ∧ s.cardAUTHKEY = (s.ar_nr_resp.getD (j + s.mM) nonces_zero).keytype
          ∧ s.ar_nr_collected.getD (j + s.mM) 0 > 0) := by
    left
    rw [hm, Nat.add_zero]
    exact hcj
  rw [mfCollect_at env flags nr ar s j ATTACK_KEY_COUNT 0 (Nat.zero_le _)
    (by show j < 0 + 7; omega) hskip htake]
  unfold mfCollectSlot
  have hd : (s.ar_nr_resp.getD 0 nonces_zero).ar ≠ ar := by rw [h0]; exact fun e => har e.symm
  simp only [hm, Nat.add_zero, hcj, Nat.zero_lt_two, if_true, hd, ne_eq, not_false_eq_true]
  have hl1 : (s.ar_nr_resp.set j (nonces_first (s.ar_nr_resp.getD j nonces_zero) s.cuid
      s.cardAUTHSC s.cardAUTHKEY s.nonce nr ar)).length = 14 := by
    rw [List.length_set]; exact hlr
  refine ⟨?_, ?_, ?_, ?_, ?_, ?_, ?_, hn2, hnm, hgm, rfl, hfin⟩
  · show (incr8 (incr8 s.ar_nr_collected (j + 7)) j).length = 14
    rw [length_incr8, length_incr8]
    exact hlc
  · show (List.set _ _ _).length = 14
    rw [List.length_set]
    exact hl1
  · intro i hi
    show (incr8 (incr8 s.ar_nr_collected (j + 7)) j).getD i 0 = (if i % 7 < j + 1 then 1 else 0)
    rw [getD_incr8 _ j i (by rw [length_incr8, hlc]; omega),
      getD_incr8 _ (j + 7) j (by rw [hlc]; omega),
      getD_incr8 _ (j + 7) i (by rw [hlc]; omega), hcj, hc (j + 7) (by omega), hc i hi]
    split_ifs <;> omega
  · intro i hi
    show ((List.set _ _ _).getD i nonces_zero).sector = sec i
      ∧ ((List.set _ _ _).getD i nonces_zero).keytype = key i
      ∧ ((List.set _ _ _).getD (i + 7) nonces_zero).sector = sec i
      ∧ ((List.set _ _ _).getD (i + 7) nonces_zero).keytype = key i
    rw [getD_set_eq _ (j + ATTACK_KEY_COUNT) i _ _ (by rw [hl1]; show j + 7 < 14; omega),
      getD_set_eq _ (j + ATTACK_KEY_COUNT) (i + 7) _ _ (by rw [hl1]; show j + 7 < 14; omega),
      getD_set_eq _ j i _ _ (by rw [hlr]; omega),
      getD_set_eq _ j (i + 7) _ _ (by rw [hlr]; omega)]
    have n1 : ¬ (i = j + ATTACK_KEY_COUNT) := by show ¬ (i = j + 7); omega
    have n2 : ¬ (i + 7 = j) := by omega
    rw [if_neg n1, if_neg n2]
    by_cases hij : i = j
    · subst hij
      rw [if_pos rfl, if_pos rfl]
      exact ⟨hsc, hkey, hsc, hkey⟩
    · have n3 : ¬ (i + 7 = j + ATTACK_KEY_COUNT) := by show ¬ (i + 7 = j + 7); omega
      rw [if_neg hij, if_neg n3]
      exact hs i (by omega)
  · show ((List.set _ _ _).getD 0 nonces_zero).ar = _
    rw [getD_set_eq _ (j + ATTACK_KEY_COUNT) 0 _ _ (by rw [hl1]; show j + 7 < 14; omega),
      getD_set_eq _ j 0 _ _ (by rw [hlr]; omega)]
    have n1 : ¬ (0 = j + ATTACK_KEY_COUNT) := by show ¬ (0 = j + 7); omega
    rw [if_neg n1]
    by_cases hj0 : j = 0
    · rw [if_pos hj0.symm, if_pos hj0]
      rfl
    · rw [if_neg (fun e => hj0 e.symm), if_neg hj0]
      exact h0
  · show ((List.set _ _ _).getD 1 nonces_zero).ar = _
    rw [getD_set_eq _ (j + ATTACK_KEY_COUNT) 1 _ _ (by rw [hl1]; show j + 7 < 14; omega),
      getD_set_eq _ j 1 _ _ (by rw [hlr]; omega)]
    have n1 : ¬ (1 = j + ATTACK_KEY_COUNT) := by show ¬ (1 = j + 7); omega
    rw [if_neg n1]
    by_cases hj1 : j = 1
    · rw [if_pos hj1.symm, if_pos hj1]
      rfl
    · rw [if_neg (fun e => hj1 e.symm), if_neg hj1]
      exact h1
  · show (s.nonce1_count + 1) % 256 = j + 1
    rw [hn1]
    omega

theorem CollInv_congr (sec key : Nat → Nat) (c : Collector) (cnt cnt2 : Nat → Nat)
    (filled a0 a1 n1 n2 nm : Nat) (gm fin : Bool) (h : ∀ i, i < 14 → cnt i = cnt2 i)
    (hinv : CollInv sec key c cnt filled a0 a1 n1 n2 nm gm fin) :
    CollInv sec key c cnt2 filled a0 a1 n1 n2 nm gm fin := by
  obtain ⟨hlc, hlr, hc, rest⟩ := hinv
  exact ⟨hlc, hlr, fun i hi => (hc i hi).trans (h i hi), rest⟩

/-- A second nonce for pair `j` while the standard half is collected; with the
seventh the collector switches to the Moebius half. -/
theorem collect_second (env : MfEnv) (flags : MfFlags) (sec key : Nat → Nat) (nr ar : Nat)
    (s : MfSim) (j a0 a1 : Nat) (hj : j < 7)
    (hinv : CollInv sec key (mfColl s) (fun i => if i < 7 then (if i < j then 2 else 1) else 1)
      7 a0 a1 7 j 0 false false)
    (hsc : s.cardAUTHSC = sec j) (hkey : s.cardAUTHKEY = key j)
    (hp : ∀ i, i < j → ¬ (sec j = sec i ∧ key j = key i)) (har : ar ≠ a1) :
    CollInv sec key (mfColl (mfCollect env flags nr ar ATTACK_KEY_COUNT 0 s))
      (fun i => if i < 7 then (if i < j + 1 then 2 else 1) else 1) 7 a0 a1 7 (j + 1) 0
      (decide (j = 6)) false := by
  obtain ⟨hlc, hlr, hc, hs, h0, h1, hn1, hn2, hnm, hgm, hmM, hfin⟩ := hinv
  simp only [mfColl] at hlc hlr hc hs h0 h1 hn1 hn2 hnm hgm hmM hfin
  have hm : s.mM = 0 := by simpa using hmM
  have hskip : ∀ k, 0 ≤ k → k < j →
      ¬ (s.ar_nr_collected.getD (k + s.mM) 0 = 0
          ∨ (s.cardAUTHSC = (s.ar_nr_resp.getD (k + s.mM) nonces_zero).sector
              ∧ s.cardAUTHKEY = (s.ar_nr_resp.getD (k + s.mM) nonces_zero).keytype
              ∧ s.ar_nr_collected.getD (k + s.mM) 0 > 0)) := by
    intro k _ hk
    rw [hm, Nat.add_zero, hc k (by omega), hsc, hkey, (hs k (by omega)).1, (hs k (by omega)).2.1]
    have h7 : k < 7 := by omega
    simp only [h7, hk, if_true]
    rintro (h | ⟨h1, h2, _⟩)
    · exact absurd h (by decide)
    · exact hp k hk ⟨h1, h2⟩
  have hcj : s.ar_nr_collected.getD j 0 = 1 := by
    rw [hc j (by omega)]
    simp only [hj, Nat.lt_irrefl, if_true, if_false]
  have htake : s.ar_nr_collected.getD (j + s.mM) 0 = 0
      ∨ (s.cardAUTHSC = (s.ar_nr_resp.getD (j + s.mM) nonces_zero).sector
          ∧ s.cardAUTHKEY = (s.ar_nr_resp.getD (j + s.mM) nonces_zero).keytype
          ∧ s.ar_nr_collected.getD (j + s.mM) 0 > 0) := by
    right
    rw [hm, Nat.add_zero, hcj, hsc, hkey, (hs j hj).1, (hs j hj).2.1]
    exact ⟨rfl, rfl, by decide⟩
  rw [mfCollect_at env flags nr ar s j ATTACK_KEY_COUNT 0 (Nat.zero_le _)
    (by show j < 0 + 7; omega) hskip htake]
  unfold mfCollectSlot
  have hd : (s.ar_nr_resp.getD 1 nonces_zero).ar ≠ ar := by rw [h1]; exact fun e => har e.symm
  have h12 : (1 : Nat) < 2 := by decide
  have h10 : ¬ ((1 : Nat) = 0) := by decide
  simp only [hm, Nat.add_zero, hcj, h12, h10, if_true, if_false, hd, ne_eq, not_false_eq_true,
    hgm, Bool.false_eq_true, hn1, hn2]
  have hl1 : (s.ar_nr_resp.set j (nonces_second (s.ar_nr_resp.getD j nonces_zero) s.nonce nr
      ar)).length = 14 := by
    rw [List.length_set]; exact hlr
  have hresp : ∀ i, i < 14 →
      ((s.ar_nr_resp.set j (nonces_second (s.ar_nr_resp.getD j nonces_zero) s.nonce nr
          ar)).getD i nonces_zero).sector = (s.ar_nr_resp.getD i nonces_zero).sector
        ∧ ((s.ar_nr_resp.set j (nonces_second (s.ar_nr_resp.getD j nonces_zero) s.nonce nr
          ar)).getD i nonces_zero).keytype = (s.ar_nr_resp.getD i nonces_zero).keytype
        ∧ ((s.ar_nr_resp.set j (nonces_second (s.ar_nr_resp.getD j nonces_zero) s.nonce nr
          ar)).getD i nonces_zero).ar = (s.ar_nr_resp.getD i nonces_zero).ar := by
    intro i _
    rw [getD_set_eq _ j i _ _ (by rw [hlr]; omega)]
    by_cases hij : i = j
    · subst hij
      rw [if_pos rfl]
      exact ⟨rfl, rfl, rfl⟩
    · rw [if_neg hij]
      exact ⟨rfl, rfl, rfl⟩
  have hcnt : ∀ i, i < 14 → (incr8 s.ar_nr_collected j).getD i 0
      = (if i < 7 then (if i < j + 1 then 2 else 1) else 1) := by
    intro i hi
    rw [getD_incr8 _ j i (by rw [hlc]; omega), hcj, hc i hi]
    split_ifs <;> omega
  by_cases h6 : j = 6
  · have e : (j + 1) % 256 = 7 := by omega
    simp only [e, if_true]
    have hdec : decide (j = 6) = true := by simp [h6]
    rw [hdec]
    split
    · refine ⟨?_, hl1, hcnt, ?_, ?_, ?_, rfl, ?_, hnm, rfl, rfl, hfin⟩
      · show (incr8 s.ar_nr_collected j).length = 14
        rw [length_incr8]; exact hlc
      · intro i hi
        obtain ⟨q1, q2, q3, q4⟩ := hs i hi
        exact ⟨(hresp i (by omega)).1.trans q1, (hresp i (by omega)).2.1.trans q2,
          (hresp (i + 7) (by omega)).1.trans q3, (hresp (i + 7) (by omega)).2.1.trans q4⟩
      · exact (hresp 0 (by omega)).2.2.trans h0
      · exact (hresp 1 (by omega)).2.2.trans h1
      · show (7 : Nat) = j + 1
        omega
    · refine ⟨?_, hl1, hcnt, ?_, ?_, ?_, rfl, ?_, hnm, rfl, rfl, hfin⟩
      · show (incr8 s.ar_nr_collected j).length = 14
        rw [length_incr8]; exact hlc
      · intro i hi
        obtain ⟨q1, q2, q3, q4⟩ := hs i hi
        exact ⟨(hresp i (by omega)).1.trans q1, (hresp i (by omega)).2.1.trans q2,
          (hresp (i + 7) (by omega)).1.trans q3, (hresp (i + 7) (by omega)).2.1.trans q4⟩
      · exact (hresp 0 (by omega)).2.2.trans h0
      · exact (hresp 1 (by omega)).2.2.trans h1
      · show (7 : Nat) = j + 1
        omega
  · have e : ¬ ((j + 1) % 256 = 7) := by omega
    simp only [e, if_false]
    have hdec : decide (j = 6) = false := by simp [h6]
    rw [hdec]
    refine ⟨?_, hl1, hcnt, ?_, ?_, ?_, rfl, ?_, hnm, rfl, ?_, hfin⟩
    · show (incr8 s.ar_nr_collected j).length = 14
      rw [length_incr8]; exact hlc
    · intro i hi
      obtain ⟨q1, q2, q3, q4⟩ := hs i hi
      exact ⟨(hresp i (by omega)).1.trans q1, (hresp i (by omega)).2.1.trans q2,
        (hresp (i + 7) (by omega)).1.trans q3, (hresp (i + 7) (by omega)).2.1.trans q4⟩
    · exact (hresp 0 (by omega)).2.2.trans h0
    · exact (hresp 1 (by omega)).2.2.trans h1
    · show (j + 1) % 256 = j + 1
      omega
    · rfl

/-- A nonce for pair `k` while the Moebius half is collected; with the seventh
the collector is finished. -/
theorem collect_moebius (env : MfEnv) (flags : MfFlags) (sec key : Nat → Nat) (nr ar : Nat)
    (s : MfSim) (k a0 a1 : Nat) (hk : k < 7)
    (hinv : CollInv sec key (mfColl s)
      (fun i => if i < 7 then 2 else (if i - 7 < k then 2 else 1)) 7 a0 a1 7 7 k true false)
    (hsc : s.cardAUTHSC = sec k) (hkey : s.cardAUTHKEY = key k)
    (hp : ∀ i, i < k → ¬ (sec k = sec i ∧ key k = key i)) (har : ar ≠ a1) :
    CollInv sec key (mfColl (mfCollect env flags nr ar ATTACK_KEY_COUNT 0 s))
      (fun i => if i < 7 then 2 else (if i - 7 < k + 1 then 2 else 1)) 7 a0 a1 7 7 (k + 1) true
      (decide (k = 6)) := by
  obtain ⟨hlc, hlr, hc, hs, h0, h1, hn1, hn2, hnm, hgm, hmM, hfin⟩ := hinv
  simp only [mfColl] at hlc hlr hc hs h0 h1 hn1 hn2 hnm hgm hmM hfin
  have hm : s.mM = 7 := by simpa using hmM
  have hskip : ∀ i, 0 ≤ i → i < k →
      ¬ (s.ar_nr_collected.getD (i + s.mM) 0 = 0
          ∨ (s.cardAUTHSC = (s.ar_nr_resp.getD (i + s.mM) nonces_zero).sector
              ∧ s.cardAUTHKEY = (s.ar_nr_resp.getD (i + s.mM) nonces_zero).keytype
              ∧ s.ar_nr_collected.getD (i + s.mM) 0 > 0)) := by
    intro i _ hi
    rw [hm, hc (i + 7) (by omega), hsc, hkey, (hs i (by omega)).2.2.1, (hs i (by omega)).2.2.2]
    have h7 : ¬ (i + 7 < 7) := by omega
    have h8 : i + 7 - 7 < k := by omega
    simp only [h7, h8, if_true, if_false]
    rintro (h | ⟨h1, h2, _⟩)
    · exact absurd h (by decide)
    · exact hp i hi ⟨h1, h2⟩
  have hck : s.ar_nr_collected.getD (k + 7) 0 = 1 := by
    rw [hc (k + 7) (by omega)]
    have h7 : ¬ (k + 7 < 7) := by omega
    have h8 : ¬ (k + 7 - 7 < k) := by omega
    simp only [h7, h8, if_false]
  have htake : s.ar_nr_collected.getD (k + s.mM) 0 = 0
      ∨ (s.cardAUTHSC = (s.ar_nr_resp.getD (k + s.mM) nonces_zero).sector
          ∧ s.cardAUTHKEY = (s.ar_nr_resp.getD (k + s.mM) nonces_zero).keytype
          ∧ s.ar_nr_collected.getD (k + s.mM) 0 > 0) := by
    right
    rw [hm, hck, hsc, hkey, (hs k hk).2.2.1, (hs k hk).2.2.2]
    exact ⟨rfl, rfl, by decide⟩
  rw [mfCollect_at env flags nr ar s k ATTACK_KEY_COUNT 0 (Nat.zero_le _)
    (by show k < 0 + 7; omega) hskip htake]
  unfold mfCollectSlot
  have hd : (s.ar_nr_resp.getD 1 nonces_zero).ar ≠ ar := by rw [h1]; exact fun e => har e.symm
  have h12 : (1 : Nat) < 2 := by decide
  have h10 : ¬ ((1 : Nat) = 0) := by decide
  simp only [hm, hck, h12, h10, if_true, if_false, hd, ne_eq, not_false_eq_true,
    hgm, not_true_eq_false, hn1, hnm]
  have hl1 : (s.ar_nr_resp.set (k + 7) (nonces_second (s.ar_nr_resp.getD (k + 7) nonces_zero)
      s.nonce nr ar)).length = 14 := by
    rw [List.length_set]; exact hlr
  have hresp : ∀ i, i < 14 →
      ((s.ar_nr_resp.set (k + 7) (nonces_second (s.ar_nr_resp.getD (k + 7) nonces_zero) s.nonce
          nr ar)).getD i nonces_zero).sector = (s.ar_nr_resp.getD i nonces_zero).sector
        ∧ ((s.ar_nr_resp.set (k + 7) (nonces_second (s.ar_nr_resp.getD (k + 7) nonces_zero)
          s.nonce nr ar)).getD i nonces_zero).keytype = (s.ar_nr_resp.getD i nonces_zero).keytype
        ∧ ((s.ar_nr_resp.set (k + 7) (nonces_second (s.ar_nr_resp.getD (k + 7) nonces_zero)
          s.nonce nr ar)).getD i nonces_zero).ar = (s.ar_nr_resp.getD i nonces_zero).ar := by
    intro i _
    rw [getD_set_eq _ (k + 7) i _ _ (by rw [hlr]; omega)]
    by_cases hij : i = k + 7
    · subst hij
      rw [if_pos rfl]
      exact ⟨rfl, rfl, rfl⟩
    · rw [if_neg hij]
      exact ⟨rfl, rfl, rfl⟩
  have hcnt : ∀ i, i < 14 → (incr8 s.ar_nr_collected (k + 7)).getD i 0
      = (if i < 7 then 2 else (if i - 7 < k + 1 then 2 else 1)) := by
    intro i hi
    rw [getD_incr8 _ (k + 7) i (by rw [hlc]; omega), hck, hc i hi]
    split_ifs <;> omega
  have hsect : ∀ i, i < 7 →
      ((s.ar_nr_resp.set (k + 7) (nonces_second (s.ar_nr_resp.getD (k + 7) nonces_zero) s.nonce
          nr ar)).getD i nonces_zero).sector = sec i
        ∧ ((s.ar_nr_resp.set (k + 7) (nonces_second (s.ar_nr_resp.getD (k + 7) nonces_zero)
          s.nonce nr ar)).getD i nonces_zero).keytype = key i
        ∧ ((s.ar_nr_resp.set (k + 7) (nonces_second (s.ar_nr_resp.getD (k + 7) nonces_zero)
          s.nonce nr ar)).getD (i + 7) nonces_zero).sector = sec i
        ∧ ((s.ar_nr_resp.set (k + 7) (nonces_second (s.ar_nr_resp.getD (k + 7) nonces_zero)
          s.nonce nr ar)).getD (i + 7) nonces_zero).keytype = key i := by
    intro i hi
    obtain ⟨q1, q2, q3, q4⟩ := hs i hi
    exact ⟨(hresp i (by omega)).1.trans q1, (hresp i (by omega)).2.1.trans q2,
      (hresp (i + 7) (by omega)).1.trans q3, (hresp (i + 7) (by omega)).2.1.trans q4⟩
  by_cases h6 : k = 6
  · have e : 7 = (k + 1) % 256 := by omega
    simp only [eq_true e, if_true]
    have hdec : decide (k = 6) = true := by simp [h6]
    rw [hdec]
    refine ⟨?_, hl1, hcnt, hsect, (hresp 0 (by omega)).2.2.trans h0,
      (hresp 1 (by omega)).2.2.trans h1, rfl, hn2, ?_, rfl, rfl, rfl⟩
    · show (incr8 s.ar_nr_collected (k + 7)).length = 14
      rw [length_incr8]; exact hlc
    · show (k + 1) % 256 = k + 1
      omega
  · have e : ¬ (7 = (k + 1) % 256) := by omega
    simp only [eq_false e, if_false]
    have hdec : decide (k = 6) = false := by simp [h6]
    rw [hdec]
    refine ⟨?_, hl1, hcnt, hsect, (hresp 0 (by omega)).2.2.trans h0,
      (hresp 1 (by omega)).2.2.trans h1, rfl, hn2, ?_, rfl, rfl, hfin⟩
    · show (incr8 s.ar_nr_collected (k + 7)).length = 14
      rw [length_incr8]; exact hlc
    · show (k + 1) % 256 = k + 1
      omega

/-! ## The nonce collector: three rounds of visits -/

theorem auth1Run_append (env : MfEnv) (flags : MfFlags) (n : Nat) :
    ∀ (xs ys : List (Nat × Nat × List Nat)) (s : MfSim),
      auth1Run env flags n s (xs ++ ys) = auth1Run env flags n (auth1Run env flags n s xs) ys
  | [], _, _ => rfl
  | x :: xs, ys, s => by
    show auth1Run env flags n (auth1Visit env flags n s x.1 x.2.1 x.2.2) (xs ++ ys) = _
    rw [auth1Run_append env flags n xs ys]
    rfl

theorem roundVisits_succ (sec key : Nat → Nat) (frames : Nat → List Nat) (t m : Nat) :
    roundVisits sec key frames t (m + 1)
      = (sec (t % 7), key (t % 7), frames t) :: roundVisits sec key frames (t + 1) m := by
  unfold roundVisits
  rw [List.range'_succ, List.map_cons]

theorem roundVisits_append (sec key : Nat → Nat) (frames : Nat → List Nat) (t m1 m2 : Nat) :
    roundVisits sec key frames t (m1 + m2)
      = roundVisits sec key frames t m1 ++ roundVisits sec key frames (t + m1) m2 := by
  unfold roundVisits
  rw [← List.map_append, List.range'_append_1, Nat.add_comm m2 m1]

/-- The first round: the collector after the first nonces of the pairs
`0 .. j - 1`. -/
theorem round_first (env : MfEnv) (flags : MfFlags) (n : Nat) (sec key : Nat → Nat)
    (frames : Nat → List Nat) (hfl : flags.FLAG_NR_AR_ATTACK = true)
    (h8 : ∀ t, t < 21 → (frames t).length = 8)
    (hp : ∀ i j, i < 7 → j < 7 → i ≠ j → ¬ (sec i = sec j ∧ key i = key j))
    (har : ∀ t u, t < 21 → u < 21 → t ≠ u → auth1_ar (frames t) ≠ auth1_ar (frames u))
    (har0 : ∀ t, t < 21 → auth1_ar (frames t) ≠ 0) :
    ∀ (m j : Nat) (s : MfSim), j + m ≤ 7 →
      CollInv sec key (mfColl s) (fun i => if i % 7 < j then 1 else 0) j
        (if 1 ≤ j then auth1_ar (frames 0) else 0) (if 2 ≤ j then auth1_ar (frames 1) else 0)
        j 0 0 false false →
      CollInv sec key (mfColl (auth1Run env flags n s (roundVisits sec key frames j m)))
        (fun i => if i % 7 < j + m then 1 else 0) (j + m)
        (if 1 ≤ j + m then auth1_ar (frames 0) else 0)
        (if 2 ≤ j + m then auth1_ar (frames 1) else 0) (j + m) 0 0 false false
  | 0, j, s, _, hinv => hinv
  | m + 1, j, s, hjm, hinv => by
    rw [roundVisits_succ]
    show CollInv sec key (mfColl (auth1Run env flags n
      (auth1Visit env flags n s (sec (j % 7)) (key (j % 7)) (frames j))
      (roundVisits sec key frames (j + 1) m))) _ _ _ _ _ _ _ _ _
    have hj : j < 7 := by omega
    rw [Nat.mod_eq_of_lt hj]
    have hstep : CollInv sec key
        (mfColl (auth1Visit env flags n s (sec j) (key j) (frames j)))
        (fun i => if i % 7 < j + 1 then 1 else 0) (j + 1)
        (if 1 ≤ j + 1 then auth1_ar (frames 0) else 0)
        (if 2 ≤ j + 1 then auth1_ar (frames 1) else 0) (j + 1) 0 0 false false := by
      rw [auth1Visit_coll env flags n s (sec j) (key j) (frames j) (h8 j (by omega)) hfl]
      have hne : auth1_ar (frames j) ≠ (if 1 ≤ j then auth1_ar (frames 0) else 0) := by
        by_cases h1 : 1 ≤ j
        · rw [if_pos h1]
          exact har j 0 (by omega) (by omega) (by omega)
        · rw [if_neg h1]
          exact har0 j (by omega)
      have hc := collect_first env flags sec key (auth1_nr (frames j)) (auth1_ar (frames j))
        (mfReceive (atAuth1 s (sec j) (key j)) (frames j)) j _ _ hj hinv rfl rfl
        (fun i hi => hp j i hj (by omega) (by omega)) hne
      have e0 : (if j = 0 then auth1_ar (frames j)
          else (if 1 ≤ j then auth1_ar (frames 0) else 0))
          = (if 1 ≤ j + 1 then auth1_ar (frames 0) else 0) := by
        by_cases hj0 : j = 0
        · subst hj0
          rfl
        · rw [if_neg hj0, if_pos (by omega), if_pos (by omega)]
      have e1 : (if j = 1 then auth1_ar (frames j)
          else (if 2 ≤ j then auth1_ar (frames 1) else 0))
          = (if 2 ≤ j + 1 then auth1_ar (frames 1) else 0) := by
        by_cases hj1 : j = 1
        · subst hj1
          rfl
        · rw [if_neg hj1]
          by_cases h2 : 2 ≤ j
          · rw [if_pos h2, if_pos (by omega)]
          · rw [if_neg h2, if_neg (by omega)]
      rw [e0, e1] at hc
      exact hc
    have hrec := round_first env flags n sec key frames hfl h8 hp har har0 m (j + 1) _
      (by omega) hstep
    have e : j + 1 + m = j + (m + 1) := by omega
    rw [e] at hrec
    exact hrec

/-- The second round: the collector after the second nonces of the pairs
`0 .. j - 1`. -/
theorem round_second (env : MfEnv) (flags : MfFlags) (n : Nat) (sec key : Nat → Nat)
    (frames : Nat → List Nat) (hfl : flags.FLAG_NR_AR_ATTACK = true)
    (h8 : ∀ t, t < 21 → (frames t).length = 8)
    (hp : ∀ i j, i < 7 → j < 7 → i ≠ j → ¬ (sec i = sec j ∧ key i = key j))
    (har : ∀ t u, t < 21 → u < 21 → t ≠ u → auth1_ar (frames t) ≠ auth1_ar (frames u)) :
    ∀ (m j : Nat) (s : MfSim), j + m ≤ 7 →
      CollInv sec key (mfColl s) (fun i => if i < 7 then (if i < j then 2 else 1) else 1) 7
        (auth1_ar (frames 0)) (auth1_ar (frames 1)) 7 j 0 (decide (j = 7)) false →
      CollInv sec key (mfColl (auth1Run env flags n s (roundVisits sec key frames (7 + j) m)))
        (fun i => if i < 7 then (if i < j + m then 2 else 1) else 1) 7
        (auth1_ar (frames 0)) (auth1_ar (frames 1)) 7 (j + m) 0 (decide (j + m = 7)) false
  | 0, j, s, _, hinv => hinv
  | m + 1, j, s, hjm, hinv => by
    rw [roundVisits_succ]
    show CollInv sec key (mfColl (auth1Run env flags n
      (auth1Visit env flags n s (sec ((7 + j) % 7)) (key ((7 + j) % 7)) (frames (7 + j)))
      (roundVisits sec key frames (7 + j + 1) m))) _ _ _ _ _ _ _ _ _
    have hj : j < 7 := by omega
    have hmod : (7 + j) % 7 = j := by omega
    rw [hmod]
    have hd0 : decide (j = 7) = false := by simp; omega
    rw [hd0] at hinv
    have hstep : CollInv sec key
        (mfColl (auth1Visit env flags n s (sec j) (key j) (frames (7 + j))))
        (fun i => if i < 7 then (if i < j + 1 then 2 else 1) else 1) 7
        (auth1_ar (frames 0)) (auth1_ar (frames 1)) 7 (j + 1) 0 (decide (j + 1 = 7)) false := by
      rw [auth1Visit_coll env flags n s (sec j) (key j) (frames (7 + j)) (h8 (7 + j) (by omega))
        hfl]
      have hc := collect_second env flags sec key (auth1_nr (frames (7 + j)))
        (auth1_ar (frames (7 + j)))
        (mfReceive (atAuth1 s (sec j) (key j)) (frames (7 + j))) j _ _ hj hinv rfl rfl
        (fun i hi => hp j i hj (by omega) (by omega))
        (har (7 + j) 1 (by omega) (by omega) (by omega))
      have hd : decide (j = 6) = decide (j + 1 = 7) := by
        by_cases h6 : j = 6
        · subst h6
          rfl
        · have h7 : ¬ (j + 1 = 7) := by omega
          simp [h6, h7]
      rw [hd] at hc
      exact hc
    have hrec := round_second env flags n sec key frames hfl h8 hp har m (j + 1) _
      (by omega) hstep
    have e : j + 1 + m = j + (m + 1) := by omega
    have e2 : 7 + (j + 1) = 7 + j + 1 := by omega
    rw [e, e2] at hrec
    exact hrec

/-- The third round: the collector after the Moebius nonces of the pairs
`0 .. k - 1`. -/
theorem round_moebius (env : MfEnv) (flags : MfFlags) (n : Nat) (sec key : Nat → Nat)
    (frames : Nat → List Nat) (hfl : flags.FLAG_NR_AR_ATTACK = true)
    (h8 : ∀ t, t < 21 → (frames t).length = 8)
    (hp : ∀ i j, i < 7 → j < 7 → i ≠ j → ¬ (sec i = sec j ∧ key i = key j))
    (har : ∀ t u, t < 21 → u < 21 → t ≠ u → auth1_ar (frames t) ≠ auth1_ar (frames u)) :
    ∀ (m k : Nat) (s : MfSim), k + m ≤ 7 →
      CollInv sec key (mfColl s) (fun i => if i < 7 then 2 else (if i - 7 < k then 2 else 1)) 7
        (auth1_ar (frames 0)) (auth1_ar (frames 1)) 7 7 k true (decide (k = 7)) →
      CollInv sec key (mfColl (auth1Run env flags n s (roundVisits sec key frames (14 + k) m)))
        (fun i => if i < 7 then 2 else (if i - 7 < k + m then 2 else 1)) 7
        (auth1_ar (frames 0)) (auth1_ar (frames 1)) 7 7 (k + m) true (decide (k + m = 7))
  | 0, k, s, _, hinv => hinv
  | m + 1, k, s, hkm, hinv => by
    rw [roundVisits_succ]
    show CollInv sec key (mfColl (auth1Run env flags n
      (auth1Visit env flags n s (sec ((14 + k) % 7)) (key ((14 + k) % 7)) (frames (14 + k)))
      (roundVisits sec key frames (14 + k + 1) m))) _ _ _ _ _ _ _ _ _
    have hk : k < 7 := by omega
    have hmod : (14 + k) % 7 = k := by omega
    rw [hmod]
    have hd0 : decide (k = 7) = false := by simp; omega
    rw [hd0] at hinv
    have hstep : CollInv sec key
        (mfColl (auth1Visit env flags n s (sec k) (key k) (frames (14 + k))))
        (fun i => if i < 7 then 2 else (if i - 7 < k + 1 then 2 else 1)) 7
        (auth1_ar (frames 0)) (auth1_ar (frames 1)) 7 7 (k + 1) true (decide (k + 1 = 7)) := by
      rw [auth1Visit_coll env flags n s (sec k) (key k) (frames (14 + k))
        (h8 (14 + k) (by omega)) hfl]
      have hc := collect_moebius env flags sec key (auth1_nr (frames (14 + k)))
        (auth1_ar (frames (14 + k)))
        (mfReceive (atAuth1 s (sec k) (key k)) (frames (14 + k))) k _ _ hk hinv rfl rfl
        (fun i hi => hp k i hk (by omega) (by omega))
        (har (14 + k) 1 (by omega) (by omega) (by omega))
      have hd : decide (k = 6) = decide (k + 1 = 7) := by
        by_cases h6 : k = 6
        · subst h6
          rfl
        · have h7 : ¬ (k + 1 = 7) := by omega
          simp [h6, h7]
      rw [hd] at hc
      exact hc
    have hrec := round_moebius env flags n sec key frames hfl h8 hp har m (k + 1) _
      (by omega) hstep
    have e : k + 1 + m = k + (m + 1) := by omega
    have e2 : 14 + (k + 1) = 14 + k + 1 := by omega
    rw [e, e2] at hrec
    exact hrec

theorem mfColl_init (env : MfEnv) (flags : MfFlags) (datain : List Nat) (emul : Mem) (rng : Nat) :
    mfColl (Mifare1ksim_init env flags datain emul rng)
      = ⟨List.replicate 14 nonces_zero, List.replicate 14 0, 0, 0, 0, false, 0, false⟩ := by
  obtain ⟨f1, f2, f3, f4, f5, f6⟩ := flags
  cases f2 <;> cases f3 <;> cases f4 <;> cases f6 <;>
    first
    | rfl
    | (unfold Mifare1ksim_init
       dsimp only
       by_cases h : memSet (fun _ => 0) 0 ((env.emlGetMemBt emul 7 1).getD 0 0) 0 = 0
       · simp only [Bool.false_eq_true, if_false, if_true, h]
         rfl
       · simp only [Bool.false_eq_true, if_false, if_true, h]
         rfl)

theorem list_of_getD (l : List Nat) (cnt : Nat → Nat) (hl : l.length = 14)
    (h : ∀ i, i < 14 → l.getD i 0 = cnt i) : l = (List.range 14).map cnt := by
  apply List.ext_getElem
  · rw [hl]; simp
  · intro i h1 h2
    have hi : i < 14 := by rw [hl] at h1; exact h1
    have := h i hi
    rw [List.getD_eq_getElem _ _ h1] at this
    rw [this]
    simp

/-- C30 (amended).  Nonce collector completion: in `Mifare1ksim` with
`FLAG_NR_AR_ATTACK` and seven pairwise different (sector, key type) pairs,
after 21 AUTH1 visits whose `ar` are pairwise different and not zero, a first
visit for each pair, then a second visit for each pair (these fourteen while
the standard half is collected), then a visit for each pair while the Moebius
half is collected, every slot of both halves holds two nonces and `finished`
is set.  After fewer visits `finished` is not set, and after the first fourteen
the slots of the Moebius half hold one nonce each. -/
theorem collector_completion (env : MfEnv) (flags : MfFlags) (n : Nat) (datain : List Nat)
    (emul : Mem) (rng : Nat) (sec key : Nat → Nat) (frames : Nat → List Nat)
    (hfl : flags.FLAG_NR_AR_ATTACK = true)
    (h8 : ∀ t, t < 21 → (frames t).length = 8)
    (hp : ∀ i j, i < 7 → j < 7 → i ≠ j → ¬ (sec i = sec j ∧ key i = key j))
    (har : ∀ t u, t < 21 → u < 21 → t ≠ u → auth1_ar (frames t) ≠ auth1_ar (frames u))
    (har0 : ∀ t, t < 21 → auth1_ar (frames t) ≠ 0) :
    (auth1Run env flags n (Mifare1ksim_init env flags datain emul rng)
        (roundVisits sec key frames 0 21)).ar_nr_collected = List.replicate 14 2
      ∧ (auth1Run env flags n (Mifare1ksim_init env flags datain emul rng)
        (roundVisits sec key frames 0 21)).finished = true
      ∧ (∀ m, m < 21 →
        (auth1Run env flags n (Mifare1ksim_init env flags datain emul rng)
          (roundVisits sec key frames 0 m)).finished = false)
      ∧ (auth1Run env flags n (Mifare1ksim_init env flags datain emul rng)
        (roundVisits sec key frames 0 14)).ar_nr_collected
          = List.replicate 7 2 ++ List.replicate 7 1
      ∧ (auth1Run env flags n (Mifare1ksim_init env flags datain emul rng)
        (roundVisits sec key frames 0 14)).gettingMoebius = true := by
  have inv0 : CollInv sec key (mfColl (Mifare1ksim_init env flags datain emul rng))
      (fun i => if i % 7 < 0 then 1 else 0) 0
      (if 1 ≤ 0 then auth1_ar (frames 0) else 0) (if 2 ≤ 0 then auth1_ar (frames 1) else 0)
      0 0 0 false false := by
    rw [mfColl_init]
    refine ⟨rfl, rfl, ?_, ?_, rfl, rfl, rfl, rfl, rfl, rfl, rfl, rfl⟩
    · intro i hi
      show (List.replicate 14 0).getD i 0 = 0
      rw [List.getD_eq_getElem _ _ (by rw [List.length_replicate]; exact hi),
        List.getElem_replicate]
    · intro i hi
      exact absurd hi (Nat.not_lt_zero _)
  -- the first round
  have r1 : ∀ m, m ≤ 7 → CollInv sec key
      (mfColl (auth1Run env flags n (Mifare1ksim_init env flags datain emul rng)
        (roundVisits sec key frames 0 m)))
      (fun i => if i % 7 < m then 1 else 0) m
      (if 1 ≤ m then auth1_ar (frames 0) else 0) (if 2 ≤ m then auth1_ar (frames 1) else 0)
      m 0 0 false false := by
    intro m hm
    have := round_first env flags n sec key frames hfl h8 hp har har0 m 0 _ (by omega) inv0
    rw [Nat.zero_add] at this
    exact this
  -- the second round
  have inv7 : CollInv sec key
      (mfColl (auth1Run env flags n (Mifare1ksim_init env flags datain emul rng)
        (roundVisits sec key frames 0 7)))
      (fun i => if i < 7 then (if i < 0 then 2 else 1) else 1) 7
      (auth1_ar (frames 0)) (auth1_ar (frames 1)) 7 0 0 (decide (0 = 7)) false := by
    have := r1 7 (Nat.le_refl _)
    rw [if_pos (by decide), if_pos (by decide)] at this
    refine CollInv_congr sec key _ _ _ _ _ _ _ _ _ _ _ ?_ this
    intro i hi
    have h7 : i % 7 < 7 := Nat.mod_lt _ (by decide)
    simp only [h7, if_true, Nat.not_lt_zero, if_false, ite_self]
  have r2 : ∀ m, m ≤ 7 → CollInv sec key
      (mfColl (auth1Run env flags n (Mifare1ksim_init env flags datain emul rng)
        (roundVisits sec key frames 0 (7 + m))))
      (fun i => if i < 7 then (if i < m then 2 else 1) else 1) 7
      (auth1_ar (frames 0)) (auth1_ar (frames 1)) 7 m 0 (decide (m = 7)) false := by
    intro m hm
    have := round_second env flags n sec key frames hfl h8 hp har m 0 _ (by omega) inv7
    rw [Nat.zero_add] at this
    rw [roundVisits_append, auth1Run_append]
    exact this
  -- the third round
  have inv14 : CollInv sec key
      (mfColl (auth1Run env flags n (Mifare1ksim_init env flags datain emul rng)
        (roundVisits sec key frames 0 14)))
      (fun i => if i < 7 then 2 else (if i - 7 < 0 then 2 else 1)) 7
      (auth1_ar (frames 0)) (auth1_ar (frames 1)) 7 7 0 true (decide (0 = 7)) := by
    have := r2 7 (Nat.le_refl _)
    refine CollInv_congr sec key _ _ _ _ _ _ _ _ _ _ _ ?_ this
    intro i _
    by_cases h7 : i < 7
    · simp only [h7, if_true]
    · simp only [h7, if_false, Nat.not_lt_zero]
  have r3 : ∀ m, m ≤ 7 → CollInv sec key
      (mfColl (auth1Run env flags n (Mifare1ksim_init env flags datain emul rng)
        (roundVisits sec key frames 0 (14 + m))))
      (fun i => if i < 7 then 2 else (if i - 7 < m then 2 else 1)) 7
      (auth1_ar (frames 0)) (auth1_ar (frames 1)) 7 7 m true (decide (m = 7)) := by
    intro m hm
    have := round_moebius env flags n sec key frames hfl h8 hp har m 0 _ (by omega) inv14
    rw [Nat.zero_add] at this
    rw [roundVisits_append, auth1Run_append]
    exact this
  refine ⟨?_, ?_, ?_, ?_, ?_⟩
  · obtain ⟨hlc, -, hc, -⟩ := r3 7 (Nat.le_refl _)
    have := list_of_getD _ _ hlc hc
    show (mfColl _).collected = _
    rw [this]
    decide
  · obtain ⟨-, -, -, -, -, -, -, -, -, -, -, hfin⟩ := r3 7 (Nat.le_refl _)
    exact hfin
  · intro m hm
    by_cases h1 : m ≤ 7
    · obtain ⟨-, -, -, -, -, -, -, -, -, -, -, hfin⟩ := r1 m h1
      exact hfin
    · by_cases h2 : m ≤ 14
      · obtain ⟨-, -, -, -, -, -, -, -, -, -, -, hfin⟩ := r2 (m - 7) (by omega)
        have e : 7 + (m - 7) = m := by omega
        rw [e] at hfin
        exact hfin
      · obtain ⟨-, -, -, -, -, -, -, -, -, -, -, hfin⟩ := r3 (m - 14) (by omega)
        have e : 14 + (m - 14) = m := by omega
        rw [e] at hfin
        have hd : decide (m - 14 = 7) = false := by simp; omega
        rw [hd] at hfin
        exact hfin
  · obtain ⟨hlc, -, hc, -⟩ := r2 7 (Nat.le_refl _)
    have := list_of_getD _ _ hlc hc
    show (mfColl _).collected = _
    rw [this]
    decide
  · obtain ⟨-, -, -, -, -, -, -, -, -, hgm, -, -⟩ := r2 7 (Nat.le_refl _)
    exact hgm

set_option maxRecDepth 100000 in
/-- C30, as stated, fails: the fourteen visits `visitsMixed`, with pairwise
different `(nr, ar)`, seven of them made while the standard half is collected
and seven while the Moebius half is collected, leave four slots of the
standard half empty and `finished` unset; and after a first and a second visit
for each of the seven pairs the slots of the Moebius half hold one nonce each
and `finished` is unset. -/
theorem collector_completion_counterexample :
    (auth1Run envPlain flagsAttack 0 attackSim (visitsMixed.take 6)).gettingMoebius = false
      ∧ (auth1Run envPlain flagsAttack 0 attackSim (visitsMixed.take 7)).gettingMoebius = true
      ∧ visitsMixed.length = 14
      ∧ (visitsMixed.map fun v => (auth1_nr v.2.2, auth1_ar v.2.2)).Nodup
      ∧ (auth1Run envPlain flagsAttack 0 attackSim visitsMixed).ar_nr_collected
          = [2, 2, 2, 0, 0, 0, 0, 2, 2, 2, 2, 2, 2, 2]
      ∧ (auth1Run envPlain flagsAttack 0 attackSim visitsMixed).finished = false
      ∧ (auth1Run envPlain flagsAttack 0 attackSim
          (roundVisits (fun i => i) (fun _ => 0) visitFrame 0 14)).ar_nr_collected
          = [2, 2, 2, 2, 2, 2, 2, 1, 1, 1, 1, 1, 1, 1]
      ∧ (auth1Run envPlain flagsAttack 0 attackSim
          (roundVisits (fun i => i) (fun _ => 0) visitFrame 0 14)).finished = false := by
  refine ⟨by decide, by decide, by decide, by decide, by decide, by decide, by decide,
    by decide⟩

/-- Two AUTH1 visits inside the main loop (each after WUPA, SELECT and an
authentication command) leave the collector as `auth1Run` does. -/
theorem auth1Run_in_main_loop :
    (Mifare1ksim_run envPlain flagsAttack 0 attackSim attackInputs).1.ar_nr_collected
        = (auth1Run envPlain flagsAttack 0 attackSim
            [(0, 0, visitFrame 0), (1, 0, visitFrame 1)]).ar_nr_collected
      ∧ (Mifare1ksim_run envPlain flagsAttack 0 attackSim attackInputs).1.ar_nr_resp
        = (auth1Run envPlain flagsAttack 0 attackSim
            [(0, 0, visitFrame 0), (1, 0, visitFrame 1)]).ar_nr_resp
      ∧ (Mifare1ksim_run envPlain flagsAttack 0 attackSim attackInputs).1.nonce1_count = 2
      ∧ (auth1Run envPlain flagsAttack 0 attackSim
            [(0, 0, visitFrame 0), (1, 0, visitFrame 1)]).nonce1_count = 2 := by
  refine ⟨by decide, by decide, by decide, by decide⟩

theorem visitFrame_ar (t : Nat) (ht : t < 21) : auth1_ar (visitFrame t) = t + 1 := by
  show bytes_to_num [0, 0, 0, t + 1] 4 % 2 ^ 32 = t + 1
  rw [bytes_to_num_four 0 0 0 (t + 1) [] (by decide) (by decide) (by decide) (by omega)]
  omega

theorem collector_completion_witness :
    (auth1Run envPlain flagsAttack 0 (Mifare1ksim_init envPlain flagsAttack [0xDE, 0xAD, 0xBE,
        0xAF] (fun _ => 0) 0)
        (roundVisits (fun i => i) (fun _ => 0) visitFrame 0 21)).ar_nr_collected = List.replicate
            14 2
      ∧ (auth1Run envPlain flagsAttack 0 (Mifare1ksim_init envPlain flagsAttack [0xDE, 0xAD, 0xBE,
          0xAF] (fun _ => 0) 0)
        (roundVisits (fun i => i) (fun _ => 0) visitFrame 0 21)).finished = true
      ∧ (∀ m, m < 21 →
        (auth1Run envPlain flagsAttack 0 (Mifare1ksim_init envPlain flagsAttack [0xDE, 0xAD, 0xBE,
            0xAF] (fun _ => 0) 0)
          (roundVisits (fun i => i) (fun _ => 0) visitFrame 0 m)).finished = false)
      ∧ (auth1Run envPlain flagsAttack 0 (Mifare1ksim_init envPlain flagsAttack [0xDE, 0xAD, 0xBE,
          0xAF] (fun _ => 0) 0)
        (roundVisits (fun i => i) (fun _ => 0) visitFrame 0 14)).ar_nr_collected
          = List.replicate 7 2 ++ List.replicate 7 1
      ∧ (auth1Run envPlain flagsAttack 0 (Mifare1ksim_init envPlain flagsAttack [0xDE, 0xAD, 0xBE,
          0xAF] (fun _ => 0) 0)
        (roundVisits (fun i => i) (fun _ => 0) visitFrame 0 14)).gettingMoebius = true :=
  collector_completion envPlain flagsAttack 0 [0xDE, 0xAD, 0xBE, 0xAF] (fun _ => 0) 0 (fun i => i)
    (fun _ => 0) visitFrame rfl (fun _ _ => rfl) (fun _ _ _ _ hij h => hij h.1)
    (fun t u ht hu htu h => htu (by
      rw [visitFrame_ar t ht, visitFrame_ar u hu] at h
      omega))
    (fun t ht h => by
      rw [visitFrame_ar t ht] at h
      omega)

/-! ## `dist_nt` -/

/-- What the loop of `dist_nt` returns when it is entered at index `i` with
`nttmp1` and `nttmp2` being `nt1` and `nt2` after `i - 1` steps: the first
index `k` at which one nonce reaches the other, with its sign, or `-99999` when
there is none among the `n` indices tried. -/
theorem dist_nt_loop_spec (ps : Nat → Nat → Nat) (a b : Nat) (n : Nat) :
    ∀ i : Nat,
      (∃ k, i + 1 ≤ k ∧ k < i + 1 + n
          ∧ dist_nt_loop ps a b n (i + 1) ((prngStep ps)^[i] a) ((prngStep ps)^[i] b) = (k : Int)
          ∧ (prngStep ps)^[k] a = b)
      ∨ (∃ k, i + 1 ≤ k ∧ k < i + 1 + n
          ∧ dist_nt_loop ps a b n (i + 1) ((prngStep ps)^[i] a) ((prngStep ps)^[i] b) = -(k : Int)
          ∧ (prngStep ps)^[k] b = a)
      ∨ (dist_nt_loop ps a b n (i + 1) ((prngStep ps)^[i] a) ((prngStep ps)^[i] b) = -99999
          ∧ ∀ j, i + 1 ≤ j → j < i + 1 + n →
              (prngStep ps)^[j] a ≠ b ∧ (prngStep ps)^[j] b ≠ a) := by
  induction n with
  | zero =>
    intro i
    right; right
    exact ⟨rfl, fun j h1 h2 => by omega⟩
  | succ n ih =>
    intro i
    have e1 : ps ((prngStep ps)^[i] a) 1 % 2 ^ 32 = (prngStep ps)^[i + 1] a := by
      rw [Function.iterate_succ_apply']; rfl
    have e2 : ps ((prngStep ps)^[i] b) 1 % 2 ^ 32 = (prngStep ps)^[i + 1] b := by
      rw [Function.iterate_succ_apply']; rfl
    unfold dist_nt_loop
    simp only [e1, e2]
    by_cases h1 : (prngStep ps)^[i + 1] a = b
    · left
      exact ⟨i + 1, Nat.le_refl _, by omega, by simp only [h1, if_true], h1⟩
    · by_cases h2 : (prngStep ps)^[i + 1] b = a
      · right; left
        exact ⟨i + 1, Nat.le_refl _, by omega, by simp only [h1, h2, if_true, if_false], h2⟩
      · simp only [h1, h2, if_false]
        rcases ih (i + 1) with ⟨k, hk1, hk2, hk3, hk4⟩ | ⟨k, hk1, hk2, hk3, hk4⟩ | ⟨hk1, hk2⟩
        · left; exact ⟨k, by omega, by omega, hk3, hk4⟩
        · right; left; exact ⟨k, by omega, by omega, hk3, hk4⟩
        · right; right
          refine ⟨hk1, fun j hj1 hj2 => ?_⟩
          by_cases hj : j = i + 1
          · subst hj; exact ⟨h1, h2⟩
          · exact hk2 j (by omega) (by omega)


/-- C33: `dist_nt` measures the distance of two nonces in steps of the
generator (`prng_successor(x, 1)`, an arbitrary function): `dist_nt(a, a) = 0`;
a result `i` with `0 < i < 32768` means that `i` steps lead from `a` to `b`, a
result `-i` that `i` steps lead from `b` to `a`; and the result is `-99999`
exactly when `a ≠ b` and neither nonce is reached from the other within 32767
steps. -/
theorem dist_nt_distance (prng_successor : Nat → Nat → Nat) (a b : Nat) :
    dist_nt prng_successor a a = 0
    ∧ (∀ i : Nat, 0 < i → i < 32768 → dist_nt prng_successor a b = (i : Int) →
        (prngStep prng_successor)^[i] a = b)
    ∧ (∀ i : Nat, 0 < i → i < 32768 → dist_nt prng_successor a b = -(i : Int) →
        (prngStep prng_successor)^[i] b = a)
    ∧ (dist_nt prng_successor a b = -99999 ↔
        a ≠ b ∧ ∀ i : Nat, 0 < i → i < 32768 →
          (prngStep prng_successor)^[i] a ≠ b ∧ (prngStep prng_successor)^[i] b ≠ a) := by
  have hl := dist_nt_loop_spec prng_successor a b 32767 0
  simp only [Function.iterate_zero, id_eq, Nat.zero_add] at hl
  refine ⟨by unfold dist_nt; simp only [if_true], ?_, ?_, ?_⟩
  · intro i hi1 hi2 hd
    unfold dist_nt at hd
    by_cases hab : a = b
    · simp only [hab, if_true] at hd; omega
    · simp only [hab, if_false] at hd
      rcases hl with ⟨k, hk1, hk2, hk3, hk4⟩ | ⟨k, hk1, hk2, hk3, hk4⟩ | ⟨hk1, hk2⟩
      · have : k = i := by omega
        subst this; exact hk4
      · omega
      · omega
  · intro i hi1 hi2 hd
    unfold dist_nt at hd
    by_cases hab : a = b
    · simp only [hab, if_true] at hd; omega
    · simp only [hab, if_false] at hd
      rcases hl with ⟨k, hk1, hk2, hk3, hk4⟩ | ⟨k, hk1, hk2, hk3, hk4⟩ | ⟨hk1, hk2⟩
      · omega
      · have : k = i := by omega
        subst this; exact hk4
      · omega
  · unfold dist_nt
    by_cases hab : a = b
    · simp only [hab, if_true]
      constructor
      · intro h; omega
      · intro h; exact absurd rfl h.1
    · simp only [hab, if_false]
      constructor
      · intro hd
        refine ⟨hab, fun i hi1 hi2 => ?_⟩
        rcases hl with ⟨k, hk1, hk2, hk3, hk4⟩ | ⟨k, hk1, hk2, hk3, hk4⟩ | ⟨hk1, hk2⟩
        · omega
        · omega
        · exact hk2 i (by omega) (by omega)
      · intro h
        rcases hl with ⟨k, hk1, hk2, hk3, hk4⟩ | ⟨k, hk1, hk2, hk3, hk4⟩ | ⟨hk1, hk2⟩
        · exact absurd hk4 (h.2 k (by omega) (by omega)).1
        · exact absurd hk4 (h.2 k (by omega) (by omega)).2
        · exact hk1

/-- An instance of C33: `dist_nt` gives 3 for the nonces 5 and 8 of the
generator `prngCount`, and three steps lead from 5 to 8. -/
theorem dist_nt_distance_witness :
    dist_nt prngCount 5 8 = 3 ∧ (prngStep prngCount)^[3] 5 = 8 :=
  ⟨by decide, (dist_nt_distance prngCount 5 8).2.1 3 (by decide) (by decide) (by decide)⟩

/-! ## `EmLogTrace` -/

/-- The reader record that `EmLogTrace` hands to `LogTrace`, when tracing is on
and the trace has room for it: its end is the start of the tag answer minus
`exact_fdt`, its start is that end minus `reader_modlen`, both as `uint32_t`;
the record of the tag follows if there is room for it. -/
theorem EmLogTrace_reader_record (room : List TraceCall → Nat → Bool) (trace : List TraceCall)
    (reader_data : List Nat) (reader_len reader_StartTime reader_EndTime : Nat)
    (reader_Parity : List Nat) (tag_data : List Nat) (tag_len tag_StartTime tag_EndTime : Nat)
    (tag_Parity : List Nat) (hroom : room trace reader_len = true) :
    ∃ rest,
      (EmLogTrace true room trace reader_data reader_len reader_StartTime reader_EndTime
          reader_Parity tag_data tag_len tag_StartTime tag_EndTime tag_Parity).2
        = trace ++
          ⟨reader_data, reader_len,
            uint32 ((uint32 ((tag_StartTime : Int)
                - uint16 (((uint16 ((tag_StartTime : Int) - reader_EndTime) : Int) - 20 + 32)
                    / 64 * 64 + 20)) : Int)
              - uint16 ((reader_EndTime : Int) - reader_StartTime)),
            uint32 ((tag_StartTime : Int)
                - uint16 (((uint16 ((tag_StartTime : Int) - reader_EndTime) : Int) - 20 + 32)
                    / 64 * 64 + 20)),
            reader_Parity, true⟩ :: rest := by
  unfold EmLogTrace LogTrace
  simp only [if_true, hroom, not_true_eq_false, if_false]
  split
  · exact ⟨[⟨tag_data, tag_len, tag_StartTime, tag_EndTime, tag_Parity, false⟩], by simp⟩
  · exact ⟨[], by simp⟩

/-- C36: with tracing on, room in the trace and `approx_fdt = tag_StartTime -
reader_EndTime` (modulo `2^16`) below 65504 (the times being `uint32_t` values), the reader record that
`EmLogTrace` logs ends `exact_fdt` ticks before the start of the tag answer
(modulo `2^32`, and as numbers when `exact_fdt ≤ tag_StartTime`), where
`exact_fdt` is congruent to 20 modulo 64, so of the form `128n + 20` or
`128n + 84`, and differs from `approx_fdt` by at most 32. -/
theorem frame_delay_correction (room : List TraceCall → Nat → Bool) (trace : List TraceCall)
    (reader_data : List Nat) (reader_len reader_StartTime reader_EndTime : Nat)
    (reader_Parity : List Nat) (tag_data : List Nat) (tag_len tag_StartTime tag_EndTime : Nat)
    (tag_Parity : List Nat) (hroom : room trace reader_len = true)
    (hT : tag_StartTime < 2 ^ 32)
    (happrox : uint16 ((tag_StartTime : Int) - reader_EndTime) < 65504) :
    ∃ (S E : Nat) (rest : List TraceCall) (exact_fdt : Nat),
      (EmLogTrace true room trace reader_data reader_len reader_StartTime reader_EndTime
          reader_Parity tag_data tag_len tag_StartTime tag_EndTime tag_Parity).2
        = trace ++ ⟨reader_data, reader_len, S, E, reader_Parity, true⟩ :: rest
      ∧ uint32 ((tag_StartTime : Int) - E) = exact_fdt
      ∧ (exact_fdt ≤ tag_StartTime → E + exact_fdt = tag_StartTime)
      ∧ exact_fdt % 64 = 20
      ∧ (exact_fdt % 128 = 20 ∨ exact_fdt % 128 = 84)
      ∧ exact_fdt ≤ uint16 ((tag_StartTime : Int) - reader_EndTime) + 32
      ∧ uint16 ((tag_StartTime : Int) - reader_EndTime) ≤ exact_fdt + 32 := by
  obtain ⟨rest, hrest⟩ := EmLogTrace_reader_record room trace reader_data reader_len
    reader_StartTime reader_EndTime reader_Parity tag_data tag_len tag_StartTime tag_EndTime
    tag_Parity hroom
  refine ⟨_, _, rest, uint16 (((uint16 ((tag_StartTime : Int) - reader_EndTime) : Int) - 20 + 32)
    / 64 * 64 + 20), hrest, ?_⟩
  generalize uint16 ((tag_StartTime : Int) - reader_EndTime) = a at happrox ⊢
  unfold uint16 uint32
  refine ⟨?_, ?_, ?_, ?_, ?_, ?_⟩ <;> omega

/-- An instance of C36: the reader frame ended at 89683 by the clock of the
decoder and the answer started at 90860; `approx_fdt` is 1177, `exact_fdt` is
1172 and the reader record ends at 89688. -/
theorem frame_delay_correction_witness :
    ∃ (S E : Nat) (rest : List TraceCall) (exact_fdt : Nat),
      (EmLogTrace true roomAlways [] [0x26] 1 88723 89683 [0] [0x04, 0x00] 2 90860 93100 [0]).2
        = [] ++ ⟨[0x26], 1, S, E, [0], true⟩ :: rest
      ∧ uint32 ((90860 : Int) - E) = exact_fdt
      ∧ (exact_fdt ≤ 90860 → E + exact_fdt = 90860)
      ∧ exact_fdt % 64 = 20
      ∧ (exact_fdt % 128 = 20 ∨ exact_fdt % 128 = 84)
      ∧ exact_fdt ≤ uint16 ((90860 : Int) - (89683 : Nat)) + 32
      ∧ uint16 ((90860 : Int) - (89683 : Nat)) ≤ exact_fdt + 32 :=
  frame_delay_correction roomAlways [] [0x26] 1 88723 89683 [0] [0x04, 0x00] 2 90860 93100 [0]
    rfl (by decide) (by decide)

/-- The duration of the reader record that `EmLogTrace` logs is the measured
duration modulo `2^16` (when the times are `uint32_t` values, the end not
before the start, and the logged end not before the logged start). -/
theorem EmLogTrace_duration (room : List TraceCall → Nat → Bool) (trace : List TraceCall)
    (reader_data : List Nat) (reader_len reader_StartTime reader_EndTime : Nat)
    (reader_Parity : List Nat) (tag_data : List Nat) (tag_len tag_StartTime tag_EndTime : Nat)
    (tag_Parity : List Nat) (hroom : room trace reader_len = true)
    (hse : reader_StartTime ≤ reader_EndTime) :
    ∃ (S E : Nat) (rest : List TraceCall),
      (EmLogTrace true room trace reader_data reader_len reader_StartTime reader_EndTime
          reader_Parity tag_data tag_len tag_StartTime tag_EndTime tag_Parity).2
        = trace ++ ⟨reader_data, reader_len, S, E, reader_Parity, true⟩ :: rest
      ∧ uint32 ((E : Int) - S) = (reader_EndTime - reader_StartTime) % 65536 := by
  obtain ⟨rest, hrest⟩ := EmLogTrace_reader_record room trace reader_data reader_len
    reader_StartTime reader_EndTime reader_Parity tag_data tag_len tag_StartTime tag_EndTime
    tag_Parity hroom
  refine ⟨_, _, rest, hrest, ?_⟩
  generalize uint16 (((uint16 ((tag_StartTime : Int) - reader_EndTime) : Int) - 20 + 32)
    / 64 * 64 + 20) = x
  unfold uint16 uint32
  omega

/-- C38 fails on a reader frame of 64 bytes: it lasts 73760 ticks (from 15923
to 89683), the tag answers at 90855, and the reader record that `EmLogTrace`
logs runs from 81459 to 89683, which is 8224 ticks: the duration modulo
`2^16`. -/
theorem reader_duration_truncated :
    (EmLogTrace true roomAlways [] (List.replicate 64 0) 64 15923 89683 (List.replicate 8 0)
        [0x0a] 1 90855 91000 [0]).2
      = [⟨List.replicate 64 0, 64, 81459, 89683, List.replicate 8 0, true⟩,
         ⟨[0x0a], 1, 90855, 91000, [0], false⟩]
    ∧ 89683 - 15923 = 73760 ∧ 89683 - 81459 = 8224 ∧ 73760 % 65536 = 8224 := by
  refine ⟨by decide, by decide, by decide, by decide⟩

/-! ## `ReaderMifare`: the search for the parity bits -/

set_option maxRecDepth 100000 in
/-- The bits of `((par & 0x1F) + 1) | par_low` for a byte `par` and
`par_low = 32 l`. -/
theorem par_step_bits : ∀ p < 256, ∀ l < 8,
    ((((p &&& 0x1F) + 1) ||| (l * 32)) % 256) % 32 = (p % 32 + 1) % 32
    ∧ (p % 32 ≠ 31 → ((((p &&& 0x1F) + 1) ||| (l * 32)) % 256) &&& 0xE0 = l * 32)
    ∧ (p % 32 = 31 → ((((p &&& 0x1F) + 1) ||| (l * 32)) % 256) &&& 0xE0 = (l * 32) ||| 0x20) := by
  decide

set_option maxRecDepth 100000 in
/-- A byte with no bit outside `0xE0` is a multiple of 32. -/
theorem par_low_multiple : ∀ x < 256, x &&& 0xE0 = x → x % 32 = 0 := by
  decide

/-- The value of `par_low` has no bit outside `0xE0` after every execution of
the last block of the loop, if it had none before: the block only assigns
`par[0] & 0xE0` to it. -/
theorem ReaderMifare_answer_par_low (first_try : Bool) (st : DarksideState)
    (received : Option Nat) (hlow : st.par_low &&& 0xE0 = st.par_low) :
    (ReaderMifare_answer first_try st received).par_low &&& 0xE0
      = (ReaderMifare_answer first_try st received).par_low := by
  have hand : (st.par &&& 0xE0) &&& 0xE0 = st.par &&& 0xE0 := by
    rw [Nat.land_assoc, Nat.and_self]
  unfold ReaderMifare_answer
  cases received with
  | none =>
    dsimp only
    split_ifs <;> exact hlow
  | some a =>
    dsimp only
    split_ifs <;> first | exact hlow | exact hand

set_option maxRecDepth 100000 in
/-- A byte that has bit 5 set is not changed by an or with `0x20`. -/
theorem or_bit5 : ∀ x < 256, x &&& 0x20 ≠ 0 → x ||| 0x20 = x := by
  decide

/-- C32, as stated, fails for `nt_diff = 0` in a call with `first_try = false`:
with `par_low = 0xE0` and `par[0] = 0xFF` the candidate that follows is `0xE0`
(the low five bits have gone from 31 to 0, the top three bits are those of
`par_low`), not the whole byte incremented, which would be 0; `isOK` is not
set and the loop goes on. -/
theorem parity_search_step_counterexample :
    darksideRetry.nt_diff = 0
    ∧ (ReaderMifare_answer false darksideRetry none).par = 0xE0
    ∧ (ReaderMifare_answer false darksideRetry none).par ≠ (darksideRetry.par + 1) % 256
    ∧ (ReaderMifare_answer false darksideRetry none).isOK = 0
    ∧ (ReaderMifare_answer false darksideRetry none).stopped = false := by
  decide

/-- The five-bit step lets the carry out of the low five bits into bit 5: for
`nt_diff = 1`, `par_low = 0` and `par[0] = 0x1F` the candidate that follows is
`0x20`, whose top three bits are not those of `par_low`.  The sum
`(par[0] & 0x1F) + 1` is not masked before `par_low` is or-ed in. -/
theorem parity_search_carry :
    (ReaderMifare_answer true darksideCarry none).par = 0x20
    ∧ (ReaderMifare_answer true darksideCarry none).par &&& 0xE0 ≠ darksideCarry.par_low := by
  decide

/-- C32, amended.  When no NACK is received and not both `nt_diff = 0` and
`first_try` hold, only `par[0]` changes: the low five bits of the next
candidate are the previous low five bits plus one modulo 32, and its top three
bits are those of `par_low`, unless the low five bits go from 31 to 0 while
bit 5 of `par_low` is clear.  When `nt_diff = 0` and `first_try` holds, the
whole byte is incremented, and the attack gives up (`isOK = -2`, the loop is
left) exactly when it wraps to 0.  Here `par[0]` is a byte and `par_low` has no
bit outside `0xE0`, as after every assignment to it. -/
theorem parity_search_step (first_try : Bool) (st : DarksideState) (hpar : st.par < 256)
    (hlow : st.par_low &&& 0xE0 = st.par_low) :
    (¬ (st.nt_diff = 0 ∧ first_try = true) →
      (ReaderMifare_answer first_try st none
          = { st with par := (ReaderMifare_answer first_try st none).par })
      ∧ (ReaderMifare_answer first_try st none).par % 32 = (st.par % 32 + 1) % 32
      ∧ (st.par % 32 ≠ 31 ∨ st.par_low &&& 0x20 ≠ 0 →
          (ReaderMifare_answer first_try st none).par &&& 0xE0 = st.par_low))
    ∧ (st.nt_diff = 0 → first_try = true →
        (ReaderMifare_answer first_try st none).par = (st.par + 1) % 256
        ∧ (st.par ≠ 255 → ReaderMifare_answer first_try st none
            = { st with par := st.par + 1 })
        ∧ (st.par = 255 → ReaderMifare_answer first_try st none
            = { st with par := 0, isOK := -2, stopped := true })) := by
  have hl256 : st.par_low < 256 := by
    have := @Nat.and_le_right st.par_low 0xE0
    omega
  have hm := par_low_multiple st.par_low hl256 hlow
  have hl8 : st.par_low / 32 < 8 := by omega
  have hl32 : st.par_low = st.par_low / 32 * 32 := by omega
  have hb := par_step_bits st.par hpar (st.par_low / 32) hl8
  rw [← hl32] at hb
  constructor
  · intro hc
    have e : ReaderMifare_answer first_try st none
        = { st with par := (((st.par &&& 0x1F) + 1) ||| st.par_low) % 256 } := by
      unfold ReaderMifare_answer
      simp only [hc, if_false]
    rw [e]
    refine ⟨rfl, hb.1, ?_⟩
    intro h
    by_cases h31 : st.par % 32 = 31
    · rcases h with h | h
      · exact absurd h31 h
      · rw [hb.2.2 h31]
        exact or_bit5 st.par_low hl256 h
    · exact hb.2.1 h31
  · intro h0 hf
    unfold ReaderMifare_answer
    simp only [h0, hf, and_self, if_true]
    refine ⟨by split_ifs <;> rfl, ?_, ?_⟩
    · intro hne
      have h1 : (st.par + 1) % 256 = st.par + 1 := by omega
      have h2 : ¬ st.par + 1 = 0 := by omega
      simp only [h1, h2, if_false]
    · intro he
      simp only [he]
      rfl

/-- An instance of the amended C32 at `darksideRetry` and `first_try = false`:
the candidate `0xFF` is followed by `0xE0`, with the low five bits at 0 and the
top three bits those of `par_low`. -/
theorem parity_search_step_witness :
    ReaderMifare_answer false darksideRetry none
      = { darksideRetry with par := (ReaderMifare_answer false darksideRetry none).par }
    ∧ (ReaderMifare_answer false darksideRetry none).par % 32
        = (darksideRetry.par % 32 + 1) % 32
    ∧ (ReaderMifare_answer false darksideRetry none).par &&& 0xE0 = darksideRetry.par_low :=
  have h := (parity_search_step false darksideRetry (by decide) (by decide)).1 (by decide)
  ⟨h.1, h.2.1, h.2.2 (Or.inr (by decide))⟩

/-! ## The nonce collector: the range of its counters -/

theorem getD_incr8_gen (l : List Nat) (k i : Nat) :
    (incr8 l k).getD i 0
      = if i = k ∧ k < l.length then (l.getD k 0 + 1) % 256 else l.getD i 0 := by
  by_cases hk : k < l.length
  · rw [getD_incr8 l k i hk]
    by_cases h : i = k
    · rw [if_pos h, if_pos ⟨h, hk⟩]
    · rw [if_neg h, if_neg (fun c => h c.1)]
  · rw [if_neg (fun c => hk c.2)]
    unfold incr8
    rw [List.set_eq_of_length_le (by omega)]

/-- The block of the collector that stores a nonce in the slot of pair `i`
keeps the counters in range, and does not clear `gettingMoebius`. -/
theorem mfCollectSlot_range (env : MfEnv) (flags : MfFlags) (nr ar i : Nat) (s : MfSim)
    (hi : i < 7) (h : CollRange (mfCounters s)) :
    CollRange (mfCounters (mfCollectSlot env flags nr ar i s))
      ∧ (s.gettingMoebius = true →
          (mfCollectSlot env flags nr ar i s).gettingMoebius = true) := by
  obtain ⟨hl, hr, hle, hm, haux⟩ := h
  change s.ar_nr_collected.length = 14 at hl
  change s.ar_nr_resp.length = 14 at hr
  change ∀ k, k < 14 → s.ar_nr_collected.getD k 0 ≤ 2 at hle
  change s.mM = (if s.gettingMoebius then 7 else 0) at hm
  change s.gettingMoebius = false → ∀ i, i < 7 →
        s.ar_nr_collected.getD (i + 7) 0 ≤ 1
          ∧ (s.ar_nr_collected.getD i 0 = 0 → s.ar_nr_collected.getD (i + 7) 0 = 0) at haux
  have hi0 := hle i (by omega)
  have hi7 := hle (i + 7) (by omega)
  unfold mfCollectSlot
  by_cases c1 : s.ar_nr_collected.getD (i + s.mM) 0 < 2
  · rw [if_pos c1]
    by_cases c2 : (s.ar_nr_resp.getD (s.ar_nr_collected.getD (i + s.mM) 0) nonces_zero).ar ≠ ar
    · rw [if_pos c2]
      by_cases c3 : s.ar_nr_collected.getD (i + s.mM) 0 = 0
      · rw [if_pos c3]
        dsimp only
        unfold CollRange mfCounters
        dsimp only
        simp only [ATTACK_KEY_COUNT, length_incr8, List.length_set, getD_incr8_gen, hl, hr]
        cases hg : s.gettingMoebius
        · rw [hg] at hm
          simp only [Bool.false_eq_true, if_false] at hm
          rw [hm] at c3 ⊢
          have ha := haux hg i hi
          refine ⟨⟨trivial, trivial, ?_, by simp, ?_⟩, by simp⟩
          · intro k hk
            have := hle k hk
            simp only [Nat.add_zero] at c3 ⊢
            split_ifs <;> omega
          · intro _ j hj
            have := haux hg j hj
            simp only [Nat.add_zero] at c3 ⊢
            constructor
            · split_ifs <;> omega
            · split_ifs <;> omega
        · rw [hg] at hm
          simp only [if_true] at hm
          rw [hm] at c3 ⊢
          refine ⟨⟨trivial, trivial, ?_, by simp, by simp⟩, by simp⟩
          intro k hk
          have := hle k hk
          split_ifs <;> omega
      · rw [if_neg c3]
        dsimp only
        cases hg : s.gettingMoebius
        · rw [hg] at hm
          simp only [Bool.false_eq_true, if_false] at hm
          rw [hm] at c1 c3 ⊢
          simp only [Nat.add_zero] at c1 c3 ⊢
          simp only [Bool.false_eq_true, not_false_eq_true, if_true]
          by_cases c4 : (s.nonce2_count + 1) % 256 = s.nonce1_count
          · rw [if_pos c4]
            have key : ∀ x : MfSim, x.ar_nr_collected = incr8 s.ar_nr_collected i →
                x.ar_nr_resp.length = 14 → x.gettingMoebius = true → x.mM = 7 →
                CollRange (mfCounters x) := by
              intro x hx1 hx2 hx3 hx4
              unfold CollRange mfCounters
              dsimp only
              rw [hx1, hx3, hx4]
              simp only [length_incr8, getD_incr8_gen, hl, hx2]
              refine ⟨trivial, trivial, ?_, by simp, by simp⟩
              intro k hk
              have := hle k hk
              split_ifs <;> omega
            split
            · refine ⟨key _ ?_ ?_ ?_ ?_, fun _ => rfl⟩ <;> first | rfl | skip
              show (List.set _ _ _).length = 14
              rw [List.length_set]; exact hr
            · refine ⟨key _ ?_ ?_ ?_ ?_, fun _ => rfl⟩ <;> first | rfl | skip
              show (List.set _ _ _).length = 14
              rw [List.length_set]; exact hr
          · rw [if_neg c4]
            unfold CollRange mfCounters
            dsimp only
            simp only [length_incr8, List.length_set, getD_incr8_gen, hl, hr, hg]
            refine ⟨⟨trivial, trivial, ?_, by simp, ?_⟩, by simp⟩
            · intro k hk
              have := hle k hk
              split_ifs <;> omega
            · intro _ j hj
              have := haux hg j hj
              constructor
              · split_ifs <;> omega
              · split_ifs <;> omega
        · rw [hg] at hm
          simp only [if_true] at hm
          rw [hm] at c1 c3 ⊢
          simp only [not_true_eq_false, if_false]
          have key : ∀ x : MfSim, x.ar_nr_collected = incr8 s.ar_nr_collected (i + 7) →
              x.ar_nr_resp.length = 14 → x.gettingMoebius = true → x.mM = 7 →
              CollRange (mfCounters x) := by
            intro x hx1 hx2 hx3 hx4
            unfold CollRange mfCounters
            dsimp only
            rw [hx1, hx3, hx4]
            simp only [length_incr8, getD_incr8_gen, hl, hx2]
            refine ⟨trivial, trivial, ?_, by simp, by simp⟩
            intro k hk
            have := hle k hk
            split_ifs <;> omega
          split
          · refine ⟨key _ ?_ ?_ ?_ ?_, fun _ => rfl⟩ <;> first | rfl | skip
            show (List.set _ _ _).length = 14
            rw [List.length_set]; exact hr
          · refine ⟨key _ ?_ ?_ ?_ ?_, fun _ => rfl⟩ <;> first | rfl | skip
            show (List.set _ _ _).length = 14
            rw [List.length_set]; exact hr
    · rw [if_neg c2]
      exact ⟨⟨hl, hr, hle, hm, haux⟩, fun h => h⟩
  · rw [if_neg c1]
    exact ⟨⟨hl, hr, hle, hm, haux⟩, fun h => h⟩
theorem mfWorkAuth_counters (env : MfEnv) (flags : MfFlags) (e : Bool) (s : MfSim) :
    mfCounters (mfWorkAuth env flags e s).1 = mfCounters s := by
  unfold mfWorkAuth
  split
  · rfl
  · dsimp only
    split <;> rfl

theorem mfCounters_ite (c : Prop) [Decidable c] (a b : MfSim × List MfSent)
    (v : List Nat × Nat × Bool × Nat)
    (ha : mfCounters a.1 = v) (hb : mfCounters b.1 = v) :
    mfCounters (if c then a else b).1 = v := by
  split <;> assumption

theorem mfWorkCmd_counters (env : MfEnv) (n : Nat) (s : MfSim) :
    mfCounters (mfWorkCmd env n s).1 = mfCounters s := by
  unfold mfWorkCmd
  apply mfCounters_ite _ _ _ _ rfl
  apply mfCounters_ite _ _ _ _ rfl
  apply mfCounters_ite
  · dsimp only
    split <;> rfl
  apply mfCounters_ite _ _ _ _ rfl
  apply mfCounters_ite
  · apply mfCounters_ite _ _ _ _ rfl
    dsimp only
    by_cases h1 : s.receivedCmd 0 = 0xC1 <;> by_cases h0 : s.receivedCmd 0 = 0xC0
      <;> by_cases h2 : s.receivedCmd 0 = 0xC2 <;> simp only [h1, h0, h2, if_true, if_false]
      <;> rfl
  apply mfCounters_ite
  · dsimp only
    split <;> rfl
  apply mfCounters_ite _ _ _ _ rfl
  apply mfCounters_ite _ _ _ _ rfl
  rfl

theorem mfWork_counters (env : MfEnv) (flags : MfFlags) (n : Nat) (s : MfSim) :
    mfCounters (mfWork env flags n s).1 = mfCounters s := by
  have key : ∀ s1 : MfSim, mfCounters s1 = mfCounters s → ∀ e : Bool,
      mfCounters (if s1.len = 4 ∧ (s1.receivedCmd 0 = 0x60 ∨ s1.receivedCmd 0 = 0x61) then
          mfWorkAuth env flags e s1
        else if s1.len = 1 ∧ s1.receivedCmd 0 = env.CARD_ACK then
          mfSend4bit env s1 env.CARD_NACK_NA
        else if s1.len = 1 ∧ s1.receivedCmd 0 = env.CARD_NACK_NA then
          mfSend4bit env s1 env.CARD_ACK
        else if s1.len ≠ 4 then (s1, [])
        else mfWorkCmd env n s1).1 = mfCounters s := by
    intro s1 h1 e
    split
    · rw [mfWorkAuth_counters]; exact h1
    · split
      · exact h1
      · split
        · exact h1
        · split
          · exact h1
          · rw [mfWorkCmd_counters]; exact h1
  unfold mfWork
  split
  · rfl
  · dsimp only
    split
    · exact key (mfDecrypt env s) rfl _
    · exact key s rfl _

theorem mfIntReg_counters (env : MfEnv) (s : MfSim) (f : Nat → Nat → Nat) :
    mfCounters (mfIntReg env s f).1 = mfCounters s := by
  unfold mfIntReg
  dsimp only
  split <;> rfl

theorem mfSwitch_counters (env : MfEnv) (flags : MfFlags) (n : Nat) (s : MfSim)
    (hne : s.cardSTATE ≠ .MFEMUL_AUTH1) : mfCounters (mfSwitch env flags n s).1 = mfCounters s := by
  unfold mfSwitch
  cases hst : s.cardSTATE
  case MFEMUL_NOFIELD => rfl
  case MFEMUL_IDLE => rfl
  case MFEMUL_HALTED => rfl
  case MFEMUL_SELECT1 =>
    dsimp only
    split_ifs <;> rfl
  case MFEMUL_SELECT2 =>
    dsimp only
    split
    · rfl
    · split
      · rfl
      · split
        · split_ifs <;> rfl
        · split
          · rfl
          · rw [mfWork_counters]; rfl
  case MFEMUL_SELECT3 =>
    dsimp only
    split_ifs <;> rfl
  case MFEMUL_AUTH1 => exact absurd hst hne
  case MFEMUL_WORK => exact mfWork_counters env flags n s
  case MFEMUL_WRITEBL2 =>
    dsimp only
    split <;> rfl
  case MFEMUL_INTREG_INC => exact mfIntReg_counters env s _
  case MFEMUL_INTREG_DEC => exact mfIntReg_counters env s _
  case MFEMUL_INTREG_REST => exact mfIntReg_counters env s _

theorem mfReqaWupa_counters (env : MfEnv) (flags : MfFlags) (s : MfSim) :
    mfCounters (mfReqaWupa env flags s).1 = mfCounters s := by
  unfold mfReqaWupa
  dsimp only
  split <;> rfl

/-- The loop of the collector keeps the counters in range and does not clear
`gettingMoebius`: every slot index `i` that it uses is below 7. -/
theorem mfCollect_range (env : MfEnv) (flags : MfFlags) (nr ar : Nat) (s : MfSim)
    (h : CollRange (mfCounters s)) :
    ∀ (n i : Nat), i + n ≤ 7 →
      CollRange (mfCounters (mfCollect env flags nr ar n i s))
        ∧ (s.gettingMoebius = true → (mfCollect env flags nr ar n i s).gettingMoebius = true)
  | 0, _, _ => ⟨h, fun g => g⟩
  | n + 1, i, hin => by
    rw [mfCollect_succ]
    split
    · exact mfCollectSlot_range env flags nr ar i s (by omega) h
    · exact mfCollect_range env flags nr ar s h n (i + 1) (by omega)

/-- The case `MFEMUL_AUTH1` keeps the counters of the collector in range. -/
theorem mfAuth1_range (env : MfEnv) (flags : MfFlags) (s : MfSim) (h : CollRange (mfCounters s)) :
    CollRange (mfCounters (mfAuth1 env flags s).1)
      ∧ (s.gettingMoebius = true → (mfAuth1 env flags s).1.gettingMoebius = true) := by
  have hc : CollRange (mfCounters (if flags.FLAG_NR_AR_ATTACK then
      mfCollect env flags (bytes_to_num (memRead s.receivedCmd 4) 4 % 2 ^ 32)
        (bytes_to_num ((memRead s.receivedCmd 8).drop 4) 4 % 2 ^ 32) ATTACK_KEY_COUNT 0 s
      else s))
      ∧ (s.gettingMoebius = true → (if flags.FLAG_NR_AR_ATTACK then
      mfCollect env flags (bytes_to_num (memRead s.receivedCmd 4) 4 % 2 ^ 32)
        (bytes_to_num ((memRead s.receivedCmd 8).drop 4) 4 % 2 ^ 32) ATTACK_KEY_COUNT 0 s
      else s).gettingMoebius = true) := by
    split
    · exact mfCollect_range env flags _ _ s h ATTACK_KEY_COUNT 0 (by decide)
    · exact ⟨h, fun g => g⟩
  unfold mfAuth1
  split
  · exact ⟨h, fun g => g⟩
  · dsimp only
    generalize (if flags.FLAG_NR_AR_ATTACK then
      mfCollect env flags (bytes_to_num (memRead s.receivedCmd 4) 4 % 2 ^ 32)
        (bytes_to_num ((memRead s.receivedCmd 8).drop 4) 4 % 2 ^ 32) ATTACK_KEY_COUNT 0 s
      else s) = sc at hc ⊢
    split
    · exact hc
    · exact hc

/-- The `switch` on `cardSTATE` keeps the counters of the collector in range. -/
theorem mfSwitch_range (env : MfEnv) (flags : MfFlags) (n : Nat) (s : MfSim)
    (h : CollRange (mfCounters s)) :
    CollRange (mfCounters (mfSwitch env flags n s).1)
      ∧ (s.gettingMoebius = true → (mfSwitch env flags n s).1.gettingMoebius = true) := by
  by_cases hst : s.cardSTATE = .MFEMUL_AUTH1
  · have e : mfSwitch env flags n s = mfAuth1 env flags s := by
      unfold mfSwitch
      rw [hst]
    rw [e]
    exact mfAuth1_range env flags s h
  · have e := mfSwitch_counters env flags n s hst
    rw [e]
    refine ⟨h, fun g => ?_⟩
    have : (mfCounters (mfSwitch env flags n s).1).2.2.1 = (mfCounters s).2.2.1 := by rw [e]
    exact this.trans g

/-- One iteration of the main loop of `Mifare1ksim` keeps the counters of the
collector in range and does not clear `gettingMoebius`. -/
theorem Mifare1ksim_step_range (env : MfEnv) (flags : MfFlags) (n : Nat) (s : MfSim)
    (inp : MfInput) (h : CollRange (mfCounters s)) :
    CollRange (mfCounters (Mifare1ksim_step env flags n s inp).1)
      ∧ (s.gettingMoebius = true
          → (Mifare1ksim_step env flags n s inp).1.gettingMoebius = true) := by
  have key : ∀ s1 : MfSim, mfCounters s1 = mfCounters s →
      CollRange (mfCounters (if s1.cardSTATE = .MFEMUL_NOFIELD then (s1, [])
        else if inp.res = 2 then ({ s1 with len := 0, cardSTATE := .MFEMUL_NOFIELD }, [])
        else if inp.res = 1 then ({ s1 with len := 0, stopped := true }, [])
        else
          if (mfReceive s1 inp.frame).len = 1
              ∧ (((mfReceive s1 inp.frame).receivedCmd 0 = ISO14443A_CMD_REQA
                  ∧ (mfReceive s1 inp.frame).cardSTATE ≠ .MFEMUL_HALTED)
                ∨ (mfReceive s1 inp.frame).receivedCmd 0 = ISO14443A_CMD_WUPA) then
            mfReqaWupa env flags (mfReceive s1 inp.frame)
          else mfSwitch env flags n (mfReceive s1 inp.frame)).1)
      ∧ (s.gettingMoebius = true → (if s1.cardSTATE = .MFEMUL_NOFIELD then (s1, [])
        else if inp.res = 2 then ({ s1 with len := 0, cardSTATE := .MFEMUL_NOFIELD }, [])
        else if inp.res = 1 then ({ s1 with len := 0, stopped := true }, [])
        else
          if (mfReceive s1 inp.frame).len = 1
              ∧ (((mfReceive s1 inp.frame).receivedCmd 0 = ISO14443A_CMD_REQA
                  ∧ (mfReceive s1 inp.frame).cardSTATE ≠ .MFEMUL_HALTED)
                ∨ (mfReceive s1 inp.frame).receivedCmd 0 = ISO14443A_CMD_WUPA) then
            mfReqaWupa env flags (mfReceive s1 inp.frame)
          else mfSwitch env flags n (mfReceive s1 inp.frame)).1.gettingMoebius = true) := by
    intro s1 h1
    have hgm : s1.gettingMoebius = s.gettingMoebius := congrArg (fun c => c.2.2.1) h1
    have hr1 : CollRange (mfCounters s1) := by rw [h1]; exact h
    split
    · exact ⟨hr1, fun g => hgm.trans g⟩
    · split
      · exact ⟨hr1, fun g => hgm.trans g⟩
      · split
        · exact ⟨hr1, fun g => hgm.trans g⟩
        · split
          · have e := mfReqaWupa_counters env flags (mfReceive s1 inp.frame)
            rw [e]
            refine ⟨hr1, fun g => ?_⟩
            have : (mfCounters (mfReqaWupa env flags (mfReceive s1 inp.frame)).1).2.2.1
                = (mfCounters (mfReceive s1 inp.frame)).2.2.1 := by rw [e]
            exact this.trans (hgm.trans g)
          · have hsw := mfSwitch_range env flags n (mfReceive s1 inp.frame) hr1
            exact ⟨hsw.1, fun g => hsw.2 (hgm.trans g)⟩
  unfold Mifare1ksim_step
  exact key (if s.cardSTATE = .MFEMUL_NOFIELD then
      if (env.MAX_ADC_HF_VOLTAGE * inp.avgAdc) >>> 10 > env.MF_MINFIELDV then cardSTATE_TO_IDLE s
      else s
    else s) (by split_ifs <;> rfl)

/-- Before the main loop the counters of the collector are in range. -/
theorem Mifare1ksim_init_range (env : MfEnv) (flags : MfFlags) (datain : List Nat) (emul : Mem)
    (rng : Nat) : CollRange (mfCounters (Mifare1ksim_init env flags datain emul rng)) := by
  have h := mfColl_init env flags datain emul rng
  have h1 : (Mifare1ksim_init env flags datain emul rng).ar_nr_collected = List.replicate 14 0 :=
    congrArg Collector.collected h
  have h2 : (Mifare1ksim_init env flags datain emul rng).ar_nr_resp
      = List.replicate 14 nonces_zero := congrArg Collector.resp h
  have h3 : (Mifare1ksim_init env flags datain emul rng).gettingMoebius = false :=
    congrArg Collector.gm h
  have h4 : (Mifare1ksim_init env flags datain emul rng).mM = 0 := congrArg Collector.mM h
  unfold CollRange mfCounters
  dsimp only
  rw [h1, h2, h3, h4]
  refine ⟨by decide, by decide, by decide, by decide, fun _ => by decide⟩

/-- Every run of the main loop of `Mifare1ksim` keeps the counters of the
collector in range and does not clear `gettingMoebius`. -/
theorem Mifare1ksim_run_range (env : MfEnv) (flags : MfFlags) (n : Nat) :
    ∀ (inputs : List MfInput) (s : MfSim), CollRange (mfCounters s) →
      CollRange (mfCounters (Mifare1ksim_run env flags n s inputs).1)
        ∧ (s.gettingMoebius = true
            → (Mifare1ksim_run env flags n s inputs).1.gettingMoebius = true)
  | [], _, h => ⟨h, fun g => g⟩
  | inp :: rest, s, h => by
    unfold Mifare1ksim_run
    split
    · exact ⟨h, fun g => g⟩
    · dsimp only
      have h1 := Mifare1ksim_step_range env flags n s inp h
      have h2 := Mifare1ksim_run_range env flags n rest _ h1.1
      exact ⟨h2.1, fun g => h2.2 (h1.2 g)⟩

/-- Every series of AUTH1 visits keeps the counters of the collector in range
and does not clear `gettingMoebius`. -/
theorem auth1Run_range (env : MfEnv) (flags : MfFlags) (n : Nat) :
    ∀ (visits : List (Nat × Nat × List Nat)) (s : MfSim), CollRange (mfCounters s) →
      CollRange (mfCounters (auth1Run env flags n s visits))
        ∧ (s.gettingMoebius = true → (auth1Run env flags n s visits).gettingMoebius = true)
  | [], _, h => ⟨h, fun g => g⟩
  | v :: rest, s, h => by
    have h1 := Mifare1ksim_step_range env flags n (atAuth1 s v.1 v.2.1) ⟨0, 0, v.2.2⟩ h
    have h2 := auth1Run_range env flags n rest (auth1Visit env flags n s v.1 v.2.1 v.2.2) h1.1
    exact ⟨h2.1, fun g => h2.2 (h1.2 g)⟩

/-- C39: after every series of AUTH1 visits from the start of `Mifare1ksim`
(whatever the flags, the sectors, the key types and the frames), both arrays of
the collector have their 14 entries, every entry of `ar_nr_collected` is 0, 1
or 2, the slot indices `i + mM` and `i + ATTACK_KEY_COUNT` of the loop
(`i < ATTACK_KEY_COUNT`) are below 14, `mM` is 0 while `gettingMoebius` is
false and 7 when it is true, and once `gettingMoebius` is true it stays true,
with `mM = 7`, over every further series of visits. -/
theorem collector_counters_in_range (env : MfEnv) (flags : MfFlags) (n : Nat)
    (datain : List Nat) (emul : Mem) (rng : Nat) (visits more : List (Nat × Nat × List Nat)) :
    (auth1Run env flags n (Mifare1ksim_init env flags datain emul rng) visits).ar_nr_collected.length
        = 14
    ∧ (auth1Run env flags n (Mifare1ksim_init env flags datain emul rng) visits).ar_nr_resp.length
        = 14
    ∧ (∀ k, k < 14 →
        (auth1Run env flags n (Mifare1ksim_init env flags datain emul rng)
          visits).ar_nr_collected.getD k 0 ≤ 2)
    ∧ (∀ i, i < ATTACK_KEY_COUNT →
        i + (auth1Run env flags n (Mifare1ksim_init env flags datain emul rng) visits).mM < 14
          ∧ i + ATTACK_KEY_COUNT < 14)
    ∧ (auth1Run env flags n (Mifare1ksim_init env flags datain emul rng) visits).mM
        = (if (auth1Run env flags n (Mifare1ksim_init env flags datain emul rng)
            visits).gettingMoebius then 7 else 0)
    ∧ ((auth1Run env flags n (Mifare1ksim_init env flags datain emul rng)
          visits).gettingMoebius = true →
        (auth1Run env flags n (Mifare1ksim_init env flags datain emul rng)
          (visits ++ more)).gettingMoebius = true
        ∧ (auth1Run env flags n (Mifare1ksim_init env flags datain emul rng)
          (visits ++ more)).mM = 7) := by
  have h0 := Mifare1ksim_init_range env flags datain emul rng
  have h1 := auth1Run_range env flags n visits _ h0
  have h2 := auth1Run_range env flags n more _ h1.1
  rw [← auth1Run_append] at h2
  obtain ⟨hl, hr, hle, hm, _⟩ := h1.1
  change (auth1Run env flags n (Mifare1ksim_init env flags datain emul rng)
    visits).ar_nr_collected.length = 14 at hl
  change (auth1Run env flags n (Mifare1ksim_init env flags datain emul rng)
    visits).ar_nr_resp.length = 14 at hr
  change (auth1Run env flags n (Mifare1ksim_init env flags datain emul rng) visits).mM
    = (if (auth1Run env flags n (Mifare1ksim_init env flags datain emul rng)
        visits).gettingMoebius then 7 else 0) at hm
  refine ⟨hl, hr, hle, ?_, hm, ?_⟩
  · intro i hi
    have : (auth1Run env flags n (Mifare1ksim_init env flags datain emul rng) visits).mM ≤ 7 := by
      rw [hm]; split <;> omega
    have hi7 : i < 7 := hi
    exact ⟨by omega, by show i + 7 < 14; omega⟩
  · intro g
    have g2 := h2.2 g
    obtain ⟨_, _, _, hm2, _⟩ := h2.1
    change (auth1Run env flags n (Mifare1ksim_init env flags datain emul rng) (visits ++ more)).mM
      = (if (auth1Run env flags n (Mifare1ksim_init env flags datain emul rng)
          (visits ++ more)).gettingMoebius then 7 else 0) at hm2
    rw [g2] at hm2
    exact ⟨g2, hm2⟩

set_option maxRecDepth 100000 in
/-- An instance of C39: after the 14 visits `roundVisits .. 0 14` (a first and
a second nonce for each of seven pairs) `gettingMoebius` is true, and after the
seven visits that follow `mM` is 7. -/
theorem collector_counters_in_range_witness :
    (auth1Run envPlain flagsAttack 0
        (Mifare1ksim_init envPlain flagsAttack [0xDE, 0xAD, 0xBE, 0xAF] (fun _ => 0) 0)
        (roundVisits (fun i => i) (fun _ => 0) visitFrame 0 14)).gettingMoebius = true
    ∧ (auth1Run envPlain flagsAttack 0
        (Mifare1ksim_init envPlain flagsAttack [0xDE, 0xAD, 0xBE, 0xAF] (fun _ => 0) 0)
        (roundVisits (fun i => i) (fun _ => 0) visitFrame 0 14
          ++ roundVisits (fun i => i) (fun _ => 0) visitFrame 14 7)).mM = 7 :=
  ⟨by decide,
    ((collector_counters_in_range envPlain flagsAttack 0 [0xDE, 0xAD, 0xBE, 0xAF] (fun _ => 0) 0
      (roundVisits (fun i => i) (fun _ => 0) visitFrame 0 14)
      (roundVisits (fun i => i) (fun _ => 0) visitFrame 14 7)).2.2.2.2.2 (by decide)).2⟩

/-! ## The nonce collector: the test for duplicates -/

set_option maxRecDepth 100000 in
/-- C31 fails on a repeated visit.  After one AUTH1 visit for sector 0 with key
A and `ar = 1`, slot 0 holds its first nonce with `ar = 1`; a second visit for
the same pair with the same frame is stored as the second record of slot 0
(`ar2 = 1`) and counted (`ar_nr_collected[0] = 2`, `nonce2_count = 1`): the
test reads `ar_nr_resp[ar_nr_collected[0]].ar`, the `ar` of slot 1, which is
0.  And after the visits for sector 0 with `ar = 1` and for sector 1 with
`ar = 2`, a visit for sector 0 with `ar = 2`, which differs from the `ar` of
slot 0, is not stored: it equals the `ar` of slot 1. -/
theorem duplicate_second_nonce_stored :
    ((auth1Run envPlain flagsAttack 0 attackSim [(0, 0, visitFrame 0)]).ar_nr_resp.getD 0
        nonces_zero).ar = 1
    ∧ (auth1Run envPlain flagsAttack 0 attackSim [(0, 0, visitFrame 0)]).ar_nr_collected.getD 0 0
        = 1
    ∧ ((auth1Run envPlain flagsAttack 0 attackSim
        [(0, 0, visitFrame 0), (0, 0, visitFrame 0)]).ar_nr_resp.getD 0 nonces_zero).ar2 = 1
    ∧ (auth1Run envPlain flagsAttack 0 attackSim
        [(0, 0, visitFrame 0), (0, 0, visitFrame 0)]).ar_nr_collected.getD 0 0 = 2
    ∧ (auth1Run envPlain flagsAttack 0 attackSim
        [(0, 0, visitFrame 0), (0, 0, visitFrame 0)]).nonce2_count = 1
    ∧ ((auth1Run envPlain flagsAttack 0 attackSim
        [(0, 0, visitFrame 0), (1, 0, visitFrame 1)]).ar_nr_resp.getD 0 nonces_zero).ar = 1
    ∧ (auth1Run envPlain flagsAttack 0 attackSim
        [(0, 0, visitFrame 0), (1, 0, visitFrame 1), (0, 0, visitFrame 1)]).ar_nr_collected.getD
          0 0 = 1
    ∧ ((auth1Run envPlain flagsAttack 0 attackSim
        [(0, 0, visitFrame 0), (1, 0, visitFrame 1), (0, 0, visitFrame 1)]).ar_nr_resp.getD 0
          nonces_zero).ar2 = 0
    ∧ (auth1Run envPlain flagsAttack 0 attackSim
        [(0, 0, visitFrame 0), (1, 0, visitFrame 1), (0, 0, visitFrame 1)]).nonce2_count = 0 := by
  refine ⟨by decide, by decide, by decide, by decide, by decide, by decide, by decide,
    by decide, by decide⟩

/-! ## Miller decoder: end of communication with nothing received -/

/-- An unmodulated slot after a Sequence Z or Y when nothing has been received
(`Uart.len = 0` and the only bit counted is the zero of the end of
communication): `MillerDecoding` returns false, and after `UartReset()` the
code runs on into the branch for a logic "0", which leaves
`Uart.state = STATE_MILLER_Y` and `Uart.bitCount = 1`. -/
theorem miller_eoc_nothing_received (u : tUart) (bit non_real_time clk : Nat)
    (hstate : u.state = .STATE_MILLER_Z ∨ u.state = .STATE_MILLER_Y)
    (hlen : u.len = 0) (hbit : u.bitCount = 1)
    (h1 : IsMillerModulationNibble1 ((((u.fourBits <<< 8) ||| bit) % 4294967296) >>> u.syncBit)
      = false)
    (h2 : IsMillerModulationNibble2 ((((u.fourBits <<< 8) ||| bit) % 4294967296) >>> u.syncBit)
      = false) :
    (MillerDecoding u bit non_real_time clk).1 = false
      ∧ (MillerDecoding u bit non_real_time clk).2.state = .STATE_MILLER_Y
      ∧ (MillerDecoding u bit non_real_time clk).2.bitCount = 1
      ∧ (MillerDecoding u bit non_real_time clk).2.len = 0 := by
  have hne : u.state ≠ .STATE_UNSYNCD := by
    rcases hstate with h | h <;> rw [h] <;> decide
  unfold MillerDecoding
  simp [hne, h1, h2, hstate, hlen, hbit, UartReset, MillerSeqYTail, UartStoreByte, int16]

set_option maxRecDepth 100000 in
/-- C37 fails on the empty reader frame (start of communication and end of
communication, the samples `3F 3F FF` after idle samples `FF`): no call of
`MillerDecoding` returns true, and after the last call `Uart.state` is
`STATE_MILLER_Y` with `Uart.bitCount = 1`, not `STATE_UNSYNCD` with
`bitCount = 0`.  Idle samples leave the decoder there.  A REQA (`0x26`, 7 bits)
that follows is then not decoded as after a restart (one byte `0x26` with 7
bits) but as the byte `0x98` with `bitCount = 0`: the bit left over and the
start of communication are taken as its first two data bits. -/
theorem miller_empty_frame_not_restarted :
    readerSamples 3 (CodeIso14443aBitsAsReaderPar Enc0 [] 0 none)
        = [0xFF, 0xFF, 0xFF, 0x3F, 0x3F, 0xFF]
    ∧ (MillerRun 0 0 (UartInit Uart0 (fun _ => 0) (fun _ => 0))
        [0xFF, 0xFF, 0xFF, 0x3F, 0x3F, 0xFF]).1 = List.replicate 6 false
    ∧ (MillerRun 0 0 (UartInit Uart0 (fun _ => 0) (fun _ => 0))
        [0xFF, 0xFF, 0xFF, 0x3F, 0x3F, 0xFF]).2.state = .STATE_MILLER_Y
    ∧ (MillerRun 0 0 (UartInit Uart0 (fun _ => 0) (fun _ => 0))
        [0xFF, 0xFF, 0xFF, 0x3F, 0x3F, 0xFF]).2.bitCount = 1
    ∧ (MillerRun 0 0 (UartInit Uart0 (fun _ => 0) (fun _ => 0))
        ([0xFF, 0xFF, 0xFF, 0x3F, 0x3F, 0xFF] ++ List.replicate 5 0xFF)).2.state = .STATE_MILLER_Y
    ∧ (MillerRun 0 0 (UartInit Uart0 (fun _ => 0) (fun _ => 0))
        ([0xFF, 0xFF, 0xFF, 0x3F, 0x3F, 0xFF] ++ List.replicate 5 0xFF)).2.bitCount = 1
    ∧ ((MillerRun 0 0 (UartInit Uart0 (fun _ => 0) (fun _ => 0))
          (readerSamples 3 (CodeIso14443aBitsAsReaderPar Enc0 [0x26] 7 none))).1.getLast?
        = some true
      ∧ (MillerRun 0 0 (UartInit Uart0 (fun _ => 0) (fun _ => 0))
          (readerSamples 3 (CodeIso14443aBitsAsReaderPar Enc0 [0x26] 7 none))).2.output 0 = 0x26
      ∧ (MillerRun 0 0 (UartInit Uart0 (fun _ => 0) (fun _ => 0))
          (readerSamples 3 (CodeIso14443aBitsAsReaderPar Enc0 [0x26] 7 none))).2.bitCount = 7)
    ∧ ((MillerRun 0 0 (UartInit Uart0 (fun _ => 0) (fun _ => 0))
          ([0xFF, 0xFF, 0xFF, 0x3F, 0x3F, 0xFF]
            ++ readerSamples 3 (CodeIso14443aBitsAsReaderPar Enc0 [0x26] 7 none))).1.getLast?
        = some true
      ∧ (MillerRun 0 0 (UartInit Uart0 (fun _ => 0) (fun _ => 0))
          ([0xFF, 0xFF, 0xFF, 0x3F, 0x3F, 0xFF]
            ++ readerSamples 3 (CodeIso14443aBitsAsReaderPar Enc0 [0x26] 7 none))).2.output 0
          = 0x98
      ∧ (MillerRun 0 0 (UartInit Uart0 (fun _ => 0) (fun _ => 0))
          ([0xFF, 0xFF, 0xFF, 0x3F, 0x3F, 0xFF]
            ++ readerSamples 3 (CodeIso14443aBitsAsReaderPar Enc0 [0x26] 7 none))).2.bitCount
          = 0) := by
  refine ⟨by decide, by decide, by decide, by decide, by decide, by decide,
    ⟨by decide, by decide, by decide⟩, ⟨by decide, by decide, by decide⟩⟩

/-! ## `SimulateIso14443aTag`: the precomputed responses -/

/-- The modulation bytes of `CodeIso14443aAsTagPar` do not depend on the
transmit buffer before the call, and there are `9 * len + 3` of them. -/
theorem CodeIso14443aAsTagPar_ToSend (s0 : EncSt) (cmd : List Nat) (len : Nat) (parity : Mem) :
    (CodeIso14443aAsTagPar s0 cmd len parity).ToSend
        = 0x08 :: SEC_D :: (((List.range len).flatMap (tagByteBits cmd parity)).map manSymbol
            ++ [SEC_F])
      ∧ (CodeIso14443aAsTagPar s0 cmd len parity).ToSend.length = 9 * len + 3 := by
  have h : (CodeIso14443aAsTagPar s0 cmd len parity).ToSend
      = 0x08 :: SEC_D :: (((List.range len).flatMap (tagByteBits cmd parity)).map manSymbol
          ++ [SEC_F]) := by
    unfold CodeIso14443aAsTagPar
    simp only [EncSt.push, TagBytes_ToSend, tag_stuff_bits, List.range_eq_range']
    have e : (fun j => bitsLSB (cmd.getD j 0) 8 ++ [(parity (j / 8)).testBit (7 - j % 8)])
        = tagByteBits cmd parity := rfl
    rw [e]
    simp
  refine ⟨h, ?_⟩
  rw [h, List.range_eq_range']
  simp only [List.length_cons, List.length_append, List.length_map, tagByteBits_length,
    List.length_nil]

theorem CodeIso14443aAsTag_ToSend (s0 : EncSt) (par : Mem) (cmd : List Nat) (len : Nat) :
    (CodeIso14443aAsTag s0 par cmd len).ToSend = (CodeIso14443aAsTag Enc0 par cmd len).ToSend
      ∧ (CodeIso14443aAsTag s0 par cmd len).ToSend.length = 9 * len + 3 := by
  unfold CodeIso14443aAsTag
  exact ⟨(CodeIso14443aAsTagPar_ToSend s0 cmd len _).1.trans
    (CodeIso14443aAsTagPar_ToSend Enc0 cmd len _).1.symm,
    (CodeIso14443aAsTagPar_ToSend s0 cmd len _).2⟩

/-- A call of `prepare_allocated_tag_modulation` for a response of `n` bytes
with `9 n + 3 ≤ 273` succeeds: the `9 n + 3` modulation bytes are copied to the
place that `free_buffer_pointer` points to, which is stored in the response,
and `free_buffer_pointer` advances by `9 n + 3`. -/
theorem prepare_allocated_ok (par : Mem) (st : ArenaState) (r : tag_response_info_t)
    (h : 9 * r.response_n + 3 ≤ 273) :
    prepare_allocated_tag_modulation par st r
      = (true,
          ⟨CodeIso14443aAsTag st.enc par r.response r.response_n,
            memcpyAt st.mem st.free_buffer_pointer
              (CodeIso14443aAsTag Enc0 par r.response r.response_n).ToSend,
            st.free_buffer_pointer + (9 * r.response_n + 3)⟩,
          ⟨r.response, r.response_n, st.free_buffer_pointer, 9 * r.response_n + 3,
            (CodeIso14443aAsTag st.enc par r.response r.response_n).LastProxToAirDuration⟩) := by
  have hT := CodeIso14443aAsTag_ToSend st.enc par r.response r.response_n
  unfold prepare_allocated_tag_modulation prepare_tag_modulation
  dsimp only
  have hc : ¬ (9 * r.response_n + 3 > ALLOCATED_TAG_MODULATION_BUFFER_SIZE) := by
    show ¬ (9 * r.response_n + 3 > 273)
    omega
  rw [hT.2]
  simp only [hc, if_false, if_true]
  rw [List.take_of_length_le (by rw [hT.2]), hT.1,
    (CodeIso14443aAsTag_ToSend Enc0 par r.response r.response_n).2]

theorem memRead_memcpyAt_skip (m : Mem) (off : Nat) (xs : List Nat) (o n : Nat)
    (h : o + n ≤ off ∨ off + xs.length ≤ o) :
    memRead (fun i => memcpyAt m off xs (o + i)) n = memRead (fun i => m (o + i)) n := by
  unfold memRead
  apply List.map_congr_left
  intro i hi
  have hi2 := List.mem_range.mp hi
  unfold memcpyAt
  rw [if_neg (by omega)]

theorem memRead_memcpyAt_same (m : Mem) (off : Nat) (xs : List Nat) (n : Nat)
    (hn : xs.length = n) :
    memRead (fun i => memcpyAt m off xs (off + i)) n = xs := by
  subst hn
  unfold memRead
  apply List.ext_getElem
  · simp
  · intro i h1 h2
    simp only [List.getElem_map, List.getElem_range]
    unfold memcpyAt
    rw [if_pos (by omega), Nat.add_sub_cancel_left, List.getD_eq_getElem _ _ h2]

/-- The responses that `SimulateIso14443aTag` prepares have the lengths 2, 5,
5, 3, 3, 4 and 6. -/
theorem SimulateIso14443aTag_responses_n (crcA : List Nat → Nat × Nat)
    (tagType uid_1st uid_2nd : Nat) (htype : 1 ≤ tagType ∧ tagType ≤ 5) :
    ∃ r1 r2 r2a r3 r3a r5 r6,
      SimulateIso14443aTag_responses crcA tagType uid_1st uid_2nd
        = some [⟨r1, 2, 0, 0, 0⟩, ⟨r2, 5, 0, 0, 0⟩, ⟨r2a, 5, 0, 0, 0⟩, ⟨r3, 3, 0, 0, 0⟩,
            ⟨r3a, 3, 0, 0, 0⟩, ⟨r5, 4, 0, 0, 0⟩, ⟨r6, 6, 0, 0, 0⟩] := by
  obtain ⟨h1, h5⟩ := htype
  unfold SimulateIso14443aTag_responses
  interval_cases tagType <;> exact ⟨_, _, _, _, _, _, _, rfl⟩

/-- C40: for every known `tagType` and every UID, the start-up of
`SimulateIso14443aTag` prepares seven responses of 2, 5, 5, 3, 3, 4 and 6 bytes
(28 in total); each call of `prepare_allocated_tag_modulation` returns true and
stores `9 n + 3` modulation bytes for a response of `n` bytes (21, 48, 48, 30,
30, 39 and 57, which is 273 in total) at the offsets 0, 21, 69, 117, 147, 177
and 216 of the modulation buffer, each block directly after the one before;
afterwards `free_buffer_pointer` is at offset 273, every block still holds the
modulation of its response (no later block has overwritten it), and the memory
from offset 273 on is as before. -/
theorem modulation_arena_filled (crcA : List Nat → Nat × Nat) (par : Mem) (enc : EncSt)
    (mem : Mem) (tagType uid_1st uid_2nd : Nat) (htype : 1 ≤ tagType ∧ tagType ≤ 5) :
    ∃ st res rs,
      SimulateIso14443aTag_prepare crcA par enc mem tagType uid_1st uid_2nd = some (st, res)
      ∧ SimulateIso14443aTag_responses crcA tagType uid_1st uid_2nd = some rs
      ∧ res.map (fun x => x.2.response) = rs.map (fun r => r.response)
      ∧ res.map (fun x => x.1) = List.replicate TAG_RESPONSE_COUNT true
      ∧ res.map (fun x => x.2.response_n) = [2, 5, 5, 3, 3, 4, 6]
      ∧ (res.map (fun x => x.2.response_n)).sum = 28
      ∧ res.map (fun x => x.2.modulation_n) = res.map (fun x => 9 * x.2.response_n + 3)
      ∧ res.map (fun x => x.2.modulation_n) = [21, 48, 48, 30, 30, 39, 57]
      ∧ (res.map (fun x => x.2.modulation_n)).sum = ALLOCATED_TAG_MODULATION_BUFFER_SIZE
      ∧ res.map (fun x => x.2.modulation) = [0, 21, 69, 117, 147, 177, 216]
      ∧ st.free_buffer_pointer = ALLOCATED_TAG_MODULATION_BUFFER_SIZE
      ∧ res.map (fun x => memRead (fun i => st.mem (x.2.modulation + i)) x.2.modulation_n)
          = res.map (fun x => (CodeIso14443aAsTag enc par x.2.response x.2.response_n).ToSend)
      ∧ (∀ i, ALLOCATED_TAG_MODULATION_BUFFER_SIZE ≤ i → st.mem i = mem i) := by
  obtain ⟨r1, r2, r2a, r3, r3a, r5, r6, hrs⟩ :=
    SimulateIso14443aTag_responses_n crcA tagType uid_1st uid_2nd htype
  unfold SimulateIso14443aTag_prepare
  rw [hrs]
  simp only [Option.map_some', prepareResponses]
  rw [prepare_allocated_ok par _ ⟨r1, 2, 0, 0, 0⟩ (by norm_num)]
  dsimp only
  rw [prepare_allocated_ok par _ ⟨r2, 5, 0, 0, 0⟩ (by norm_num)]
  dsimp only
  rw [prepare_allocated_ok par _ ⟨r2a, 5, 0, 0, 0⟩ (by norm_num)]
  dsimp only
  rw [prepare_allocated_ok par _ ⟨r3, 3, 0, 0, 0⟩ (by norm_num)]
  dsimp only
  rw [prepare_allocated_ok par _ ⟨r3a, 3, 0, 0, 0⟩ (by norm_num)]
  dsimp only
  rw [prepare_allocated_ok par _ ⟨r5, 4, 0, 0, 0⟩ (by norm_num)]
  dsimp only
  rw [prepare_allocated_ok par _ ⟨r6, 6, 0, 0, 0⟩ (by norm_num)]
  dsimp only
  have l1 := (CodeIso14443aAsTag_ToSend Enc0 par r1 2).2
  have l2 := (CodeIso14443aAsTag_ToSend Enc0 par r2 5).2
  have l3 := (CodeIso14443aAsTag_ToSend Enc0 par r2a 5).2
  have l4 := (CodeIso14443aAsTag_ToSend Enc0 par r3 3).2
  have l5 := (CodeIso14443aAsTag_ToSend Enc0 par r3a 3).2
  have l6 := (CodeIso14443aAsTag_ToSend Enc0 par r5 4).2
  have l7 := (CodeIso14443aAsTag_ToSend Enc0 par r6 6).2
  refine ⟨_, _, _, rfl, rfl, rfl, rfl, rfl, rfl, rfl, rfl, rfl, rfl, rfl, ?_, ?_⟩
  · simp only [List.map]
    rw [memRead_memcpyAt_skip _ _ _ 0 _ (Or.inl (by norm_num)),
      memRead_memcpyAt_skip _ _ _ 0 _ (Or.inl (by norm_num)),
      memRead_memcpyAt_skip _ _ _ 0 _ (Or.inl (by norm_num)),
      memRead_memcpyAt_skip _ _ _ 0 _ (Or.inl (by norm_num)),
      memRead_memcpyAt_skip _ _ _ 0 _ (Or.inl (by norm_num)),
      memRead_memcpyAt_skip _ _ _ 0 _ (Or.inl (by norm_num)),
      memRead_memcpyAt_same _ 0 _ _ l1,
      memRead_memcpyAt_skip _ _ _ (0 + (9 * 2 + 3)) _ (Or.inl (by norm_num)),
      memRead_memcpyAt_skip _ _ _ (0 + (9 * 2 + 3)) _ (Or.inl (by norm_num)),
      memRead_memcpyAt_skip _ _ _ (0 + (9 * 2 + 3)) _ (Or.inl (by norm_num)),
      memRead_memcpyAt_skip _ _ _ (0 + (9 * 2 + 3)) _ (Or.inl (by norm_num)),
      memRead_memcpyAt_skip _ _ _ (0 + (9 * 2 + 3)) _ (Or.inl (by norm_num)),
      memRead_memcpyAt_same _ (0 + (9 * 2 + 3)) _ _ l2,
      memRead_memcpyAt_skip _ _ _ (0 + (9 * 2 + 3) + (9 * 5 + 3)) _ (Or.inl (by norm_num)),
      memRead_memcpyAt_skip _ _ _ (0 + (9 * 2 + 3) + (9 * 5 + 3)) _ (Or.inl (by norm_num)),
      memRead_memcpyAt_skip _ _ _ (0 + (9 * 2 + 3) + (9 * 5 + 3)) _ (Or.inl (by norm_num)),
      memRead_memcpyAt_skip _ _ _ (0 + (9 * 2 + 3) + (9 * 5 + 3)) _ (Or.inl (by norm_num)),
      memRead_memcpyAt_same _ (0 + (9 * 2 + 3) + (9 * 5 + 3)) _ _ l3,
      memRead_memcpyAt_skip _ _ _ (0 + (9 * 2 + 3) + (9 * 5 + 3) + (9 * 5 + 3)) _ (Or.inl (by norm_num)),
      memRead_memcpyAt_skip _ _ _ (0 + (9 * 2 + 3) + (9 * 5 + 3) + (9 * 5 + 3)) _ (Or.inl (by norm_num)),
      memRead_memcpyAt_skip _ _ _ (0 + (9 * 2 + 3) + (9 * 5 + 3) + (9 * 5 + 3)) _ (Or.inl (by norm_num)),
      memRead_memcpyAt_same _ (0 + (9 * 2 + 3) + (9 * 5 + 3) + (9 * 5 + 3)) _ _ l4,
      memRead_memcpyAt_skip _ _ _ (0 + (9 * 2 + 3) + (9 * 5 + 3) + (9 * 5 + 3) + (9 * 3 + 3)) _ (Or.inl (by norm_num)),
      memRead_memcpyAt_skip _ _ _ (0 + (9 * 2 + 3) + (9 * 5 + 3) + (9 * 5 + 3) + (9 * 3 + 3)) _ (Or.inl (by norm_num)),
      memRead_memcpyAt_same _ (0 + (9 * 2 + 3) + (9 * 5 + 3) + (9 * 5 + 3) + (9 * 3 + 3)) _ _ l5,
      memRead_memcpyAt_skip _ _ _ (0 + (9 * 2 + 3) + (9 * 5 + 3) + (9 * 5 + 3) + (9 * 3 + 3) + (9 * 3 + 3)) _ (Or.inl (by norm_num)),
      memRead_memcpyAt_same _ (0 + (9 * 2 + 3) + (9 * 5 + 3) + (9 * 5 + 3) + (9 * 3 + 3) + (9 * 3 + 3)) _ _ l6,
      memRead_memcpyAt_same _ (0 + (9 * 2 + 3) + (9 * 5 + 3) + (9 * 5 + 3) + (9 * 3 + 3) + (9 * 3 + 3) + (9 * 4 + 3)) _ _ l7,
      (CodeIso14443aAsTag_ToSend enc par r1 2).1,
      (CodeIso14443aAsTag_ToSend enc par r2 5).1,
      (CodeIso14443aAsTag_ToSend enc par r2a 5).1,
      (CodeIso14443aAsTag_ToSend enc par r3 3).1,
      (CodeIso14443aAsTag_ToSend enc par r3a 3).1,
      (CodeIso14443aAsTag_ToSend enc par r5 4).1,
      (CodeIso14443aAsTag_ToSend enc par r6 6).1]
  · intro i hi
    have hi2 : 273 ≤ i := hi
    dsimp only [memcpyAt]
    rw [if_neg (by omega), if_neg (by omega), if_neg (by omega), if_neg (by omega),
      if_neg (by omega), if_neg (by omega), if_neg (by omega)]

/-- An instance of C40: a MIFARE Classic tag (`tagType = 1`) with the 4-byte UID
`01 02 03 04`. -/
theorem modulation_arena_filled_witness :
    ∃ st res rs,
      SimulateIso14443aTag_prepare crcZero (fun _ => 0) Enc0 (fun _ => 0) 1 0x01020304 0 = some (st, res)
      ∧ SimulateIso14443aTag_responses crcZero 1 0x01020304 0 = some rs
      ∧ res.map (fun x => x.2.response) = rs.map (fun r => r.response)
      ∧ res.map (fun x => x.1) = List.replicate TAG_RESPONSE_COUNT true
      ∧ res.map (fun x => x.2.response_n) = [2, 5, 5, 3, 3, 4, 6]
      ∧ (res.map (fun x => x.2.response_n)).sum = 28
      ∧ res.map (fun x => x.2.modulation_n) = res.map (fun x => 9 * x.2.response_n + 3)
      ∧ res.map (fun x => x.2.modulation_n) = [21, 48, 48, 30, 30, 39, 57]
      ∧ (res.map (fun x => x.2.modulation_n)).sum = ALLOCATED_TAG_MODULATION_BUFFER_SIZE
      ∧ res.map (fun x => x.2.modulation) = [0, 21, 69, 117, 147, 177, 216]
      ∧ st.free_buffer_pointer = ALLOCATED_TAG_MODULATION_BUFFER_SIZE
      ∧ res.map (fun x => memRead (fun i => st.mem (x.2.modulation + i)) x.2.modulation_n)
          = res.map (fun x => (CodeIso14443aAsTag Enc0 (fun _ => 0) x.2.response x.2.response_n).ToSend)
      ∧ (∀ i, ALLOCATED_TAG_MODULATION_BUFFER_SIZE ≤ i → st.mem i = (fun _ => 0) i) :=
  modulation_arena_filled crcZero (fun _ => 0) Enc0 (fun _ => 0) 1 0x01020304 0 (by decide)

/-! ## The sniffer `SnoopIso14443a` -/

/-- The block of the sniffer for the tag writes every decoded tag frame to the
trace, whatever `triggered` and `param` are: when `ManchesterDecoding` returns
true and the trace has room, the trace grows by the record of the frame. -/
theorem snoopTag_logs (param : Nat) (room : List TraceCall → Nat → Bool) (clk : Nat)
    (receivedCmd receivedCmdPar : Mem) (st : SnoopState) (data : Nat)
    (hdec : (ManchesterDecoding st.Demod (((st.previous_data <<< 4) ||| (data &&& 0x0F)) % 256) 0
      (((st.rsamples - 1) * 4) % 2 ^ 32) clk).1 = true)
    (hroom : room st.trace (ManchesterDecoding st.Demod
      (((st.previous_data <<< 4) ||| (data &&& 0x0F)) % 256) 0
      (((st.rsamples - 1) * 4) % 2 ^ 32) clk).2.len = true) :
    ∃ c, c.readerToTag = false
      ∧ (snoopTag param room clk receivedCmd receivedCmdPar st data).trace = st.trace ++ [c]
      ∧ (param &&& 0x01 = 0 →
          (snoopTag param room clk receivedCmd receivedCmdPar st data).triggered = st.triggered) := by
  unfold snoopTag LogTrace
  dsimp only
  rw [if_pos hdec, if_pos hroom]
  simp only [not_true_eq_false, if_false]
  by_cases ht : ¬ st.triggered = true ∧ param &&& 0x01 ≠ 0
  · rw [if_pos ht]
    exact ⟨_, rfl, rfl, fun hp => absurd hp ht.2⟩
  · rw [if_neg ht]
    exact ⟨_, rfl, rfl, fun _ => rfl⟩

set_option maxRecDepth 1000000 in
/-- C34 fails for `param = 2` (trigger on the first 7-bit reader request) on
`snoopExchange`, a reader frame of two bytes followed by a tag answer: the
reader frame is not logged, since no 7-bit request has been seen, but the tag
answer `04 00` is written to the trace although `triggered` is still false at
the end.  With `param = 0` both frames are logged. -/
theorem tag_frame_logged_before_trigger :
    (snoopOn 2 snoopExchange).trace = [⟨[0x04, 0x00], 2, 3431, 5799, [0x40], false⟩]
    ∧ (snoopOn 2 snoopExchange).triggered = false
    ∧ (snoopOn 2 snoopExchange).stopped = false
    ∧ (snoopOn 0 snoopExchange).trace
        = [⟨[0x50, 0x00], 2, 371, 2771, [0xC0], true⟩,
           ⟨[0x04, 0x00], 2, 3431, 5799, [0x40], false⟩] := by
  refine ⟨by decide, by decide, by decide, by decide⟩

theorem snoopReader_inv (param : Nat) (room : List TraceCall → Nat → Bool) (clk : Nat)
    (st : SnoopState) (data : Nat) (htag : st.TagIsActive = false)
    (hdem : st.Demod.state = .DEMOD_UNSYNCD)
    (hrun : (snoopReader param room clk st data).stopped = false) :
    SnoopInv (snoopReader param room clk st data) := by
  unfold snoopReader at hrun ⊢
  unfold SnoopInv
  dsimp only at hrun ⊢
  split_ifs at hrun ⊢ <;> simp_all [UartReset, DemodReset]

theorem snoopTag_inv (param : Nat) (room : List TraceCall → Nat → Bool) (clk : Nat)
    (receivedCmd receivedCmdPar : Mem) (st : SnoopState) (data : Nat)
    (hrd : st.ReaderIsActive = false) (hu : st.Uart.state = .STATE_UNSYNCD)
    (hrun : (snoopTag param room clk receivedCmd receivedCmdPar st data).stopped = false) :
    SnoopInv (snoopTag param room clk receivedCmd receivedCmdPar st data) := by
  unfold snoopTag at hrun ⊢
  unfold SnoopInv
  dsimp only at hrun ⊢
  split_ifs at hrun ⊢ <;> simp_all [UartInit, UartReset, DemodReset]

theorem snoopRun_stopped (param : Nat) (room : List TraceCall → Nat → Bool) (clk : Nat)
    (receivedCmd receivedCmdPar : Mem) (samples : List Nat) (st : SnoopState)
    (h : st.stopped = true) : snoopRun param room clk receivedCmd receivedCmdPar st samples = st := by
  cases samples with
  | nil => rfl
  | cons d rest =>
    unfold snoopRun
    rw [if_pos h]

/-- The variables after the block for the reader in an iteration that
processes a pair of samples: the block runs when the tag is not marked
active. -/
theorem snoop_after_reader (param : Nat) (room : List TraceCall → Nat → Bool) (clk : Nat)
    (st : SnoopState) (data : Nat) (hinv : SnoopInv st) :
    (if ¬ st.TagIsActive then snoopReader param room clk st data else st)
        = (if st.Demod.state = .DEMOD_UNSYNCD then snoopReader param room clk st data else st)
      ∧ ((if st.Demod.state = .DEMOD_UNSYNCD then snoopReader param room clk st data else st).stopped
            = false →
          SnoopInv (if st.Demod.state = .DEMOD_UNSYNCD then snoopReader param room clk st data
            else st)) := by
  by_cases hd : st.Demod.state = .DEMOD_UNSYNCD
  · have ht : st.TagIsActive = false := by
      cases h : st.TagIsActive
      · rfl
      · exact absurd hd (hinv.1.mp h)
    rw [if_pos hd, if_pos (by rw [ht]; simp)]
    exact ⟨rfl, fun hrun => snoopReader_inv param room clk st data ht hd hrun⟩
  · have ht : st.TagIsActive = true := hinv.1.mpr hd
    rw [if_neg hd, if_neg (by rw [ht]; simp)]
    exact ⟨rfl, fun _ => hinv⟩

/-- One iteration of the main loop of the sniffer keeps the flags in agreement
with the decoders, unless it leaves the loop. -/
theorem SnoopIso14443a_step_inv (param : Nat) (room : List TraceCall → Nat → Bool) (clk : Nat)
    (receivedCmd receivedCmdPar : Mem) (st : SnoopState) (data : Nat) (hinv : SnoopInv st)
    (hrun : (SnoopIso14443a_step param room clk receivedCmd receivedCmdPar st data).1.stopped
      = false) :
    SnoopInv (SnoopIso14443a_step param room clk receivedCmd receivedCmdPar st data).1 := by
  have h1 := snoop_after_reader param room clk st data hinv
  unfold SnoopIso14443a_step at hrun ⊢
  by_cases hodd : st.rsamples &&& 0x01 ≠ 0
  · rw [if_pos hodd] at hrun ⊢
    dsimp only at hrun ⊢
    rw [h1.1] at hrun ⊢
    generalize (if st.Demod.state = .DEMOD_UNSYNCD then snoopReader param room clk st data
      else st) = s1 at h1 hrun ⊢
    by_cases hs1 : s1.stopped = true
    · rw [if_pos hs1] at hrun
      exact absurd hrun (by rw [hs1]; simp)
    · rw [if_neg hs1] at hrun ⊢
      have hs1f : s1.stopped = false := by
        cases h : s1.stopped
        · rfl
        · exact absurd h hs1
      have i1 := h1.2 hs1f
      have i2 : SnoopInv (if ¬ s1.ReaderIsActive then
          snoopTag param room clk receivedCmd receivedCmdPar s1 data else s1)
          ∨ (if ¬ s1.ReaderIsActive then
          snoopTag param room clk receivedCmd receivedCmdPar s1 data else s1).stopped = true := by
        by_cases hr : s1.ReaderIsActive = true
        · rw [if_neg (by rw [hr]; simp)]
          exact Or.inl i1
        · have hrf : s1.ReaderIsActive = false := by
            cases h : s1.ReaderIsActive
            · rfl
            · exact absurd h hr
          have hu : s1.Uart.state = .STATE_UNSYNCD := by
            by_contra hc
            exact hr (i1.2.mpr hc)
          rw [if_pos (by rw [hrf]; simp)]
          cases hst : (snoopTag param room clk receivedCmd receivedCmdPar s1 data).stopped
          · exact Or.inl (snoopTag_inv param room clk receivedCmd receivedCmdPar s1 data hrf hu hst)
          · exact Or.inr rfl
      generalize (if ¬ s1.ReaderIsActive then
          snoopTag param room clk receivedCmd receivedCmdPar s1 data else s1) = s2 at i2 hrun ⊢
      by_cases hs2 : s2.stopped = true
      · rw [if_pos hs2] at hrun
        exact absurd hrun (by rw [hs2]; simp)
      · rw [if_neg hs2]
        rcases i2 with i2 | i2
        · exact i2
        · exact absurd i2 hs2
  · rw [if_neg hodd]
    exact hinv

/-- The flags of the sniffer agree with the decoders as long as the main loop
runs. -/
theorem snoopRun_inv (param : Nat) (room : List TraceCall → Nat → Bool) (clk : Nat)
    (receivedCmd receivedCmdPar : Mem) :
    ∀ (samples : List Nat) (st : SnoopState), SnoopInv st →
      (snoopRun param room clk receivedCmd receivedCmdPar st samples).stopped = false →
      SnoopInv (snoopRun param room clk receivedCmd receivedCmdPar st samples)
  | [], _, hinv, _ => hinv
  | d :: rest, st, hinv, hrun => by
    unfold snoopRun at hrun ⊢
    by_cases hs : st.stopped = true
    · rw [if_pos hs]
      exact hinv
    · rw [if_neg hs] at hrun ⊢
      cases hst : (SnoopIso14443a_step param room clk receivedCmd receivedCmdPar st d).1.stopped
      · exact snoopRun_inv param room clk receivedCmd receivedCmdPar rest _
          (SnoopIso14443a_step_inv param room clk receivedCmd receivedCmdPar st d hinv hst) hrun
      · rw [snoopRun_stopped param room clk receivedCmd receivedCmdPar rest _ hst] at hrun
        rw [hst] at hrun
        exact absurd hrun (by simp)

set_option maxRecDepth 1000000 in
/-- C35, as stated, fails: after the first nine samples of `snoopExchange` the
reader is active (`Uart` has seen the start of communication) and the tag is
not (`Demod` is unsynced); in the iteration for the next sample
`MillerDecoding` is called all the same, and `ManchesterDecoding` is not. -/
theorem sniffer_arbitration_counterexample :
    snoopInReaderFrame.Uart.state = .STATE_START_OF_COMMUNICATION
    ∧ snoopInReaderFrame.ReaderIsActive = true
    ∧ snoopInReaderFrame.Demod.state = .DEMOD_UNSYNCD
    ∧ snoopInReaderFrame.TagIsActive = false
    ∧ snoopInReaderFrame.rsamples = 9
    ∧ (SnoopIso14443a_step 0 roomAlways 0 (fun _ => 0) (fun _ => 0) snoopInReaderFrame 0xF0).2
        = (true, false) := by
  refine ⟨by decide, by decide, by decide, by decide, by decide, by decide⟩

/-- C35, amended.  In every iteration of the main loop of `SnoopIso14443a`
(reached from the start over any samples, the loop not having been left),
`MillerDecoding` is called exactly when the iteration completes a pair of
samples and the tag is not active, and `ManchesterDecoding` is called exactly
when the iteration completes a pair of samples, the loop has not been left in
the block for the reader, and the reader is not active after that block; a side
is active when its own decoder is in a frame (state other than unsynced), and
the flags `TagIsActive` and `ReaderIsActive` say just that. -/
theorem sniffer_arbitration (param : Nat) (room : List TraceCall → Nat → Bool) (clk : Nat)
    (Uart : tUart) (Demod : tDemod)
    (receivedCmd receivedCmdPar receivedResponse receivedResponsePar : Mem)
    (samples : List Nat) (data : Nat) (st : SnoopState)
    (hst : st = SnoopIso14443a param room clk Uart Demod receivedCmd receivedCmdPar
      receivedResponse receivedResponsePar samples)
    (hrun : st.stopped = false) :
    ((SnoopIso14443a_step param room clk receivedCmd receivedCmdPar st data).2.1 = true
        ↔ st.rsamples % 2 = 1 ∧ st.Demod.state = .DEMOD_UNSYNCD)
    ∧ ((SnoopIso14443a_step param room clk receivedCmd receivedCmdPar st data).2.2 = true
        ↔ st.rsamples % 2 = 1
          ∧ (if st.Demod.state = .DEMOD_UNSYNCD then snoopReader param room clk st data
              else st).stopped = false
          ∧ (if st.Demod.state = .DEMOD_UNSYNCD then snoopReader param room clk st data
              else st).Uart.state = .STATE_UNSYNCD)
    ∧ (st.TagIsActive = true ↔ st.Demod.state ≠ .DEMOD_UNSYNCD)
    ∧ (st.ReaderIsActive = true ↔ st.Uart.state ≠ .STATE_UNSYNCD) := by
  have hinit : SnoopInv (SnoopIso14443a_init param Uart Demod receivedCmd receivedCmdPar
      receivedResponse receivedResponsePar) := by
    unfold SnoopInv SnoopIso14443a_init
    simp [UartInit, UartReset, DemodInit, DemodReset]
  have hinv : SnoopInv st := by
    rw [hst] at hrun ⊢
    exact snoopRun_inv param room clk receivedCmd receivedCmdPar samples _ hinit hrun
  have h1 := snoop_after_reader param room clk st data hinv
  have hmod : st.rsamples &&& 0x01 = st.rsamples % 2 := Nat.and_one_is_mod _
  refine ⟨?_, ?_, hinv.1, hinv.2⟩
  · unfold SnoopIso14443a_step
    by_cases hodd : st.rsamples % 2 = 1
    · rw [if_pos (by rw [hmod, hodd]; decide)]
      dsimp only
      have e : ∀ (a b : SnoopState × Bool × Bool) (c : Prop) [Decidable c] (x : Bool),
          a.2.1 = x → b.2.1 = x → (if c then a else b).2.1 = x := by
        intro a b c _ x ha hb
        split <;> assumption
      rw [e _ _ _ (!st.TagIsActive) rfl (e _ _ _ (!st.TagIsActive) rfl rfl)]
      constructor
      · intro h
        refine ⟨hodd, ?_⟩
        by_contra hc
        rw [hinv.1.mpr hc] at h
        exact absurd h (by decide)
      · intro h
        cases ht : st.TagIsActive
        · rfl
        · exact absurd h.2 (hinv.1.mp ht)
    · rw [if_neg (by rw [hmod]; omega)]
      constructor
      · intro h; exact absurd h (by simp)
      · intro h; exact absurd h.1 hodd
  · unfold SnoopIso14443a_step
    by_cases hodd : st.rsamples % 2 = 1
    · rw [if_pos (by rw [hmod, hodd]; decide)]
      dsimp only
      rw [h1.1]
      generalize (if st.Demod.state = .DEMOD_UNSYNCD then snoopReader param room clk st data
        else st) = s1 at h1 ⊢
      by_cases hs1 : s1.stopped = true
      · rw [if_pos hs1]
        constructor
        · intro h; exact absurd h (by simp)
        · intro h; rw [hs1] at h; exact absurd h.2.1 (by simp)
      · rw [if_neg hs1]
        have hs1f : s1.stopped = false := by
          cases h : s1.stopped
          · rfl
          · exact absurd h hs1
        have i1 := h1.2 hs1f
        have e : ∀ (a b : SnoopState × Bool × Bool) (c : Prop) [Decidable c] (x : Bool),
            a.2.2 = x → b.2.2 = x → (if c then a else b).2.2 = x := by
          intro a b c _ x ha hb
          split <;> assumption
        rw [e _ _ _ (!s1.ReaderIsActive) rfl rfl]
        constructor
        · intro h
          refine ⟨hodd, hs1f, ?_⟩
          by_contra hc
          rw [i1.2.mpr hc] at h
          exact absurd h (by decide)
        · intro h
          cases hr : s1.ReaderIsActive
          · rfl
          · exact absurd h.2.2 (i1.2.mp hr)
    · rw [if_neg (by rw [hmod]; omega)]
      constructor
      · intro h; exact absurd h (by simp)
      · intro h; exact absurd h.1 hodd

set_option maxRecDepth 1000000 in
/-- An instance of the amended C35 at `snoopInReaderFrame`: the tag is not
active, so `MillerDecoding` is called. -/
theorem sniffer_arbitration_witness :
    (SnoopIso14443a_step 0 roomAlways 0 (fun _ => 0) (fun _ => 0) snoopInReaderFrame 0xF0).2.1
        = true
    ∧ snoopInReaderFrame.rsamples % 2 = 1
    ∧ snoopInReaderFrame.Demod.state = .DEMOD_UNSYNCD :=
  have h := sniffer_arbitration 0 roomAlways 0 Uart0 Demod0 (fun _ => 0) (fun _ => 0)
    (fun _ => 0) (fun _ => 0) (snoopExchange.take 9) 0xF0 snoopInReaderFrame rfl (by decide)
  ⟨h.1.mpr ⟨by decide, by decide⟩, by decide, by decide⟩

end Iso14443a
